import Mathlib

/-!
Software renderer (`ref_soft/r_main.c`): visibility marking, the palette
pipeline, the frustum test of brush models, entity drawing and the frame;
savegame system (`xatrix/savegame/savegame.c`): the function and mmove
tables, the header check and the field types.

A shallow embedding of `SWR_MarkLeaves`, `Draw_BuildGammaTable`,
`R_GammaCorrectAndSetPalette`, `R_CalcPalette`, `R_BmodelCheckBBox`,
`SWR_DrawEntitiesOnList`, `SWR_RenderFrame`, `R_EdgeDrawing`,
`SWR_BeginFrame`, `R_InitGraphics`, `R_FindTopnode`, `RotatedBBox`,
`R_DrawBEntitiesOnList` and `R_DrawBeam`, and of `GetFunctionByAddress`,
`FindFunctionByName`, `GetMmoveByAddress`, `FindMmoveByName`, `ReadGame`,
`WriteField1` and `ReadField`, followed by the theorems about them.

Conventions of the embedding:
* pointers into the node array are `Option Nat` (an index, `none` for `NULL`);
* C `int` values are integers; the only arithmetic on them here is the
  increment of the frame counter, whose signed overflow is undefined in C, so
  the counter is modelled on `Int` without wrap-around;
* `float`/`double` values (`cvar_t.value`, the blend vector, the result of
  `pow`) are modelled by the rationals, with exact arithmetic; the conversion
  of a floating value to `int` is truncation toward zero; in `R_CalcPalette`,
  whose bytes depend on the last bit of its `float` arithmetic, the result of
  every floating operation is rounded by `toFloat`, a parameter;
* byte arrays are functions from the index to the byte value;
* a run that the C standard leaves undefined (a dangling parent pointer) or
  that exhausts the fuel of a loop model yields `none`;
* calls to functions of other modules are recorded in a log, in order; what
  such a function does to the state is a parameter of the model, so the
  theorems hold whatever the callees do.
-/

namespace RefSoft

/-! ## Data model of the world -/

/-- Interior node of the BSP tree: the fields `SWR_MarkLeaves` reads and
writes (`visframe`, `parent`). -/
structure mnode_t where
  visframe : Int
  parent : Option Nat
  deriving DecidableEq

/-- Leaf of the BSP tree; it shares the header of `mnode_t` (`visframe`,
`parent`) and carries the cluster id. -/
structure mleaf_t where
  cluster : Int
  visframe : Int
  parent : Option Nat
  deriving DecidableEq

/-- The world model: `vis` tells whether the `vis` pointer is non-NULL,
`leafs` and `nodes` are the two arrays (`numleafs`, `numnodes` are their
lengths). -/
structure model_t where
  vis : Bool
  leafs : List mleaf_t
  nodes : List mnode_t
  deriving DecidableEq

/-- The globals read and written by `SWR_MarkLeaves`. -/
structure State where
  r_visframecount : Int
  r_refsoft_viewcluster : Int
  r_refsoft_oldviewcluster : Int
  r_novis : ℚ
  sw_lockpvs : ℚ
  r_refsoft_worldmodel : model_t
  deriving DecidableEq

/-! ## SWR_MarkLeaves -/

/-- The PVS test `vis[cluster>>3] & (1<<(cluster&7))` on a row `vis`;
`cluster & 7` on a two's-complement `int` is the non-negative remainder
`cluster % 8`. -/
def pvsBit (vis : Int → Nat) (cluster : Int) : Bool :=
  decide (vis (cluster >>> (3 : Nat)) &&& (1 <<< (cluster % 8).toNat) ≠ 0)

/-- The `do ... while (node)` walk of `SWR_MarkLeaves` once it has moved from
the leaf into the node array: `node` is the current pointer, `count` is
`r_visframecount`. One unit of fuel is used per iteration. -/
def markParents (count : Int) : Nat → List mnode_t → Option Nat → Option (List mnode_t)
  | _, nodes, none => some nodes
  | 0, _, some _ => none
  | fuel + 1, nodes, some p =>
    match nodes[p]? with
    | none => none
    | some n =>
      if n.visframe = count then some nodes
      else markParents count fuel (nodes.set p { n with visframe := count }) n.parent

/-- Body of the leaf loop of `SWR_MarkLeaves` for leaf number `i`. The first
iteration of the `do ... while` acts on the leaf itself, the rest on its
ancestors. -/
def markLeaf (vis : Int → Nat) (count : Int) (w : model_t) (i : Nat) : Option model_t :=
  match w.leafs[i]? with
  | none => none
  | some leaf =>
    if leaf.cluster = -1 then some w
    else if pvsBit vis leaf.cluster then
      if leaf.visframe = count then some w
      else
        (markParents count (w.nodes.length + 1) w.nodes leaf.parent).map fun nodes =>
          { w with leafs := w.leafs.set i { leaf with visframe := count }, nodes := nodes }
    else some w

/-- The loop `for (i=0 ; i<numleafs ; i++)` over the leaves. -/
def markLeafLoop (vis : Int → Nat) (count : Int) : List Nat → model_t → Option model_t
  | [], w => some w
  | i :: rest, w =>
    match markLeaf vis count w i with
    | none => none
    | some w1 => markLeafLoop vis count rest w1

/-- The "mark everything" branch: both loops of lines 489-492. -/
def markEverything (count : Int) (w : model_t) : model_t :=
  { w with
    leafs := w.leafs.map fun l => { l with visframe := count },
    nodes := w.nodes.map fun n => { n with visframe := count } }

/-- The function `SWR_MarkLeaves`. The parameter `SWR_Mod_ClusterPVS` is the
row lookup of the model loader (`r_model.c`): it maps the view cluster and the
model to the decompressed PVS row. -/
def SWR_MarkLeaves (SWR_Mod_ClusterPVS : Int → model_t → Int → Nat) (s : State) :
    Option State :=
  if s.r_refsoft_oldviewcluster = s.r_refsoft_viewcluster ∧ s.r_novis = 0
      ∧ s.r_refsoft_viewcluster ≠ -1 then some s
  else if s.sw_lockpvs ≠ 0 then some s
  else
    let count := s.r_visframecount + 1
    let w := s.r_refsoft_worldmodel
    if s.r_novis ≠ 0 ∨ s.r_refsoft_viewcluster = -1 ∨ w.vis = false then
      some { s with
        r_visframecount := count
        r_refsoft_oldviewcluster := s.r_refsoft_viewcluster
        r_refsoft_worldmodel := markEverything count w }
    else
      (markLeafLoop (SWR_Mod_ClusterPVS s.r_refsoft_viewcluster w) count
          (List.range w.leafs.length) w).map fun w1 =>
        { s with
          r_visframecount := count
          r_refsoft_oldviewcluster := s.r_refsoft_viewcluster
          r_refsoft_worldmodel := w1 }

/-! ### Vocabulary of the visibility theorems -/

/-- Cluster `c` is marked visible in the row `vis`: it is not `-1` and its
bit is set. -/
def Visible (vis : Int → Nat) (c : Int) : Prop :=
  c ≠ -1 ∧ pvsBit vis c = true

instance (vis : Int → Nat) (c : Int) : Decidable (Visible vis c) := by
  unfold Visible; infer_instance

/-- Every parent pointer of the model is `NULL` or points into the node
array. -/
def ValidParents (w : model_t) : Prop :=
  (∀ (i : Nat) (l : mleaf_t) (p : Nat), w.leafs[i]? = some l → l.parent = some p → p < w.nodes.length) ∧
  (∀ (j : Nat) (n : mnode_t) (p : Nat), w.nodes[j]? = some n → n.parent = some p → p < w.nodes.length)

/-- No leaf or node stamp exceeds `c`. -/
def StampsLE (w : model_t) (c : Int) : Prop :=
  (∀ (i : Nat) (l : mleaf_t), w.leafs[i]? = some l → l.visframe ≤ c) ∧
  (∀ (j : Nat) (n : mnode_t), w.nodes[j]? = some n → n.visframe ≤ c)

/-- The relation `OnChain nodes ptr q`: node `q` lies on the parent chain that starts at
the pointer `ptr` (so the ancestors of a leaf `l` are the `q` with
`OnChain nodes l.parent q`; the chain ends at the root, whose parent is
`NULL`). -/
inductive OnChain (nodes : List mnode_t) : Option Nat → Nat → Prop
  | here (p : Nat) (n : mnode_t) : nodes[p]? = some n → OnChain nodes (some p) p
  | up (p : Nat) (n : mnode_t) (q : Nat) :
      nodes[p]? = some n → OnChain nodes n.parent q → OnChain nodes (some p) q

/-- Node `q` exists and carries the stamp `c`. -/
def stampedAt (c : Int) (nodes : List mnode_t) (q : Nat) : Prop :=
  ∃ n, nodes[q]? = some n ∧ n.visframe = c

/-- Two node arrays have the same length and the same parent links. -/
def SameParents (nodes nodes1 : List mnode_t) : Prop :=
  ∀ p : Nat, (nodes1[p]?).map (fun n => n.parent) = (nodes[p]?).map (fun n => n.parent)

/-- Every node stamped `c` has its parent stamped `c`. -/
def Closed (c : Int) (nodes : List mnode_t) : Prop :=
  ∀ (p : Nat) (n : mnode_t) (q : Nat),
    nodes[p]? = some n → n.visframe = c → n.parent = some q → stampedAt c nodes q

/-- Every node stamped `c` has its parent stamped `c`, except that the node
under the pointer `ptr` may still be waiting for its stamp. -/
def ClosedExcept (c : Int) (nodes : List mnode_t) (ptr : Option Nat) : Prop :=
  ∀ (p : Nat) (n : mnode_t) (q : Nat),
    nodes[p]? = some n → n.visframe = c → n.parent = some q →
    ptr = some q ∨ stampedAt c nodes q

/-- Number of nodes not stamped `c`: the measure that bounds the walk. -/
def unstamped (c : Int) (nodes : List mnode_t) : Nat :=
  nodes.countP fun n => decide (n.visframe ≠ c)

/-- Two leaf arrays have the same length, clusters and parent links. -/
def SameLeafShape (leafs leafs1 : List mleaf_t) : Prop :=
  ∀ i : Nat, (leafs1[i]?).map (fun l => (l.cluster, l.parent))
    = (leafs[i]?).map (fun l => (l.cluster, l.parent))

/-- Invariant of the leaf loop of `SWR_MarkLeaves`, relating the model `w`
reached so far to the model `w0` at loop entry, for the row `vis` and the
frame stamp `c`. -/
structure MarkInv (vis : Int → Nat) (c : Int) (w0 w : model_t) : Prop where
  leafShape : SameLeafShape w0.leafs w.leafs
  nodeShape : SameParents w0.nodes w.nodes
  closed : Closed c w.nodes
  leafClosed : ∀ (i : Nat) (l : mleaf_t) (q : Nat),
    w.leafs[i]? = some l → l.visframe = c → l.parent = some q → stampedAt c w.nodes q
  leafOnly : ∀ (i : Nat) (l : mleaf_t),
    w.leafs[i]? = some l → l.visframe = c → Visible vis l.cluster
  nodeOnly : ∀ q : Nat, stampedAt c w.nodes q →
    ∃ (i : Nat) (l : mleaf_t),
      w0.leafs[i]? = some l ∧ Visible vis l.cluster ∧ OnChain w0.nodes l.parent q
  visEq : w.vis = w0.vis
  bound : StampsLE w c

/-- Executable form of `ValidParents`. -/
def validParentsCheck (w : model_t) : Bool :=
  (w.leafs.all fun l =>
    match l.parent with
    | none => true
    | some p => decide (p < w.nodes.length)) &&
  (w.nodes.all fun n =>
    match n.parent with
    | none => true
    | some p => decide (p < w.nodes.length))

/-- Executable form of `StampsLE`. -/
def stampsLECheck (w : model_t) (c : Int) : Bool :=
  (w.leafs.all fun l => decide (l.visframe ≤ c)) &&
  (w.nodes.all fun n => decide (n.visframe ≤ c))

/-! ### Sample inputs -/

/-- A PVS in which the row of cluster 3 is {3,5,9} and the row of cluster 7
is {7,8} (bytes 0 and 1 of each row; every other byte is zero). -/
def examplePVS : Int → model_t → Int → Nat :=
  fun cl _ k =>
    if cl = 3 then (if k = 0 then 40 else if k = 1 then 2 else 0)
    else if cl = 7 then (if k = 0 then 128 else if k = 1 then 1 else 0)
    else 0

/-- A small world: root 0 with children 1 and 2, node 3 below node 2, and six
leaves in clusters 3, 5, 9, 7, 8 and -1; nothing is stamped yet. -/
def exampleWorld : model_t :=
  { vis := true
    leafs := [⟨3, 0, some 1⟩, ⟨5, 0, some 1⟩, ⟨9, 0, some 2⟩, ⟨7, 0, some 3⟩, ⟨8, 0, some 3⟩,
      ⟨-1, 0, some 2⟩]
    nodes := [⟨0, none⟩, ⟨0, some 0⟩, ⟨0, some 0⟩, ⟨0, some 2⟩] }

/-- The camera has just entered cluster 3 of `exampleWorld`. -/
def exampleState : State :=
  { r_visframecount := 0
    r_refsoft_viewcluster := 3
    r_refsoft_oldviewcluster := -1
    r_novis := 0
    sw_lockpvs := 0
    r_refsoft_worldmodel := exampleWorld }

/-- The camera is outside the world (cluster -1) and was so on the previous
frame; culling is on and the lock is off. -/
def voidState : State :=
  { r_visframecount := 0
    r_refsoft_viewcluster := -1
    r_refsoft_oldviewcluster := -1
    r_novis := 0
    sw_lockpvs := 0
    r_refsoft_worldmodel := exampleWorld }

/-- Both `r_novis` and `sw_lockpvs` are switched on; the counter is at 5
while every stamp of `exampleWorld` is 0. -/
def lockedNovisState : State :=
  { r_visframecount := 5
    r_refsoft_viewcluster := 3
    r_refsoft_oldviewcluster := 3
    r_novis := 1
    sw_lockpvs := 1
    r_refsoft_worldmodel := exampleWorld }

/-- As `lockedNovisState`, with the lock off. -/
def novisState : State :=
  { r_visframecount := 5
    r_refsoft_viewcluster := 3
    r_refsoft_oldviewcluster := 3
    r_novis := 1
    sw_lockpvs := 0
    r_refsoft_worldmodel := exampleWorld }

/-- The camera stays in cluster 3 (`exampleState` one frame later). -/
def sameClusterState : State :=
  { r_visframecount := 1
    r_refsoft_viewcluster := 3
    r_refsoft_oldviewcluster := 3
    r_novis := 0
    sw_lockpvs := 0
    r_refsoft_worldmodel := exampleWorld }

/-! ## Gamma table and palette -/

/-- A counted loop `for (i=0 ; i<n ; i++) body`, as a left fold over
`0, 1, ..., n-1`. -/
def forLoop {σ : Type} (n : Nat) (body : Nat → σ → σ) (s : σ) : σ :=
  (List.range n).foldl (fun acc i => body i acc) s

/-- Conversion of a floating value to `int`: truncation toward zero. -/
def truncToInt (q : ℚ) : Int :=
  if 0 ≤ q then ⌊q⌋ else ⌈q⌉

/-- Storing an `int` into a `byte` (`unsigned char`): reduction modulo 256. -/
def toByte (v : Int) : Nat :=
  (v % 256).toNat

/-- Assignment `a[i] = v` on a byte array. -/
def setByte (a : Nat → Nat) (i : Nat) (v : Nat) : Nat → Nat :=
  fun k => if k = i then v else a k

/-- The part of `sw_state` used by the palette pipeline: `gammatable[256]`
and `currentpalette[1024]`. -/
structure swstate_t where
  gammatable : Nat → Nat
  currentpalette : Nat → Nat

/-- State of the palette pipeline: `sw_state`, the function-static flag
`modified` of `R_CalcPalette`, and the log of the calls of the external
`SWimp_SetPalette` (each entry is the content of the array passed). -/
structure PaletteState where
  sw_state : swstate_t
  modified : Bool
  setPaletteCalls : List (Nat → Nat)

/-- The value computed for entry `i` in the second loop of
`Draw_BuildGammaTable`: `inf = 255 * pow((i+0.5)/255.5, g) + 0.5`, clamped
by the two `if`s. The library function `pow` is a parameter. -/
def gammaEntry (pow : ℚ → ℚ → ℚ) (g : ℚ) (i : Nat) : Int :=
  let inf : Int := truncToInt (255 * pow (((i : ℚ) + 0.5) / 255.5) g + 0.5)
  let inf : Int := if inf < 0 then 0 else inf
  let inf : Int := if inf > 255 then 255 else inf
  inf

/-- The function `Draw_BuildGammaTable`, with `g = vid_gamma->value`. -/
def Draw_BuildGammaTable (pow : ℚ → ℚ → ℚ) (vid_gamma : ℚ) (sw_state : swstate_t) :
    swstate_t :=
  let g := vid_gamma
  if g = 1.0 then
    forLoop 256 (fun i st => { st with gammatable := setByte st.gammatable i (toByte i) })
      sw_state
  else
    forLoop 256
      (fun i st => { st with gammatable := setByte st.gammatable i (toByte (gammaEntry pow g i)) })
      sw_state

/-- Body of the loop of `R_GammaCorrectAndSetPalette` for entry `i`. -/
def gammaCorrectEntry (palette : Nat → Nat) (i : Nat) (st : swstate_t) : swstate_t :=
  let st := { st with
    currentpalette := setByte st.currentpalette (i*4+0) (st.gammatable (palette (i*4+0))) }
  let st := { st with
    currentpalette := setByte st.currentpalette (i*4+1) (st.gammatable (palette (i*4+1))) }
  let st := { st with
    currentpalette := setByte st.currentpalette (i*4+2) (st.gammatable (palette (i*4+2))) }
  st

/-- The function `R_GammaCorrectAndSetPalette`: the loop over the 256 entries, then the
call `SWimp_SetPalette( sw_state.currentpalette )`, recorded in the log. -/
def R_GammaCorrectAndSetPalette (palette : Nat → Nat) (s : PaletteState) : PaletteState :=
  let st := forLoop 256 (gammaCorrectEntry palette) s.sw_state
  { s with sw_state := st, setPaletteCalls := s.setPaletteCalls ++ [st.currentpalette] }

/-- Body of the outer loop of `R_CalcPalette` for entry `i`: the three blended
channels and the constant fourth byte, written to the local `palette`. The
product `one_minus_alpha * in[j]` and the sum are `float` operations: each
result is rounded by `toFloat`; the conversion of the byte `in[j]` to `float`
is exact. -/
def blendEntry (toFloat : ℚ → ℚ) (premult : Nat → ℚ) (one_minus_alpha : ℚ) (src : Nat → Nat)
    (i : Nat) (out : Nat → Nat) : Nat → Nat :=
  let out := forLoop 3
    (fun j out =>
      let v : Int :=
        truncToInt (toFloat (premult j + toFloat (one_minus_alpha * (src (i*4+j) : ℚ))))
      let v : Int := if v > 255 then 255 else v
      setByte out (i*4+j) (toByte v))
    out
  setByte out (i*4+3) 255

/-- The function `R_CalcPalette`, with `blend = r_refsoft_newrefdef.blend` (four floats)
and the source palette `d_refsoft_8to24table` seen as 1024 bytes. The local
array `palette` starts out as zeros; the loop overwrites all of it. The
variables `alpha`, `one_minus_alpha` and `premult` are `float`s: `toFloat`
gives the `float` that a floating operation yields for the exact result
(the rounding of the machine); it is applied after each of the two products
of `blend[j]*alpha*255` and after the difference `1.0 - alpha`, which the
code takes in `double` and stores in a `float`. The comparisons of `alpha`
and the assignment `alpha = 1` are exact. -/
def R_CalcPalette (toFloat : ℚ → ℚ) (blend : Nat → ℚ) (d_refsoft_8to24table : Nat → Nat)
    (s : PaletteState) : PaletteState :=
  let alpha := blend 3
  if alpha ≤ 0 then
    if s.modified then
      R_GammaCorrectAndSetPalette d_refsoft_8to24table { s with modified := false }
    else s
  else
    let s := { s with modified := true }
    let alpha := if alpha > 1 then 1 else alpha
    let premult : Nat → ℚ := fun j => toFloat (toFloat (blend j * alpha) * 255)
    let one_minus_alpha := toFloat (1.0 - alpha)
    let palette :=
      forLoop 256 (blendEntry toFloat premult one_minus_alpha d_refsoft_8to24table)
        (fun _ => 0)
    R_GammaCorrectAndSetPalette palette s

/-- The clamp of the spec's formula, `clamp(x, lo, hi)`. -/
def clamp (x lo hi : ℚ) : ℚ :=
  max lo (min x hi)

/-- Entry `i` of the gamma table in the words of the spec:
`clamp(255 * ((i+0.5)/255.5)^gamma + 0.5, 0, 255)` converted to an integer. -/
def specGammaEntry (pow : ℚ → ℚ → ℚ) (gamma : ℚ) (i : Nat) : Int :=
  truncToInt (clamp (255 * pow (((i : ℚ) + 0.5) / 255.5) gamma + 0.5) 0 255)

/-- A stand-in for the library `pow`, exact for the exponents 1 and 2. -/
def examplePow : ℚ → ℚ → ℚ :=
  fun x y => if y = 2 then x * x else x

/-- A `sw_state` whose gamma table and palette are all zero. -/
def exampleSwState : swstate_t :=
  { gammatable := fun _ => 0, currentpalette := fun _ => 0 }

/-- A `sw_state` whose gamma table is all 255. -/
def otherSwState : swstate_t :=
  { gammatable := fun _ => 255, currentpalette := fun _ => 7 }

/-- A source palette (1024 bytes) whose entry `i` is the grey level `i`. -/
def examplePalette : Nat → Nat :=
  fun k => if k % 4 = 3 then 0 else k / 4

/-- A pipeline state with a gamma table that brightens by one step (saturating
at 255), a black displayed palette, no pending blend and no call made. -/
def examplePaletteState : PaletteState :=
  { sw_state := { gammatable := fun b => min (b + 1) 255, currentpalette := fun _ => 0 }
    modified := false
    setPaletteCalls := [] }

/-- A half-strength red screen flash: `blend = (1, 0, 0, 0.5)`. -/
def exampleBlend : Nat → ℚ :=
  fun j => if j = 0 then 1 else if j = 3 then 0.5 else 0

/-- No screen flash: `blend = (0, 0, 0, 0)`. -/
def noBlend : Nat → ℚ :=
  fun _ => 0

/-! ### Sequences of palette updates -/

/-- A run of frames: `R_CalcPalette` is called once per blend vector of the
list, in order, starting from state `s`. -/
def runCalcPalette (toFloat : ℚ → ℚ) (d_refsoft_8to24table : Nat → Nat) :
    List (Nat → ℚ) → PaletteState → PaletteState
  | [], s => s
  | blend :: rest, s =>
    runCalcPalette toFloat d_refsoft_8to24table rest
      (R_CalcPalette toFloat blend d_refsoft_8to24table s)

/-- The list of earlier calls is not empty and its last call had alpha > 0. -/
def PrecedingBlend (pre : List (Nat → ℚ)) : Prop :=
  ∃ last, pre.getLast? = some last ∧ 0 < last 3

/-- The local array `palette` of `R_CalcPalette` at the end of its loop, on
the path with alpha > 0: the value handed to `R_GammaCorrectAndSetPalette`. -/
def blendedPalette (toFloat : ℚ → ℚ) (blend : Nat → ℚ) (d_refsoft_8to24table : Nat → Nat) :
    Nat → Nat :=
  let alpha := blend 3
  let alpha := if alpha > 1 then 1 else alpha
  let premult : Nat → ℚ := fun j => toFloat (toFloat (blend j * alpha) * 255)
  let one_minus_alpha := toFloat (1.0 - alpha)
  forLoop 256 (blendEntry toFloat premult one_minus_alpha d_refsoft_8to24table) (fun _ => 0)

/-- The blended channel in the words of the spec: with `a = min(alpha, 1)`,
`min(255, trunc(blend[j]*a*255 + (1-a)*source))`, over the rationals. -/
def specBlendChannel (blend : Nat → ℚ) (source : Nat) (j : Nat) : Int :=
  min 255 (truncToInt (blend j * min (blend 3) 1 * 255 + (1 - min (blend 3) 1) * (source : ℚ)))

/-- The formula of the spec with the result of each product, of the sum and
of the difference rounded by `toFloat`, in the order of the code:
`min(255, trunc(blend[j]*a*255 + (1-a)*source))` with `a = min(alpha, 1)`. -/
def roundedBlendChannel (toFloat : ℚ → ℚ) (blend : Nat → ℚ) (source : Nat) (j : Nat) : Int :=
  min 255 (truncToInt (toFloat (toFloat (toFloat (blend j * min (blend 3) 1) * 255) +
    toFloat (toFloat (1 - min (blend 3) 1) * (source : ℚ)))))

/-- What the statements about the blend ask of the rounding of floating
results: zero is not changed, the result of rounding a number that is not
negative is not negative, and a rounded number is not changed by rounding it
again. The rounding modes of IEEE 754 have these properties. -/
def IsRounding (toFloat : ℚ → ℚ) : Prop :=
  toFloat 0 = 0 ∧ (∀ x, 0 ≤ x → 0 ≤ toFloat x) ∧ ∀ x, toFloat (toFloat x) = toFloat x

/-- Rounding of a rational to the nearest integer, ties to the even one. -/
def roundHalfEven (x : ℚ) : Int :=
  let f : Int := ⌊x⌋
  if x - f < 1 / 2 then f
  else if 1 / 2 < x - f then f + 1
  else if f % 2 = 0 then f else f + 1

/-- A sample rounding: the single-precision number of IEEE 754 nearest to a
rational, ties to even, that is a significand of 24 bits times a power of
two; the exponent is not bounded (no overflow, no subnormal numbers). -/
def float32 (x : ℚ) : ℚ :=
  if x = 0 then 0
  else
    let e : Int := Int.log 2 |x| - 23
    (roundHalfEven (x / 2 ^ e) : ℚ) * 2 ^ e

/-- A full-strength tint with a negative red component: `blend = (-1, 0, 0, 1)`. -/
def negativeBlend : Nat → ℚ :=
  fun j => if j = 0 then -1 else if j = 3 then 1 else 0

/-- A saturated flash: `blend = (1, 0.5, 0, 2)`, alpha above 1. -/
def strongBlend : Nat → ℚ :=
  fun j => if j = 0 then 1 else if j = 1 then 0.5 else if j = 3 then 2 else 0

/-- The flash `strongBlend` with alpha exactly 1: `blend = (1, 0.5, 0, 1)`. -/
def unitBlend : Nat → ℚ :=
  fun j => if j = 0 then 1 else if j = 1 then 0.5 else if j = 3 then 1 else 0

/-- A faint red tint given in single precision: `blend = (0.1f, 0, 0, 0.4f)`,
that is red `13421773 / 2^27` and alpha `13421773 / 2^25`. -/
def floatBlend : Nat → ℚ :=
  fun j => if j = 0 then 13421773 / 134217728 else if j = 3 then 13421773 / 33554432 else 0

/-! ## Brush-model bounding boxes against the frustum -/

/-- Modelled from the spec: the macro `DotProduct` of `q_shared.h` (not among
the sources), the dot product of two 3-vectors. -/
def DotProduct (x y : Nat → ℚ) : ℚ :=
  x 0 * y 0 + x 1 * y 1 + x 2 * y 2

/-- Modelled from the spec: the constant `BMODEL_FULLY_CLIPPED` of `r_local.h`
(not among the sources), a value outside the 4-bit clip masks `0..15`; it is
`0x10` there. -/
def BMODEL_FULLY_CLIPPED : Nat := 0x10

/-- A frustum plane of `view_clipplanes`: the fields `normal` and `dist`. -/
structure clipplane_t where
  normal : Nat → ℚ
  dist : ℚ

/-- The reject point `rejectpt` of plane `i`: `minmaxs[pindex[0..2]]` with
`pindex = pfrustum_indexes[i]`. -/
def rejectPoint (pfrustum_indexes : Nat → Nat → Nat) (minmaxs : Nat → ℚ) (i : Nat) : Nat → ℚ :=
  fun k => minmaxs (pfrustum_indexes i k)

/-- The accept point `acceptpt` of plane `i`: `minmaxs[pindex[3+0..3+2]]`. -/
def acceptPoint (pfrustum_indexes : Nat → Nat → Nat) (minmaxs : Nat → ℚ) (i : Nat) : Nat → ℚ :=
  fun k => minmaxs (pfrustum_indexes i (3 + k))

/-- The loop body of `R_BmodelCheckBBox` run over the plane numbers of the
list, with the clip flags accumulated so far; the early `return` ends the
loop. -/
def bboxPlanes (pfrustum_indexes : Nat → Nat → Nat) (view_clipplanes : Nat → clipplane_t)
    (minmaxs : Nat → ℚ) : List Nat → Nat → Nat
  | [], clipflags => clipflags
  | i :: rest, clipflags =>
    let rejectpt := rejectPoint pfrustum_indexes minmaxs i
    let d := DotProduct rejectpt (view_clipplanes i).normal
    let d := d - (view_clipplanes i).dist
    if d ≤ 0 then BMODEL_FULLY_CLIPPED
    else
      let acceptpt := acceptPoint pfrustum_indexes minmaxs i
      let d := DotProduct acceptpt (view_clipplanes i).normal
      let d := d - (view_clipplanes i).dist
      let clipflags := if d ≤ 0 then clipflags ||| (1 <<< i) else clipflags
      bboxPlanes pfrustum_indexes view_clipplanes minmaxs rest clipflags

/-- The function `R_BmodelCheckBBox`: `clipflags = 0`, then the loop over the
four planes. The tables `pfrustum_indexes` and `view_clipplanes` are set up
outside `r_main.c` and are parameters. -/
def R_BmodelCheckBBox (pfrustum_indexes : Nat → Nat → Nat)
    (view_clipplanes : Nat → clipplane_t) (minmaxs : Nat → ℚ) : Nat :=
  bboxPlanes pfrustum_indexes view_clipplanes minmaxs [0, 1, 2, 3] 0

/-- Signed distance of a point to a plane: `dot(pt, normal) - dist`. -/
def signedDist (p : clipplane_t) (pt : Nat → ℚ) : ℚ :=
  DotProduct pt p.normal - p.dist

/-- A corner of the box `minmaxs` (`mins` at 0..2, `maxs` at 3..5): on axis
`k` the corner takes the maximum when `hi k` and the minimum otherwise. The
eight corners are the eight choices of `hi` on the axes 0, 1, 2. -/
def boxCorner (minmaxs : Nat → ℚ) (hi : Nat → Bool) : Nat → ℚ :=
  fun k => if hi k then minmaxs (3 + k) else minmaxs k

/-- The reject point of plane `i` is the box corner with the greatest signed
distance to plane `i`. -/
def RejectIsFarthest (pfrustum_indexes : Nat → Nat → Nat) (view_clipplanes : Nat → clipplane_t)
    (minmaxs : Nat → ℚ) (i : Nat) : Prop :=
  (∃ hi : Nat → Bool, ∀ k, k < 3 →
    rejectPoint pfrustum_indexes minmaxs i k = boxCorner minmaxs hi k) ∧
  ∀ hi : Nat → Bool, signedDist (view_clipplanes i) (boxCorner minmaxs hi) ≤
    signedDist (view_clipplanes i) (rejectPoint pfrustum_indexes minmaxs i)

/-- The accept point of plane `i` is the box corner with the least signed
distance to plane `i`. -/
def AcceptIsNearest (pfrustum_indexes : Nat → Nat → Nat) (view_clipplanes : Nat → clipplane_t)
    (minmaxs : Nat → ℚ) (i : Nat) : Prop :=
  (∃ hi : Nat → Bool, ∀ k, k < 3 →
    acceptPoint pfrustum_indexes minmaxs i k = boxCorner minmaxs hi k) ∧
  ∀ hi : Nat → Bool, signedDist (view_clipplanes i) (acceptPoint pfrustum_indexes minmaxs i) ≤
    signedDist (view_clipplanes i) (boxCorner minmaxs hi)

/-- A table of the kind the frustum set-up builds for given planes: on each
axis the reject point takes the maximum of the box when the normal component
is not negative and the minimum otherwise, and the accept point the
opposite. -/
def signFrustumIndexes (view_clipplanes : Nat → clipplane_t) : Nat → Nat → Nat :=
  fun i j =>
    if j < 3 then (if (view_clipplanes i).normal j < 0 then j else j + 3)
    else (if (view_clipplanes i).normal (j - 3) < 0 then j else j - 3)

/-- Four side planes through the origin for a view along +x:
`x + y >= 0`, `x - y >= 0`, `x - z >= 0`, `x + z >= 0`. -/
def exampleClipplanes : Nat → clipplane_t :=
  fun i =>
    if i = 0 then ⟨fun k => if k = 0 then 1 else if k = 1 then 1 else 0, 0⟩
    else if i = 1 then ⟨fun k => if k = 0 then 1 else if k = 1 then -1 else 0, 0⟩
    else if i = 2 then ⟨fun k => if k = 0 then 1 else if k = 2 then -1 else 0, 0⟩
    else ⟨fun k => if k = 0 then 1 else if k = 2 then 1 else 0, 0⟩

/-- A box high above the view axis, entirely behind plane 2:
mins (1, -1, 5), maxs (2, 1, 6). -/
def boxBehindPlane2 : Nat → ℚ :=
  fun j => if j = 0 then 1 else if j = 1 then -1 else if j = 2 then 5
    else if j = 3 then 2 else if j = 4 then 1 else 6

/-- A box that straddles plane 0 and lies in front of the other three:
mins (1, -2, -0.5), maxs (2, -1, 0.5). -/
def boxAcrossPlane0 : Nat → ℚ :=
  fun j => if j = 0 then 1 else if j = 1 then -2 else if j = 2 then -0.5
    else if j = 3 then 2 else if j = 4 then -1 else 0.5

/-! ## Entities and calls to other modules -/

/-- Modelled from the spec: the enumeration `modtype_t` of `r_model.h` (not
among the sources). The code names `mod_brush`, `mod_sprite` and `mod_alias`;
every other value takes the `default` branches. -/
inductive modtype_t
  | mod_bad
  | mod_brush
  | mod_sprite
  | mod_alias
  deriving DecidableEq

/-- The fields of `model_t` that are read through `refsoft_currentmodel` and
`refsoft_currententity->model`. -/
structure entmodel_t where
  type : modtype_t
  nummodelsurfaces : Int
  mins : Nat → ℚ
  maxs : Nat → ℚ

/-- An entity of the frame's list (`entity_t`): `model` is `none` for a NULL
pointer; vectors are functions of the axis. -/
structure entity_t where
  model : Option entmodel_t
  angles : Nat → ℚ
  origin : Nat → ℚ
  oldorigin : Nat → ℚ
  frame : Int
  skinnum : Int
  alpha : ℚ
  flags : Nat

/-- A call of a function `c` whose effect on the global state is given by
`run`: the state moves on and the call is logged together with the state in
which it was made. -/
def callExt {C S : Type} (run : C → S → S) (c : C) (p : S × List (C × S)) : S × List (C × S) :=
  (run c p.1, p.2 ++ [(c, p.1)])

/-- The draw calls issued by `SWR_DrawEntitiesOnList`; `R_DrawBeam` receives
the entity (its index in the list), the others read the globals. -/
inductive DrawCall
  | R_DrawBeam (e : Nat)
  | SWR_DrawNullModel
  | R_DrawSprite
  | R_AliasDrawModel
  deriving DecidableEq

/-- The globals written by `SWR_DrawEntitiesOnList` and those it reads;
`refsoft_currententity` is the index of the entity pointed to; `rest` stands
for the remainder of the global state, which only the callees touch. -/
structure EntState (σ : Type) where
  refsoft_currententity : Option Nat
  refsoft_currentmodel : Option entmodel_t
  modelorg : Nat → ℚ
  r_entorigin : Nat → ℚ
  r_refsoft_origin : Nat → ℚ
  rest : σ

/-- Modelled from the spec: the macro `VectorSubtract` of `q_shared.h`,
componentwise difference. -/
def VectorSubtract (a b : Nat → ℚ) : Nat → ℚ :=
  fun k => a k - b k

/-- Modelled from the spec: the macro `VectorAdd` of `q_shared.h`,
componentwise sum. -/
def VectorAdd (a b : Nat → ℚ) : Nat → ℚ :=
  fun k => a k + b k

/-- Modelled from the spec: the constant `vec3_origin` of `q_shared.c`, the
zero vector. -/
def vec3_origin : Nat → ℚ :=
  fun _ => 0

/-- The part of the loop body that both loops of `SWR_DrawEntitiesOnList`
share, from the test of `RF_BEAM` on, for the entity `e` at index `i`. -/
def drawEntity {σ : Type} (run : DrawCall → EntState σ → EntState σ) (RF_BEAM : Nat)
    (i : Nat) (e : entity_t) (p : EntState σ × List (DrawCall × EntState σ)) :
    EntState σ × List (DrawCall × EntState σ) :=
  if e.flags &&& RF_BEAM ≠ 0 then
    let s := { p.1 with
      modelorg := fun k => - p.1.r_refsoft_origin k
      r_entorigin := vec3_origin }
    callExt run (DrawCall.R_DrawBeam i) (s, p.2)
  else
    let s := { p.1 with refsoft_currentmodel := e.model }
    match e.model with
    | none => callExt run DrawCall.SWR_DrawNullModel (s, p.2)
    | some m =>
      let s := { s with r_entorigin := e.origin }
      let s := { s with modelorg := VectorSubtract s.r_refsoft_origin s.r_entorigin }
      match m.type with
      | modtype_t.mod_sprite => callExt run DrawCall.R_DrawSprite (s, p.2)
      | modtype_t.mod_alias => callExt run DrawCall.R_AliasDrawModel (s, p.2)
      | _ => (s, p.2)

/-- First loop of `SWR_DrawEntitiesOnList` over the entities from index `i`
on; the third component is the local flag `translucent_entities`. -/
def drawOpaqueLoop {σ : Type} (run : DrawCall → EntState σ → EntState σ)
    (RF_TRANSLUCENT RF_BEAM : Nat) :
    Nat → List entity_t → EntState σ × List (DrawCall × EntState σ) × Bool →
      EntState σ × List (DrawCall × EntState σ) × Bool
  | _, [], acc => acc
  | i, e :: rest, (s, log, translucent_entities) =>
    let s := { s with refsoft_currententity := some i }
    if e.flags &&& RF_TRANSLUCENT ≠ 0 then
      drawOpaqueLoop run RF_TRANSLUCENT RF_BEAM (i + 1) rest (s, log, true)
    else
      let p := drawEntity run RF_BEAM i e (s, log)
      drawOpaqueLoop run RF_TRANSLUCENT RF_BEAM (i + 1) rest (p.1, p.2, translucent_entities)

/-- Second loop of `SWR_DrawEntitiesOnList` over the entities from index `i`
on. -/
def drawTranslucentLoop {σ : Type} (run : DrawCall → EntState σ → EntState σ)
    (RF_TRANSLUCENT RF_BEAM : Nat) :
    Nat → List entity_t → EntState σ × List (DrawCall × EntState σ) →
      EntState σ × List (DrawCall × EntState σ)
  | _, [], acc => acc
  | i, e :: rest, (s, log) =>
    let s := { s with refsoft_currententity := some i }
    if ¬ (e.flags &&& RF_TRANSLUCENT ≠ 0) then
      drawTranslucentLoop run RF_TRANSLUCENT RF_BEAM (i + 1) rest (s, log)
    else
      drawTranslucentLoop run RF_TRANSLUCENT RF_BEAM (i + 1) rest
        (drawEntity run RF_BEAM i e (s, log))

/-- The function `SWR_DrawEntitiesOnList`. The entity list is
`r_refsoft_newrefdef.entities`; the flag constants `RF_TRANSLUCENT` and
`RF_BEAM` of `q_shared.h` are parameters, and so is the effect `run` of the
callees. The result is the final state and the log of the calls made. -/
def SWR_DrawEntitiesOnList {σ : Type} (run : DrawCall → EntState σ → EntState σ)
    (RF_TRANSLUCENT RF_BEAM : Nat) (r_drawentities : ℚ) (entities : List entity_t)
    (s : EntState σ) : EntState σ × List (DrawCall × EntState σ) :=
  if r_drawentities = 0 then (s, [])
  else
    let r := drawOpaqueLoop run RF_TRANSLUCENT RF_BEAM 0 entities (s, [], false)
    if r.2.2 = false then (r.1, r.2.1)
    else drawTranslucentLoop run RF_TRANSLUCENT RF_BEAM 0 entities (r.1, r.2.1)

/-- The entity is flagged translucent. -/
def isTranslucent (RF_TRANSLUCENT : Nat) (e : entity_t) : Bool :=
  decide (e.flags &&& RF_TRANSLUCENT ≠ 0)

/-- The draw call that an entity at index `i` gets, if any: `R_DrawBeam` for
a beam, `R_DrawSprite` or `R_AliasDrawModel` for a sprite or alias model,
nothing for a missing model or any other model type. -/
def drawCallOf (RF_BEAM : Nat) (i : Nat) (e : entity_t) : Option (DrawCall × Nat) :=
  if e.flags &&& RF_BEAM ≠ 0 then some (DrawCall.R_DrawBeam i, i)
  else
    match e.model with
    | none => none
    | some m =>
      match m.type with
      | modtype_t.mod_sprite => some (DrawCall.R_DrawSprite, i)
      | modtype_t.mod_alias => some (DrawCall.R_AliasDrawModel, i)
      | _ => none

/-- The draw calls due to the entities of a list numbered from `i` on that
have the given translucency, in list order. -/
def expectedDraws (RF_TRANSLUCENT RF_BEAM : Nat) (translucent : Bool) :
    Nat → List entity_t → List (DrawCall × Nat)
  | _, [] => []
  | i, e :: rest =>
    (if isTranslucent RF_TRANSLUCENT e = translucent then (drawCallOf RF_BEAM i e).toList
      else []) ++ expectedDraws RF_TRANSLUCENT RF_BEAM translucent (i + 1) rest

/-- What a logged call drew: for `R_DrawBeam`, `R_DrawSprite` and
`R_AliasDrawModel` the call together with the entity that
`refsoft_currententity` pointed to when the call was made. -/
def drawnEntity {σ : Type} (c : DrawCall × EntState σ) : Option (DrawCall × Nat) :=
  match c.1 with
  | DrawCall.SWR_DrawNullModel => none
  | call => c.2.refsoft_currententity.map fun i => (call, i)

/-- A sprite model, an alias model and a brush model with surfaces and the
box mins (-1, -1, -1), maxs (1, 1, 1). -/
def exampleSprite : entmodel_t :=
  { type := modtype_t.mod_sprite, nummodelsurfaces := 0, mins := fun _ => 0, maxs := fun _ => 0 }

/-- An alias (skeletal) model. -/
def exampleAlias : entmodel_t :=
  { type := modtype_t.mod_alias, nummodelsurfaces := 0, mins := fun _ => 0, maxs := fun _ => 0 }

/-- A brush model with 6 surfaces and the box mins (-1, -1, -1),
maxs (1, 1, 1). -/
def exampleBrush : entmodel_t :=
  { type := modtype_t.mod_brush, nummodelsurfaces := 6, mins := fun _ => -1, maxs := fun _ => 1 }

/-- An entity at the origin with the given model and flags. -/
def exampleEntity (model : Option entmodel_t) (flags : Nat) : entity_t :=
  { model := model, angles := fun _ => 0, origin := fun _ => 0, oldorigin := fun _ => 0,
    frame := 0, skinnum := 0, alpha := 1, flags := flags }

/-- A frame's entity list, with `RF_TRANSLUCENT = 32` and `RF_BEAM = 128`: an
opaque sprite, a translucent beam, an opaque alias model, an entity without
model, a translucent alias model and an opaque brush model. -/
def exampleEntities : List entity_t :=
  [exampleEntity (some exampleSprite) 0, exampleEntity none (32 + 128),
    exampleEntity (some exampleAlias) 0, exampleEntity none 0,
    exampleEntity (some exampleAlias) 32, exampleEntity (some exampleBrush) 0]

/-- Globals before entity drawing, with nothing else in the state. -/
def exampleEntState : EntState Unit :=
  { refsoft_currententity := none, refsoft_currentmodel := none, modelorg := fun _ => 0,
    r_entorigin := fun _ => 0, r_refsoft_origin := fun _ => 0, rest := () }

/-- Callees that leave the state alone. -/
def idleDraw : DrawCall → EntState Unit → EntState Unit :=
  fun _ s => s

/-! ## The frame: SWR_RenderFrame and R_EdgeDrawing -/

/-- An assignment to globals: the state changes, nothing is logged. -/
def assign {C S : Type} (f : S → S) (p : S × List (C × S)) : S × List (C × S) :=
  (f p.1, p.2)

/-- A statement `if (cond) body`, the condition being read from the current
state. -/
def whenC {C S : Type} (cond : S → Bool) (body : S × List (C × S) → S × List (C × S))
    (p : S × List (C × S)) : S × List (C × S) :=
  if cond p.1 then body p else p

/-- A statement `x = f();`: the call is logged, the callee acts on the state,
and the returned value `ret` (a function of the state at the call) is stored
by `set`. -/
def callRet {C S V : Type} (run : C → S → S) (c : C) (ret : S → V) (set : V → S → S)
    (p : S × List (C × S)) : S × List (C × S) :=
  (set (ret p.1) (run c p.1), p.2 ++ [(c, p.1)])

/-- The names of the calls logged so far, in order. -/
def callNames {C S : Type} (p : S × List (C × S)) : List C :=
  p.2.map Prod.fst

/-- The fields of `refdef_t` used here. -/
structure refdef_t where
  vieworg : Nat → ℚ
  viewangles : Nat → ℚ
  blend : Nat → ℚ
  rdflags : Nat
  entities : List entity_t

/-- The functions called by `SWR_RenderFrame` and `R_EdgeDrawing`; the two
`Con_Printf` calls of `SWR_RenderFrame` are told apart by their message. -/
inductive FrameCall
  | Sys_Error
  | Sys_Milliseconds
  | SWR_SetupFrame
  | SWR_MarkLeaves
  | SWR_PushDlights
  | R_EdgeDrawing
  | SWR_DrawEntitiesOnList
  | SWR_DrawParticles
  | SWR_DrawAlphaSurfaces
  | SWR_SetLightLevel
  | D_WarpScreen
  | R_CalcPalette
  | R_PrintAliasStats
  | R_PrintTimes
  | R_PrintDSpeeds
  | Con_Printf_surfaces
  | Con_Printf_edges
  | SWR_SurfacePatch
  | R_BeginEdgeFrame
  | R_RenderWorld
  | R_DrawBEntitiesOnList
  | R_ScanEdges
  deriving DecidableEq

/-- Where an edge or surface pool pointer points: nowhere yet, into a heap
block, or into the local array of the current `R_EdgeDrawing` activation; the
integer is the offset in elements from the start of the block (after cache
alignment for the local arrays). -/
inductive PoolPtr
  | null
  | heap (offset : Int)
  | stack (offset : Int)
  deriving DecidableEq

/-- The globals read and written by `SWR_RenderFrame` and `R_EdgeDrawing`
themselves; `rest` stands for the remainder of the global state, which only
the callees touch. `r_refsoft_worldmodel` is `none` for a NULL pointer. -/
structure FrameState (σ : Type) where
  r_refsoft_newrefdef : refdef_t
  r_refsoft_worldmodel : Option model_t
  r_refdef_vieworg : Nat → ℚ
  r_refdef_viewangles : Nat → ℚ
  r_speeds : ℚ
  r_dspeeds : ℚ
  sw_aliasstats : ℚ
  sw_reportsurfout : ℚ
  sw_reportedgeout : ℚ
  r_dowarp : Bool
  r_outofsurfaces : Int
  r_outofedges : Int
  r_time1 : ℚ
  rw_time1 : ℚ
  rw_time2 : ℚ
  db_time1 : ℚ
  db_time2 : ℚ
  se_time1 : ℚ
  se_time2 : ℚ
  de_time1 : ℚ
  de_time2 : ℚ
  dp_time1 : ℚ
  dp_time2 : ℚ
  da_time1 : ℚ
  da_time2 : ℚ
  auxedges : PoolPtr
  r_edges : PoolPtr
  surfaces : PoolPtr
  surf_max : PoolPtr
  r_cnumsurfs : Int
  r_surfsonstack : Bool
  rest : σ

/-- A state together with the log of the calls made so far, each with the
state in which it was made. -/
abbrev FrameLog (σ : Type) : Type :=
  FrameState σ × List (FrameCall × FrameState σ)

/-- The function `SWR_RenderFrame`. The callees act on the state through
`run`, `Sys_Milliseconds` gives the value the clock returns, and the flag
constant `RDF_NOWORLDMODEL` of `q_shared.h` is a parameter. `ri.Sys_Error`
with `ERR_FATAL` does not return: the frame ends there. The result is the
final state and the log of the calls made, each with the state at the call. -/
def SWR_RenderFrame {σ : Type} (run : FrameCall → FrameState σ → FrameState σ)
    (Sys_Milliseconds : FrameState σ → ℚ) (RDF_NOWORLDMODEL : Nat) (fd : refdef_t)
    (s : FrameState σ) : FrameLog σ :=
  let p : FrameLog σ :=
    ({ s with r_refsoft_newrefdef := fd }, [])
  if p.1.r_refsoft_worldmodel.isNone = true ∧
      p.1.r_refsoft_newrefdef.rdflags &&& RDF_NOWORLDMODEL = 0
  then callExt run FrameCall.Sys_Error p
  else
    let p : FrameLog σ := assign (fun (s : FrameState σ) => { s with r_refdef_vieworg := fd.vieworg }) p
    let p : FrameLog σ := assign (fun (s : FrameState σ) => { s with r_refdef_viewangles := fd.viewangles }) p
    let p : FrameLog σ := whenC (fun (s : FrameState σ) => decide (s.r_speeds ≠ 0 ∨ s.r_dspeeds ≠ 0))
      (callRet run FrameCall.Sys_Milliseconds Sys_Milliseconds
        fun (t : ℚ) (s : FrameState σ) => { s with r_time1 := t }) p
    let p : FrameLog σ := callExt run FrameCall.SWR_SetupFrame p
    let p : FrameLog σ := callExt run FrameCall.SWR_MarkLeaves p
    let p : FrameLog σ := callExt run FrameCall.SWR_PushDlights p
    let p : FrameLog σ := callExt run FrameCall.R_EdgeDrawing p
    let p : FrameLog σ := whenC (fun (s : FrameState σ) => decide (s.r_dspeeds ≠ 0))
      (fun (p : FrameLog σ) =>
        let p : FrameLog σ := callRet run FrameCall.Sys_Milliseconds Sys_Milliseconds
          (fun (t : ℚ) (s : FrameState σ) => { s with se_time2 := t }) p
        assign (fun (s : FrameState σ) => { s with de_time1 := s.se_time2 }) p) p
    let p : FrameLog σ := callExt run FrameCall.SWR_DrawEntitiesOnList p
    let p : FrameLog σ := whenC (fun (s : FrameState σ) => decide (s.r_dspeeds ≠ 0))
      (fun (p : FrameLog σ) =>
        let p : FrameLog σ := callRet run FrameCall.Sys_Milliseconds Sys_Milliseconds
          (fun (t : ℚ) (s : FrameState σ) => { s with de_time2 := t }) p
        callRet run FrameCall.Sys_Milliseconds Sys_Milliseconds
          (fun (t : ℚ) (s : FrameState σ) => { s with dp_time1 := t }) p) p
    let p : FrameLog σ := callExt run FrameCall.SWR_DrawParticles p
    let p : FrameLog σ := whenC (fun (s : FrameState σ) => decide (s.r_dspeeds ≠ 0))
      (callRet run FrameCall.Sys_Milliseconds Sys_Milliseconds
        fun (t : ℚ) (s : FrameState σ) => { s with dp_time2 := t }) p
    let p : FrameLog σ := callExt run FrameCall.SWR_DrawAlphaSurfaces p
    let p : FrameLog σ := callExt run FrameCall.SWR_SetLightLevel p
    let p : FrameLog σ := whenC (fun (s : FrameState σ) => s.r_dowarp) (callExt run FrameCall.D_WarpScreen) p
    let p : FrameLog σ := whenC (fun (s : FrameState σ) => decide (s.r_dspeeds ≠ 0))
      (callRet run FrameCall.Sys_Milliseconds Sys_Milliseconds
        fun (t : ℚ) (s : FrameState σ) => { s with da_time1 := t }) p
    let p : FrameLog σ := whenC (fun (s : FrameState σ) => decide (s.r_dspeeds ≠ 0))
      (callRet run FrameCall.Sys_Milliseconds Sys_Milliseconds
        fun (t : ℚ) (s : FrameState σ) => { s with da_time2 := t }) p
    let p : FrameLog σ := callExt run FrameCall.R_CalcPalette p
    let p : FrameLog σ := whenC (fun (s : FrameState σ) => decide (s.sw_aliasstats ≠ 0))
      (callExt run FrameCall.R_PrintAliasStats) p
    let p : FrameLog σ := whenC (fun (s : FrameState σ) => decide (s.r_speeds ≠ 0)) (callExt run FrameCall.R_PrintTimes) p
    let p : FrameLog σ := whenC (fun (s : FrameState σ) => decide (s.r_dspeeds ≠ 0)) (callExt run FrameCall.R_PrintDSpeeds) p
    let p : FrameLog σ := whenC (fun (s : FrameState σ) => decide (s.sw_reportsurfout ≠ 0 ∧ s.r_outofsurfaces ≠ 0))
      (callExt run FrameCall.Con_Printf_surfaces) p
    let p : FrameLog σ := whenC (fun (s : FrameState σ) => decide (s.sw_reportedgeout ≠ 0 ∧ s.r_outofedges ≠ 0))
      (callExt run FrameCall.Con_Printf_edges) p
    p

/-- The function `R_EdgeDrawing`, on the same state. The local arrays
`ledges` and `lsurfs` give the pool pointers `PoolPtr.stack 0` once aligned;
`surfaces--` steps one element back. -/
def R_EdgeDrawing {σ : Type} (run : FrameCall → FrameState σ → FrameState σ)
    (Sys_Milliseconds : FrameState σ → ℚ) (RDF_NOWORLDMODEL : Nat) (s : FrameState σ) :
    FrameLog σ :=
  let p : FrameLog σ := (s, [])
  if p.1.r_refsoft_newrefdef.rdflags &&& RDF_NOWORLDMODEL ≠ 0 then p
  else
    let p : FrameLog σ := assign
      (fun (s : FrameState σ) =>
        if s.auxedges ≠ PoolPtr.null then { s with r_edges := s.auxedges }
        else { s with r_edges := PoolPtr.stack 0 }) p
    let p : FrameLog σ := whenC (fun (s : FrameState σ) => s.r_surfsonstack)
      (fun (p : FrameLog σ) =>
        let p : FrameLog σ := assign (fun (s : FrameState σ) => { s with surfaces := PoolPtr.stack 0 }) p
        let p : FrameLog σ := assign (fun (s : FrameState σ) => { s with surf_max := PoolPtr.stack s.r_cnumsurfs }) p
        let p : FrameLog σ := assign (fun (s : FrameState σ) => { s with surfaces := PoolPtr.stack (-1) }) p
        callExt run FrameCall.SWR_SurfacePatch p) p
    let p : FrameLog σ := callExt run FrameCall.R_BeginEdgeFrame p
    let p : FrameLog σ := whenC (fun (s : FrameState σ) => decide (s.r_dspeeds ≠ 0))
      (callRet run FrameCall.Sys_Milliseconds Sys_Milliseconds
        fun (t : ℚ) (s : FrameState σ) => { s with rw_time1 := t }) p
    let p : FrameLog σ := callExt run FrameCall.R_RenderWorld p
    let p : FrameLog σ := whenC (fun (s : FrameState σ) => decide (s.r_dspeeds ≠ 0))
      (fun (p : FrameLog σ) =>
        let p : FrameLog σ := callRet run FrameCall.Sys_Milliseconds Sys_Milliseconds
          (fun (t : ℚ) (s : FrameState σ) => { s with rw_time2 := t }) p
        assign (fun (s : FrameState σ) => { s with db_time1 := s.rw_time2 }) p) p
    let p : FrameLog σ := callExt run FrameCall.R_DrawBEntitiesOnList p
    let p : FrameLog σ := whenC (fun (s : FrameState σ) => decide (s.r_dspeeds ≠ 0))
      (fun (p : FrameLog σ) =>
        let p : FrameLog σ := callRet run FrameCall.Sys_Milliseconds Sys_Milliseconds
          (fun (t : ℚ) (s : FrameState σ) => { s with db_time2 := t }) p
        assign (fun (s : FrameState σ) => { s with se_time1 := s.db_time2 }) p) p
    callExt run FrameCall.R_ScanEdges p

/-- The stages of the frame named by the spec. -/
def isStage (c : FrameCall) : Bool :=
  match c with
  | FrameCall.SWR_MarkLeaves | FrameCall.SWR_PushDlights | FrameCall.R_EdgeDrawing
  | FrameCall.SWR_DrawEntitiesOnList | FrameCall.SWR_DrawParticles
  | FrameCall.SWR_DrawAlphaSurfaces | FrameCall.D_WarpScreen | FrameCall.R_CalcPalette => true
  | _ => false

/-- The optional statistics: the three report functions and the two console
messages. -/
def isStatistics (c : FrameCall) : Bool :=
  match c with
  | FrameCall.R_PrintAliasStats | FrameCall.R_PrintTimes | FrameCall.R_PrintDSpeeds
  | FrameCall.Con_Printf_surfaces | FrameCall.Con_Printf_edges => true
  | _ => false

/-- A frame description for the examples: no flag set, no entity. -/
def exampleRefdef : refdef_t :=
  { vieworg := fun _ => 0, viewangles := fun _ => 0, blend := fun _ => 0, rdflags := 0,
    entities := [] }

/-- A frame description with flag bit 2 set (the value of `RDF_NOWORLDMODEL`
in `q_shared.h`). -/
def exampleMenuRefdef : refdef_t :=
  { exampleRefdef with rdflags := 2 }

/-- A state with a loaded world, speed reports on, and the camera under
water. -/
def exampleFrameState : FrameState Unit :=
  { r_refsoft_newrefdef := exampleRefdef, r_refsoft_worldmodel := some exampleWorld,
    r_refdef_vieworg := fun _ => 0, r_refdef_viewangles := fun _ => 0,
    r_speeds := 1, r_dspeeds := 0, sw_aliasstats := 0, sw_reportsurfout := 0,
    sw_reportedgeout := 0, r_dowarp := true, r_outofsurfaces := 0, r_outofedges := 0,
    r_time1 := 0, rw_time1 := 0, rw_time2 := 0, db_time1 := 0, db_time2 := 0,
    se_time1 := 0, se_time2 := 0, de_time1 := 0, de_time2 := 0, dp_time1 := 0,
    dp_time2 := 0, da_time1 := 0, da_time2 := 0, auxedges := PoolPtr.null,
    r_edges := PoolPtr.null, surfaces := PoolPtr.heap 0, surf_max := PoolPtr.heap 10,
    r_cnumsurfs := 10, r_surfsonstack := false, rest := () }

/-- A state with no world loaded, whose current frame description carries the
flag. -/
def exampleMenuState : FrameState Unit :=
  { exampleFrameState with
    r_refsoft_newrefdef := exampleMenuRefdef, r_refsoft_worldmodel := none }

/-- Callees that leave the state alone. -/
def idleFrame : FrameCall → FrameState Unit → FrameState Unit :=
  fun _ s => s

/-- A clock that always reads zero. -/
def exampleClock : FrameState Unit → ℚ :=
  fun _ => 0

/-! ## The start of a frame: SWR_BeginFrame -/

/-- Modelled from the spec: the result type `rserr_t` of `SWimp_SetMode`,
declared in `r_local.h`. -/
inductive rserr_t
  | rserr_ok
  | rserr_invalid_fullscreen
  | rserr_invalid_mode
  | rserr_unknown
  deriving DecidableEq

/-- The fields of `cvar_t` used here. -/
structure cvar_t where
  value : ℚ
  modified : Bool

/-- The three settings read by `SWR_BeginFrame`. -/
structure Cvars where
  vid_gamma : cvar_t
  sw_mode : cvar_t
  vid_fullscreen : cvar_t

/-- The names passed to `ri.Cvar_SetValue` by `SWR_BeginFrame`. -/
inductive CvarName
  | sw_mode
  | vid_fullscreen
  deriving DecidableEq

/-- The calls made by `SWR_BeginFrame`, with their arguments; `SWimp_SetMode`
is logged with the mode and fullscreen arguments and the value it returned,
the two `Con_Printf` calls are told apart by their message. -/
inductive BeginCall
  | Draw_BuildGammaTable
  | R_GammaCorrectAndSetPalette
  | SWimp_SetMode (mode fullscreen : Int) (err : rserr_t)
  | R_InitGraphics (width height : Int)
  | Cvar_SetValue (var_name : CvarName) (value : ℚ)
  | Con_Printf_could_not_set_mode
  | Con_Printf_fullscreen_unavailable
  | Sys_Error
  | R_InitTurb
  deriving DecidableEq

/-- The globals of `SWR_BeginFrame`: the settings, `sw_state.prev_mode`,
`vid.width` and `vid.height`, the palette state, and `rest` for everything
only the callees touch. -/
structure BeginState (σ : Type) where
  cvars : Cvars
  prev_mode : Int
  vid_width : Int
  vid_height : Int
  palette : PaletteState
  rest : σ

/-- A state together with the log of the calls made so far. -/
abbrev BeginLog (σ : Type) : Type :=
  BeginState σ × List BeginCall

/-- How a run of the mode loop ended: the loop condition became false, a
fatal error was raised, or the iterations allowed were used up with the loop
still going. -/
inductive LoopEnd
  | done
  | fatal
  | unfinished
  deriving DecidableEq

/-- The function `R_InitGraphics`: the buffers and caches live in `rest` and
are handled through `run`; the palette is gamma-corrected and set again. -/
def R_InitGraphics {σ : Type} (run : BeginCall → σ → σ) (d_refsoft_8to24table : Nat → Nat)
    (width height : Int) (p : BeginLog σ) : BeginLog σ :=
  ({ p.1 with
      vid_width := width
      vid_height := height
      rest := run (BeginCall.R_InitGraphics width height) p.1.rest
      palette := R_GammaCorrectAndSetPalette d_refsoft_8to24table p.1.palette },
    p.2 ++ [BeginCall.R_InitGraphics width height])

/-- A call of an external function that acts on `rest` only. -/
def callRest {σ : Type} (run : BeginCall → σ → σ) (c : BeginCall) (p : BeginLog σ) :
    BeginLog σ :=
  ({ p.1 with rest := run c p.1.rest }, p.2 ++ [c])

/-- A call `ri.Cvar_SetValue( name, value )`: the settings change as the
engine's `Cvar_SetValue` says. -/
def callCvarSetValue {σ : Type} (Cvar_SetValue : CvarName → ℚ → Cvars → Cvars)
    (var_name : CvarName) (value : ℚ) (p : BeginLog σ) : BeginLog σ :=
  ({ p.1 with cvars := Cvar_SetValue var_name value p.1.cvars },
    p.2 ++ [BeginCall.Cvar_SetValue var_name value])

/-- One iteration of the loop of `SWR_BeginFrame`. `SWimp_SetMode` receives
`vid.width`, `vid.height` (which it may overwrite), the mode and the
fullscreen setting converted to integers, and the rest of the state; it
returns the error code, the new width and height and the new rest. The
boolean tells whether `ri.Sys_Error` was called, which does not return. -/
def modeIteration {σ : Type} (run : BeginCall → σ → σ)
    (SWimp_SetMode : Int → Int → Int → Int → σ → rserr_t × Int × Int × σ)
    (Cvar_SetValue : CvarName → ℚ → Cvars → Cvars) (d_refsoft_8to24table : Nat → Nat)
    (p : BeginLog σ) : BeginLog σ × Bool :=
  let mode : Int := truncToInt p.1.cvars.sw_mode.value
  let fullscreen : Int := truncToInt p.1.cvars.vid_fullscreen.value
  let r := SWimp_SetMode p.1.vid_width p.1.vid_height mode fullscreen p.1.rest
  let err : rserr_t := r.1
  let p : BeginLog σ :=
    ({ p.1 with vid_width := r.2.1, vid_height := r.2.2.1, rest := r.2.2.2 },
      p.2 ++ [BeginCall.SWimp_SetMode mode fullscreen err])
  if err = rserr_t.rserr_ok then
    let p : BeginLog σ :=
      R_InitGraphics run d_refsoft_8to24table p.1.vid_width p.1.vid_height p
    let p : BeginLog σ :=
      ({ p.1 with prev_mode := truncToInt p.1.cvars.sw_mode.value }, p.2)
    let p : BeginLog σ :=
      ({ p.1 with cvars := { p.1.cvars with
          vid_fullscreen := { p.1.cvars.vid_fullscreen with modified := false } } }, p.2)
    let p : BeginLog σ :=
      ({ p.1 with cvars := { p.1.cvars with
          sw_mode := { p.1.cvars.sw_mode with modified := false } } }, p.2)
    (callRest run BeginCall.R_InitTurb p, false)
  else if err = rserr_t.rserr_invalid_mode then
    let p : BeginLog σ := callCvarSetValue Cvar_SetValue CvarName.sw_mode p.1.prev_mode p
    let p : BeginLog σ := callRest run BeginCall.Con_Printf_could_not_set_mode p
    (callRest run BeginCall.R_InitTurb p, false)
  else if err = rserr_t.rserr_invalid_fullscreen then
    let p : BeginLog σ :=
      R_InitGraphics run d_refsoft_8to24table p.1.vid_width p.1.vid_height p
    let p : BeginLog σ := callCvarSetValue Cvar_SetValue CvarName.vid_fullscreen 0 p
    let p : BeginLog σ := callRest run BeginCall.Con_Printf_fullscreen_unavailable p
    let p : BeginLog σ :=
      ({ p.1 with prev_mode := truncToInt p.1.cvars.sw_mode.value }, p.2)
    (callRest run BeginCall.R_InitTurb p, false)
  else
    (callRest run BeginCall.Sys_Error p, true)

/-- The loop `while ( sw_mode->modified || vid_fullscreen->modified )`, run
for at most `fuel` iterations. -/
def modeLoop {σ : Type} (run : BeginCall → σ → σ)
    (SWimp_SetMode : Int → Int → Int → Int → σ → rserr_t × Int × Int × σ)
    (Cvar_SetValue : CvarName → ℚ → Cvars → Cvars) (d_refsoft_8to24table : Nat → Nat) :
    Nat → BeginLog σ → BeginLog σ × LoopEnd
  | 0, p =>
    if p.1.cvars.sw_mode.modified || p.1.cvars.vid_fullscreen.modified
    then (p, LoopEnd.unfinished) else (p, LoopEnd.done)
  | fuel + 1, p =>
    if p.1.cvars.sw_mode.modified || p.1.cvars.vid_fullscreen.modified then
      let r := modeIteration run SWimp_SetMode Cvar_SetValue d_refsoft_8to24table p
      if r.2 then (r.1, LoopEnd.fatal)
      else modeLoop run SWimp_SetMode Cvar_SetValue d_refsoft_8to24table fuel r.1
    else (p, LoopEnd.done)

/-- The function `SWR_BeginFrame` (its parameter `camera_separation` is not
used by the code): the gamma rebuild, then the mode loop for at most `fuel`
iterations. The library `pow`, the driver's `SWimp_SetMode` and the engine's
`Cvar_SetValue` are parameters; `run` gives the effect of the other callees
on the rest of the state. -/
def SWR_BeginFrame {σ : Type} (pow : ℚ → ℚ → ℚ) (run : BeginCall → σ → σ)
    (SWimp_SetMode : Int → Int → Int → Int → σ → rserr_t × Int × Int × σ)
    (Cvar_SetValue : CvarName → ℚ → Cvars → Cvars) (d_refsoft_8to24table : Nat → Nat)
    (fuel : Nat) (s : BeginState σ) : BeginLog σ × LoopEnd :=
  let p : BeginLog σ := (s, [])
  let p : BeginLog σ :=
    if p.1.cvars.vid_gamma.modified then
      let p : BeginLog σ :=
        ({ p.1 with palette := { p.1.palette with
            sw_state := Draw_BuildGammaTable pow p.1.cvars.vid_gamma.value
              p.1.palette.sw_state } },
          p.2 ++ [BeginCall.Draw_BuildGammaTable])
      let p : BeginLog σ :=
        ({ p.1 with palette := R_GammaCorrectAndSetPalette d_refsoft_8to24table p.1.palette },
          p.2 ++ [BeginCall.R_GammaCorrectAndSetPalette])
      ({ p.1 with cvars := { p.1.cvars with
          vid_gamma := { p.1.cvars.vid_gamma with modified := false } } }, p.2)
    else p
  modeLoop run SWimp_SetMode Cvar_SetValue d_refsoft_8to24table fuel p

/-- The mode of a logged `SWimp_SetMode` call that reported `rserr_ok` or
`rserr_invalid_fullscreen`. -/
def knownGood : BeginCall → Option Int
  | BeginCall.SWimp_SetMode mode _ rserr_t.rserr_ok => some mode
  | BeginCall.SWimp_SetMode mode _ rserr_t.rserr_invalid_fullscreen => some mode
  | _ => none

/-- The mode of the last call in the log that reported `rserr_ok` or
`rserr_invalid_fullscreen`, or `init` when there is none. -/
def lastGood (init : Int) (log : List BeginCall) : Int :=
  ((log.filterMap knownGood).getLast?).getD init

/-- A driver that cannot set mode 9, sets mode 7 in a window only, fails on
mode 8, and sets every other mode at 640 by 480. -/
def exampleSetMode : Int → Int → Int → Int → Unit → rserr_t × Int × Int × Unit :=
  fun width height mode _ rest =>
    if mode = 9 then (rserr_t.rserr_invalid_mode, width, height, rest)
    else if mode = 8 then (rserr_t.rserr_unknown, width, height, rest)
    else if mode = 7 then (rserr_t.rserr_invalid_fullscreen, 640, 480, rest)
    else (rserr_t.rserr_ok, 640, 480, rest)

/-- Settings that take the value given and are flagged as modified. -/
def exampleCvarSetValue : CvarName → ℚ → Cvars → Cvars :=
  fun var_name value c =>
    match var_name with
    | CvarName.sw_mode => { c with sw_mode := { value := value, modified := true } }
    | CvarName.vid_fullscreen => { c with vid_fullscreen := { value := value, modified := true } }

/-- Callees that leave the rest of the state alone. -/
def idleBegin : BeginCall → Unit → Unit :=
  fun _ u => u

/-- A state in which mode 9 has just been requested while mode 3 is set. -/
def exampleBeginState : BeginState Unit :=
  { cvars :=
      { vid_gamma := { value := 1, modified := false }
        sw_mode := { value := 9, modified := true }
        vid_fullscreen := { value := 0, modified := false } }
    prev_mode := 3
    vid_width := 320
    vid_height := 240
    palette := examplePaletteState
    rest := () }

/-- The same state with mode 8 requested. -/
def exampleFailingState : BeginState Unit :=
  { exampleBeginState with
    cvars := { exampleBeginState.cvars with sw_mode := { value := 8, modified := true } } }

/-! ## Brush-model entities: R_FindTopnode, RotatedBBox, R_DrawBEntitiesOnList -/

/-- Modelled from the spec: the constant `CONTENTS_NODE` of `r_model.h`, the
value of `contents` that marks an interior node; it is `-1` there. -/
def CONTENTS_NODE : Int := -1

/-- Modelled from the spec: the constant `CONTENTS_SOLID` of `q_shared.h`; it
is `1` there. -/
def CONTENTS_SOLID : Int := 1

/-- A split plane (`mplane_t`): the fields `normal`, `dist`, `type` and
`signbits`. -/
structure mplane_t where
  normal : Nat → ℚ
  dist : ℚ
  type : Nat
  signbits : Nat

/-- The world BSP tree as `R_FindTopnode` walks it, from a node down: a leaf
carries `visframe` and `contents` (different from `CONTENTS_NODE` in a loaded
world), an interior node carries `visframe`, its plane and its two children,
and its `contents` is `CONTENTS_NODE`. -/
inductive bspnode_t
  | leaf (visframe : Int) (contents : Int)
  | node (visframe : Int) (plane : mplane_t) (child0 child1 : bspnode_t)

/-- The field `contents` of a node or leaf. -/
def bspnode_t.contents : bspnode_t → Int
  | bspnode_t.leaf _ contents => contents
  | bspnode_t.node _ _ _ _ => CONTENTS_NODE

/-- The function `R_FindTopnode`, started at the node given (the code starts
at `r_refsoft_worldmodel->nodes`); `none` is the NULL result. The macro
`BOX_ON_PLANE_SIDE` of `q_shared.h` is a parameter. A leaf whose `contents`
is `CONTENTS_NODE` has no plane to read; the result is NULL there. -/
def R_FindTopnode (BOX_ON_PLANE_SIDE : (Nat → ℚ) → (Nat → ℚ) → mplane_t → Nat)
    (r_visframecount : Int) (mins maxs : Nat → ℚ) : bspnode_t → Option bspnode_t
  | bspnode_t.leaf visframe contents =>
    if visframe ≠ r_visframecount then none
    else if contents ≠ CONTENTS_NODE then
      if contents ≠ CONTENTS_SOLID then some (bspnode_t.leaf visframe contents)
      else none
    else none
  | bspnode_t.node visframe plane child0 child1 =>
    if visframe ≠ r_visframecount then none
    else
      let sides := BOX_ON_PLANE_SIDE mins maxs plane
      if sides = 3 then some (bspnode_t.node visframe plane child0 child1)
      else if sides &&& 1 ≠ 0 then
        R_FindTopnode BOX_ON_PLANE_SIDE r_visframecount mins maxs child0
      else
        R_FindTopnode BOX_ON_PLANE_SIDE r_visframecount mins maxs child1

/-- Assignment `v[i] = x` on a vector of floats. -/
def setComp (v : Nat → ℚ) (i : Nat) (x : ℚ) : Nat → ℚ :=
  fun k => if k = i then x else v k

/-- Modelled from the spec: the function `VectorScale` of `q_shared.c`. -/
def VectorScale (v : Nat → ℚ) (scale : ℚ) : Nat → ℚ :=
  fun k => v k * scale

/-- Modelled from the spec: the function `VectorMA` of `q_shared.c`,
`veca + scale * vecb`. -/
def VectorMA (veca : Nat → ℚ) (scale : ℚ) (vecb : Nat → ℚ) : Nat → ℚ :=
  fun k => veca k + scale * vecb k

/-- Corner `i` of the box in the loop of `RotatedBBox`: bit 0 of `i` picks
`mins[0]`, bit 1 `mins[1]`, bit 2 `mins[2]`, a clear bit picks `maxs`. -/
def rotatedCorner (mins maxs : Nat → ℚ) (i : Nat) : Nat → ℚ :=
  fun k =>
    if k = 0 then (if i &&& 1 ≠ 0 then mins 0 else maxs 0)
    else if k = 1 then (if i &&& 2 ≠ 0 then mins 1 else maxs 1)
    else if k = 2 then (if i &&& 4 ≠ 0 then mins 2 else maxs 2)
    else 0

/-- The function `RotatedBBox`; the result is the pair `(tmins, tmaxs)`, and
the arguments `tmins`, `tmaxs` are the contents of the arrays on entry. The
function `AngleVectors` of `q_shared.c` is a parameter giving
`(forward, right, up)`; `VectorCopy` copies the vector. -/
def RotatedBBox (AngleVectors : (Nat → ℚ) → (Nat → ℚ) × (Nat → ℚ) × (Nat → ℚ))
    (mins maxs angles tmins tmaxs : Nat → ℚ) : (Nat → ℚ) × (Nat → ℚ) :=
  if angles 0 = 0 ∧ angles 1 = 0 ∧ angles 2 = 0 then (mins, maxs)
  else
    let t : (Nat → ℚ) × (Nat → ℚ) :=
      forLoop 3
        (fun i (t : (Nat → ℚ) × (Nat → ℚ)) => (setComp t.1 i 99999, setComp t.2 i (-99999)))
        (tmins, tmaxs)
    let forward := (AngleVectors angles).1
    let right := (AngleVectors angles).2.1
    let up := (AngleVectors angles).2.2
    forLoop 8
      (fun i (t : (Nat → ℚ) × (Nat → ℚ)) =>
        let tmp := rotatedCorner mins maxs i
        let v := VectorScale forward (tmp 0)
        let v := VectorMA v (-tmp 1) right
        let v := VectorMA v (tmp 2) up
        forLoop 3
          (fun j (t : (Nat → ℚ) × (Nat → ℚ)) =>
            let t : (Nat → ℚ) × (Nat → ℚ) :=
              if v j < t.1 j then (setComp t.1 j (v j), t.2) else t
            let t : (Nat → ℚ) × (Nat → ℚ) :=
              if v j > t.2 j then (t.1, setComp t.2 j (v j)) else t
            t)
          t)
      t

/-- The calls made by `R_DrawBEntitiesOnList` in its loop, with the local
variables they receive (`refsoft_currentmodel` is read from the state). -/
inductive BEntCall
  | R_RotateBmodel
  | SWR_PushDlights
  | R_DrawSolidClippedSubmodelPolygons (topnode : bspnode_t)
  | R_DrawSubmodelPolygons (clipflags : Nat) (topnode : bspnode_t)
  | R_TransformFrustum

/-- The globals written and read by `R_DrawBEntitiesOnList`, and those read
by `R_BmodelCheckBBox` and `R_FindTopnode`; `worldnodes` is the tree at
`r_refsoft_worldmodel->nodes`, `r_pcurrentvertbase` holds the model whose
`vertexes` it points to, and `rest` stands for the remainder of the state. -/
structure BEntState (σ : Type) where
  refsoft_currententity : Option Nat
  refsoft_currentmodel : Option entmodel_t
  modelorg : Nat → ℚ
  r_entorigin : Nat → ℚ
  r_refsoft_origin : Nat → ℚ
  insubmodel : Bool
  r_refsoft_dlightframecount : Int
  r_framecount : Int
  r_clipflags : Nat
  r_pcurrentvertbase : Option entmodel_t
  refsoft_vpn : Nat → ℚ
  vup : Nat → ℚ
  vright : Nat → ℚ
  base_vpn : Nat → ℚ
  base_vup : Nat → ℚ
  base_vright : Nat → ℚ
  pfrustum_indexes : Nat → Nat → Nat
  view_clipplanes : Nat → clipplane_t
  worldnodes : bspnode_t
  r_visframecount : Int
  rest : σ

/-- A state together with the log of the calls made so far: each entry has
the index of the entity in whose iteration the call was made, the call, and
the state at the call. -/
abbrev BEntLog (σ : Type) : Type :=
  BEntState σ × List (Nat × BEntCall × BEntState σ)

/-- A call made in the iteration of entity `i`. -/
def callAt {σ : Type} (run : BEntCall → BEntState σ → BEntState σ) (i : Nat) (c : BEntCall)
    (p : BEntLog σ) : BEntLog σ :=
  (run c p.1, p.2 ++ [(i, c, p.1)])

/-- The array `minmaxs` of `R_DrawBEntitiesOnList` for the model `m` of the
entity `e`: the rotated box moved to the entity's origin, `mins` at 0..2 and
`maxs` at 3..5. The locals `mins` and `maxs` handed to `RotatedBBox` are
taken as zero on entry; it overwrites their three components. -/
def entityMinmaxs (AngleVectors : (Nat → ℚ) → (Nat → ℚ) × (Nat → ℚ) × (Nat → ℚ))
    (m : entmodel_t) (e : entity_t) : Nat → ℚ :=
  let r := RotatedBBox AngleVectors m.mins m.maxs e.angles (fun _ => 0) (fun _ => 0)
  let mins := r.1
  let maxs := r.2
  fun k => if k < 3 then VectorAdd mins e.origin k else VectorAdd maxs e.origin (k - 3)

/-- The body of the loop of `R_DrawBEntitiesOnList` for the entity `e` at
index `i`; `oldorigin` is the local copy of `modelorg` made before the loop. -/
def drawBEntity {σ : Type} (run : BEntCall → BEntState σ → BEntState σ)
    (AngleVectors : (Nat → ℚ) → (Nat → ℚ) × (Nat → ℚ) × (Nat → ℚ))
    (BOX_ON_PLANE_SIDE : (Nat → ℚ) → (Nat → ℚ) → mplane_t → Nat) (RF_BEAM : Nat)
    (oldorigin : Nat → ℚ) (i : Nat) (e : entity_t) (p : BEntLog σ) : BEntLog σ :=
  let p : BEntLog σ := ({ p.1 with refsoft_currententity := some i }, p.2)
  let p : BEntLog σ := ({ p.1 with refsoft_currentmodel := e.model }, p.2)
  match e.model with
  | none => p
  | some m =>
    if m.nummodelsurfaces = 0 then p
    else if e.flags &&& RF_BEAM ≠ 0 then p
    else if m.type ≠ modtype_t.mod_brush then p
    else
      let minmaxs := entityMinmaxs AngleVectors m e
      let clipflags := R_BmodelCheckBBox p.1.pfrustum_indexes p.1.view_clipplanes minmaxs
      if clipflags = BMODEL_FULLY_CLIPPED then p
      else
        match R_FindTopnode BOX_ON_PLANE_SIDE p.1.r_visframecount (fun k => minmaxs k)
            (fun k => minmaxs (k + 3)) p.1.worldnodes with
        | none => p
        | some topnode =>
          let p : BEntLog σ := ({ p.1 with r_entorigin := e.origin }, p.2)
          let p : BEntLog σ :=
            ({ p.1 with modelorg := VectorSubtract p.1.r_refsoft_origin p.1.r_entorigin }, p.2)
          let p : BEntLog σ := ({ p.1 with r_pcurrentvertbase := p.1.refsoft_currentmodel }, p.2)
          let p : BEntLog σ := callAt run i BEntCall.R_RotateBmodel p
          let p : BEntLog σ := callAt run i BEntCall.SWR_PushDlights p
          let p : BEntLog σ :=
            if topnode.contents = CONTENTS_NODE then
              let p : BEntLog σ := ({ p.1 with r_clipflags := clipflags }, p.2)
              callAt run i (BEntCall.R_DrawSolidClippedSubmodelPolygons topnode) p
            else
              callAt run i (BEntCall.R_DrawSubmodelPolygons clipflags topnode) p
          let p : BEntLog σ := ({ p.1 with refsoft_vpn := p.1.base_vpn }, p.2)
          let p : BEntLog σ := ({ p.1 with vup := p.1.base_vup }, p.2)
          let p : BEntLog σ := ({ p.1 with vright := p.1.base_vright }, p.2)
          let p : BEntLog σ := ({ p.1 with modelorg := oldorigin }, p.2)
          callAt run i BEntCall.R_TransformFrustum p

/-- The loop of `R_DrawBEntitiesOnList` over the entities from index `i` on. -/
def drawBLoop {σ : Type} (run : BEntCall → BEntState σ → BEntState σ)
    (AngleVectors : (Nat → ℚ) → (Nat → ℚ) × (Nat → ℚ) × (Nat → ℚ))
    (BOX_ON_PLANE_SIDE : (Nat → ℚ) → (Nat → ℚ) → mplane_t → Nat) (RF_BEAM : Nat)
    (oldorigin : Nat → ℚ) : Nat → List entity_t → BEntLog σ → BEntLog σ
  | _, [], p => p
  | i, e :: rest, p =>
    drawBLoop run AngleVectors BOX_ON_PLANE_SIDE RF_BEAM oldorigin (i + 1) rest
      (drawBEntity run AngleVectors BOX_ON_PLANE_SIDE RF_BEAM oldorigin i e p)

/-- The statements of `R_DrawBEntitiesOnList` before its loop. -/
def beginBEntities {σ : Type} (s : BEntState σ) : BEntState σ :=
  let s := { s with insubmodel := true }
  { s with r_refsoft_dlightframecount := s.r_framecount }

/-- The function `R_DrawBEntitiesOnList`. The entity list is
`r_refsoft_newrefdef.entities`; `r_drawentities` is the value of the setting;
`RF_BEAM`, `AngleVectors` and `BOX_ON_PLANE_SIDE` (`q_shared.h`) are
parameters, and so is the effect `run` of the callees. The result is the
final state and the log of the calls made. -/
def R_DrawBEntitiesOnList {σ : Type} (run : BEntCall → BEntState σ → BEntState σ)
    (AngleVectors : (Nat → ℚ) → (Nat → ℚ) × (Nat → ℚ) × (Nat → ℚ))
    (BOX_ON_PLANE_SIDE : (Nat → ℚ) → (Nat → ℚ) → mplane_t → Nat) (RF_BEAM : Nat)
    (r_drawentities : ℚ) (entities : List entity_t) (s : BEntState σ) : BEntLog σ :=
  if r_drawentities = 0 then (s, [])
  else
    let oldorigin := s.modelorg
    let p : BEntLog σ :=
      drawBLoop run AngleVectors BOX_ON_PLANE_SIDE RF_BEAM oldorigin 0 entities
        (beginBEntities s, [])
    ({ p.1 with insubmodel := false }, p.2)

/-- The state in which the loop of `R_DrawBEntitiesOnList` reaches the entity
at index `i`: the state after the iterations of the entities before it. -/
def stateAtEntity {σ : Type} (run : BEntCall → BEntState σ → BEntState σ)
    (AngleVectors : (Nat → ℚ) → (Nat → ℚ) × (Nat → ℚ) × (Nat → ℚ))
    (BOX_ON_PLANE_SIDE : (Nat → ℚ) → (Nat → ℚ) → mplane_t → Nat) (RF_BEAM : Nat)
    (entities : List entity_t) (s : BEntState σ) (i : Nat) : BEntState σ :=
  (drawBLoop run AngleVectors BOX_ON_PLANE_SIDE RF_BEAM s.modelorg 0 (entities.take i)
    (beginBEntities s, [])).1

/-- The clip flags that `R_BmodelCheckBBox` returns in state `s` for the box
of model `m` at entity `e`. -/
def entityClipflags {σ : Type}
    (AngleVectors : (Nat → ℚ) → (Nat → ℚ) × (Nat → ℚ) × (Nat → ℚ))
    (s : BEntState σ) (m : entmodel_t) (e : entity_t) : Nat :=
  R_BmodelCheckBBox s.pfrustum_indexes s.view_clipplanes (entityMinmaxs AngleVectors m e)

/-- The top node that `R_FindTopnode` returns in state `s` for the box of
model `m` at entity `e`. -/
def entityTopnode {σ : Type}
    (AngleVectors : (Nat → ℚ) → (Nat → ℚ) × (Nat → ℚ) × (Nat → ℚ))
    (BOX_ON_PLANE_SIDE : (Nat → ℚ) → (Nat → ℚ) → mplane_t → Nat)
    (s : BEntState σ) (m : entmodel_t) (e : entity_t) : Option bspnode_t :=
  R_FindTopnode BOX_ON_PLANE_SIDE s.r_visframecount
    (fun k => entityMinmaxs AngleVectors m e k)
    (fun k => entityMinmaxs AngleVectors m e (k + 3)) s.worldnodes

/-- The entity is one of those the loop passes over: no model, no model
surface, the beam flag, a model that is not a brush model, a box that is
fully clipped, or no top node. -/
def passedOver {σ : Type}
    (AngleVectors : (Nat → ℚ) → (Nat → ℚ) × (Nat → ℚ) × (Nat → ℚ))
    (BOX_ON_PLANE_SIDE : (Nat → ℚ) → (Nat → ℚ) → mplane_t → Nat) (RF_BEAM : Nat)
    (s : BEntState σ) (e : entity_t) : Prop :=
  match e.model with
  | none => True
  | some m =>
    m.nummodelsurfaces = 0 ∨ e.flags &&& RF_BEAM ≠ 0 ∨ m.type ≠ modtype_t.mod_brush ∨
      entityClipflags AngleVectors s m e = BMODEL_FULLY_CLIPPED ∨
      entityTopnode AngleVectors BOX_ON_PLANE_SIDE s m e = none

/-- The two calls that emit the polygons of a submodel. -/
def isEmission : BEntCall → Bool
  | BEntCall.R_DrawSolidClippedSubmodelPolygons _ => true
  | BEntCall.R_DrawSubmodelPolygons _ _ => true
  | _ => false

/-- The vectors `AngleVectors` gives for zero angles, returned for every
angle: forward (1, 0, 0), right (0, -1, 0), up (0, 0, 1). -/
def exampleAngleVectors : (Nat → ℚ) → (Nat → ℚ) × (Nat → ℚ) × (Nat → ℚ) :=
  fun _ =>
    (fun k => if k = 0 then 1 else 0, fun k => if k = 1 then -1 else 0,
      fun k => if k = 2 then 1 else 0)

/-- A side test that finds every box on both sides of every plane. -/
def exampleBoxOnPlaneSide : (Nat → ℚ) → (Nat → ℚ) → mplane_t → Nat :=
  fun _ _ _ => 3

/-- An empty leaf stamped with frame 1. -/
def exampleLeaf : bspnode_t :=
  bspnode_t.leaf 1 0

/-- An interior node stamped with frame 1, with the plane `x = 0` and two
empty leaves. -/
def exampleSplitNode : bspnode_t :=
  bspnode_t.node 1
    { normal := fun k => if k = 0 then 1 else 0, dist := 0, type := 0, signbits := 0 }
    exampleLeaf exampleLeaf

/-- A brush model with the box given as `minmaxs` (`mins` at 0..2, `maxs` at
3..5) and the number of surfaces given. -/
def brushModelOf (box : Nat → ℚ) (nummodelsurfaces : Int) : entmodel_t :=
  { type := modtype_t.mod_brush, nummodelsurfaces := nummodelsurfaces,
    mins := fun k => box k, maxs := fun k => box (k + 3) }

/-- A brush entity behind plane 2 of the sample frustum. -/
def brushBehindPlane2 : entity_t :=
  exampleEntity (some (brushModelOf boxBehindPlane2 6)) 0

/-- A brush entity across plane 0 of the sample frustum. -/
def brushAcrossPlane0 : entity_t :=
  exampleEntity (some (brushModelOf boxAcrossPlane0 6)) 0

/-- A brush entity across plane 0 whose model has no surface (a clip brush). -/
def clipBrushAcrossPlane0 : entity_t :=
  exampleEntity (some (brushModelOf boxAcrossPlane0 0)) 0

/-- Globals before the brush entities are drawn, with the sample frustum, the
world tree given, the frame counter at 1, and nothing else in the state. -/
def exampleBEntState (worldnodes : bspnode_t) : BEntState Unit :=
  { refsoft_currententity := none, refsoft_currentmodel := none, modelorg := fun _ => 0,
    r_entorigin := fun _ => 0, r_refsoft_origin := fun _ => 0, insubmodel := false,
    r_refsoft_dlightframecount := 0, r_framecount := 7, r_clipflags := 0,
    r_pcurrentvertbase := none, refsoft_vpn := fun _ => 0, vup := fun _ => 0,
    vright := fun _ => 0, base_vpn := fun _ => 0, base_vup := fun _ => 0,
    base_vright := fun _ => 0, pfrustum_indexes := signFrustumIndexes exampleClipplanes,
    view_clipplanes := exampleClipplanes, worldnodes := worldnodes, r_visframecount := 1,
    rest := () }

/-- Callees that leave the state alone. -/
def idleBEnt : BEntCall → BEntState Unit → BEntState Unit :=
  fun _ s => s

/-- Mode 3 and a new gamma value have both just been requested while mode 2
is set. -/
def exampleGammaModeState : BeginState Unit :=
  { cvars :=
      { vid_gamma := { value := 2, modified := true }
        sw_mode := { value := 3, modified := true }
        vid_fullscreen := { value := 0, modified := false } }
    prev_mode := 2
    vid_width := 320
    vid_height := 240
    palette := examplePaletteState
    rest := () }

/-! ### Vocabulary of the top-node theorem -/

/-- The field `visframe` of a node or leaf. -/
def bspnode_t.visframe : bspnode_t → Int
  | bspnode_t.leaf visframe _ => visframe
  | bspnode_t.node visframe _ _ _ => visframe

/-- In a loaded world no leaf has `contents == CONTENTS_NODE`: that value is
what tells an interior node from a leaf. -/
def LeavesAreLeaves : bspnode_t → Prop
  | bspnode_t.leaf _ contents => contents ≠ CONTENTS_NODE
  | bspnode_t.node _ _ child0 child1 => LeavesAreLeaves child0 ∧ LeavesAreLeaves child1

/-- A leaf that is not solid. -/
def IsNonSolidLeaf : bspnode_t → Prop
  | bspnode_t.leaf _ contents => contents ≠ CONTENTS_SOLID
  | bspnode_t.node _ _ _ _ => False

/-- A solid leaf. -/
def IsSolidLeaf : bspnode_t → Prop
  | bspnode_t.leaf _ contents => contents = CONTENTS_SOLID
  | bspnode_t.node _ _ _ _ => False

/-- An interior node whose plane the box straddles:
`BOX_ON_PLANE_SIDE` gives 3. -/
def IsSplitter (BOX_ON_PLANE_SIDE : (Nat → ℚ) → (Nat → ℚ) → mplane_t → Nat)
    (mins maxs : Nat → ℚ) : bspnode_t → Prop
  | bspnode_t.leaf _ _ => False
  | bspnode_t.node _ plane _ _ => BOX_ON_PLANE_SIDE mins maxs plane = 3

/-- The descent from a node: `OnDescent … root n` says that `n` is reached
from `root` by going, at every interior node on the way (each stamped with
`r_visframecount`, with the box not on both sides of its plane), to the
child on the side of the box: `children[0]` when bit 0 of the side is set
(the front, side 1), `children[1]` otherwise (the back, side 2). -/
inductive OnDescent (BOX_ON_PLANE_SIDE : (Nat → ℚ) → (Nat → ℚ) → mplane_t → Nat)
    (r_visframecount : Int) (mins maxs : Nat → ℚ) : bspnode_t → bspnode_t → Prop
  | here (n : bspnode_t) : OnDescent BOX_ON_PLANE_SIDE r_visframecount mins maxs n n
  | front (visframe : Int) (plane : mplane_t) (child0 child1 n : bspnode_t) :
    visframe = r_visframecount → BOX_ON_PLANE_SIDE mins maxs plane ≠ 3 →
    BOX_ON_PLANE_SIDE mins maxs plane &&& 1 ≠ 0 →
    OnDescent BOX_ON_PLANE_SIDE r_visframecount mins maxs child0 n →
    OnDescent BOX_ON_PLANE_SIDE r_visframecount mins maxs
      (bspnode_t.node visframe plane child0 child1) n
  | back (visframe : Int) (plane : mplane_t) (child0 child1 n : bspnode_t) :
    visframe = r_visframecount → BOX_ON_PLANE_SIDE mins maxs plane ≠ 3 →
    BOX_ON_PLANE_SIDE mins maxs plane &&& 1 = 0 →
    OnDescent BOX_ON_PLANE_SIDE r_visframecount mins maxs child1 n →
    OnDescent BOX_ON_PLANE_SIDE r_visframecount mins maxs
      (bspnode_t.node visframe plane child0 child1) n

/-- A side test along the x axis: 1 (front) when the box lies beyond the
plane, 2 (back) when it lies before it, 3 when it reaches across. -/
def axisBoxOnPlaneSide : (Nat → ℚ) → (Nat → ℚ) → mplane_t → Nat :=
  fun mins maxs plane =>
    if plane.dist < mins 0 then 1 else if maxs 0 < plane.dist then 2 else 3

/-- The plane `x = dist`. -/
def axisPlane (dist : ℚ) : mplane_t :=
  { normal := fun k => if k = 0 then 1 else 0, dist := dist, type := 0, signbits := 0 }

/-- The interior node with the plane `x = 10`, an empty leaf in front and a
solid leaf behind, all stamped with frame 1. -/
def exampleFrontNode : bspnode_t :=
  bspnode_t.node 1 (axisPlane 10) (bspnode_t.leaf 1 0) (bspnode_t.leaf 1 1)

/-- A world tree stamped with frame 1: the plane `x = 0` at the root,
`exampleFrontNode` in front of it and a solid leaf behind. -/
def exampleTree : bspnode_t :=
  bspnode_t.node 1 (axisPlane 0) exampleFrontNode (bspnode_t.leaf 1 1)

/-- A box from x = 5 to x = 15 (mins at 0..2, maxs at 3..5). -/
def boxAcrossTen : Nat → ℚ :=
  fun k => if k = 0 then 5 else if k = 3 then 15 else if k < 3 then -1 else 1

/-! ### Vocabulary of the rotated box -/

/-- A corner of the box `mins`, `maxs`: on axis `k` it takes `maxs k` when
`hi k` and `mins k` otherwise; the eight corners are the eight choices of
`hi` on the axes 0, 1, 2. -/
def cornerOf (mins maxs : Nat → ℚ) (hi : Nat → Bool) : Nat → ℚ :=
  fun k => if hi k then maxs k else mins k

/-- The point `(x, y, z)` mapped to `x*forward - y*right + z*up`, computed as
`RotatedBBox` does. -/
def rotatedPoint (forward right up : Nat → ℚ) (c : Nat → ℚ) : Nat → ℚ :=
  VectorMA (VectorMA (VectorScale forward (c 0)) (-c 1) right) (c 2) up

/-- The vectors of a quarter turn about the vertical axis, returned for
every angle: forward (0, 1, 0), right (1, 0, 0), up (0, 0, 1). -/
def quarterTurnVectors : (Nat → ℚ) → (Nat → ℚ) × (Nat → ℚ) × (Nat → ℚ) :=
  fun _ =>
    (fun k => if k = 1 then 1 else 0, fun k => if k = 0 then 1 else 0,
      fun k => if k = 2 then 1 else 0)

/-- The angles (0, 90, 0). -/
def quarterTurnAngles : Nat → ℚ :=
  fun k => if k = 1 then 90 else 0

/-- The box mins (-1, -2, -3), maxs (1, 2, 3), as two vectors. -/
def exampleMins : Nat → ℚ :=
  fun k => if k = 0 then -1 else if k = 1 then -2 else -3

/-- The upper corner (1, 2, 3). -/
def exampleMaxs : Nat → ℚ :=
  fun k => if k = 0 then 1 else if k = 1 then 2 else 3

/-- The body of the inner loop of `RotatedBBox` for the point `v` and the
axis `j`: the box `t = (tmins, tmaxs)` is widened to hold `v[j]`. -/
def widenBox (v : Nat → ℚ) (j : Nat) (t : (Nat → ℚ) × (Nat → ℚ)) : (Nat → ℚ) × (Nat → ℚ) :=
  let t : (Nat → ℚ) × (Nat → ℚ) :=
    if v j < t.1 j then (setComp t.1 j (v j), t.2) else t
  let t : (Nat → ℚ) × (Nat → ℚ) :=
    if v j > t.2 j then (t.1, setComp t.2 j (v j)) else t
  t

/-! ## Beams: R_DrawBeam -/

/-- The constant `NUM_BEAM_SEGS` of `R_DrawBeam`. -/
def NUM_BEAM_SEGS : Nat := 6

/-- The arguments of a call of `R_IMFlatShadedQuad`: four corners, the
colour and the alpha. -/
structure FlatShadedQuad where
  a : Nat → ℚ
  b : Nat → ℚ
  c : Nat → ℚ
  d : Nat → ℚ
  color : Int
  alpha : ℚ

/-- Assignment `points[i] = p` on an array of vectors. -/
def setPoint (points : Nat → Nat → ℚ) (i : Nat) (p : Nat → ℚ) : Nat → Nat → ℚ :=
  fun k => if k = i then p else points k

/-- The function `R_DrawBeam`; the result is the list of the calls of
`R_IMFlatShadedQuad` it makes. `VectorNormalize` (which gives the length and
the normalized vector), `PerpendicularVector` and `RotatePointAroundVector`
of `q_shared.c` are parameters; `e->frame / 2` is the integer division of C;
the arrays `start_points` and `end_points` are taken as zero on entry. -/
def R_DrawBeam (VectorNormalize : (Nat → ℚ) → ℚ × (Nat → ℚ))
    (PerpendicularVector : (Nat → ℚ) → Nat → ℚ)
    (RotatePointAroundVector : (Nat → ℚ) → (Nat → ℚ) → ℚ → Nat → ℚ) (e : entity_t) :
    List FlatShadedQuad :=
  let oldorigin : Nat → ℚ := e.oldorigin
  let origin : Nat → ℚ := e.origin
  let direction : Nat → ℚ := fun k => oldorigin k - origin k
  let normalized_direction : Nat → ℚ := direction
  if (VectorNormalize normalized_direction).1 = 0 then []
  else
    let normalized_direction : Nat → ℚ := (VectorNormalize normalized_direction).2
    let perpvec : Nat → ℚ := PerpendicularVector normalized_direction
    let perpvec : Nat → ℚ := VectorScale perpvec (Int.tdiv e.frame 2)
    let points : (Nat → Nat → ℚ) × (Nat → Nat → ℚ) :=
      forLoop NUM_BEAM_SEGS
        (fun i (points : (Nat → Nat → ℚ) × (Nat → Nat → ℚ)) =>
          let start_i : Nat → ℚ :=
            RotatePointAroundVector normalized_direction perpvec
              ((360 / (NUM_BEAM_SEGS : ℚ)) * i)
          let start_i : Nat → ℚ := VectorAdd start_i origin
          let end_i : Nat → ℚ := VectorAdd start_i direction
          (setPoint points.1 i start_i, setPoint points.2 i end_i))
        (fun _ _ => 0, fun _ _ => 0)
    forLoop NUM_BEAM_SEGS
      (fun i (quads : List FlatShadedQuad) =>
        quads ++
          [{ a := points.1 i, b := points.2 i, c := points.2 ((i + 1) % NUM_BEAM_SEGS),
             d := points.1 ((i + 1) % NUM_BEAM_SEGS), color := Int.land e.skinnum 0xFF,
             alpha := e.alpha }])
      []

/-- The point `start_points[i]` of the beam of `e`. -/
def beamStart (VectorNormalize : (Nat → ℚ) → ℚ × (Nat → ℚ))
    (PerpendicularVector : (Nat → ℚ) → Nat → ℚ)
    (RotatePointAroundVector : (Nat → ℚ) → (Nat → ℚ) → ℚ → Nat → ℚ) (e : entity_t)
    (i : Nat) : Nat → ℚ :=
  VectorAdd
    (RotatePointAroundVector (VectorNormalize (VectorSubtract e.oldorigin e.origin)).2
      (VectorScale
        (PerpendicularVector (VectorNormalize (VectorSubtract e.oldorigin e.origin)).2)
        (Int.tdiv e.frame 2))
      (60 * i))
    e.origin

/-- The expected quad `i` of a ring over the points `start 0 … start 5`;
each end point is the start point moved by `oldorigin - origin`. -/
def ringQuad (e : entity_t) (start : Nat → Nat → ℚ) (i : Nat) : FlatShadedQuad :=
  { a := start i
    b := VectorAdd (start i) (VectorSubtract e.oldorigin e.origin)
    c := VectorAdd (start ((i + 1) % 6)) (VectorSubtract e.oldorigin e.origin)
    d := start ((i + 1) % 6)
    color := Int.land e.skinnum 0xFF
    alpha := e.alpha }

/-- A length that is 1 for every vector but the zero vector; the vector is
returned as it is. -/
def exampleNormalize : (Nat → ℚ) → ℚ × (Nat → ℚ) :=
  fun v => (if v 0 = 0 ∧ v 1 = 0 ∧ v 2 = 0 then 0 else 1, v)

/-- The vector (0, 0, 1) for every input. -/
def examplePerpendicular : (Nat → ℚ) → Nat → ℚ :=
  fun _ k => if k = 2 then 1 else 0

/-- A rotation that moves the point along the y axis by the angle. -/
def exampleRotate : (Nat → ℚ) → (Nat → ℚ) → ℚ → Nat → ℚ :=
  fun _ point degrees k => if k = 1 then point k + degrees else point k

/-- A beam from the origin to (10, 0, 0), 4 units wide, colour 242, alpha
0.3. -/
def exampleBeam : entity_t :=
  { model := none, angles := fun _ => 0, origin := fun _ => 0,
    oldorigin := fun k => if k = 0 then 10 else 0, frame := 4, skinnum := 242,
    alpha := 0.3, flags := 128 }

/-- A beam whose two points coincide. -/
def examplePointBeam : entity_t :=
  { exampleBeam with oldorigin := fun _ => 0 }

/-! ## The savegame system (`xatrix/savegame/savegame.c`) -/

namespace Savegame

/-! ### The function and mmove tables -/

/-- An entry of `functionList`: the name `funcStr` and the address
`funcPtr`; `none` is a NULL pointer. The entry with a NULL name ends the
table. -/
structure functionList_t where
  funcStr : Option String
  funcPtr : Option Nat

/-- An entry of `mmoveList`: the name `mmoveStr` and the address `mmovePtr`;
`none` is a NULL pointer. -/
structure mmoveList_t where
  mmoveStr : Option String
  mmovePtr : Option Nat

/-- The loop of `GetFunctionByAddress` from index `i` on, the list being the
array from that index. The result is `some (some i)` for `&functionList[i]`,
`some none` for NULL, and `none` when the loop runs past the end of the
array, which C leaves undefined. -/
def getFunctionLoop (adr : Option Nat) : List functionList_t → Nat → Option (Option Nat)
  | [], _ => none
  | e :: rest, i =>
    match e.funcStr with
    | none => some none
    | some _ => if e.funcPtr = adr then some (some i) else getFunctionLoop adr rest (i + 1)

/-- The function `GetFunctionByAddress`; the table is a parameter. -/
def GetFunctionByAddress (functionList : List functionList_t) (adr : Option Nat) :
    Option (Option Nat) :=
  getFunctionLoop adr functionList 0

/-- The function `FindFunctionByName`: the result is `some p` for the
pointer `p` returned (`some none` for NULL) and `none` when the loop runs
past the end of the array. -/
def FindFunctionByName : List functionList_t → String → Option (Option Nat)
  | [], _ => none
  | e :: rest, name =>
    match e.funcStr with
    | none => some none
    | some funcStr => if name = funcStr then some e.funcPtr else FindFunctionByName rest name

/-- The loop of `GetMmoveByAddress` from index `i` on. -/
def getMmoveLoop (adr : Option Nat) : List mmoveList_t → Nat → Option (Option Nat)
  | [], _ => none
  | e :: rest, i =>
    match e.mmoveStr with
    | none => some none
    | some _ => if e.mmovePtr = adr then some (some i) else getMmoveLoop adr rest (i + 1)

/-- The function `GetMmoveByAddress`; the table is a parameter. -/
def GetMmoveByAddress (mmoveList : List mmoveList_t) (adr : Option Nat) :
    Option (Option Nat) :=
  getMmoveLoop adr mmoveList 0

/-- The function `FindMmoveByName`. -/
def FindMmoveByName : List mmoveList_t → String → Option (Option Nat)
  | [], _ => none
  | e :: rest, name =>
    match e.mmoveStr with
    | none => some none
    | some mmoveStr => if name = mmoveStr then some e.mmovePtr else FindMmoveByName rest name

/-! ### Vocabulary of the table theorems -/

/-- A table seen as pairs of a name and an address. -/
abbrev Table : Type := List (Option String × Option Nat)

/-- The pairs of `functionList`. -/
def functionTable (functionList : List functionList_t) : Table :=
  functionList.map fun e => (e.funcStr, e.funcPtr)

/-- The pairs of `mmoveList`. -/
def mmoveTable (mmoveList : List mmoveList_t) : Table :=
  mmoveList.map fun e => (e.mmoveStr, e.mmovePtr)

/-- The table is NULL-terminated: some entry has a NULL name. -/
def Terminated (t : Table) : Prop :=
  ∃ e ∈ t, e.1 = none

/-- The entries of the table: those before the first NULL name. -/
def entries (t : Table) : Table :=
  t.takeWhile fun e => e.1.isSome

/-- The names of the entries are pairwise distinct. -/
def NamesDistinct (t : Table) : Prop :=
  ((entries t).map fun e => e.1).Nodup

/-- The address occurs in an entry. -/
def Occurs (t : Table) (adr : Option Nat) : Prop :=
  ∃ e ∈ entries t, e.2 = adr

/-- An entry has the name. -/
def HasName (t : Table) (name : String) : Prop :=
  ∃ e ∈ entries t, e.1 = some name

/-- No entry holds a NULL address. -/
def NoNullAddress (t : Table) : Prop :=
  ∀ e ∈ entries t, e.2 ≠ none

/-- The search by address on a table of pairs, from index `i` on. -/
def tableByAddress (adr : Option Nat) : Table → Nat → Option (Option Nat)
  | [], _ => none
  | e :: rest, i =>
    match e.1 with
    | none => some none
    | some _ => if e.2 = adr then some (some i) else tableByAddress adr rest (i + 1)

/-- The search by name on a table of pairs. -/
def tableByName (name : String) : Table → Option (Option Nat)
  | [] => none
  | e :: rest =>
    match e.1 with
    | none => some none
    | some s => if name = s then some e.2 else tableByName name rest

/-- A function table with two entries, a second use of address 100 and the
terminator. -/
def exampleFunctionList : List functionList_t :=
  [⟨some "SP_monster_soldier", some 100⟩, ⟨some "soldier_pain", some 200⟩,
    ⟨some "soldier_die", some 100⟩, ⟨none, none⟩]

/-- An mmove table with two entries and the terminator. -/
def exampleMmoveList : List mmoveList_t :=
  [⟨some "soldier_move_stand1", some 300⟩, ⟨some "soldier_move_run", some 400⟩, ⟨none, none⟩]

/-- A terminated table whose only entry has a name and a NULL address. -/
def nullEntryList : List functionList_t :=
  [⟨some "think_nothing", none⟩, ⟨none, none⟩]

/-! ### ReadGame -/

/-- The macro `SAVEGAMEVER`. -/
def SAVEGAMEVER : String := "YQ2-3"

/-- The macro `YQ2OSTYPE`. -/
def YQ2OSTYPE : String := "libretro"

/-- The macro `YQ2ARCH`. -/
def YQ2ARCH : String := "unknown"

/-- The four strings at the start of a savegame file, as C strings: the
content of each 32-byte field up to its terminating zero. -/
structure SaveHeader where
  str_ver : String
  str_game : String
  str_os : String
  str_arch : String

/-- The calls made by `ReadGame`; the calls of `rfread`, `gi.TagMalloc` and
`gi.error` are told apart by what they read, allocate or report. -/
inductive GameCall
  | FreeTags
  | rfopen
  | gi_error_could_not_open
  | rfread_str_ver
  | rfread_str_game
  | rfread_str_os
  | rfread_str_arch
  | rfclose
  | gi_error_other_game
  | gi_error_other_os
  | gi_error_other_architecture
  | gi_error_incompatible_version
  | TagMalloc_edicts
  | rfread_game
  | TagMalloc_clients
  | ReadClient (i : Nat) (save_ver : Int)
  deriving DecidableEq

/-- The sanity checks of `ReadGame` on the header: the calls made by them
and the value of `save_ver`, or `none` when `gi.error` was called, which does
not return. `GAMEVERSION` (`local.h`) and the macros `OSTYPE_1` and `ARCH_1`,
which depend on the platform, are parameters. -/
def sanityChecks (GAMEVERSION OSTYPE_1 ARCH_1 : String) (h : SaveHeader) :
    List GameCall × Option Int :=
  if h.str_ver = SAVEGAMEVER then
    if h.str_game ≠ GAMEVERSION then
      ([GameCall.rfclose, GameCall.gi_error_other_game], none)
    else if h.str_os ≠ YQ2OSTYPE then
      ([GameCall.rfclose, GameCall.gi_error_other_os], none)
    else if h.str_arch ≠ YQ2ARCH then
      ([GameCall.rfclose, GameCall.gi_error_other_architecture], none)
    else ([], some 3)
  else if h.str_ver = "YQ2-2" then
    if h.str_game ≠ GAMEVERSION then
      ([GameCall.rfclose, GameCall.gi_error_other_game], none)
    else if h.str_os ≠ YQ2OSTYPE then
      ([GameCall.rfclose, GameCall.gi_error_other_os], none)
    else if h.str_arch ≠ YQ2ARCH then
      ([GameCall.rfclose, GameCall.gi_error_other_architecture], none)
    else ([], some 2)
  else if h.str_ver = "YQ2-1" then
    if h.str_game ≠ GAMEVERSION then
      ([GameCall.rfclose, GameCall.gi_error_other_game], none)
    else if h.str_os ≠ OSTYPE_1 then
      ([GameCall.rfclose, GameCall.gi_error_other_os], none)
    else if h.str_os = "Windows" then
      if h.str_arch ≠ "i386" then
        ([GameCall.rfclose, GameCall.gi_error_other_architecture], none)
      else ([], some 1)
    else
      if h.str_arch ≠ ARCH_1 then
        ([GameCall.rfclose, GameCall.gi_error_other_architecture], none)
      else ([], some 1)
  else ([GameCall.rfclose, GameCall.gi_error_incompatible_version], none)

/-- The function `ReadGame`; the result is the list of the calls it makes.
The file is `none` when `rfopen` fails, and otherwise its header together
with the value of `game.maxclients` stored in its game block. -/
def ReadGame (GAMEVERSION OSTYPE_1 ARCH_1 : String) (file : Option (SaveHeader × Int)) :
    List GameCall :=
  let log : List GameCall := [GameCall.FreeTags, GameCall.rfopen]
  match file with
  | none => log ++ [GameCall.gi_error_could_not_open]
  | some (h, maxclients) =>
    let log : List GameCall :=
      log ++ [GameCall.rfread_str_ver, GameCall.rfread_str_game, GameCall.rfread_str_os,
        GameCall.rfread_str_arch]
    let r := sanityChecks GAMEVERSION OSTYPE_1 ARCH_1 h
    let log : List GameCall := log ++ r.1
    match r.2 with
    | none => log
    | some save_ver =>
      let log : List GameCall :=
        log ++ [GameCall.TagMalloc_edicts, GameCall.rfread_game, GameCall.TagMalloc_clients]
      let log : List GameCall :=
        forLoop maxclients.toNat (fun i log => log ++ [GameCall.ReadClient i save_ver]) log
      log ++ [GameCall.rfclose]

/-- The header of a savegame written by version `YQ2-2` of the same game on
the same system. -/
def olderHeader : SaveHeader :=
  { str_ver := "YQ2-2", str_game := "xatrix", str_os := "libretro", str_arch := "unknown" }

/-- The header of a savegame written by version `YQ2-1` of the same game on
a Linux system of architecture `amd64`. -/
def oldestHeader : SaveHeader :=
  { str_ver := "YQ2-1", str_game := "xatrix", str_os := "Linux", str_arch := "amd64" }

/-! ### WriteField1 and ReadField -/

/-- Modelled from the spec: the enumeration `fieldtype_t` of `local.h` (not
among the sources), with the twelve names the two functions use; `other`
stands for any other value, which takes the `default` branch. -/
inductive fieldtype_t
  | F_INT
  | F_FLOAT
  | F_LSTRING
  | F_GSTRING
  | F_VECTOR
  | F_ANGLEHACK
  | F_EDICT
  | F_ITEM
  | F_CLIENT
  | F_FUNCTION
  | F_MMOVE
  | F_IGNORE
  | other (value : Int)
  deriving DecidableEq

/-- The fields of `field_t` that `WriteField1` and `ReadField` read, besides
the offset. -/
structure field_t where
  type : fieldtype_t
  flags : Nat

/-- What the slot at `base + field->ofs` holds in memory, under each of the
readings `WriteField1` makes of it; `none` is a NULL pointer. `string` is the
C string pointed to, `index` the position of the element pointed to in
`g_edicts`, `game.clients` or `itemlist`, `address` the raw address. -/
structure Slot where
  string : Option String
  index : Option Int
  address : Option Nat

/-- How a call of `WriteField1` ends: it returns with the slot as it was, it
returns after storing an `int` in the slot, or it calls `gi.error`, which
does not return; `undefined` is a search that runs past the end of a table
without terminator. -/
inductive WriteResult
  | unchanged
  | stored (value : Int)
  | error_function_not_in_list
  | error_mmove_not_in_list
  | error_unknown_field_type
  | undefined
  deriving DecidableEq

/-- The function `WriteField1`; the flag `FFL_SPAWNTEMP` (`local.h`) and the
two tables are parameters. -/
def WriteField1 (FFL_SPAWNTEMP : Nat) (functionList : List functionList_t)
    (mmoveList : List mmoveList_t) (field : field_t) (p : Slot) : WriteResult :=
  if field.flags &&& FFL_SPAWNTEMP ≠ 0 then WriteResult.unchanged
  else
    match field.type with
    | fieldtype_t.F_INT | fieldtype_t.F_FLOAT | fieldtype_t.F_ANGLEHACK
    | fieldtype_t.F_VECTOR | fieldtype_t.F_IGNORE => WriteResult.unchanged
    | fieldtype_t.F_LSTRING | fieldtype_t.F_GSTRING =>
      match p.string with
      | some s => WriteResult.stored (s.utf8ByteSize + 1)
      | none => WriteResult.stored 0
    | fieldtype_t.F_EDICT | fieldtype_t.F_CLIENT | fieldtype_t.F_ITEM =>
      match p.index with
      | none => WriteResult.stored (-1)
      | some index => WriteResult.stored index
    | fieldtype_t.F_FUNCTION =>
      match p.address with
      | none => WriteResult.stored 0
      | some adr =>
        match GetFunctionByAddress functionList (some adr) with
        | none => WriteResult.undefined
        | some none => WriteResult.error_function_not_in_list
        | some (some i) =>
          match (functionList[i]?).bind fun e => e.funcStr with
          | some funcStr => WriteResult.stored (funcStr.utf8ByteSize + 1)
          | none => WriteResult.undefined
    | fieldtype_t.F_MMOVE =>
      match p.address with
      | none => WriteResult.stored 0
      | some adr =>
        match GetMmoveByAddress mmoveList (some adr) with
        | none => WriteResult.undefined
        | some none => WriteResult.error_mmove_not_in_list
        | some (some i) =>
          match (mmoveList[i]?).bind fun e => e.mmoveStr with
          | some mmoveStr => WriteResult.stored (mmoveStr.utf8ByteSize + 1)
          | none => WriteResult.undefined
    | fieldtype_t.other _ => WriteResult.error_unknown_field_type

/-- How a call of `ReadField` ends: it returns with the slot as it was, with
a NULL pointer, with a freshly allocated string of `len` bytes read from the
file, with a pointer to the element at an index, or with an address found in
a table; or it calls `gi.error`, which does not return. -/
inductive ReadResult
  | unchanged
  | null_pointer
  | string_read (len : Int)
  | element (index : Int)
  | address (adr : Nat)
  | error_name_too_long
  | error_function_not_found
  | error_mmove_not_found
  | error_unknown_field_type
  | undefined
  deriving DecidableEq

/-- The function `ReadField`. The slot holds the `int` that `WriteField1`
stored (`value`), and `name` is the string that `rfread` puts into `funcStr`
for a function or an mmove. The test `len > sizeof(funcStr)` compares as
unsigned, so a negative `len` passes as too long. -/
def ReadField (FFL_SPAWNTEMP : Nat) (functionList : List functionList_t)
    (mmoveList : List mmoveList_t) (field : field_t) (value : Int) (name : String) :
    ReadResult :=
  if field.flags &&& FFL_SPAWNTEMP ≠ 0 then ReadResult.unchanged
  else
    match field.type with
    | fieldtype_t.F_INT | fieldtype_t.F_FLOAT | fieldtype_t.F_ANGLEHACK
    | fieldtype_t.F_VECTOR | fieldtype_t.F_IGNORE => ReadResult.unchanged
    | fieldtype_t.F_LSTRING =>
      let len := value
      if len = 0 then ReadResult.null_pointer else ReadResult.string_read len
    | fieldtype_t.F_EDICT | fieldtype_t.F_CLIENT | fieldtype_t.F_ITEM =>
      let index := value
      if index = -1 then ReadResult.null_pointer else ReadResult.element index
    | fieldtype_t.F_FUNCTION =>
      let len := value
      if len = 0 then ReadResult.null_pointer
      else if len < 0 ∨ 2048 < len then ReadResult.error_name_too_long
      else
        match FindFunctionByName functionList name with
        | none => ReadResult.undefined
        | some none => ReadResult.error_function_not_found
        | some (some adr) => ReadResult.address adr
    | fieldtype_t.F_MMOVE =>
      let len := value
      if len = 0 then ReadResult.null_pointer
      else if len < 0 ∨ 2048 < len then ReadResult.error_name_too_long
      else
        match FindMmoveByName mmoveList name with
        | none => ReadResult.undefined
        | some none => ReadResult.error_mmove_not_found
        | some (some adr) => ReadResult.address adr
    | _ => ReadResult.error_unknown_field_type

/-- A field of type `F_GSTRING` that is saved (no flag set). -/
def gstringField : field_t :=
  { type := fieldtype_t.F_GSTRING, flags := 0 }

/-- A slot that points to the string `hello`. -/
def helloSlot : Slot :=
  { string := some "hello", index := none, address := none }

end Savegame

/-! ## Theorems -/

/-! ### The ancestor walk -/

theorem markParents_null (c : Int) (fuel : Nat) (nodes : List mnode_t) :
    markParents c fuel nodes none = some nodes := by
  cases fuel <;> rfl

theorem SameParents.refl_nodes (nodes : List mnode_t) : SameParents nodes nodes :=
  fun _ => rfl

theorem SameParents.symm_nodes {a b : List mnode_t} (h : SameParents a b) : SameParents b a :=
  fun p => (h p).symm

theorem SameParents.trans_nodes {a b d : List mnode_t} (h1 : SameParents a b)
    (h2 : SameParents b d) : SameParents a d :=
  fun p => (h2 p).trans (h1 p)

theorem SameParents.lookup_node {a b : List mnode_t} (h : SameParents a b) {p : Nat} {n : mnode_t}
    (hn : b[p]? = some n) : ∃ m, a[p]? = some m ∧ m.parent = n.parent := by
  have hp := h p
  rw [hn] at hp
  cases ha : a[p]? with
  | none => rw [ha] at hp; simp at hp
  | some m =>
    rw [ha] at hp
    simp at hp
    exact ⟨m, rfl, hp.symm⟩

theorem SameParents.length_nodes {a b : List mnode_t} (h : SameParents a b) :
    b.length = a.length := by
  rcases Nat.lt_trichotomy b.length a.length with hlt | heq | hgt
  · have hp := h b.length
    rw [List.getElem?_eq_none (le_refl _), List.getElem?_eq_getElem hlt] at hp
    simp at hp
  · exact heq
  · have hp := h a.length
    rw [List.getElem?_eq_none (le_refl _), List.getElem?_eq_getElem hgt] at hp
    simp at hp

theorem set_stamp_sameParents {nodes : List mnode_t} {p : Nat} {n : mnode_t} (c : Int)
    (hn : nodes[p]? = some n) :
    SameParents nodes (nodes.set p { n with visframe := c }) := by
  intro j
  rw [List.getElem?_set]
  by_cases hj : p = j
  · subst hj
    have hlt : p < nodes.length := by
      by_contra hge
      rw [List.getElem?_eq_none (Nat.le_of_not_lt hge)] at hn
      simp at hn
    simp [hlt, hn]
  · simp [hj]

theorem set_stamp_at {nodes : List mnode_t} {p : Nat} {n : mnode_t} (c : Int)
    (hn : nodes[p]? = some n) :
    (nodes.set p { n with visframe := c })[p]? = some { n with visframe := c } := by
  have hlt : p < nodes.length := by
    by_contra hge
    rw [List.getElem?_eq_none (Nat.le_of_not_lt hge)] at hn
    simp at hn
  rw [List.getElem?_set]
  simp [hlt]

theorem OnChain.transfer {a b : List mnode_t} (h : SameParents a b) {ptr : Option Nat}
    {q : Nat} (hc : OnChain b ptr q) : OnChain a ptr q := by
  induction hc with
  | here p n hn =>
    obtain ⟨m, hm, _⟩ := h.lookup_node hn
    exact OnChain.here p m hm
  | up p n q hn _ ih =>
    obtain ⟨m, hm, hpar⟩ := h.lookup_node hn
    exact OnChain.up p m q hm (hpar ▸ ih)

theorem stampedAt_set_ne {c : Int} {nodes : List mnode_t} {p q : Nat} {m : mnode_t}
    (hq : p ≠ q) : stampedAt c (nodes.set p m) q ↔ stampedAt c nodes q := by
  unfold stampedAt
  rw [List.getElem?_set_ne hq]

/-- What a finished walk has done: parent links are untouched, stamps `c` are
kept, every new stamp `c` lies on the chain of the start pointer, the start
pointer is stamped, and closure under parents is restored. -/
theorem markParents_spec (c : Int) :
    ∀ (fuel : Nat) (nodes : List mnode_t) (ptr : Option Nat) (nodes1 : List mnode_t),
      markParents c fuel nodes ptr = some nodes1 →
      SameParents nodes nodes1 ∧
      (∀ q, stampedAt c nodes q → stampedAt c nodes1 q) ∧
      (∀ q, stampedAt c nodes1 q → stampedAt c nodes q ∨ OnChain nodes ptr q) ∧
      (∀ q, ptr = some q → stampedAt c nodes1 q) ∧
      (ClosedExcept c nodes ptr → Closed c nodes1) := by
  have hnull : ∀ (fuel : Nat) (nodes nodes1 : List mnode_t),
      markParents c fuel nodes none = some nodes1 →
      SameParents nodes nodes1 ∧
      (∀ q, stampedAt c nodes q → stampedAt c nodes1 q) ∧
      (∀ q, stampedAt c nodes1 q → stampedAt c nodes q ∨ OnChain nodes none q) ∧
      (∀ q, (none : Option Nat) = some q → stampedAt c nodes1 q) ∧
      (ClosedExcept c nodes none → Closed c nodes1) := by
    intro fuel nodes nodes1 h
    rw [markParents_null] at h
    cases h
    refine ⟨SameParents.refl_nodes _, fun _ h => h, fun _ h => Or.inl h, ?_, ?_⟩
    · intro q hq; cases hq
    · intro hc p n q hn hv hp
      exact (hc p n q hn hv hp).resolve_left (by simp)
  intro fuel
  induction fuel with
  | zero =>
    intro nodes ptr nodes1 h
    cases ptr with
    | none => exact hnull 0 nodes nodes1 h
    | some p => simp [markParents] at h
  | succ fuel ih =>
    intro nodes ptr nodes1 h
    cases ptr with
    | none => exact hnull _ nodes nodes1 h
    | some p =>
      rw [markParents] at h
      cases hn : nodes[p]? with
      | none => simp [hn] at h
      | some n =>
        simp only [hn] at h
        by_cases hv : n.visframe = c
        · simp only [hv, if_true] at h
          cases h
          refine ⟨SameParents.refl_nodes _, fun _ h => h, fun _ h => Or.inl h, ?_, ?_⟩
          · intro q hq
            cases hq
            exact ⟨n, hn, hv⟩
          · intro hc j m q hm hmv hmp
            rcases hc j m q hm hmv hmp with hq | hq
            · cases hq
              exact ⟨n, hn, hv⟩
            · exact hq
        · simp only [hv, if_false] at h
          obtain ⟨hsp, hmono, honly, _, hcl⟩ := ih _ _ _ h
          have hsp0 := set_stamp_sameParents c hn
          have hat := set_stamp_at c hn
          have hpst : stampedAt c (nodes.set p { n with visframe := c }) p :=
            ⟨_, hat, rfl⟩
          refine ⟨hsp0.trans_nodes hsp, ?_, ?_, ?_, ?_⟩
          · intro q hq
            apply hmono
            by_cases hqp : p = q
            · subst hqp; exact hpst
            · exact (stampedAt_set_ne hqp).2 hq
          · intro q hq
            rcases honly q hq with h1 | h1
            · by_cases hqp : p = q
              · subst hqp; exact Or.inr (OnChain.here p n hn)
              · exact Or.inl ((stampedAt_set_ne hqp).1 h1)
            · exact Or.inr (OnChain.up p n q hn (OnChain.transfer hsp0 h1))
          · intro q hq
            cases hq
            exact hmono p hpst
          · intro hc
            apply hcl
            intro j m q hm hmv hmp
            by_cases hjp : p = j
            · subst hjp
              rw [hat] at hm
              cases hm
              exact Or.inl hmp
            · rw [List.getElem?_set_ne hjp] at hm
              rcases hc j m q hm hmv hmp with hq | hq
              · cases hq
                exact Or.inr hpst
              · by_cases hqp : p = q
                · subst hqp; exact Or.inr hpst
                · exact Or.inr ((stampedAt_set_ne hqp).2 hq)

/-- Frame of the walk: a node of the result is stamped `c` or is unchanged. -/
theorem markParents_frame (c : Int) :
    ∀ (fuel : Nat) (nodes : List mnode_t) (ptr : Option Nat) (nodes1 : List mnode_t),
      markParents c fuel nodes ptr = some nodes1 →
      ∀ (j : Nat) (n1 : mnode_t), nodes1[j]? = some n1 →
        n1.visframe = c ∨ nodes[j]? = some n1 := by
  intro fuel
  induction fuel with
  | zero =>
    intro nodes ptr nodes1 h j n1 hj
    cases ptr with
    | none => rw [markParents_null] at h; cases h; exact Or.inr hj
    | some p => simp [markParents] at h
  | succ fuel ih =>
    intro nodes ptr nodes1 h j n1 hj
    cases ptr with
    | none => rw [markParents_null] at h; cases h; exact Or.inr hj
    | some p =>
      rw [markParents] at h
      cases hn : nodes[p]? with
      | none => simp [hn] at h
      | some n =>
        simp only [hn] at h
        by_cases hv : n.visframe = c
        · simp only [hv, if_true] at h
          cases h
          exact Or.inr hj
        · simp only [hv, if_false] at h
          rcases ih _ _ _ h j n1 hj with h1 | h1
          · exact Or.inl h1
          · by_cases hjp : p = j
            · subst hjp
              rw [set_stamp_at c hn] at h1
              cases h1
              exact Or.inl rfl
            · rw [List.getElem?_set_ne hjp] at h1
              exact Or.inr h1

theorem unstamped_set (c : Int) :
    ∀ (nodes : List mnode_t) (p : Nat) (n : mnode_t),
      nodes[p]? = some n → n.visframe ≠ c →
      unstamped c (nodes.set p { n with visframe := c }) + 1 = unstamped c nodes := by
  intro nodes
  induction nodes with
  | nil => intro p n hn; simp at hn
  | cons a l ih =>
    intro p n hn hv
    cases p with
    | zero =>
      simp at hn
      subst hn
      simp [unstamped, List.countP_cons, hv]
    | succ k =>
      simp at hn
      have := ih k n hn hv
      simp only [unstamped] at this
      simp only [unstamped, List.set_cons_succ, List.countP_cons]
      omega

/-- The walk never runs out of fuel: each iteration but the last stamps a
node that was not stamped, so `unstamped + 1` iterations suffice (whatever
the shape of the parent links, cyclic ones included). -/
theorem markParents_terminates (c : Int) :
    ∀ (fuel : Nat) (nodes : List mnode_t) (ptr : Option Nat),
      (∀ (j : Nat) (n : mnode_t) (p : Nat),
        nodes[j]? = some n → n.parent = some p → p < nodes.length) →
      (∀ p, ptr = some p → p < nodes.length) →
      unstamped c nodes < fuel →
      ∃ nodes1, markParents c fuel nodes ptr = some nodes1 := by
  intro fuel
  induction fuel with
  | zero => intro nodes ptr _ _ h; omega
  | succ fuel ih =>
    intro nodes ptr hvalid hptr hfuel
    cases ptr with
    | none => exact ⟨nodes, markParents_null _ _ _⟩
    | some p =>
      have hlt := hptr p rfl
      have hn : nodes[p]? = some nodes[p] := List.getElem?_eq_getElem hlt
      rw [markParents]
      simp only [hn]
      by_cases hv : nodes[p].visframe = c
      · exact ⟨nodes, by simp [hv]⟩
      · simp only [hv, if_false]
        apply ih
        · intro j m q hm hmp
          obtain ⟨m0, hm0, hpar⟩ := (set_stamp_sameParents c hn).lookup_node hm
          rw [List.length_set]
          exact hvalid j m0 q hm0 (hpar.trans hmp)
        · intro q hq
          rw [List.length_set]
          exact hvalid p _ q hn hq
        · have := unstamped_set c nodes p _ hn hv
          omega

/-! ### The leaf loop -/

theorem SameLeafShape.refl_leafs (leafs : List mleaf_t) : SameLeafShape leafs leafs :=
  fun _ => rfl

theorem SameLeafShape.symm_leafs {a b : List mleaf_t} (h : SameLeafShape a b) :
    SameLeafShape b a :=
  fun i => (h i).symm

theorem SameLeafShape.trans_leafs {a b d : List mleaf_t} (h1 : SameLeafShape a b)
    (h2 : SameLeafShape b d) : SameLeafShape a d :=
  fun i => (h2 i).trans (h1 i)

theorem SameLeafShape.lookup_leaf {a b : List mleaf_t} (h : SameLeafShape a b) {i : Nat}
    {l : mleaf_t} (hl : b[i]? = some l) :
    ∃ m, a[i]? = some m ∧ m.cluster = l.cluster ∧ m.parent = l.parent := by
  have hi := h i
  rw [hl] at hi
  cases ha : a[i]? with
  | none => rw [ha] at hi; simp at hi
  | some m =>
    rw [ha] at hi
    simp at hi
    exact ⟨m, rfl, hi.1.symm, hi.2.symm⟩

theorem lt_length_of_getElem? {α : Type} {xs : List α} {i : Nat} {x : α}
    (h : xs[i]? = some x) : i < xs.length := by
  by_contra hge
  rw [List.getElem?_eq_none (Nat.le_of_not_lt hge)] at h
  simp at h

theorem set_leaf_shape {leafs : List mleaf_t} {i : Nat} {l : mleaf_t} (c : Int)
    (hl : leafs[i]? = some l) :
    SameLeafShape leafs (leafs.set i { l with visframe := c }) := by
  intro j
  rw [List.getElem?_set]
  by_cases hj : i = j
  · subst hj
    simp [lt_length_of_getElem? hl, hl]
  · simp [hj]

theorem set_leaf_at {leafs : List mleaf_t} {i : Nat} {l : mleaf_t} (c : Int)
    (hl : leafs[i]? = some l) :
    (leafs.set i { l with visframe := c })[i]? = some { l with visframe := c } := by
  rw [List.getElem?_set]
  simp [lt_length_of_getElem? hl]

theorem MarkInv.validParents {vis : Int → Nat} {c : Int} {w0 w : model_t}
    (h : MarkInv vis c w0 w) (hv : ValidParents w0) : ValidParents w := by
  constructor
  · intro i l p hl hp
    obtain ⟨m, hm, _, hpar⟩ := h.leafShape.lookup_leaf hl
    rw [h.nodeShape.length_nodes]
    exact hv.1 i m p hm (hpar.trans hp)
  · intro j n p hn hp
    obtain ⟨m, hm, hpar⟩ := h.nodeShape.lookup_node hn
    rw [h.nodeShape.length_nodes]
    exact hv.2 j m p hm (hpar.trans hp)

/-- One iteration of the leaf loop keeps the invariant, keeps the stamps `c`
of the leaves, and stamps leaf `i` when its cluster is visible. -/
theorem markLeaf_spec {vis : Int → Nat} {c : Int} {w0 w w1 : model_t} {i : Nat}
    (hinv : MarkInv vis c w0 w) (h : markLeaf vis c w i = some w1) :
    MarkInv vis c w0 w1 ∧
    (∀ (j : Nat) (l : mleaf_t), w.leafs[j]? = some l → l.visframe = c →
      ∃ l1, w1.leafs[j]? = some l1 ∧ l1.visframe = c) ∧
    (∀ l : mleaf_t, w.leafs[i]? = some l → Visible vis l.cluster →
      ∃ l1, w1.leafs[i]? = some l1 ∧ l1.visframe = c) := by
  unfold markLeaf at h
  cases hl : w.leafs[i]? with
  | none => simp [hl] at h
  | some leaf =>
    simp only [hl] at h
    by_cases hc1 : leaf.cluster = -1
    · simp only [hc1, if_true] at h
      cases h
      refine ⟨hinv, fun j l hj hv => ⟨l, hj, hv⟩, ?_⟩
      intro l hl2 hvis
      cases hl2
      exact absurd hc1 hvis.1
    · simp only [hc1, if_false] at h
      by_cases hbit : pvsBit vis leaf.cluster = true
      · simp only [hbit, if_true] at h
        by_cases hst : leaf.visframe = c
        · simp only [hst, if_true] at h
          cases h
          refine ⟨hinv, fun j l hj hv => ⟨l, hj, hv⟩, ?_⟩
          intro l hl2 _
          cases hl2
          exact ⟨leaf, hl, hst⟩
        · simp only [hst, if_false] at h
          cases hmp : markParents c (w.nodes.length + 1) w.nodes leaf.parent with
          | none => simp [hmp] at h
          | some nodes1 =>
            simp only [hmp, Option.map_some', Option.some.injEq] at h
            subst h
            obtain ⟨hsp, hmono, honly, hptr, hcl⟩ := markParents_spec c _ _ _ _ hmp
            have hshape := set_leaf_shape c hl
            have hat := set_leaf_at c hl
            have hfr := markParents_frame c _ _ _ _ hmp
            refine ⟨⟨hinv.leafShape.trans_leafs hshape, hinv.nodeShape.trans_nodes hsp, ?_, ?_, ?_, ?_,
              hinv.visEq, ⟨?_, ?_⟩⟩, ?_, ?_⟩
            · exact hcl (fun p n q hn hv hp => Or.inr (hinv.closed p n q hn hv hp))
            · intro j l q hj hv hp
              by_cases hji : i = j
              · subst hji
                simp only [hat] at hj
                cases hj
                exact hptr q hp
              · simp only [List.getElem?_set_ne hji] at hj
                exact hmono q (hinv.leafClosed j l q hj hv hp)
            · intro j l hj hv
              by_cases hji : i = j
              · subst hji
                simp only [hat] at hj
                cases hj
                exact ⟨hc1, hbit⟩
              · simp only [List.getElem?_set_ne hji] at hj
                exact hinv.leafOnly j l hj hv
            · intro q hq
              rcases honly q hq with h1 | h1
              · exact hinv.nodeOnly q h1
              · obtain ⟨m, hm, hmc, hmp2⟩ := hinv.leafShape.lookup_leaf hl
                refine ⟨i, m, hm, ?_, ?_⟩
                · rw [hmc]; exact ⟨hc1, hbit⟩
                · rw [hmp2]; exact OnChain.transfer hinv.nodeShape h1
            · intro j l hj
              by_cases hji : i = j
              · subst hji
                simp only [hat] at hj
                cases hj
                exact le_refl _
              · simp only [List.getElem?_set_ne hji] at hj
                exact hinv.bound.1 j l hj
            · intro j n1 hj
              rcases hfr j n1 hj with h1 | h1
              · exact le_of_eq h1
              · exact hinv.bound.2 j n1 h1
            · intro j l hj hv
              by_cases hji : i = j
              · subst hji
                exact ⟨_, hat, rfl⟩
              · refine ⟨l, ?_, hv⟩
                simp only [List.getElem?_set_ne hji]
                exact hj
            · intro l _ _
              exact ⟨_, hat, rfl⟩
      · simp only [hbit] at h
        cases h
        refine ⟨hinv, fun j l hj hv => ⟨l, hj, hv⟩, ?_⟩
        intro l hl2 hvis
        cases hl2
        exact absurd hvis.2 hbit

/-- One iteration of the leaf loop always completes on a model with valid
parent pointers. -/
theorem markLeaf_terminates (vis : Int → Nat) (c : Int) {w : model_t} {i : Nat}
    (hv : ValidParents w) (hi : i < w.leafs.length) :
    ∃ w1, markLeaf vis c w i = some w1 := by
  unfold markLeaf
  have hl : w.leafs[i]? = some w.leafs[i] := List.getElem?_eq_getElem hi
  simp only [hl]
  by_cases hc1 : w.leafs[i].cluster = -1
  · exact ⟨w, by simp [hc1]⟩
  · by_cases hbit : pvsBit vis w.leafs[i].cluster = true
    · by_cases hst : w.leafs[i].visframe = c
      · exact ⟨w, by simp [hc1, hbit, hst]⟩
      · obtain ⟨nodes1, hn⟩ := markParents_terminates c (w.nodes.length + 1) w.nodes
          w.leafs[i].parent hv.2 (fun p hp => hv.1 i _ p hl hp)
          (Nat.lt_succ_of_le (List.countP_le_length _))
        simp only [hc1, hbit, hst, hn, if_true, if_false, Option.map_some']
        exact ⟨_, rfl⟩
    · exact ⟨w, by simp [hc1, hbit]⟩

theorem SameLeafShape.length_leafs {a b : List mleaf_t} (h : SameLeafShape a b) :
    b.length = a.length := by
  rcases Nat.lt_trichotomy b.length a.length with hlt | heq | hgt
  · have hp := h b.length
    rw [List.getElem?_eq_none (le_refl _), List.getElem?_eq_getElem hlt] at hp
    simp at hp
  · exact heq
  · have hp := h a.length
    rw [List.getElem?_eq_none (le_refl _), List.getElem?_eq_getElem hgt] at hp
    simp at hp

/-- The whole leaf loop completes, keeps the invariant and the stamps `c`,
and stamps every listed leaf whose cluster is visible. -/
theorem markLeafLoop_spec (vis : Int → Nat) (c : Int) (w0 : model_t)
    (hv0 : ValidParents w0) :
    ∀ (is : List Nat) (w : model_t), MarkInv vis c w0 w →
      (∀ i ∈ is, i < w0.leafs.length) →
      ∃ w1, markLeafLoop vis c is w = some w1 ∧ MarkInv vis c w0 w1 ∧
        (∀ (j : Nat) (l : mleaf_t), w.leafs[j]? = some l → l.visframe = c →
          ∃ l1, w1.leafs[j]? = some l1 ∧ l1.visframe = c) ∧
        (∀ i ∈ is, ∀ l : mleaf_t, w0.leafs[i]? = some l → Visible vis l.cluster →
          ∃ l1, w1.leafs[i]? = some l1 ∧ l1.visframe = c) := by
  intro is
  induction is with
  | nil =>
    intro w hinv _
    exact ⟨w, rfl, hinv, fun j l hj hs => ⟨l, hj, hs⟩, fun i hi => by cases hi⟩
  | cons i rest ih =>
    intro w hinv hlt
    have hi : i < w.leafs.length := by
      rw [hinv.leafShape.length_leafs]
      exact hlt i (List.mem_cons_self _ _)
    obtain ⟨w1, hw1⟩ := markLeaf_terminates vis c (hinv.validParents hv0) hi
    obtain ⟨hinv1, hmono1, hhere1⟩ := markLeaf_spec hinv hw1
    obtain ⟨w2, hw2, hinv2, hmono2, hrest2⟩ :=
      ih w1 hinv1 (fun k hk => hlt k (List.mem_cons_of_mem _ hk))
    refine ⟨w2, ?_, hinv2, ?_, ?_⟩
    · simp only [markLeafLoop, hw1]
      exact hw2
    · intro j l hj hs
      obtain ⟨l1, hl1, hs1⟩ := hmono1 j l hj hs
      exact hmono2 j l1 hl1 hs1
    · intro k hk l hl hvis
      rcases List.mem_cons.1 hk with hki | hkr
      · subst hki
        obtain ⟨m, hm, hmc, _⟩ := hinv.leafShape.symm_leafs.lookup_leaf hl
        obtain ⟨l1, hl1, hs1⟩ := hhere1 m hm (hmc ▸ hvis)
        exact hmono2 k l1 hl1 hs1
      · exact hrest2 k hkr l hl hvis

/-- The invariant holds at loop entry when no stamp has reached `c` yet. -/
theorem MarkInv.init (vis : Int → Nat) (c k : Int) (w0 : model_t)
    (hst : StampsLE w0 k) (hk : k < c) : MarkInv vis c w0 w0 := by
  refine ⟨SameLeafShape.refl_leafs _, SameParents.refl_nodes _, ?_, ?_, ?_, ?_, rfl, ⟨?_, ?_⟩⟩
  · intro p n q hn hv _
    have := hst.2 p n hn
    omega
  · intro i l q hl hv _
    have := hst.1 i l hl
    omega
  · intro i l hl hv
    have := hst.1 i l hl
    omega
  · rintro q ⟨n, hn, hv⟩
    have := hst.2 q n hn
    omega
  · intro i l hl
    have := hst.1 i l hl
    omega
  · intro j n hn
    have := hst.2 j n hn
    omega

theorem Closed.chain {c : Int} {nodes : List mnode_t} (hc : Closed c nodes)
    {ptr : Option Nat} {q : Nat} (h : OnChain nodes ptr q)
    (hptr : ∀ p, ptr = some p → stampedAt c nodes p) : stampedAt c nodes q := by
  induction h with
  | here p n _ => exact hptr p rfl
  | up p n q hn _ ih =>
    apply ih
    intro r hr
    obtain ⟨m, hm, hmv⟩ := hptr p rfl
    rw [hn] at hm
    cases hm
    exact hc p n r hn hmv hr

/-! ### SWR_MarkLeaves -/

/-- The PVS path of `SWR_MarkLeaves`: the call completes, bumps the frame
counter, records the view cluster, and the leaf loop establishes `MarkInv`
and stamps every leaf whose cluster is visible. -/
theorem SWR_MarkLeaves_pvs_path (pvs : Int → model_t → Int → Nat) (s : State)
    (hchg : s.r_refsoft_viewcluster ≠ s.r_refsoft_oldviewcluster)
    (hne : s.r_refsoft_viewcluster ≠ -1)
    (hnovis : s.r_novis = 0) (hlock : s.sw_lockpvs = 0)
    (hvis : s.r_refsoft_worldmodel.vis = true)
    (hval : ValidParents s.r_refsoft_worldmodel)
    (hst : StampsLE s.r_refsoft_worldmodel s.r_visframecount) :
    ∃ w1, SWR_MarkLeaves pvs s = some
        { s with
          r_visframecount := s.r_visframecount + 1
          r_refsoft_oldviewcluster := s.r_refsoft_viewcluster
          r_refsoft_worldmodel := w1 } ∧
      MarkInv (pvs s.r_refsoft_viewcluster s.r_refsoft_worldmodel) (s.r_visframecount + 1)
        s.r_refsoft_worldmodel w1 ∧
      (∀ (i : Nat) (l : mleaf_t), s.r_refsoft_worldmodel.leafs[i]? = some l →
        Visible (pvs s.r_refsoft_viewcluster s.r_refsoft_worldmodel) l.cluster →
        ∃ l1, w1.leafs[i]? = some l1 ∧ l1.visframe = s.r_visframecount + 1) := by
  obtain ⟨w1, hw1, hinv, _, hall⟩ :=
    markLeafLoop_spec (pvs s.r_refsoft_viewcluster s.r_refsoft_worldmodel)
      (s.r_visframecount + 1) s.r_refsoft_worldmodel hval
      (List.range s.r_refsoft_worldmodel.leafs.length) s.r_refsoft_worldmodel
      (MarkInv.init _ _ _ _ hst (by omega)) (fun i hi => List.mem_range.1 hi)
  refine ⟨w1, ?_, hinv, ?_⟩
  · unfold SWR_MarkLeaves
    have h1 : ¬ (s.r_refsoft_oldviewcluster = s.r_refsoft_viewcluster ∧ s.r_novis = 0
        ∧ s.r_refsoft_viewcluster ≠ -1) := fun h => hchg h.1.symm
    have h2 : ¬ (s.r_novis ≠ 0 ∨ s.r_refsoft_viewcluster = -1
        ∨ s.r_refsoft_worldmodel.vis = false) := by
      rintro (h | h | h)
      · exact h hnovis
      · exact hne h
      · rw [hvis] at h; cases h
    simp only [h1, if_false, hlock, ne_eq, not_true_eq_false, h2, hw1, Option.map_some']
  · intro i l hl hvisible
    exact hall i (List.mem_range.2 (lt_length_of_getElem? hl)) l hl hvisible

/-- C1. On a call of `SWR_MarkLeaves` that recomputes visibility from the PVS
(view cluster changed and not `-1`, `r_novis` and `sw_lockpvs` zero, visibility
data present), in a world with valid parent links where no stamp exceeds
`r_visframecount`: the call completes, and afterwards every leaf whose
cluster is visible in the view cluster's PVS row carries the new
`r_visframecount`, and so does every node on its parent chain up to the
root. (Parent links and clusters are those of the world before the call; the
tree shape is not needed for the result.) -/
theorem SWR_MarkLeaves_marks_visible (pvs : Int → model_t → Int → Nat) (s : State)
    (hchg : s.r_refsoft_viewcluster ≠ s.r_refsoft_oldviewcluster)
    (hne : s.r_refsoft_viewcluster ≠ -1)
    (hnovis : s.r_novis = 0) (hlock : s.sw_lockpvs = 0)
    (hvis : s.r_refsoft_worldmodel.vis = true)
    (hval : ValidParents s.r_refsoft_worldmodel)
    (hst : StampsLE s.r_refsoft_worldmodel s.r_visframecount) :
    ∃ s1, SWR_MarkLeaves pvs s = some s1 ∧
      s1.r_visframecount = s.r_visframecount + 1 ∧
      SameLeafShape s.r_refsoft_worldmodel.leafs s1.r_refsoft_worldmodel.leafs ∧
      SameParents s.r_refsoft_worldmodel.nodes s1.r_refsoft_worldmodel.nodes ∧
      ∀ (i : Nat) (l : mleaf_t), s1.r_refsoft_worldmodel.leafs[i]? = some l →
        Visible (pvs s.r_refsoft_viewcluster s.r_refsoft_worldmodel) l.cluster →
        l.visframe = s1.r_visframecount ∧
        ∀ q : Nat, OnChain s1.r_refsoft_worldmodel.nodes l.parent q →
          ∃ n, s1.r_refsoft_worldmodel.nodes[q]? = some n ∧
            n.visframe = s1.r_visframecount := by
  obtain ⟨w1, hw1, hinv, hall⟩ :=
    SWR_MarkLeaves_pvs_path pvs s hchg hne hnovis hlock hvis hval hst
  refine ⟨_, hw1, rfl, hinv.leafShape, hinv.nodeShape, ?_⟩
  intro i l hl hvisible
  obtain ⟨m, hm, hmc, _⟩ := hinv.leafShape.lookup_leaf hl
  obtain ⟨l1, hl1, hs1⟩ := hall i m hm (hmc ▸ hvisible)
  have hl' : w1.leafs[i]? = some l := hl
  rw [hl'] at hl1
  cases hl1
  refine ⟨hs1, ?_⟩
  intro q hq
  exact hinv.closed.chain hq (fun p hp => hinv.leafClosed i l p hl hs1 hp)

/-- The early return of line 475-476. -/
theorem SWR_MarkLeaves_noop_path (pvs : Int → model_t → Int → Nat) (s : State)
    (hsame : s.r_refsoft_oldviewcluster = s.r_refsoft_viewcluster)
    (hnovis : s.r_novis = 0) (hne : s.r_refsoft_viewcluster ≠ -1) :
    SWR_MarkLeaves pvs s = some s := by
  unfold SWR_MarkLeaves
  rw [if_pos ⟨hsame, hnovis, hne⟩]

/-- A call with visibility data, culling on, the lock off and a valid view
cluster completes and re-establishes what the next call needs: the view
cluster is recorded as the old one, parent links stay valid and no stamp
exceeds the counter. -/
theorem SWR_MarkLeaves_keeps (pvs : Int → model_t → Int → Nat) (s : State)
    (hne : s.r_refsoft_viewcluster ≠ -1)
    (hnovis : s.r_novis = 0) (hlock : s.sw_lockpvs = 0)
    (hvis : s.r_refsoft_worldmodel.vis = true)
    (hval : ValidParents s.r_refsoft_worldmodel)
    (hst : StampsLE s.r_refsoft_worldmodel s.r_visframecount) :
    ∃ s1, SWR_MarkLeaves pvs s = some s1 ∧
      s1.r_refsoft_oldviewcluster = s.r_refsoft_viewcluster ∧
      s1.r_refsoft_viewcluster = s.r_refsoft_viewcluster ∧
      s1.r_novis = 0 ∧ s1.sw_lockpvs = 0 ∧
      s1.r_refsoft_worldmodel.vis = true ∧
      ValidParents s1.r_refsoft_worldmodel ∧
      StampsLE s1.r_refsoft_worldmodel s1.r_visframecount := by
  by_cases hchg : s.r_refsoft_viewcluster = s.r_refsoft_oldviewcluster
  · exact ⟨s, SWR_MarkLeaves_noop_path pvs s hchg.symm hnovis hne, hchg.symm, rfl, hnovis,
      hlock, hvis, hval, hst⟩
  · obtain ⟨w1, hw1, hinv, _⟩ :=
      SWR_MarkLeaves_pvs_path pvs s hchg hne hnovis hlock hvis hval hst
    exact ⟨_, hw1, rfl, rfl, hnovis, hlock, hinv.visEq.trans hvis,
      hinv.validParents hval, hinv.bound⟩

/-- C2. On a call of `SWR_MarkLeaves` that recomputes visibility from the PVS
(same conditions as C1), a leaf carries the new `r_visframecount` only if its
cluster is not `-1` and its PVS bit is set, and a node carries it only if it
lies on the parent chain of such a leaf. In particular (second part), marking
with view cluster 3, row {3,5,9}, and then with view cluster 7, row {7,8},
leaves every cluster-5 leaf with a stamp different from `r_visframecount` and
every cluster-8 leaf with a stamp equal to it after the second call. -/
theorem SWR_MarkLeaves_marks_only_visible :
    (∀ (pvs : Int → model_t → Int → Nat) (s : State),
      s.r_refsoft_viewcluster ≠ s.r_refsoft_oldviewcluster →
      s.r_refsoft_viewcluster ≠ -1 →
      s.r_novis = 0 → s.sw_lockpvs = 0 →
      s.r_refsoft_worldmodel.vis = true →
      ValidParents s.r_refsoft_worldmodel →
      StampsLE s.r_refsoft_worldmodel s.r_visframecount →
      ∃ s1, SWR_MarkLeaves pvs s = some s1 ∧
        s1.r_visframecount = s.r_visframecount + 1 ∧
        (∀ (i : Nat) (l : mleaf_t), s1.r_refsoft_worldmodel.leafs[i]? = some l →
          l.visframe = s1.r_visframecount →
          Visible (pvs s.r_refsoft_viewcluster s.r_refsoft_worldmodel) l.cluster) ∧
        (∀ (q : Nat) (n : mnode_t), s1.r_refsoft_worldmodel.nodes[q]? = some n →
          n.visframe = s1.r_visframecount →
          ∃ (i : Nat) (l : mleaf_t), s1.r_refsoft_worldmodel.leafs[i]? = some l ∧
            Visible (pvs s.r_refsoft_viewcluster s.r_refsoft_worldmodel) l.cluster ∧
            OnChain s1.r_refsoft_worldmodel.nodes l.parent q)) ∧
    (∀ (pvs : Int → model_t → Int → Nat) (s : State),
      s.r_refsoft_viewcluster = 3 →
      s.r_novis = 0 → s.sw_lockpvs = 0 →
      s.r_refsoft_worldmodel.vis = true →
      ValidParents s.r_refsoft_worldmodel →
      StampsLE s.r_refsoft_worldmodel s.r_visframecount →
      (∀ (m : model_t) (c : Int), Visible (pvs 3 m) c ↔ (c = 3 ∨ c = 5 ∨ c = 9)) →
      (∀ (m : model_t) (c : Int), Visible (pvs 7 m) c ↔ (c = 7 ∨ c = 8)) →
      ∃ s1 s2, SWR_MarkLeaves pvs s = some s1 ∧
        SWR_MarkLeaves pvs { s1 with r_refsoft_viewcluster := 7 } = some s2 ∧
        SameLeafShape s.r_refsoft_worldmodel.leafs s2.r_refsoft_worldmodel.leafs ∧
        ∀ (i : Nat) (l : mleaf_t), s2.r_refsoft_worldmodel.leafs[i]? = some l →
          (l.cluster = 5 → l.visframe ≠ s2.r_visframecount) ∧
          (l.cluster = 8 → l.visframe = s2.r_visframecount)) := by
  constructor
  · intro pvs s hchg hne hnovis hlock hvis hval hst
    obtain ⟨w1, hw1, hinv, _⟩ :=
      SWR_MarkLeaves_pvs_path pvs s hchg hne hnovis hlock hvis hval hst
    refine ⟨_, hw1, rfl, ?_, ?_⟩
    · intro i l hl hs
      exact hinv.leafOnly i l hl hs
    · intro q n hn hs
      obtain ⟨i, l, hl, hvisible, hchain⟩ := hinv.nodeOnly q ⟨n, hn, hs⟩
      obtain ⟨m, hm, hmc, hmp⟩ := hinv.leafShape.symm_leafs.lookup_leaf hl
      exact ⟨i, m, hm, hmc ▸ hvisible, hmp ▸ OnChain.transfer hinv.nodeShape.symm_nodes hchain⟩
  · intro pvs s hview hnovis hlock hvis hval hst _ hrow7
    obtain ⟨s1, hs1, hold, hview1, hnovis1, hlock1, hvis1, hval1, hst1⟩ :=
      SWR_MarkLeaves_keeps pvs s (by rw [hview]; decide) hnovis hlock hvis hval hst
    obtain ⟨w2, hw2, hinv, hall⟩ :=
      SWR_MarkLeaves_pvs_path pvs { s1 with r_refsoft_viewcluster := 7 }
        (by show (7 : Int) ≠ s1.r_refsoft_oldviewcluster; rw [hold, hview]; decide)
        (by show (7 : Int) ≠ -1; decide) hnovis1 hlock1 hvis1 hval1 hst1
    have hshape1 : SameLeafShape s.r_refsoft_worldmodel.leafs s1.r_refsoft_worldmodel.leafs := by
      by_cases hchg : s.r_refsoft_viewcluster = s.r_refsoft_oldviewcluster
      · have : SWR_MarkLeaves pvs s = some s :=
          SWR_MarkLeaves_noop_path pvs s hchg.symm hnovis (by rw [hview]; decide)
        rw [this] at hs1
        cases hs1
        exact SameLeafShape.refl_leafs _
      · obtain ⟨w1, hw1, hinv1, _⟩ :=
          SWR_MarkLeaves_pvs_path pvs s hchg (by rw [hview]; decide) hnovis hlock hvis hval hst
        rw [hw1] at hs1
        cases hs1
        exact hinv1.leafShape
    refine ⟨s1, _, hs1, hw2, hshape1.trans_leafs hinv.leafShape, ?_⟩
    intro i l hl
    constructor
    · intro hc5 hs
      have hv := hinv.leafOnly i l hl hs
      rw [hc5] at hv
      have := (hrow7 s1.r_refsoft_worldmodel 5).1 hv
      omega
    · intro hc8
      obtain ⟨m, hm, hmc, _⟩ := hinv.leafShape.lookup_leaf hl
      have hv : Visible (pvs 7 s1.r_refsoft_worldmodel) m.cluster := by
        rw [hmc, hc8]
        exact (hrow7 s1.r_refsoft_worldmodel 8).2 (Or.inr rfl)
      obtain ⟨l1, hl1, hstamp⟩ := hall i m hm hv
      have hl' : w2.leafs[i]? = some l := hl
      rw [hl'] at hl1
      cases hl1
      exact hstamp

/-- The "mark everything" loops keep the shape of both arrays and leave
every leaf and every node stamped `c`. -/
theorem markEverything_spec (c : Int) (w : model_t) :
    SameLeafShape w.leafs (markEverything c w).leafs ∧
    SameParents w.nodes (markEverything c w).nodes ∧
    (∀ (i : Nat) (l : mleaf_t), (markEverything c w).leafs[i]? = some l → l.visframe = c) ∧
    (∀ (j : Nat) (n : mnode_t), (markEverything c w).nodes[j]? = some n → n.visframe = c) := by
  refine ⟨?_, ?_, ?_, ?_⟩
  · intro i
    simp only [markEverything, List.getElem?_map, Option.map_map]
    rfl
  · intro j
    simp only [markEverything, List.getElem?_map, Option.map_map]
    rfl
  · intro i l hl
    simp only [markEverything, List.getElem?_map] at hl
    cases hw : w.leafs[i]? with
    | none => rw [hw] at hl; cases hl
    | some l0 => rw [hw] at hl; cases hl; rfl
  · intro j n hn
    simp only [markEverything, List.getElem?_map] at hn
    cases hw : w.nodes[j]? with
    | none => rw [hw] at hn; cases hn
    | some n0 => rw [hw] at hn; cases hn; rfl

/-- The "mark everything" path of `SWR_MarkLeaves` (lines 483-494): taken
whenever the two early returns are not and one of the three fallback
conditions holds. The PVS lookup plays no part in the result. -/
theorem SWR_MarkLeaves_everything_path (pvs : Int → model_t → Int → Nat) (s : State)
    (hgo : ¬ (s.r_refsoft_oldviewcluster = s.r_refsoft_viewcluster ∧ s.r_novis = 0
      ∧ s.r_refsoft_viewcluster ≠ -1))
    (hlock : s.sw_lockpvs = 0)
    (hall : s.r_novis ≠ 0 ∨ s.r_refsoft_viewcluster = -1
      ∨ s.r_refsoft_worldmodel.vis = false) :
    SWR_MarkLeaves pvs s = some
      { s with
        r_visframecount := s.r_visframecount + 1
        r_refsoft_oldviewcluster := s.r_refsoft_viewcluster
        r_refsoft_worldmodel := markEverything (s.r_visframecount + 1) s.r_refsoft_worldmodel } := by
  unfold SWR_MarkLeaves
  rw [if_neg hgo, if_neg (not_not.2 hlock)]
  simp only [if_pos hall]

/-- The early return of the PVS lock (lines 480-481). -/
theorem SWR_MarkLeaves_lock_path (pvs : Int → model_t → Int → Nat) (s : State)
    (hlock : s.sw_lockpvs ≠ 0) : SWR_MarkLeaves pvs s = some s := by
  unfold SWR_MarkLeaves
  by_cases hgo : s.r_refsoft_oldviewcluster = s.r_refsoft_viewcluster ∧ s.r_novis = 0
      ∧ s.r_refsoft_viewcluster ≠ -1
  · rw [if_pos hgo]
  · rw [if_neg hgo, if_pos hlock]

/-- C3, as stated, fails: with the camera outside the world on two
consecutive frames (view cluster = old view cluster = -1, `r_novis` off, lock
off) the call is not a no-op; it bumps `r_visframecount` from 0 to 1 and
restamps the world. -/
theorem SWR_MarkLeaves_same_cluster_counterexample :
    voidState.r_refsoft_viewcluster = voidState.r_refsoft_oldviewcluster ∧
    voidState.r_novis = 0 ∧
    SWR_MarkLeaves examplePVS voidState ≠ some voidState ∧
    SWR_MarkLeaves examplePVS voidState = some
      { voidState with
        r_visframecount := 1
        r_refsoft_worldmodel := markEverything 1 exampleWorld } := by
  refine ⟨rfl, rfl, ?_, ?_⟩
  · rw [SWR_MarkLeaves_everything_path examplePVS voidState (by decide) rfl (Or.inr (Or.inl rfl))]
    decide
  · rw [SWR_MarkLeaves_everything_path examplePVS voidState (by decide) rfl (Or.inr (Or.inl rfl))]
    rfl

/-- C3 (amended). When the view cluster equals the old view cluster, is not
`-1`, and `r_novis` is off, `SWR_MarkLeaves` is a no-op: the whole state
(`r_visframecount`, the old view cluster, every leaf and node stamp) is
returned unchanged. -/
theorem SWR_MarkLeaves_same_cluster_noop (pvs : Int → model_t → Int → Nat) (s : State)
    (hsame : s.r_refsoft_viewcluster = s.r_refsoft_oldviewcluster)
    (hne : s.r_refsoft_viewcluster ≠ -1)
    (hnovis : s.r_novis = 0) :
    SWR_MarkLeaves pvs s = some s :=
  SWR_MarkLeaves_noop_path pvs s hsame.symm hnovis hne

/-- Witness of C3 (amended) on `sameClusterState`. -/
theorem SWR_MarkLeaves_same_cluster_noop_witness :
    (sameClusterState.r_refsoft_viewcluster = sameClusterState.r_refsoft_oldviewcluster ∧
      sameClusterState.r_refsoft_viewcluster ≠ -1 ∧ sameClusterState.r_novis = 0) ∧
    SWR_MarkLeaves examplePVS sameClusterState = some sameClusterState :=
  ⟨⟨rfl, by decide, rfl⟩,
    SWR_MarkLeaves_same_cluster_noop examplePVS sameClusterState rfl (by decide) rfl⟩

/-- C4, as stated, fails: with `r_novis` and `sw_lockpvs` both non-zero the
call returns at the lock without marking; the counter stays at 5 and leaf 0
keeps the stamp 0. -/
theorem SWR_MarkLeaves_novis_counterexample :
    lockedNovisState.r_novis ≠ 0 ∧
    SWR_MarkLeaves examplePVS lockedNovisState = some lockedNovisState ∧
    lockedNovisState.r_visframecount = 5 ∧
    lockedNovisState.r_refsoft_worldmodel.leafs[0]? = some ⟨3, 0, some 1⟩ ∧
    lockedNovisState.r_refsoft_worldmodel.nodes[0]? = some ⟨0, none⟩ :=
  ⟨by decide, SWR_MarkLeaves_lock_path examplePVS lockedNovisState (by decide), rfl, rfl, rfl⟩

/-- C4 (amended). When `r_novis` is non-zero and the PVS lock `sw_lockpvs` is
off, `SWR_MarkLeaves` completes and afterwards every leaf and every node of
the world model (same arrays, same clusters and parent links) has `visframe`
equal to `r_visframecount`, whatever the view cluster, the old view cluster
and the presence of visibility data. -/
theorem SWR_MarkLeaves_novis_marks_all (pvs : Int → model_t → Int → Nat) (s : State)
    (hnovis : s.r_novis ≠ 0) (hlock : s.sw_lockpvs = 0) :
    ∃ s1, SWR_MarkLeaves pvs s = some s1 ∧
      SameLeafShape s.r_refsoft_worldmodel.leafs s1.r_refsoft_worldmodel.leafs ∧
      SameParents s.r_refsoft_worldmodel.nodes s1.r_refsoft_worldmodel.nodes ∧
      (∀ (i : Nat) (l : mleaf_t), s1.r_refsoft_worldmodel.leafs[i]? = some l →
        l.visframe = s1.r_visframecount) ∧
      (∀ (j : Nat) (n : mnode_t), s1.r_refsoft_worldmodel.nodes[j]? = some n →
        n.visframe = s1.r_visframecount) := by
  obtain ⟨h1, h2, h3, h4⟩ := markEverything_spec (s.r_visframecount + 1) s.r_refsoft_worldmodel
  exact ⟨_, SWR_MarkLeaves_everything_path pvs s (fun h => hnovis h.2.1) hlock (Or.inl hnovis),
    h1, h2, h3, h4⟩

/-- Witness of C4 (amended) on `novisState`. -/
theorem SWR_MarkLeaves_novis_marks_all_witness :
    (novisState.r_novis ≠ 0 ∧ novisState.sw_lockpvs = 0) ∧
    ∃ s1, SWR_MarkLeaves examplePVS novisState = some s1 ∧
      SameLeafShape novisState.r_refsoft_worldmodel.leafs s1.r_refsoft_worldmodel.leafs ∧
      SameParents novisState.r_refsoft_worldmodel.nodes s1.r_refsoft_worldmodel.nodes ∧
      (∀ (i : Nat) (l : mleaf_t), s1.r_refsoft_worldmodel.leafs[i]? = some l →
        l.visframe = s1.r_visframecount) ∧
      (∀ (j : Nat) (n : mnode_t), s1.r_refsoft_worldmodel.nodes[j]? = some n →
        n.visframe = s1.r_visframecount) :=
  ⟨⟨by decide, rfl⟩, SWR_MarkLeaves_novis_marks_all examplePVS novisState (by decide) rfl⟩

/-- C5. With the PVS lock off, if the view cluster is `-1`, or if the world
model has no visibility data and the view cluster differs from the old one,
then `SWR_MarkLeaves` completes, increments `r_visframecount`, and afterwards
every leaf and every node of the world model has `visframe` equal to the
incremented counter; the result is the same state `s1` for every PVS lookup
function, i.e. no PVS row is consulted. -/
theorem SWR_MarkLeaves_fallback_marks_all (s : State)
    (hlock : s.sw_lockpvs = 0)
    (hcase : s.r_refsoft_viewcluster = -1 ∨
      (s.r_refsoft_worldmodel.vis = false ∧
        s.r_refsoft_viewcluster ≠ s.r_refsoft_oldviewcluster)) :
    ∃ s1, (∀ pvs : Int → model_t → Int → Nat, SWR_MarkLeaves pvs s = some s1) ∧
      s1.r_visframecount = s.r_visframecount + 1 ∧
      SameLeafShape s.r_refsoft_worldmodel.leafs s1.r_refsoft_worldmodel.leafs ∧
      SameParents s.r_refsoft_worldmodel.nodes s1.r_refsoft_worldmodel.nodes ∧
      (∀ (i : Nat) (l : mleaf_t), s1.r_refsoft_worldmodel.leafs[i]? = some l →
        l.visframe = s1.r_visframecount) ∧
      (∀ (j : Nat) (n : mnode_t), s1.r_refsoft_worldmodel.nodes[j]? = some n →
        n.visframe = s1.r_visframecount) := by
  obtain ⟨h1, h2, h3, h4⟩ := markEverything_spec (s.r_visframecount + 1) s.r_refsoft_worldmodel
  refine ⟨_, fun pvs => SWR_MarkLeaves_everything_path pvs s ?_ hlock ?_, rfl, h1, h2, h3, h4⟩
  · rintro ⟨hsame, _, hne⟩
    rcases hcase with h | ⟨_, h⟩
    · exact hne h
    · exact h hsame.symm
  · rcases hcase with h | ⟨h, _⟩
    · exact Or.inr (Or.inl h)
    · exact Or.inr (Or.inr h)

/-- Witness of C5 on `voidState` (view cluster -1, lock off). -/
theorem SWR_MarkLeaves_fallback_marks_all_witness :
    (voidState.sw_lockpvs = 0 ∧ voidState.r_refsoft_viewcluster = -1) ∧
    ∃ s1, (∀ pvs : Int → model_t → Int → Nat, SWR_MarkLeaves pvs voidState = some s1) ∧
      s1.r_visframecount = voidState.r_visframecount + 1 ∧
      SameLeafShape voidState.r_refsoft_worldmodel.leafs s1.r_refsoft_worldmodel.leafs ∧
      SameParents voidState.r_refsoft_worldmodel.nodes s1.r_refsoft_worldmodel.nodes ∧
      (∀ (i : Nat) (l : mleaf_t), s1.r_refsoft_worldmodel.leafs[i]? = some l →
        l.visframe = s1.r_visframecount) ∧
      (∀ (j : Nat) (n : mnode_t), s1.r_refsoft_worldmodel.nodes[j]? = some n →
        n.visframe = s1.r_visframecount) :=
  ⟨⟨rfl, rfl⟩, SWR_MarkLeaves_fallback_marks_all voidState rfl (Or.inl rfl)⟩

/-! ### Gamma table and palette -/

theorem forLoop_succ {σ : Type} (n : Nat) (body : Nat → σ → σ) (s : σ) :
    forLoop (n + 1) body s = body n (forLoop n body s) := by
  simp [forLoop, List.range_succ, List.foldl_append]

theorem forLoop_zero {σ : Type} (body : Nat → σ → σ) (s : σ) : forLoop 0 body s = s := rfl

/-- A loop that stores `f i` at index `i` of the gamma table, for `i < n`. -/
theorem gammaLoop_spec (f : Nat → Nat) (st : swstate_t) :
    ∀ n : Nat,
      (forLoop n (fun i st => { st with gammatable := setByte st.gammatable i (f i) })
        st).currentpalette = st.currentpalette ∧
      ∀ k : Nat,
        (forLoop n (fun i st => { st with gammatable := setByte st.gammatable i (f i) })
          st).gammatable k = if k < n then f k else st.gammatable k := by
  intro n
  induction n with
  | zero => exact ⟨rfl, fun k => by simp [forLoop_zero]⟩
  | succ n ih =>
    rw [forLoop_succ]
    refine ⟨ih.1, fun k => ?_⟩
    simp only [setByte]
    by_cases hk : k = n
    · subst hk
      simp
    · rw [if_neg hk, ih.2 k]
      by_cases hlt : k < n
      · simp [hlt, Nat.lt_succ_of_lt hlt]
      · have : ¬ k < n + 1 := by omega
        simp [hlt, this]

/-- The loop of `R_GammaCorrectAndSetPalette` after `n` entries: the gamma
table is untouched, bytes `4i+0..2` of the first `n` entries are the
gamma-corrected source bytes, every other byte is unchanged. -/
theorem gammaCorrectLoop_spec (palette : Nat → Nat) (st : swstate_t) :
    ∀ n : Nat,
      (forLoop n (gammaCorrectEntry palette) st).gammatable = st.gammatable ∧
      ∀ k : Nat,
        (forLoop n (gammaCorrectEntry palette) st).currentpalette k =
          if k < 4 * n ∧ k % 4 ≠ 3 then st.gammatable (palette k) else st.currentpalette k := by
  intro n
  induction n with
  | zero => exact ⟨rfl, fun k => by simp [forLoop_zero]⟩
  | succ n ih =>
    rw [forLoop_succ]
    refine ⟨ih.1, fun k => ?_⟩
    simp only [gammaCorrectEntry, setByte, ih.1, ih.2 k]
    by_cases h2 : k = n * 4 + 2
    · subst h2
      have : n * 4 + 2 < 4 * (n + 1) ∧ (n * 4 + 2) % 4 ≠ 3 := by omega
      simp [this]
    · by_cases h1 : k = n * 4 + 1
      · subst h1
        have : n * 4 + 1 < 4 * (n + 1) ∧ (n * 4 + 1) % 4 ≠ 3 := by omega
        simp [this]
      · by_cases h0 : k = n * 4 + 0
        · subst h0
          have : n * 4 < 4 * (n + 1) := by omega
          simp [this]
        · rw [if_neg h2, if_neg h1, if_neg h0]
          have : (k < 4 * (n + 1) ∧ k % 4 ≠ 3) ↔ (k < 4 * n ∧ k % 4 ≠ 3) := by
            simp only [Nat.add_zero] at h0
            omega
          simp only [this]

theorem R_GammaCorrectAndSetPalette_apply (palette : Nat → Nat) (s : PaletteState) (k : Nat) :
    (R_GammaCorrectAndSetPalette palette s).sw_state.currentpalette k =
      if k < 1024 ∧ k % 4 ≠ 3 then s.sw_state.gammatable (palette k)
      else s.sw_state.currentpalette k := by
  simp only [R_GammaCorrectAndSetPalette]
  rw [(gammaCorrectLoop_spec palette s.sw_state 256).2 k]

theorem R_GammaCorrectAndSetPalette_gammatable (palette : Nat → Nat) (s : PaletteState) :
    (R_GammaCorrectAndSetPalette palette s).sw_state.gammatable = s.sw_state.gammatable := by
  simp only [R_GammaCorrectAndSetPalette]
  exact (gammaCorrectLoop_spec palette s.sw_state 256).1

theorem toByte_of_lt (i : Nat) (h : i < 256) : toByte (i : Int) = i := by
  unfold toByte
  omega

/-- The clamped value lies in `0..255`. -/
theorem gammaEntry_range (pow : ℚ → ℚ → ℚ) (g : ℚ) (i : Nat) :
    0 ≤ gammaEntry pow g i ∧ gammaEntry pow g i ≤ 255 := by
  simp only [gammaEntry]
  split_ifs <;> omega

/-- Truncation commutes with the clamp to `[0, 255]`: the code truncates first
and clamps the integer, the spec clamps first and truncates. -/
theorem gammaEntry_eq_spec (pow : ℚ → ℚ → ℚ) (g : ℚ) (i : Nat) :
    gammaEntry pow g i = specGammaEntry pow g i := by
  simp only [gammaEntry, specGammaEntry, clamp, truncToInt]
  generalize 255 * pow (((i : ℚ) + 0.5) / 255.5) g + 0.5 = x
  have hmax : (0 : ℚ) ≤ max 0 (min x 255) := le_max_left _ _
  rw [if_pos hmax]
  by_cases hx0 : 0 ≤ x
  · rw [if_pos hx0]
    have hfl0 : (0 : Int) ≤ ⌊x⌋ := Int.floor_nonneg.2 hx0
    rw [if_neg (not_lt.2 hfl0)]
    by_cases hx : x ≤ 255
    · rw [min_eq_left hx, max_eq_right hx0]
      have : ⌊x⌋ ≤ 255 := by
        have h := Int.floor_le x
        have : (⌊x⌋ : ℚ) ≤ 255 := le_trans h hx
        exact_mod_cast this
      rw [if_neg (not_lt.2 this)]
    · have hx' : (255 : ℚ) ≤ x := le_of_lt (not_le.1 hx)
      rw [min_eq_right hx', max_eq_right (by norm_num)]
      have h255 : ⌊(255 : ℚ)⌋ = 255 := by
        simp
      rw [h255]
      have hge : (255 : Int) ≤ ⌊x⌋ := by
        rw [← h255]
        exact Int.floor_mono hx'
      by_cases hgt : ⌊x⌋ > 255
      · rw [if_pos hgt]
      · rw [if_neg hgt]
        omega
  · rw [if_neg hx0]
    have hxlt : x < 0 := not_le.1 hx0
    have hmin : min x 255 = x := min_eq_left (le_trans (le_of_lt hxlt) (by norm_num))
    rw [hmin, max_eq_left (le_of_lt hxlt)]
    have hceil : ⌈x⌉ ≤ 0 := by
      have := Int.ceil_mono (le_of_lt hxlt)
      simpa using this
    simp only [Int.floor_zero]
    by_cases hc : ⌈x⌉ < 0
    · rw [if_pos hc]
      simp
    · rw [if_neg hc]
      have : ⌈x⌉ = 0 := by omega
      rw [this]
      simp

/-- What `Draw_BuildGammaTable` leaves behind: the palette is untouched and
each of the 256 entries holds a byte determined by `pow`, the gamma value and
the index alone. -/
theorem Draw_BuildGammaTable_apply (pow : ℚ → ℚ → ℚ) (g : ℚ) (st : swstate_t) :
    (Draw_BuildGammaTable pow g st).currentpalette = st.currentpalette ∧
    ∀ k : Nat, (Draw_BuildGammaTable pow g st).gammatable k =
      if k < 256 then (if g = 1.0 then toByte (k : Int) else toByte (gammaEntry pow g k))
      else st.gammatable k := by
  unfold Draw_BuildGammaTable
  by_cases hg : g = 1.0
  · simp only [hg, if_true]
    exact gammaLoop_spec (fun i => toByte (i : Int)) st 256
  · simp only [hg, if_false]
    exact gammaLoop_spec (fun i => toByte (gammaEntry pow g i)) st 256

theorem swstate_t.ext_ (a b : swstate_t) (h1 : a.gammatable = b.gammatable)
    (h2 : a.currentpalette = b.currentpalette) : a = b := by
  cases a
  cases b
  simp only at h1 h2
  rw [h1, h2]

/-- C6. When `vid_gamma` is exactly 1.0, `Draw_BuildGammaTable` produces the
identity table: `sw_state.gammatable[i] = i` for every `i` in `0..255`,
whatever the table held before. -/
theorem Draw_BuildGammaTable_identity (pow : ℚ → ℚ → ℚ) (vid_gamma : ℚ) (st : swstate_t)
    (hg : vid_gamma = 1.0) (i : Nat) (hi : i < 256) :
    (Draw_BuildGammaTable pow vid_gamma st).gammatable i = i := by
  rw [(Draw_BuildGammaTable_apply pow vid_gamma st).2 i, if_pos hi, if_pos hg]
  exact toByte_of_lt i hi

/-- Witness of C6: entry 200 of the table built for gamma 1.0 over
`exampleSwState`. -/
theorem Draw_BuildGammaTable_identity_witness :
    ((1 : ℚ) = 1.0 ∧ 200 < 256) ∧
    (Draw_BuildGammaTable examplePow 1 exampleSwState).gammatable 200 = 200 :=
  ⟨⟨by norm_num, by decide⟩,
    Draw_BuildGammaTable_identity examplePow 1 exampleSwState (by norm_num) 200 (by decide)⟩

/-- C7. `Draw_BuildGammaTable` is idempotent for a fixed gamma value: running
it twice gives the same state as running it once, and the 256 entries it
produces do not depend on the previous content of the table (they are the
same from any two prior states). -/
theorem Draw_BuildGammaTable_idempotent (pow : ℚ → ℚ → ℚ) (vid_gamma : ℚ) :
    (∀ st : swstate_t,
      Draw_BuildGammaTable pow vid_gamma (Draw_BuildGammaTable pow vid_gamma st) =
        Draw_BuildGammaTable pow vid_gamma st) ∧
    (∀ (st st1 : swstate_t) (i : Nat), i < 256 →
      (Draw_BuildGammaTable pow vid_gamma st).gammatable i =
        (Draw_BuildGammaTable pow vid_gamma st1).gammatable i) := by
  constructor
  · intro st
    apply swstate_t.ext_
    · funext k
      rw [(Draw_BuildGammaTable_apply pow vid_gamma _).2 k]
      by_cases hk : k < 256
      · rw [if_pos hk, (Draw_BuildGammaTable_apply pow vid_gamma st).2 k, if_pos hk]
      · rw [if_neg hk]
    · exact (Draw_BuildGammaTable_apply pow vid_gamma _).1
  · intro st st1 i hi
    rw [(Draw_BuildGammaTable_apply pow vid_gamma st).2 i,
      (Draw_BuildGammaTable_apply pow vid_gamma st1).2 i, if_pos hi, if_pos hi]

/-- Witness of C7: for gamma 2, entry 17 is the same from `exampleSwState` and
from `otherSwState`. -/
theorem Draw_BuildGammaTable_idempotent_witness :
    17 < 256 ∧
    (Draw_BuildGammaTable examplePow 2 exampleSwState).gammatable 17 =
      (Draw_BuildGammaTable examplePow 2 otherSwState).gammatable 17 :=
  ⟨by decide,
    (Draw_BuildGammaTable_idempotent examplePow 2).2 exampleSwState otherSwState 17
      (by decide)⟩

/-- C8. When `vid_gamma` is not 1.0, `Draw_BuildGammaTable` sets every entry
`i` in `0..255` to `clamp(255 * ((i+0.5)/255.5)^gamma + 0.5, 0, 255)` converted
to an integer, so every entry of the table lies in `0..255`. -/
theorem Draw_BuildGammaTable_formula (pow : ℚ → ℚ → ℚ) (vid_gamma : ℚ) (st : swstate_t)
    (hg : vid_gamma ≠ 1.0) (i : Nat) (hi : i < 256) :
    ((Draw_BuildGammaTable pow vid_gamma st).gammatable i : Int) =
        specGammaEntry pow vid_gamma i ∧
      (Draw_BuildGammaTable pow vid_gamma st).gammatable i ≤ 255 := by
  rw [(Draw_BuildGammaTable_apply pow vid_gamma st).2 i, if_pos hi, if_neg hg]
  have hr := gammaEntry_range pow vid_gamma i
  have hs := gammaEntry_eq_spec pow vid_gamma i
  unfold toByte
  constructor
  · rw [← hs]
    omega
  · omega

/-- Witness of C8: entry 17 for gamma 2 from `exampleSwState`. -/
theorem Draw_BuildGammaTable_formula_witness :
    ((2 : ℚ) ≠ 1.0 ∧ 17 < 256) ∧
    ((Draw_BuildGammaTable examplePow 2 exampleSwState).gammatable 17 : Int) =
        specGammaEntry examplePow 2 17 ∧
      (Draw_BuildGammaTable examplePow 2 exampleSwState).gammatable 17 ≤ 255 :=
  ⟨⟨by norm_num, by decide⟩,
    Draw_BuildGammaTable_formula examplePow 2 exampleSwState (by norm_num) 17 (by decide)⟩

/-- C9. After `R_GammaCorrectAndSetPalette(p)`, for every entry `i` in
`0..255` and every colour channel `c` in `0..2`,
`sw_state.currentpalette[4i+c] = sw_state.gammatable[p[4i+c]]` (the gamma
table itself is not changed by the call), and exactly one call of
`SWimp_SetPalette` is added, receiving this fully rebuilt palette. -/
theorem R_GammaCorrectAndSetPalette_displayed (p : Nat → Nat) (s : PaletteState) :
    (∀ i c : Nat, i < 256 → c < 3 →
      (R_GammaCorrectAndSetPalette p s).sw_state.currentpalette (i*4+c) =
        (R_GammaCorrectAndSetPalette p s).sw_state.gammatable (p (i*4+c))) ∧
    (R_GammaCorrectAndSetPalette p s).sw_state.gammatable = s.sw_state.gammatable ∧
    (R_GammaCorrectAndSetPalette p s).setPaletteCalls =
      s.setPaletteCalls ++ [(R_GammaCorrectAndSetPalette p s).sw_state.currentpalette] := by
  refine ⟨?_, R_GammaCorrectAndSetPalette_gammatable p s, rfl⟩
  intro i c hi hc
  rw [R_GammaCorrectAndSetPalette_apply, R_GammaCorrectAndSetPalette_gammatable]
  have : i * 4 + c < 1024 ∧ (i * 4 + c) % 4 ≠ 3 := by omega
  rw [if_pos this]

/-- Witness of C9: entry 255, channel 2, on `examplePalette` and
`examplePaletteState`. -/
theorem R_GammaCorrectAndSetPalette_displayed_witness :
    (255 < 256 ∧ 2 < 3) ∧
    (R_GammaCorrectAndSetPalette examplePalette examplePaletteState).sw_state.currentpalette
        (255*4+2) =
      (R_GammaCorrectAndSetPalette examplePalette examplePaletteState).sw_state.gammatable
        (examplePalette (255*4+2)) :=
  ⟨⟨by decide, by decide⟩,
    (R_GammaCorrectAndSetPalette_displayed examplePalette examplePaletteState).1 255 2
      (by decide) (by decide)⟩

/-- The blending path of `R_CalcPalette` (alpha > 0): the flag `modified` is
set and some blended palette is gamma-corrected and displayed. -/
theorem R_CalcPalette_blend_path (toFloat : ℚ → ℚ)
    (blend : Nat → ℚ) (d_refsoft_8to24table : Nat → Nat)
    (s : PaletteState) (h : 0 < blend 3) :
    ∃ pal, R_CalcPalette toFloat blend d_refsoft_8to24table s =
      R_GammaCorrectAndSetPalette pal { s with modified := true } := by
  unfold R_CalcPalette
  simp only [if_neg (not_le.2 h)]
  exact ⟨_, rfl⟩

/-- The restoring path of `R_CalcPalette` (alpha <= 0 with `modified` set):
the flag is cleared and the source palette is gamma-corrected and displayed. -/
theorem R_CalcPalette_restore_path (toFloat : ℚ → ℚ)
    (blend : Nat → ℚ) (d_refsoft_8to24table : Nat → Nat)
    (s : PaletteState) (h : blend 3 ≤ 0) (hm : s.modified = true) :
    R_CalcPalette toFloat blend d_refsoft_8to24table s =
      R_GammaCorrectAndSetPalette d_refsoft_8to24table { s with modified := false } := by
  unfold R_CalcPalette
  simp only [if_pos h, hm, if_true]

/-- C10. Blend-flash round trip: for every source palette, gamma table, prior
state and blend colours, and whatever the rounding of the `float` arithmetic
of the blend, a call of `R_CalcPalette` with blend alpha > 0
followed by a call with blend alpha <= 0 leaves `sw_state.currentpalette`
equal, byte for byte, to the palette that `R_GammaCorrectAndSetPalette`
produces from the unblended source palette. -/
theorem R_CalcPalette_round_trip (toFloat : ℚ → ℚ)
    (blend1 blend2 : Nat → ℚ) (d_refsoft_8to24table : Nat → Nat)
    (s : PaletteState) (h1 : 0 < blend1 3) (h2 : blend2 3 ≤ 0) :
    (R_CalcPalette toFloat blend2 d_refsoft_8to24table
        (R_CalcPalette toFloat blend1 d_refsoft_8to24table s)).sw_state.currentpalette =
      (R_GammaCorrectAndSetPalette d_refsoft_8to24table s).sw_state.currentpalette := by
  obtain ⟨pal, hpal⟩ := R_CalcPalette_blend_path toFloat blend1 d_refsoft_8to24table s h1
  rw [hpal, R_CalcPalette_restore_path toFloat blend2 d_refsoft_8to24table _ h2 rfl]
  funext k
  rw [R_GammaCorrectAndSetPalette_apply d_refsoft_8to24table s k,
    R_GammaCorrectAndSetPalette_apply d_refsoft_8to24table _ k]
  by_cases hk : k < 1024 ∧ k % 4 ≠ 3
  · simp only [if_pos hk]
    exact congrFun (R_GammaCorrectAndSetPalette_gammatable pal _) _
  · simp only [if_neg hk]
    have := R_GammaCorrectAndSetPalette_apply pal { s with modified := true } k
    rw [if_neg hk] at this
    exact this

/-- Witness of C10: a half-strength red flash (`exampleBlend`) followed by a
frame without blend (`noBlend`), over `examplePalette` and
`examplePaletteState`. -/
theorem R_CalcPalette_round_trip_witness :
    (0 < exampleBlend 3 ∧ noBlend 3 ≤ 0) ∧
    (R_CalcPalette float32 noBlend examplePalette
        (R_CalcPalette float32 exampleBlend examplePalette examplePaletteState)).sw_state.currentpalette =
      (R_GammaCorrectAndSetPalette examplePalette examplePaletteState).sw_state.currentpalette :=
  ⟨⟨by norm_num [exampleBlend], by norm_num [noBlend]⟩,
    R_CalcPalette_round_trip float32 exampleBlend noBlend examplePalette examplePaletteState
      (by norm_num [exampleBlend]) (by norm_num [noBlend])⟩

/-! ### Facts about the sample inputs -/

theorem validParents_of_check (w : model_t) (h : validParentsCheck w = true) :
    ValidParents w := by
  unfold validParentsCheck at h
  rw [Bool.and_eq_true, List.all_eq_true, List.all_eq_true] at h
  constructor
  · intro i l p hl hp
    have := h.1 l (List.getElem?_mem hl)
    simpa [hp] using this
  · intro j n p hn hp
    have := h.2 n (List.getElem?_mem hn)
    simpa [hp] using this

theorem stampsLE_of_check (w : model_t) (c : Int) (h : stampsLECheck w c = true) :
    StampsLE w c := by
  unfold stampsLECheck at h
  rw [Bool.and_eq_true, List.all_eq_true, List.all_eq_true] at h
  constructor
  · intro i l hl
    simpa using h.1 l (List.getElem?_mem hl)
  · intro j n hn
    simpa using h.2 n (List.getElem?_mem hn)

theorem examplePVS_row3 (m : model_t) (c : Int) :
    Visible (examplePVS 3 m) c ↔ (c = 3 ∨ c = 5 ∨ c = 9) := by
  unfold Visible pvsBit examplePVS
  rw [Int.shiftRight_eq_div_pow]
  simp only [if_true]
  have h8 : ((2 ^ 3 : Nat) : Int) = 8 := by norm_num
  rw [h8]
  by_cases h0 : c / 8 = 0
  · have hc : 0 ≤ c ∧ c < 8 := by omega
    obtain ⟨hc0, hc8⟩ := hc
    rw [h0]
    interval_cases c <;> simp <;> decide
  · by_cases h1 : c / 8 = 1
    · have hc : 8 ≤ c ∧ c < 16 := by omega
      obtain ⟨hc0, hc8⟩ := hc
      rw [h1]
      interval_cases c <;> simp <;> decide
    · simp [h0, h1]
      omega

theorem examplePVS_row7 (m : model_t) (c : Int) :
    Visible (examplePVS 7 m) c ↔ (c = 7 ∨ c = 8) := by
  unfold Visible pvsBit examplePVS
  rw [Int.shiftRight_eq_div_pow]
  simp only [show (7 : Int) ≠ 3 by decide, if_false, if_true]
  have h8 : ((2 ^ 3 : Nat) : Int) = 8 := by norm_num
  rw [h8]
  by_cases h0 : c / 8 = 0
  · have hc : 0 ≤ c ∧ c < 8 := by omega
    obtain ⟨hc0, hc8⟩ := hc
    rw [h0]
    interval_cases c <;> simp <;> decide
  · by_cases h1 : c / 8 = 1
    · have hc : 8 ≤ c ∧ c < 16 := by omega
      obtain ⟨hc0, hc8⟩ := hc
      rw [h1]
      interval_cases c <;> simp
    · simp [h0, h1]
      omega

/-- A concrete run: from `exampleState` (camera entering cluster 3, row
{3,5,9}) the call stamps the three leaves of clusters 3, 5 and 9 and the nodes
0, 1 and 2 above them with the new counter 1, and leaves the leaves of
clusters 7, 8, -1 and node 3 at their old stamp 0. -/
theorem SWR_MarkLeaves_exampleState_run :
    SWR_MarkLeaves examplePVS exampleState = some
      { exampleState with
        r_visframecount := 1
        r_refsoft_oldviewcluster := 3
        r_refsoft_worldmodel :=
          { vis := true
            leafs := [⟨3, 1, some 1⟩, ⟨5, 1, some 1⟩, ⟨9, 1, some 2⟩, ⟨7, 0, some 3⟩,
              ⟨8, 0, some 3⟩, ⟨-1, 0, some 2⟩]
            nodes := [⟨1, none⟩, ⟨1, some 0⟩, ⟨1, some 0⟩, ⟨0, some 2⟩] } } := by
  decide

/-- Witness of C1 on `exampleState`. -/
theorem SWR_MarkLeaves_marks_visible_witness :
    (exampleState.r_refsoft_viewcluster ≠ exampleState.r_refsoft_oldviewcluster ∧
      exampleState.r_refsoft_viewcluster ≠ -1 ∧
      exampleState.r_novis = 0 ∧ exampleState.sw_lockpvs = 0 ∧
      exampleState.r_refsoft_worldmodel.vis = true ∧
      ValidParents exampleState.r_refsoft_worldmodel ∧
      StampsLE exampleState.r_refsoft_worldmodel exampleState.r_visframecount) ∧
    ∃ s1, SWR_MarkLeaves examplePVS exampleState = some s1 ∧
      s1.r_visframecount = exampleState.r_visframecount + 1 ∧
      SameLeafShape exampleState.r_refsoft_worldmodel.leafs s1.r_refsoft_worldmodel.leafs ∧
      SameParents exampleState.r_refsoft_worldmodel.nodes s1.r_refsoft_worldmodel.nodes ∧
      ∀ (i : Nat) (l : mleaf_t), s1.r_refsoft_worldmodel.leafs[i]? = some l →
        Visible (examplePVS exampleState.r_refsoft_viewcluster
          exampleState.r_refsoft_worldmodel) l.cluster →
        l.visframe = s1.r_visframecount ∧
        ∀ q : Nat, OnChain s1.r_refsoft_worldmodel.nodes l.parent q →
          ∃ n, s1.r_refsoft_worldmodel.nodes[q]? = some n ∧
            n.visframe = s1.r_visframecount :=
  ⟨⟨by decide, by decide, rfl, rfl, rfl, validParents_of_check _ (by decide),
      stampsLE_of_check _ _ (by decide)⟩,
    SWR_MarkLeaves_marks_visible examplePVS exampleState (by decide) (by decide) rfl rfl rfl
      (validParents_of_check _ (by decide)) (stampsLE_of_check _ _ (by decide))⟩

/-- Witness of C2 on `exampleState`: both parts at the sample input. -/
theorem SWR_MarkLeaves_marks_only_visible_witness :
    (∃ s1, SWR_MarkLeaves examplePVS exampleState = some s1 ∧
        s1.r_visframecount = exampleState.r_visframecount + 1 ∧
        (∀ (i : Nat) (l : mleaf_t), s1.r_refsoft_worldmodel.leafs[i]? = some l →
          l.visframe = s1.r_visframecount →
          Visible (examplePVS exampleState.r_refsoft_viewcluster
            exampleState.r_refsoft_worldmodel) l.cluster) ∧
        (∀ (q : Nat) (n : mnode_t), s1.r_refsoft_worldmodel.nodes[q]? = some n →
          n.visframe = s1.r_visframecount →
          ∃ (i : Nat) (l : mleaf_t), s1.r_refsoft_worldmodel.leafs[i]? = some l ∧
            Visible (examplePVS exampleState.r_refsoft_viewcluster
              exampleState.r_refsoft_worldmodel) l.cluster ∧
            OnChain s1.r_refsoft_worldmodel.nodes l.parent q)) ∧
    (∃ s1 s2, SWR_MarkLeaves examplePVS exampleState = some s1 ∧
        SWR_MarkLeaves examplePVS { s1 with r_refsoft_viewcluster := 7 } = some s2 ∧
        SameLeafShape exampleState.r_refsoft_worldmodel.leafs s2.r_refsoft_worldmodel.leafs ∧
        ∀ (i : Nat) (l : mleaf_t), s2.r_refsoft_worldmodel.leafs[i]? = some l →
          (l.cluster = 5 → l.visframe ≠ s2.r_visframecount) ∧
          (l.cluster = 8 → l.visframe = s2.r_visframecount)) :=
  ⟨SWR_MarkLeaves_marks_only_visible.1 examplePVS exampleState (by decide) (by decide) rfl rfl
      rfl (validParents_of_check _ (by decide)) (stampsLE_of_check _ _ (by decide)),
    SWR_MarkLeaves_marks_only_visible.2 examplePVS exampleState rfl rfl rfl rfl
      (validParents_of_check _ (by decide)) (stampsLE_of_check _ _ (by decide))
      examplePVS_row3 examplePVS_row7⟩

/-! ### Edge-triggered restore -/

theorem R_GammaCorrectAndSetPalette_modified (palette : Nat → Nat) (s : PaletteState) :
    (R_GammaCorrectAndSetPalette palette s).modified = s.modified := by
  simp only [R_GammaCorrectAndSetPalette]

/-- The idle path of `R_CalcPalette` (alpha <= 0 with `modified` clear):
nothing happens. -/
theorem R_CalcPalette_idle_path (toFloat : ℚ → ℚ)
    (blend : Nat → ℚ) (d_refsoft_8to24table : Nat → Nat)
    (s : PaletteState) (h : blend 3 ≤ 0) (hm : s.modified = false) :
    R_CalcPalette toFloat blend d_refsoft_8to24table s = s := by
  unfold R_CalcPalette
  simp only [if_pos h, hm]
  rfl

/-- After any call the static flag tells whether that call had alpha > 0. -/
theorem R_CalcPalette_modified (toFloat : ℚ → ℚ)
    (blend : Nat → ℚ) (d_refsoft_8to24table : Nat → Nat)
    (s : PaletteState) :
    (R_CalcPalette toFloat blend d_refsoft_8to24table s).modified = true ↔ 0 < blend 3 := by
  by_cases h : 0 < blend 3
  · obtain ⟨pal, hpal⟩ := R_CalcPalette_blend_path toFloat blend d_refsoft_8to24table s h
    rw [hpal, R_GammaCorrectAndSetPalette_modified]
    exact ⟨fun _ => h, fun _ => rfl⟩
  · have hle : blend 3 ≤ 0 := not_lt.1 h
    cases hm : s.modified with
    | true =>
      rw [R_CalcPalette_restore_path toFloat blend d_refsoft_8to24table s hle hm,
        R_GammaCorrectAndSetPalette_modified]
      exact ⟨fun hc => Bool.noConfusion hc, fun hc => absurd hc h⟩
    | false =>
      rw [R_CalcPalette_idle_path toFloat blend d_refsoft_8to24table s hle hm, hm]
      exact ⟨fun hc => Bool.noConfusion hc, fun hc => absurd hc h⟩

theorem runCalcPalette_append (toFloat : ℚ → ℚ)
    (d_refsoft_8to24table : Nat → Nat) (blend : Nat → ℚ) :
    ∀ (pre : List (Nat → ℚ)) (s : PaletteState),
      runCalcPalette toFloat d_refsoft_8to24table (pre ++ [blend]) s =
        R_CalcPalette toFloat blend d_refsoft_8to24table (runCalcPalette toFloat d_refsoft_8to24table pre s) := by
  intro pre
  induction pre with
  | nil => intro s; rfl
  | cons b rest ih => intro s; exact ih _

/-- Over a run that starts with the flag clear, the flag is set exactly when
the last call of the run had alpha > 0. -/
theorem runCalcPalette_modified (toFloat : ℚ → ℚ)
    (d_refsoft_8to24table : Nat → Nat) (pre : List (Nat → ℚ))
    (s0 : PaletteState) (h0 : s0.modified = false) :
    (runCalcPalette toFloat d_refsoft_8to24table pre s0).modified = true ↔ PrecedingBlend pre := by
  rcases List.eq_nil_or_concat pre with hnil | ⟨init, last, hconcat⟩
  · subst hnil
    simp only [runCalcPalette, h0, PrecedingBlend, List.getLast?_nil]
    constructor
    · intro h; cases h
    · rintro ⟨_, h, _⟩; cases h
  · subst hconcat
    rw [List.concat_eq_append, runCalcPalette_append, R_CalcPalette_modified]
    simp only [PrecedingBlend, List.getLast?_append, List.getLast?_singleton, Option.or_some]
    constructor
    · intro h; exact ⟨last, by simp, h⟩
    · rintro ⟨l, hl, hpos⟩
      simp at hl
      subst hl
      exact hpos

/-- C11. The palette restore of `R_CalcPalette` is edge-triggered. Over every
run of calls that starts in the initial state (static flag `modified` clear), a
further call with alpha <= 0 makes a palette-set call if and only if the
immediately preceding call had alpha > 0; in that case it makes exactly one,
with the current palette. Otherwise (no earlier call, or the preceding call
had alpha <= 0 as well) the call changes no state and makes no palette-set
call. -/
theorem R_CalcPalette_edge_triggered (toFloat : ℚ → ℚ)
    (d_refsoft_8to24table : Nat → Nat) (s0 : PaletteState)
    (h0 : s0.modified = false) (pre : List (Nat → ℚ)) (blend : Nat → ℚ) (hb : blend 3 ≤ 0) :
    ((R_CalcPalette toFloat blend d_refsoft_8to24table
          (runCalcPalette toFloat d_refsoft_8to24table pre s0)).setPaletteCalls ≠
        (runCalcPalette toFloat d_refsoft_8to24table pre s0).setPaletteCalls ↔ PrecedingBlend pre) ∧
    (PrecedingBlend pre →
      (R_CalcPalette toFloat blend d_refsoft_8to24table
          (runCalcPalette toFloat d_refsoft_8to24table pre s0)).setPaletteCalls =
        (runCalcPalette toFloat d_refsoft_8to24table pre s0).setPaletteCalls ++
          [(R_CalcPalette toFloat blend d_refsoft_8to24table
            (runCalcPalette toFloat d_refsoft_8to24table pre s0)).sw_state.currentpalette]) ∧
    (¬ PrecedingBlend pre →
      R_CalcPalette toFloat blend d_refsoft_8to24table (runCalcPalette toFloat d_refsoft_8to24table pre s0) =
        runCalcPalette toFloat d_refsoft_8to24table pre s0) := by
  have hflag := runCalcPalette_modified toFloat d_refsoft_8to24table pre s0 h0
  have hyes : PrecedingBlend pre →
      (R_CalcPalette toFloat blend d_refsoft_8to24table
          (runCalcPalette toFloat d_refsoft_8to24table pre s0)).setPaletteCalls =
        (runCalcPalette toFloat d_refsoft_8to24table pre s0).setPaletteCalls ++
          [(R_CalcPalette toFloat blend d_refsoft_8to24table
            (runCalcPalette toFloat d_refsoft_8to24table pre s0)).sw_state.currentpalette] := by
    intro hp
    rw [R_CalcPalette_restore_path toFloat blend d_refsoft_8to24table _ hb (hflag.2 hp)]
    simp only [R_GammaCorrectAndSetPalette]
  have hno : ¬ PrecedingBlend pre →
      R_CalcPalette toFloat blend d_refsoft_8to24table (runCalcPalette toFloat d_refsoft_8to24table pre s0) =
        runCalcPalette toFloat d_refsoft_8to24table pre s0 := by
    intro hp
    apply R_CalcPalette_idle_path toFloat blend d_refsoft_8to24table _ hb
    cases hm : (runCalcPalette toFloat d_refsoft_8to24table pre s0).modified with
    | true => exact absurd (hflag.1 hm) hp
    | false => rfl
  refine ⟨⟨?_, ?_⟩, hyes, hno⟩
  · intro hne
    by_contra hp
    exact hne (by rw [hno hp])
  · intro hp heq
    have hlen := congrArg List.length (hyes hp)
    rw [heq, List.length_append, List.length_singleton] at hlen
    omega

/-- Witness of C11: after the single flash `exampleBlend`, a call with
`noBlend` from `examplePaletteState`. -/
theorem R_CalcPalette_edge_triggered_witness :
    (examplePaletteState.modified = false ∧ noBlend 3 ≤ 0) ∧
    ((R_CalcPalette float32 noBlend examplePalette
          (runCalcPalette float32 examplePalette [exampleBlend] examplePaletteState)).setPaletteCalls ≠
        (runCalcPalette float32 examplePalette [exampleBlend] examplePaletteState).setPaletteCalls ↔
          PrecedingBlend [exampleBlend]) ∧
    (PrecedingBlend [exampleBlend] →
      (R_CalcPalette float32 noBlend examplePalette
          (runCalcPalette float32 examplePalette [exampleBlend] examplePaletteState)).setPaletteCalls =
        (runCalcPalette float32 examplePalette [exampleBlend] examplePaletteState).setPaletteCalls ++
          [(R_CalcPalette float32 noBlend examplePalette
            (runCalcPalette float32 examplePalette [exampleBlend]
              examplePaletteState)).sw_state.currentpalette]) ∧
    (¬ PrecedingBlend [exampleBlend] →
      R_CalcPalette float32 noBlend examplePalette
          (runCalcPalette float32 examplePalette [exampleBlend] examplePaletteState) =
        runCalcPalette float32 examplePalette [exampleBlend] examplePaletteState) :=
  ⟨⟨rfl, by norm_num [noBlend]⟩,
    R_CalcPalette_edge_triggered float32 examplePalette examplePaletteState rfl [exampleBlend] noBlend
      (by norm_num [noBlend])⟩

/-! ### The blend -/

/-- The blending path of `R_CalcPalette` with the blended palette made
explicit. -/
theorem R_CalcPalette_blend_eq (toFloat : ℚ → ℚ) (blend : Nat → ℚ)
    (d_refsoft_8to24table : Nat → Nat) (s : PaletteState) (h : 0 < blend 3) :
    R_CalcPalette toFloat blend d_refsoft_8to24table s =
      R_GammaCorrectAndSetPalette (blendedPalette toFloat blend d_refsoft_8to24table)
        { s with modified := true } := by
  unfold R_CalcPalette blendedPalette
  simp only [if_neg (not_le.2 h)]

/-- The local palette after `n` rounds of the blend loop: for entry `i < n`,
byte `4i+j` (`j < 3`) holds the clamped, truncated blend stored as a byte and
byte `4i+3` holds 255; later bytes are untouched. -/
theorem blendLoop_spec (toFloat : ℚ → ℚ) (premult : Nat → ℚ) (oma : ℚ) (src : Nat → Nat)
    (init : Nat → Nat) :
    ∀ (n k : Nat),
      forLoop n (blendEntry toFloat premult oma src) init k =
        if k < 4 * n then
          (if k % 4 = 3 then 255
           else toByte
            (if truncToInt (toFloat (premult (k % 4) + toFloat (oma * (src k : ℚ)))) > 255
              then 255
              else truncToInt (toFloat (premult (k % 4) + toFloat (oma * (src k : ℚ))))))
        else init k := by
  intro n
  induction n with
  | zero => intro k; simp [forLoop_zero]
  | succ n ih =>
    intro k
    rw [forLoop_succ]
    simp only [blendEntry, forLoop_succ, forLoop_zero, setByte]
    by_cases h3 : k = n * 4 + 3
    · subst h3
      have h1 : n * 4 + 3 < 4 * (n + 1) := by omega
      have h2 : (n * 4 + 3) % 4 = 3 := by omega
      simp [h1, h2]
    · by_cases h2 : k = n * 4 + 2
      · subst h2
        have h1 : n * 4 + 2 < 4 * (n + 1) := by omega
        have h2 : (n * 4 + 2) % 4 = 2 := by omega
        simp [h1, h2]
      · by_cases h1 : k = n * 4 + 1
        · subst h1
          have h1 : n * 4 + 1 < 4 * (n + 1) := by omega
          have h2 : (n * 4 + 1) % 4 = 1 := by omega
          simp [h1, h2]
        · by_cases h0 : k = n * 4 + 0
          · subst h0
            have h1 : n * 4 < 4 * (n + 1) := by omega
            have h2 : (n * 4) % 4 = 0 := by omega
            simp [h1, h2]
          · rw [if_neg h3, if_neg h2, if_neg h1, if_neg h0, ih k]
            have : (k < 4 * (n + 1)) ↔ (k < 4 * n) := by
              simp only [Nat.add_zero] at h0
              omega
            simp only [this]

/-- Every blended byte is the rounded channel value stored as a byte. -/
theorem blendedPalette_byte (toFloat : ℚ → ℚ) (blend : Nat → ℚ)
    (d_refsoft_8to24table : Nat → Nat) (i j : Nat) (hi : i < 256) (hj : j < 3) :
    blendedPalette toFloat blend d_refsoft_8to24table (i*4+j) =
      toByte (roundedBlendChannel toFloat blend (d_refsoft_8to24table (i*4+j)) j) := by
  unfold blendedPalette roundedBlendChannel
  rw [blendLoop_spec]
  have h1 : i * 4 + j < 4 * 256 := by omega
  have h2 : (i * 4 + j) % 4 = j := by omega
  have h3 : j ≠ 3 := by omega
  rw [if_pos h1, h2, if_neg h3]
  have ha : (if blend 3 > 1 then (1 : ℚ) else blend 3) = min (blend 3) 1 := by
    by_cases hgt : blend 3 > 1
    · rw [if_pos hgt, min_eq_right (le_of_lt hgt)]
    · rw [if_neg hgt, min_eq_left (not_lt.1 hgt)]
  have hone : (1.0 : ℚ) = 1 := by norm_num
  rw [ha, hone]
  congr 1
  by_cases hv : truncToInt (toFloat (toFloat (toFloat (blend j * min (blend 3) 1) * 255) +
      toFloat (toFloat (1 - min (blend 3) 1) * (d_refsoft_8to24table (i * 4 + j) : ℚ)))) > 255
  · rw [if_pos hv, min_eq_left (le_of_lt hv)]
  · rw [if_neg hv, min_eq_right (not_lt.1 hv)]

theorem truncToInt_nonneg {q : ℚ} (h : 0 ≤ q) : 0 ≤ truncToInt q := by
  unfold truncToInt
  rw [if_pos h]
  exact Int.floor_nonneg.2 h

theorem truncToInt_natCast (n : Nat) : truncToInt (n : ℚ) = n := by
  unfold truncToInt
  rw [if_pos (Nat.cast_nonneg n)]
  exact Int.floor_natCast n

/-- For a non-negative tint component the rounded channel value lies in
`0..255`. -/
theorem roundedBlendChannel_range (toFloat : ℚ → ℚ) (hr : IsRounding toFloat)
    (blend : Nat → ℚ) (source j : Nat) (h : 0 < blend 3) (hj : 0 ≤ blend j) :
    0 ≤ roundedBlendChannel toFloat blend source j ∧
      roundedBlendChannel toFloat blend source j ≤ 255 := by
  unfold roundedBlendChannel
  obtain ⟨_, hpos, _⟩ := hr
  have ha0 : 0 ≤ min (blend 3) 1 := le_min (le_of_lt h) (by norm_num)
  have ha1 : min (blend 3) 1 ≤ 1 := min_le_right _ _
  have hs : (0 : ℚ) ≤ (source : ℚ) := Nat.cast_nonneg _
  have t1 : 0 ≤ toFloat (toFloat (blend j * min (blend 3) 1) * 255) :=
    hpos _ (mul_nonneg (hpos _ (mul_nonneg hj ha0)) (by norm_num))
  have t2 : 0 ≤ toFloat (toFloat (1 - min (blend 3) 1) * (source : ℚ)) :=
    hpos _ (mul_nonneg (hpos _ (by linarith)) hs)
  have ht := truncToInt_nonneg (hpos _ (add_nonneg t1 t2))
  constructor
  · exact le_min (by norm_num) ht
  · exact min_le_left _ _

theorem toByte_of_range (v : Int) (h0 : 0 ≤ v) (h1 : v ≤ 255) : (toByte v : Int) = v := by
  unfold toByte
  omega

/-- With alpha at least 1 the blended palette does not depend on alpha beyond
its clamp. -/
theorem blendedPalette_clamped (toFloat : ℚ → ℚ) (blend blend1 : Nat → ℚ) (table : Nat → Nat)
    (h : 1 ≤ blend 3) (h1 : 1 ≤ blend1 3) (hc : ∀ j, j < 3 → blend1 j = blend j) :
    blendedPalette toFloat blend table = blendedPalette toFloat blend1 table := by
  funext k
  unfold blendedPalette
  rw [blendLoop_spec, blendLoop_spec]
  have ha : ∀ a : ℚ, 1 ≤ a → (if a > 1 then (1 : ℚ) else a) = 1 := by
    intro a h'
    by_cases hgt : a > 1
    · rw [if_pos hgt]
    · rw [if_neg hgt]
      exact le_antisymm (not_lt.1 hgt) h'
  rw [ha _ h, ha _ h1]
  by_cases hk : k < 4 * 256
  · rw [if_pos hk, if_pos hk]
    by_cases h3 : k % 4 = 3
    · rw [if_pos h3, if_pos h3]
    · rw [if_neg h3, if_neg h3]
      have hlt : k % 4 < 3 := by omega
      rw [hc _ hlt]
  · rw [if_neg hk, if_neg hk]

/-- With alpha at least 1 the rounded channel value is the tint alone. -/
theorem roundedBlendChannel_saturated (toFloat : ℚ → ℚ) (hr : IsRounding toFloat)
    (blend : Nat → ℚ) (source j : Nat) (h : 1 ≤ blend 3) :
    roundedBlendChannel toFloat blend source j =
      min 255 (truncToInt (toFloat (toFloat (blend j) * 255))) := by
  unfold roundedBlendChannel
  obtain ⟨h0, _, hid⟩ := hr
  rw [min_eq_right h, sub_self, h0, zero_mul, h0, add_zero, mul_one, hid]

/-! ### The sample rounding -/

theorem roundHalfEven_intCast (m : Int) : roundHalfEven (m : ℚ) = m := by
  unfold roundHalfEven
  simp

theorem floor_le_roundHalfEven (x : ℚ) : ⌊x⌋ ≤ roundHalfEven x := by
  unfold roundHalfEven
  simp only []
  split
  · exact le_refl _
  · split
    · omega
    · split <;> omega

theorem roundHalfEven_le_floor_succ (x : ℚ) : roundHalfEven x ≤ ⌊x⌋ + 1 := by
  unfold roundHalfEven
  simp only []
  split
  · omega
  · split
    · omega
    · split <;> omega

theorem roundHalfEven_bounds (x : ℚ) (a b : Int) (ha : (a : ℚ) ≤ x) (hb : x ≤ (b : ℚ)) :
    a ≤ roundHalfEven x ∧ roundHalfEven x ≤ b := by
  constructor
  · exact le_trans (Int.le_floor.2 ha) (floor_le_roundHalfEven x)
  · rcases eq_or_lt_of_le hb with h | h
    · rw [h, roundHalfEven_intCast]
    · have : ⌊x⌋ < b := Int.floor_lt.2 h
      have := roundHalfEven_le_floor_succ x
      omega

/-- The nearest integer, when it is nearer than one half. -/
theorem roundHalfEven_near (x : ℚ) (m : Int) (h1 : (m : ℚ) - 1 / 2 < x)
    (h2 : x < (m : ℚ) + 1 / 2) : roundHalfEven x = m := by
  unfold roundHalfEven
  simp only []
  by_cases hx : (m : ℚ) ≤ x
  · have hf : ⌊x⌋ = m := Int.floor_eq_iff.2 ⟨hx, by linarith⟩
    rw [hf, if_pos (by linarith)]
  · have hx2 : x < m := not_le.1 hx
    have hf : ⌊x⌋ = m - 1 := Int.floor_eq_iff.2 ⟨by push_cast; linarith, by push_cast; linarith⟩
    rw [hf, if_neg (by push_cast; linarith), if_pos (by push_cast; linarith)]
    ring

/-- A tie goes to the even neighbour. -/
theorem roundHalfEven_tie (x : ℚ) (m : Int) (hm : m % 2 = 0)
    (h : x = (m : ℚ) + 1 / 2 ∨ x = (m : ℚ) - 1 / 2) : roundHalfEven x = m := by
  unfold roundHalfEven
  simp only []
  rcases h with h | h
  · have hf : ⌊x⌋ = m := Int.floor_eq_iff.2 ⟨by linarith, by linarith⟩
    rw [hf, if_neg (by linarith), if_neg (by linarith), if_pos hm]
  · have hf : ⌊x⌋ = m - 1 := Int.floor_eq_iff.2 ⟨by push_cast; linarith, by push_cast; linarith⟩
    rw [hf, if_neg (by push_cast; linarith), if_neg (by push_cast; linarith),
      if_neg (by omega)]
    ring

theorem log_two_eq (r : ℚ) (n : Int) (h1 : (2 : ℚ) ^ n ≤ r) (h2 : r < (2 : ℚ) ^ (n + 1)) :
    Int.log 2 r = n := by
  have hr : 0 < r := lt_of_lt_of_le (by positivity) h1
  have a : n ≤ Int.log 2 r := (Int.zpow_le_iff_le_log (by norm_num) hr).1 (by exact_mod_cast h1)
  have b : Int.log 2 r < n + 1 :=
    (Int.lt_zpow_iff_log_lt (by norm_num) hr).1 (by exact_mod_cast h2)
  omega

/-- The value of `float32` from the binade of its argument. -/
theorem float32_eq (x : ℚ) (e : Int) (h1 : (2 : ℚ) ^ (e + 23) ≤ |x|)
    (h2 : |x| < (2 : ℚ) ^ (e + 23 + 1)) :
    float32 x = (roundHalfEven (x / 2 ^ e) : ℚ) * 2 ^ e := by
  have hx : x ≠ 0 := by
    intro h
    rw [h, abs_zero] at h1
    exact absurd h1 (not_le.2 (by positivity))
  unfold float32
  rw [if_neg hx, log_two_eq |x| (e + 23) h1 h2]
  simp

theorem float32_zero : float32 0 = 0 := by
  simp [float32]

theorem float32_nonneg (x : ℚ) (h : 0 ≤ x) : 0 ≤ float32 x := by
  unfold float32
  split
  · exact le_refl _
  · simp only []
    apply mul_nonneg _ (by positivity)
    have h0 : (0 : ℚ) ≤ x / 2 ^ (Int.log 2 |x| - 23) := div_nonneg h (by positivity)
    have h1 : 0 ≤ roundHalfEven (x / 2 ^ (Int.log 2 |x| - 23)) :=
      le_trans (Int.floor_nonneg.2 h0) (floor_le_roundHalfEven _)
    exact_mod_cast h1

/-- A number with a significand of at most 24 bits is its own rounding. -/
theorem float32_representable (m e : Int) (h1 : 2 ^ 23 ≤ |m|) (h2 : |m| < 2 ^ 24) :
    float32 ((m : ℚ) * 2 ^ e) = (m : ℚ) * 2 ^ e := by
  have hp : (0 : ℚ) < 2 ^ e := by positivity
  have habs : |(m : ℚ) * 2 ^ e| = (|m| : ℚ) * 2 ^ e := by
    rw [abs_mul, abs_of_pos hp]
  have c1 : ((2 : ℚ) ^ (23 : ℕ)) ≤ (|m| : ℚ) := by exact_mod_cast h1
  have c2 : (|m| : ℚ) < ((2 : ℚ) ^ (24 : ℕ)) := by exact_mod_cast h2
  rw [float32_eq _ e]
  · rw [mul_div_assoc, div_self (ne_of_gt hp), mul_one, roundHalfEven_intCast]
  · rw [habs, zpow_add₀ (by norm_num)]
    rw [mul_comm ((2 : ℚ) ^ e)]
    exact mul_le_mul_of_nonneg_right (by exact_mod_cast c1) (le_of_lt hp)
  · rw [habs, zpow_add₀ (by norm_num), zpow_add₀ (by norm_num)]
    rw [mul_assoc, mul_comm ((2 : ℚ) ^ e)]
    apply mul_lt_mul_of_pos_right _ hp
    have : (2 : ℚ) ^ (23 : ℤ) * 2 ^ (1 : ℤ) = 2 ^ (24 : ℕ) := by norm_num
    rw [this]
    exact c2

/-- The significand chosen by `float32` has 24 bits, or is 2^24. -/
theorem significand_bounds (x : ℚ) (hx : x ≠ 0) :
    2 ^ 23 ≤ |roundHalfEven (x / 2 ^ (Int.log 2 |x| - 23))| ∧
    |roundHalfEven (x / 2 ^ (Int.log 2 |x| - 23))| ≤ 2 ^ 24 := by
  have hax : 0 < |x| := abs_pos.2 hx
  have hlo : (2 : ℚ) ^ (Int.log 2 |x|) ≤ |x| := Int.zpow_log_le_self (by norm_num) hax
  have hhi : |x| < (2 : ℚ) ^ (Int.log 2 |x| + 1) := Int.lt_zpow_succ_log_self (by norm_num) _
  have hp : (0 : ℚ) < 2 ^ (Int.log 2 |x| - 23) := by positivity
  have e1 : (2 : ℚ) ^ (Int.log 2 |x|) = 2 ^ (23 : ℕ) * 2 ^ (Int.log 2 |x| - 23) := by
    rw [← zpow_natCast, ← zpow_add₀ (by norm_num)]
    congr 1
    push_cast
    ring
  have e2 : (2 : ℚ) ^ (Int.log 2 |x| + 1) = 2 ^ (24 : ℕ) * 2 ^ (Int.log 2 |x| - 23) := by
    rw [← zpow_natCast, ← zpow_add₀ (by norm_num)]
    congr 1
    push_cast
    ring
  have b1 : (2 : ℚ) ^ (23 : ℕ) ≤ |x| / 2 ^ (Int.log 2 |x| - 23) := by
    rw [le_div_iff₀ hp, ← e1]
    exact hlo
  have b2 : |x| / 2 ^ (Int.log 2 |x| - 23) ≤ (2 : ℚ) ^ (24 : ℕ) := by
    rw [div_le_iff₀ hp, ← e2]
    exact le_of_lt hhi
  rcases lt_or_gt_of_ne hx with hneg | hpos
  · have hy : |x| / 2 ^ (Int.log 2 |x| - 23) = -(x / 2 ^ (Int.log 2 |x| - 23)) := by
      rw [abs_of_neg hneg, neg_div]
    rw [hy] at b1 b2
    have hb := roundHalfEven_bounds (x / 2 ^ (Int.log 2 |x| - 23)) (-(2 ^ 24)) (-(2 ^ 23))
      (by push_cast; linarith) (by push_cast; linarith)
    rw [abs_of_nonpos (by linarith [hb.2, (by norm_num : (0:Int) < 2 ^ 23)])]
    constructor <;> linarith [hb.1, hb.2]
  · have hy : |x| / 2 ^ (Int.log 2 |x| - 23) = x / 2 ^ (Int.log 2 |x| - 23) := by
      rw [abs_of_pos hpos]
    rw [hy] at b1 b2
    have hb := roundHalfEven_bounds (x / 2 ^ (Int.log 2 |x| - 23)) (2 ^ 23) (2 ^ 24)
      (by push_cast; linarith) (by push_cast; linarith)
    rw [abs_of_nonneg (by linarith [hb.1, (by norm_num : (0:Int) < 2 ^ 23)])]
    exact hb

/-- Rounding twice is rounding once. -/
theorem float32_idem (x : ℚ) : float32 (float32 x) = float32 x := by
  by_cases hx : x = 0
  · rw [hx, float32_zero, float32_zero]
  obtain ⟨h1, h2⟩ := significand_bounds x hx
  have hfx : float32 x =
      (roundHalfEven (x / 2 ^ (Int.log 2 |x| - 23)) : ℚ) * 2 ^ (Int.log 2 |x| - 23) := by
    unfold float32
    rw [if_neg hx]
  rw [hfx]
  generalize roundHalfEven (x / 2 ^ (Int.log 2 |x| - 23)) = m at h1 h2
  generalize Int.log 2 |x| - 23 = e
  rcases lt_or_eq_of_le h2 with h3 | h3
  · exact float32_representable m e h1 h3
  · have hm : m = 2 ^ 24 ∨ m = -(2 ^ 24) := by
      rcases abs_cases m with ⟨ha, _⟩ | ⟨ha, _⟩ <;> omega
    have hstep : ∀ c : Int, (c : ℚ) * 2 * 2 ^ e = (c : ℚ) * 2 ^ (e + 1) := by
      intro c
      rw [zpow_add₀ (by norm_num), zpow_one]
      ring
    rcases hm with hm | hm
    · have : (m : ℚ) * 2 ^ e = ((2 ^ 23 : Int) : ℚ) * 2 ^ (e + 1) := by
        rw [← hstep, hm]
        norm_num
      rw [this]
      exact float32_representable (2 ^ 23) (e + 1) (by norm_num) (by norm_num)
    · have : (m : ℚ) * 2 ^ e = ((-(2 ^ 23) : Int) : ℚ) * 2 ^ (e + 1) := by
        rw [← hstep, hm]
        norm_num
      rw [this]
      exact float32_representable (-(2 ^ 23)) (e + 1) (by norm_num) (by norm_num)


/-- Evaluation of `float32` at a number whose binade is known and whose
scaled value is nearer than one half to an integer. -/
theorem float32_near (x : ℚ) (e m : Int) (h1 : (2 : ℚ) ^ (e + 23) ≤ |x|)
    (h2 : |x| < (2 : ℚ) ^ (e + 23 + 1)) (h3 : (m : ℚ) - 1 / 2 < x / 2 ^ e)
    (h4 : x / 2 ^ e < (m : ℚ) + 1 / 2) : float32 x = (m : ℚ) * 2 ^ e := by
  rw [float32_eq x e h1 h2, roundHalfEven_near _ m h3 h4]

/-- Evaluation of `float32` at a tie. -/
theorem float32_tie (x : ℚ) (e m : Int) (h1 : (2 : ℚ) ^ (e + 23) ≤ |x|)
    (h2 : |x| < (2 : ℚ) ^ (e + 23 + 1)) (hm : m % 2 = 0)
    (h : x / 2 ^ e = (m : ℚ) + 1 / 2 ∨ x / 2 ^ e = (m : ℚ) - 1 / 2) :
    float32 x = (m : ℚ) * 2 ^ e := by
  rw [float32_eq x e h1 h2, roundHalfEven_tie _ m hm h]

/-- The sample rounding has the three properties asked of a rounding. -/
theorem float32_isRounding : IsRounding float32 :=
  ⟨float32_zero, float32_nonneg, float32_idem⟩

theorem float32_neg_one : float32 (-1) = -1 := by
  rw [float32_near (-1) (-23) (-8388608)] <;> norm_num [abs_of_neg]

theorem float32_neg_255 : float32 (-255) = -255 := by
  rw [float32_near (-255) (-16) (-16711680)] <;> norm_num [abs_of_neg]

/-- The product `0.1f * 0.4f` in single precision. -/
theorem float32_tint_alpha :
    float32 ((13421773 / 134217728 : ℚ) * (13421773 / 33554432)) = 10737419 / 268435456 := by
  rw [float32_near _ (-28) 10737419] <;> norm_num [abs_of_pos]

/-- The product of the last result and 255: `premult[0]`. -/
theorem float32_premult :
    float32 ((10737419 / 268435456 : ℚ) * 255) = 10695476 / 1048576 := by
  rw [float32_near _ (-20) 10695476] <;> norm_num [abs_of_pos]

/-- The difference `1.0 - 0.4f` stored in a `float`: a tie, which goes to the
even significand. -/
theorem float32_one_minus_alpha :
    float32 ((1 : ℚ) - 13421773 / 33554432) = 10066330 / 16777216 := by
  rw [float32_tie _ (-24) 10066330] <;> norm_num [abs_of_pos]

/-- The product `one_minus_alpha * 53`. -/
theorem float32_source_part :
    float32 ((10066330 / 16777216 : ℚ) * 53) = 16672359 / 524288 := by
  rw [float32_near _ (-19) 16672359] <;> norm_num [abs_of_pos]

/-- The sum of the two parts: a tie again, and the result is 42. -/
theorem float32_sum :
    float32 ((10695476 / 1048576 : ℚ) + 16672359 / 524288) = 42 := by
  rw [float32_tie _ (-18) 11010048] <;> norm_num [abs_of_pos]

theorem examplePalette_53 : examplePalette (53*4+0) = 53 := by
  simp [examplePalette]

/-- In single precision the channel of the faint red tint `floatBlend` over
the source value 53 is 42. -/
theorem roundedBlendChannel_floatBlend : roundedBlendChannel float32 floatBlend 53 0 = 42 := by
  unfold roundedBlendChannel
  have hb : floatBlend 0 = 13421773 / 134217728 := by simp [floatBlend]
  have ha : min (floatBlend 3) 1 = 13421773 / 33554432 := by norm_num [floatBlend]
  have h53 : ((53 : ℕ) : ℚ) = 53 := by norm_num
  rw [hb, ha, float32_tint_alpha, float32_premult, float32_one_minus_alpha, h53,
    float32_source_part, float32_sum]
  have h42 : truncToInt (42 : ℚ) = 42 := by
    have := truncToInt_natCast 42
    simpa using this
  rw [h42]
  decide

/-- Over the rationals the formula of the spec gives 41 for the same input:
the exact value of the blend is just below 42. -/
theorem specBlendChannel_floatBlend : specBlendChannel floatBlend 53 0 = 41 := by
  unfold specBlendChannel
  have hb : floatBlend 0 = 13421773 / 134217728 := by simp [floatBlend]
  have ha : min (floatBlend 3) 1 = 13421773 / 33554432 := by norm_num [floatBlend]
  have h53 : ((53 : ℕ) : ℚ) = 53 := by norm_num
  rw [hb, ha, h53]
  have hfl : truncToInt ((13421773 / 134217728 : ℚ) * (13421773 / 33554432) * 255 +
      (1 - 13421773 / 33554432) * 53) = 41 := by
    unfold truncToInt
    rw [if_pos (by norm_num)]
    rw [Int.floor_eq_iff]
    constructor <;> norm_num
  rw [hfl]
  decide

/-- With the tint `negativeBlend` the rounded channel over the source value 0
is -255, as over the rationals: every intermediate value is an integer. -/
theorem roundedBlendChannel_negativeBlend :
    roundedBlendChannel float32 negativeBlend 0 0 = -255 := by
  unfold roundedBlendChannel
  have hb : negativeBlend 0 = -1 := by simp [negativeBlend]
  have ha : min (negativeBlend 3) 1 = 1 := by norm_num [negativeBlend]
  have h0 : ((0 : ℕ) : ℚ) = 0 := by norm_num
  rw [hb, ha, h0, mul_one, float32_neg_one, sub_self, float32_zero, mul_zero, float32_zero,
    add_zero]
  have h255 : (-1 : ℚ) * 255 = -255 := by norm_num
  rw [h255, float32_neg_255, float32_neg_255]
  have hceil : ⌈(-255 : ℚ)⌉ = -255 := by
    rw [show (-255 : ℚ) = ((-255 : Int) : ℚ) by norm_num, Int.ceil_intCast]
  norm_num [truncToInt, hceil]

/-- C12, as stated, fails in two ways; the rounding is that of single
precision (`float32`). For a negative tint component: with
`blend = (-1, 0, 0, 1)` the formula `min(255, trunc(...))` gives -255 for
channel 0 of entry 0, while the code stores that `int` into a byte, which
holds 1. For the arithmetic: with `blend = (0.1f, 0, 0, 0.4f)` and the source
value 53 the formula, taken over the rationals, gives 41, while the code,
which rounds every intermediate result to a `float`, stores 42. -/
theorem R_CalcPalette_blend_counterexample :
    (0 < negativeBlend 3 ∧
      R_CalcPalette float32 negativeBlend examplePalette examplePaletteState =
        R_GammaCorrectAndSetPalette (blendedPalette float32 negativeBlend examplePalette)
          { examplePaletteState with modified := true } ∧
      specBlendChannel negativeBlend (examplePalette (0*4+0)) 0 = -255 ∧
      blendedPalette float32 negativeBlend examplePalette (0*4+0) = 1) ∧
    (0 < floatBlend 3 ∧ 0 ≤ floatBlend 0 ∧
      R_CalcPalette float32 floatBlend examplePalette examplePaletteState =
        R_GammaCorrectAndSetPalette (blendedPalette float32 floatBlend examplePalette)
          { examplePaletteState with modified := true } ∧
      specBlendChannel floatBlend (examplePalette (53*4+0)) 0 = 41 ∧
      blendedPalette float32 floatBlend examplePalette (53*4+0) = 42) := by
  have hpos : 0 < negativeBlend 3 := by norm_num [negativeBlend]
  have hposf : 0 < floatBlend 3 := by norm_num [floatBlend]
  have hceil : ⌈(-255 : ℚ)⌉ = -255 := by
    rw [show (-255 : ℚ) = ((-255 : Int) : ℚ) by norm_num, Int.ceil_intCast]
  have hspec : specBlendChannel negativeBlend (examplePalette (0*4+0)) 0 = -255 := by
    norm_num [specBlendChannel, negativeBlend, examplePalette, truncToInt, hceil]
  have h00 : examplePalette (0*4+0) = 0 := by simp [examplePalette]
  refine ⟨⟨hpos, R_CalcPalette_blend_eq _ _ _ _ hpos, hspec, ?_⟩,
    ⟨hposf, by norm_num [floatBlend], R_CalcPalette_blend_eq _ _ _ _ hposf, ?_, ?_⟩⟩
  · rw [blendedPalette_byte float32 negativeBlend examplePalette 0 0 (by decide) (by decide),
      h00, roundedBlendChannel_negativeBlend]
    decide
  · rw [examplePalette_53]
    exact specBlendChannel_floatBlend
  · rw [blendedPalette_byte float32 floatBlend examplePalette 53 0 (by decide) (by decide),
      examplePalette_53, roundedBlendChannel_floatBlend]
    decide

/-- C12 (amended). Let `toFloat` be the rounding of the `float` arithmetic
(any rounding that keeps zero, keeps the sign and is idempotent). For blend
alpha > 0, `R_CalcPalette` hands to the gamma correction a palette in which,
with `a = min(alpha, 1)`, channel `j` of entry `i` is
`min(255, trunc(blend[j]*a*255 + (1-a)*source[i][j]))`, every product, the
difference and the sum rounded, whenever the tint component `blend[j]` is
not negative. Every alpha >= 1 gives the same result as alpha = 1, and then
channel `j` of every entry is `min(255, trunc(blend[j]*255))`, the product
rounded, for `blend[j] >= 0`, whatever the source palette. -/
theorem R_CalcPalette_blend_formula (toFloat : ℚ → ℚ) (hr : IsRounding toFloat)
    (blend : Nat → ℚ) (d_refsoft_8to24table : Nat → Nat) (s : PaletteState)
    (h : 0 < blend 3) :
    R_CalcPalette toFloat blend d_refsoft_8to24table s =
      R_GammaCorrectAndSetPalette (blendedPalette toFloat blend d_refsoft_8to24table)
        { s with modified := true } ∧
    (∀ i j, i < 256 → j < 3 → 0 ≤ blend j →
      (blendedPalette toFloat blend d_refsoft_8to24table (i*4+j) : Int) =
        roundedBlendChannel toFloat blend (d_refsoft_8to24table (i*4+j)) j) ∧
    (∀ blend1 : Nat → ℚ, 1 ≤ blend 3 → blend1 3 = 1 → (∀ j, j < 3 → blend1 j = blend j) →
      R_CalcPalette toFloat blend d_refsoft_8to24table s =
        R_CalcPalette toFloat blend1 d_refsoft_8to24table s) ∧
    (1 ≤ blend 3 → ∀ (source : Nat → Nat) (i j : Nat), i < 256 → j < 3 → 0 ≤ blend j →
      (blendedPalette toFloat blend source (i*4+j) : Int) =
        min 255 (truncToInt (toFloat (toFloat (blend j) * 255)))) := by
  have hform : ∀ (source : Nat → Nat) (i j : Nat), i < 256 → j < 3 → 0 ≤ blend j →
      (blendedPalette toFloat blend source (i*4+j) : Int) =
        roundedBlendChannel toFloat blend (source (i*4+j)) j := by
    intro source i j hi hj hb
    rw [blendedPalette_byte toFloat blend source i j hi hj]
    obtain ⟨h0, h1⟩ := roundedBlendChannel_range toFloat hr blend (source (i*4+j)) j h hb
    exact toByte_of_range _ h0 h1
  refine ⟨R_CalcPalette_blend_eq _ _ _ _ h, hform d_refsoft_8to24table, ?_, ?_⟩
  · intro blend1 hge h1 hc
    have hpos1 : 0 < blend1 3 := by rw [h1]; norm_num
    rw [R_CalcPalette_blend_eq _ _ _ _ h, R_CalcPalette_blend_eq _ _ _ _ hpos1,
      blendedPalette_clamped toFloat blend blend1 d_refsoft_8to24table hge (le_of_eq h1.symm)
        hc]
  · intro hge source i j hi hj hb
    rw [hform source i j hi hj hb,
      roundedBlendChannel_saturated toFloat hr blend (source (i*4+j)) j hge]

theorem unitBlend_colour (j : Nat) (hj : j < 3) : unitBlend j = strongBlend j := by
  have h3 : j ≠ 3 := by omega
  simp [unitBlend, strongBlend, h3]

/-- Witness of C12 (amended), in single precision (`float32`): the faint red
tint `floatBlend`, entry 53, channel 0; and the saturated flash `strongBlend`
(alpha 2) against `unitBlend` (alpha 1), entry 10, channel 1. -/
theorem R_CalcPalette_blend_formula_witness :
    (IsRounding float32 ∧ 0 < floatBlend 3 ∧ 0 ≤ floatBlend 0) ∧
    (blendedPalette float32 floatBlend examplePalette (53*4+0) : Int) =
        roundedBlendChannel float32 floatBlend (examplePalette (53*4+0)) 0 ∧
    (0 < strongBlend 3 ∧ 0 ≤ strongBlend 1 ∧ 1 ≤ strongBlend 3 ∧ unitBlend 3 = 1 ∧
      (∀ j, j < 3 → unitBlend j = strongBlend j)) ∧
    R_CalcPalette float32 strongBlend examplePalette examplePaletteState =
        R_CalcPalette float32 unitBlend examplePalette examplePaletteState ∧
    (blendedPalette float32 strongBlend examplePalette (10*4+1) : Int) =
        min 255 (truncToInt (float32 (float32 (strongBlend 1) * 255))) :=
  ⟨⟨float32_isRounding, by norm_num [floatBlend], by norm_num [floatBlend]⟩,
    (R_CalcPalette_blend_formula float32 float32_isRounding floatBlend examplePalette
      examplePaletteState (by norm_num [floatBlend])).2.1 53 0 (by decide) (by decide)
      (by norm_num [floatBlend]),
    ⟨by norm_num [strongBlend], by norm_num [strongBlend], by norm_num [strongBlend],
      by norm_num [unitBlend], unitBlend_colour⟩,
    (R_CalcPalette_blend_formula float32 float32_isRounding strongBlend examplePalette
      examplePaletteState (by norm_num [strongBlend])).2.2.1 unitBlend
      (by norm_num [strongBlend]) (by norm_num [unitBlend]) unitBlend_colour,
    (R_CalcPalette_blend_formula float32 float32_isRounding strongBlend examplePalette
      examplePaletteState (by norm_num [strongBlend])).2.2.2 (by norm_num [strongBlend])
      examplePalette 10 1 (by decide) (by decide) (by norm_num [strongBlend])⟩

/-! ### R_BmodelCheckBBox -/

/-- The loop of `R_BmodelCheckBBox` unrolled: the four reject tests in order,
then the mask assembled from the four accept tests. -/
theorem R_BmodelCheckBBox_unroll (pf : Nat → Nat → Nat) (vc : Nat → clipplane_t)
    (minmaxs : Nat → ℚ) :
    R_BmodelCheckBBox pf vc minmaxs =
      if signedDist (vc 0) (rejectPoint pf minmaxs 0) ≤ 0 then BMODEL_FULLY_CLIPPED
      else if signedDist (vc 1) (rejectPoint pf minmaxs 1) ≤ 0 then BMODEL_FULLY_CLIPPED
      else if signedDist (vc 2) (rejectPoint pf minmaxs 2) ≤ 0 then BMODEL_FULLY_CLIPPED
      else if signedDist (vc 3) (rejectPoint pf minmaxs 3) ≤ 0 then BMODEL_FULLY_CLIPPED
      else
        (if signedDist (vc 0) (acceptPoint pf minmaxs 0) ≤ 0 then 1 else 0) +
        (if signedDist (vc 1) (acceptPoint pf minmaxs 1) ≤ 0 then 2 else 0) +
        (if signedDist (vc 2) (acceptPoint pf minmaxs 2) ≤ 0 then 4 else 0) +
        (if signedDist (vc 3) (acceptPoint pf minmaxs 3) ≤ 0 then 8 else 0) := by
  simp only [R_BmodelCheckBBox, bboxPlanes, signedDist]
  split_ifs <;> rfl

theorem signedDist_congr (p : clipplane_t) (a b : Nat → ℚ) (h : ∀ k, k < 3 → a k = b k) :
    signedDist p a = signedDist p b := by
  unfold signedDist DotProduct
  rw [h 0 (by decide), h 1 (by decide), h 2 (by decide)]

/-- C13. The function `R_BmodelCheckBBox` returns `BMODEL_FULLY_CLIPPED` for
every box that lies entirely behind at least one of the four frustum planes
(all eight corners have `dot(corner, normal_i) - dist_i <= 0` for some `i` in
`0..3`), provided `pfrustum_indexes[i]` selects as reject point the box corner
with the greatest signed distance to plane `i`; conversely it returns
`BMODEL_FULLY_CLIPPED` only if the reject point of some plane is on or behind
that plane. -/
theorem R_BmodelCheckBBox_fully_clipped (pfrustum_indexes : Nat → Nat → Nat)
    (view_clipplanes : Nat → clipplane_t) (minmaxs : Nat → ℚ) :
    ((∀ i, i < 4 → RejectIsFarthest pfrustum_indexes view_clipplanes minmaxs i) →
      (∃ i, i < 4 ∧ ∀ hi : Nat → Bool,
        signedDist (view_clipplanes i) (boxCorner minmaxs hi) ≤ 0) →
      R_BmodelCheckBBox pfrustum_indexes view_clipplanes minmaxs = BMODEL_FULLY_CLIPPED) ∧
    (R_BmodelCheckBBox pfrustum_indexes view_clipplanes minmaxs = BMODEL_FULLY_CLIPPED →
      ∃ i, i < 4 ∧
        signedDist (view_clipplanes i) (rejectPoint pfrustum_indexes minmaxs i) ≤ 0) := by
  constructor
  · rintro hrej ⟨i, hi, hbehind⟩
    obtain ⟨⟨c, hc⟩, _⟩ := hrej i hi
    have hr : signedDist (view_clipplanes i) (rejectPoint pfrustum_indexes minmaxs i) ≤ 0 := by
      rw [signedDist_congr _ _ _ hc]
      exact hbehind c
    rw [R_BmodelCheckBBox_unroll]
    interval_cases i
    · rw [if_pos hr]
    · rw [if_pos hr]; split_ifs <;> rfl
    · rw [if_pos hr]; split_ifs <;> rfl
    · rw [if_pos hr]; split_ifs <;> rfl
  · intro h
    rw [R_BmodelCheckBBox_unroll] at h
    by_cases h0 : signedDist (view_clipplanes 0) (rejectPoint pfrustum_indexes minmaxs 0) ≤ 0
    · exact ⟨0, by decide, h0⟩
    · by_cases h1 : signedDist (view_clipplanes 1) (rejectPoint pfrustum_indexes minmaxs 1) ≤ 0
      · exact ⟨1, by decide, h1⟩
      · by_cases h2 :
            signedDist (view_clipplanes 2) (rejectPoint pfrustum_indexes minmaxs 2) ≤ 0
        · exact ⟨2, by decide, h2⟩
        · by_cases h3 :
              signedDist (view_clipplanes 3) (rejectPoint pfrustum_indexes minmaxs 3) ≤ 0
          · exact ⟨3, by decide, h3⟩
          · rw [if_neg h0, if_neg h1, if_neg h2, if_neg h3] at h
            exfalso
            unfold BMODEL_FULLY_CLIPPED at h
            split_ifs at h <;> omega

/-- With indexes chosen by the sign of the normal, the reject point is the
farthest corner of any box whose `mins` do not exceed its `maxs`. -/
theorem signFrustumIndexes_reject (vc : Nat → clipplane_t) (minmaxs : Nat → ℚ)
    (hbox : ∀ k, k < 3 → minmaxs k ≤ minmaxs (3 + k)) (i : Nat) :
    RejectIsFarthest (signFrustumIndexes vc) vc minmaxs i := by
  have hpt : ∀ k, k < 3 → rejectPoint (signFrustumIndexes vc) minmaxs i k =
      if (vc i).normal k < 0 then minmaxs k else minmaxs (3 + k) := by
    intro k hk
    simp only [rejectPoint, signFrustumIndexes, if_pos hk]
    split_ifs
    · rfl
    · rw [Nat.add_comm]
  constructor
  · refine ⟨fun k => decide (¬ (vc i).normal k < 0), fun k hk => ?_⟩
    rw [hpt k hk]
    simp only [boxCorner]
    by_cases hn : (vc i).normal k < 0 <;> simp [hn]
  · intro c
    have hterm : ∀ k, k < 3 → boxCorner minmaxs c k * (vc i).normal k ≤
        rejectPoint (signFrustumIndexes vc) minmaxs i k * (vc i).normal k := by
      intro k hk
      rw [hpt k hk]
      have hb := hbox k hk
      by_cases hn : (vc i).normal k < 0
      · rw [if_pos hn]
        apply mul_le_mul_of_nonpos_right _ (le_of_lt hn)
        simp only [boxCorner]
        split_ifs
        · exact hb
        · exact le_refl _
      · rw [if_neg hn]
        apply mul_le_mul_of_nonneg_right _ (not_lt.1 hn)
        simp only [boxCorner]
        split_ifs
        · exact le_refl _
        · exact hb
    have h0 := hterm 0 (by decide)
    have h1 := hterm 1 (by decide)
    have h2 := hterm 2 (by decide)
    unfold signedDist DotProduct
    linarith

/-- With indexes chosen by the sign of the normal, the accept point is the
nearest corner of any box whose `mins` do not exceed its `maxs`. -/
theorem signFrustumIndexes_accept (vc : Nat → clipplane_t) (minmaxs : Nat → ℚ)
    (hbox : ∀ k, k < 3 → minmaxs k ≤ minmaxs (3 + k)) (i : Nat) :
    AcceptIsNearest (signFrustumIndexes vc) vc minmaxs i := by
  have hpt : ∀ k, k < 3 → acceptPoint (signFrustumIndexes vc) minmaxs i k =
      if (vc i).normal k < 0 then minmaxs (3 + k) else minmaxs k := by
    intro k hk
    have h3 : ¬ (3 + k < 3) := by omega
    have hsub : 3 + k - 3 = k := by omega
    simp only [acceptPoint, signFrustumIndexes, if_neg h3, hsub]
    split_ifs <;> rfl
  constructor
  · refine ⟨fun k => decide ((vc i).normal k < 0), fun k hk => ?_⟩
    rw [hpt k hk]
    simp only [boxCorner]
    by_cases hn : (vc i).normal k < 0 <;> simp [hn]
  · intro c
    have hterm : ∀ k, k < 3 → acceptPoint (signFrustumIndexes vc) minmaxs i k * (vc i).normal k ≤
        boxCorner minmaxs c k * (vc i).normal k := by
      intro k hk
      rw [hpt k hk]
      have hb := hbox k hk
      by_cases hn : (vc i).normal k < 0
      · rw [if_pos hn]
        apply mul_le_mul_of_nonpos_right _ (le_of_lt hn)
        simp only [boxCorner]
        split_ifs
        · exact le_refl _
        · exact hb
      · rw [if_neg hn]
        apply mul_le_mul_of_nonneg_right _ (not_lt.1 hn)
        simp only [boxCorner]
        split_ifs
        · exact hb
        · exact le_refl _
    have h0 := hterm 0 (by decide)
    have h1 := hterm 1 (by decide)
    have h2 := hterm 2 (by decide)
    unfold signedDist DotProduct
    linarith

theorem boxBehindPlane2_ordered (k : Nat) (hk : k < 3) :
    boxBehindPlane2 k ≤ boxBehindPlane2 (3 + k) := by
  interval_cases k <;> norm_num [boxBehindPlane2]

theorem boxAcrossPlane0_ordered (k : Nat) (hk : k < 3) :
    boxAcrossPlane0 k ≤ boxAcrossPlane0 (3 + k) := by
  interval_cases k <;> norm_num [boxAcrossPlane0]

theorem boxBehindPlane2_behind (hi : Nat → Bool) :
    signedDist (exampleClipplanes 2) (boxCorner boxBehindPlane2 hi) ≤ 0 := by
  simp only [signedDist, DotProduct, exampleClipplanes, boxCorner, boxBehindPlane2]
  cases hi 0 <;> cases hi 2 <;> norm_num

/-- Witness of C13: with the sample frustum, the box `boxBehindPlane2` lies
behind plane 2 and is reported fully clipped. -/
theorem R_BmodelCheckBBox_fully_clipped_witness :
    ((∀ i, i < 4 →
        RejectIsFarthest (signFrustumIndexes exampleClipplanes) exampleClipplanes
          boxBehindPlane2 i) ∧
      (∃ i, i < 4 ∧ ∀ hi : Nat → Bool,
        signedDist (exampleClipplanes i) (boxCorner boxBehindPlane2 hi) ≤ 0)) ∧
    R_BmodelCheckBBox (signFrustumIndexes exampleClipplanes) exampleClipplanes boxBehindPlane2 =
      BMODEL_FULLY_CLIPPED ∧
    ∃ i, i < 4 ∧ signedDist (exampleClipplanes i)
      (rejectPoint (signFrustumIndexes exampleClipplanes) boxBehindPlane2 i) ≤ 0 :=
  have hrej : ∀ i, i < 4 →
      RejectIsFarthest (signFrustumIndexes exampleClipplanes) exampleClipplanes
        boxBehindPlane2 i :=
    fun i _ => signFrustumIndexes_reject exampleClipplanes boxBehindPlane2
      boxBehindPlane2_ordered i
  have hbehind : ∃ i, i < 4 ∧ ∀ hi : Nat → Bool,
      signedDist (exampleClipplanes i) (boxCorner boxBehindPlane2 hi) ≤ 0 :=
    ⟨2, by decide, boxBehindPlane2_behind⟩
  have hres := (R_BmodelCheckBBox_fully_clipped (signFrustumIndexes exampleClipplanes)
    exampleClipplanes boxBehindPlane2).1 hrej hbehind
  ⟨⟨hrej, hbehind⟩, hres,
    (R_BmodelCheckBBox_fully_clipped (signFrustumIndexes exampleClipplanes)
      exampleClipplanes boxBehindPlane2).2 hres⟩

/-- When the box is not reported fully clipped, every reject point is
strictly in front of its plane and the result is the mask of the accept
tests. -/
theorem R_BmodelCheckBBox_not_clipped (pf : Nat → Nat → Nat) (vc : Nat → clipplane_t)
    (minmaxs : Nat → ℚ) (h : R_BmodelCheckBBox pf vc minmaxs ≠ BMODEL_FULLY_CLIPPED) :
    (∀ i, i < 4 → 0 < signedDist (vc i) (rejectPoint pf minmaxs i)) ∧
    R_BmodelCheckBBox pf vc minmaxs =
      (if signedDist (vc 0) (acceptPoint pf minmaxs 0) ≤ 0 then 1 else 0) +
      (if signedDist (vc 1) (acceptPoint pf minmaxs 1) ≤ 0 then 2 else 0) +
      (if signedDist (vc 2) (acceptPoint pf minmaxs 2) ≤ 0 then 4 else 0) +
      (if signedDist (vc 3) (acceptPoint pf minmaxs 3) ≤ 0 then 8 else 0) := by
  rw [R_BmodelCheckBBox_unroll] at h ⊢
  by_cases h0 : signedDist (vc 0) (rejectPoint pf minmaxs 0) ≤ 0
  · rw [if_pos h0] at h; exact absurd rfl h
  by_cases h1 : signedDist (vc 1) (rejectPoint pf minmaxs 1) ≤ 0
  · rw [if_neg h0, if_pos h1] at h; exact absurd rfl h
  by_cases h2 : signedDist (vc 2) (rejectPoint pf minmaxs 2) ≤ 0
  · rw [if_neg h0, if_neg h1, if_pos h2] at h; exact absurd rfl h
  by_cases h3 : signedDist (vc 3) (rejectPoint pf minmaxs 3) ≤ 0
  · rw [if_neg h0, if_neg h1, if_neg h2, if_pos h3] at h; exact absurd rfl h
  rw [if_neg h0, if_neg h1, if_neg h2, if_neg h3]
  refine ⟨?_, rfl⟩
  intro i hi
  interval_cases i
  · exact not_le.1 h0
  · exact not_le.1 h1
  · exact not_le.1 h2
  · exact not_le.1 h3

/-- C14. When `R_BmodelCheckBBox` does not report fully clipped, its result
is a 4-bit mask (`0..15`, hence never `BMODEL_FULLY_CLIPPED`) in which bit `i`
is set iff the accept point of plane `i` satisfies `dot - dist <= 0` while the
reject point is strictly in front (the box straddles plane `i`); and, the
accept point being the corner with the least signed distance, bit `i` is
clear iff the whole box is in front of plane `i`. -/
theorem R_BmodelCheckBBox_mask (pfrustum_indexes : Nat → Nat → Nat)
    (view_clipplanes : Nat → clipplane_t) (minmaxs : Nat → ℚ)
    (h : R_BmodelCheckBBox pfrustum_indexes view_clipplanes minmaxs ≠ BMODEL_FULLY_CLIPPED) :
    R_BmodelCheckBBox pfrustum_indexes view_clipplanes minmaxs ≤ 15 ∧
    ∀ i, i < 4 →
      ((R_BmodelCheckBBox pfrustum_indexes view_clipplanes minmaxs).testBit i = true ↔
        (signedDist (view_clipplanes i) (acceptPoint pfrustum_indexes minmaxs i) ≤ 0 ∧
          0 < signedDist (view_clipplanes i) (rejectPoint pfrustum_indexes minmaxs i))) ∧
      (AcceptIsNearest pfrustum_indexes view_clipplanes minmaxs i →
        ((R_BmodelCheckBBox pfrustum_indexes view_clipplanes minmaxs).testBit i = false ↔
          ∀ hi : Nat → Bool, 0 < signedDist (view_clipplanes i) (boxCorner minmaxs hi))) := by
  obtain ⟨hrej, hval⟩ := R_BmodelCheckBBox_not_clipped _ _ _ h
  have hbit : ∀ i, i < 4 →
      ((R_BmodelCheckBBox pfrustum_indexes view_clipplanes minmaxs).testBit i = true ↔
        signedDist (view_clipplanes i) (acceptPoint pfrustum_indexes minmaxs i) ≤ 0) := by
    intro i hi
    rw [hval]
    by_cases a0 : signedDist (view_clipplanes 0) (acceptPoint pfrustum_indexes minmaxs 0) ≤ 0 <;>
    by_cases a1 : signedDist (view_clipplanes 1) (acceptPoint pfrustum_indexes minmaxs 1) ≤ 0 <;>
    by_cases a2 : signedDist (view_clipplanes 2) (acceptPoint pfrustum_indexes minmaxs 2) ≤ 0 <;>
    by_cases a3 : signedDist (view_clipplanes 3) (acceptPoint pfrustum_indexes minmaxs 3) ≤ 0 <;>
    interval_cases i <;> simp [a0, a1, a2, a3] <;> decide
  refine ⟨?_, ?_⟩
  · rw [hval]
    split_ifs <;> omega
  · intro i hi
    refine ⟨?_, ?_⟩
    · rw [hbit i hi]
      exact ⟨fun ha => ⟨ha, hrej i hi⟩, fun ha => ha.1⟩
    · rintro ⟨⟨c, hc⟩, hnear⟩
      have hbf : (R_BmodelCheckBBox pfrustum_indexes view_clipplanes minmaxs).testBit i = false ↔
          0 < signedDist (view_clipplanes i) (acceptPoint pfrustum_indexes minmaxs i) := by
        rw [← not_le, ← hbit i hi]
        simp
      rw [hbf]
      constructor
      · intro hacc hi'
        exact lt_of_lt_of_le hacc (hnear hi')
      · intro hall
        rw [signedDist_congr _ _ _ hc]
        exact hall c

/-- A concrete run: the box `boxAcrossPlane0` against the sample frustum gives
the mask 1 (plane 0 straddled, planes 1 to 3 cleared). -/
theorem R_BmodelCheckBBox_boxAcrossPlane0_run :
    R_BmodelCheckBBox (signFrustumIndexes exampleClipplanes) exampleClipplanes
      boxAcrossPlane0 = 1 := by
  rw [R_BmodelCheckBBox_unroll]
  norm_num [signedDist, DotProduct, rejectPoint, acceptPoint, signFrustumIndexes,
    exampleClipplanes, boxAcrossPlane0]

theorem boxAcrossPlane0_not_clipped :
    R_BmodelCheckBBox (signFrustumIndexes exampleClipplanes) exampleClipplanes
      boxAcrossPlane0 ≠ BMODEL_FULLY_CLIPPED := by
  rw [R_BmodelCheckBBox_boxAcrossPlane0_run]
  decide

/-- Witness of C14: plane 0 of the sample frustum and the box
`boxAcrossPlane0`. -/
theorem R_BmodelCheckBBox_mask_witness :
    (R_BmodelCheckBBox (signFrustumIndexes exampleClipplanes) exampleClipplanes
        boxAcrossPlane0 ≠ BMODEL_FULLY_CLIPPED ∧ 0 < 4 ∧
      AcceptIsNearest (signFrustumIndexes exampleClipplanes) exampleClipplanes
        boxAcrossPlane0 0) ∧
    R_BmodelCheckBBox (signFrustumIndexes exampleClipplanes) exampleClipplanes
      boxAcrossPlane0 ≤ 15 ∧
    ((R_BmodelCheckBBox (signFrustumIndexes exampleClipplanes) exampleClipplanes
          boxAcrossPlane0).testBit 0 = true ↔
      (signedDist (exampleClipplanes 0)
          (acceptPoint (signFrustumIndexes exampleClipplanes) boxAcrossPlane0 0) ≤ 0 ∧
        0 < signedDist (exampleClipplanes 0)
          (rejectPoint (signFrustumIndexes exampleClipplanes) boxAcrossPlane0 0))) ∧
    ((R_BmodelCheckBBox (signFrustumIndexes exampleClipplanes) exampleClipplanes
          boxAcrossPlane0).testBit 0 = false ↔
      ∀ hi : Nat → Bool, 0 < signedDist (exampleClipplanes 0) (boxCorner boxAcrossPlane0 hi)) :=
  ⟨⟨boxAcrossPlane0_not_clipped, by decide,
      signFrustumIndexes_accept exampleClipplanes boxAcrossPlane0 boxAcrossPlane0_ordered 0⟩,
    (R_BmodelCheckBBox_mask (signFrustumIndexes exampleClipplanes) exampleClipplanes
      boxAcrossPlane0 boxAcrossPlane0_not_clipped).1,
    ((R_BmodelCheckBBox_mask (signFrustumIndexes exampleClipplanes) exampleClipplanes
      boxAcrossPlane0 boxAcrossPlane0_not_clipped).2 0 (by decide)).1,
    ((R_BmodelCheckBBox_mask (signFrustumIndexes exampleClipplanes) exampleClipplanes
      boxAcrossPlane0 boxAcrossPlane0_not_clipped).2 0 (by decide)).2
      (signFrustumIndexes_accept exampleClipplanes boxAcrossPlane0 boxAcrossPlane0_ordered 0)⟩

/-! ### SWR_DrawEntitiesOnList -/

/-- The shared body logs exactly the draw call due to the entity, made while
`refsoft_currententity` points to it. -/
theorem drawEntity_log {σ : Type} (run : DrawCall → EntState σ → EntState σ) (RF_BEAM : Nat)
    (i : Nat) (e : entity_t) (s : EntState σ) (log : List (DrawCall × EntState σ))
    (hs : s.refsoft_currententity = some i) :
    (drawEntity run RF_BEAM i e (s, log)).2.filterMap drawnEntity =
      log.filterMap drawnEntity ++ (drawCallOf RF_BEAM i e).toList := by
  unfold drawEntity drawCallOf
  by_cases hb : e.flags &&& RF_BEAM ≠ 0
  · simp only [if_pos hb, callExt, List.filterMap_append, Option.toList]
    simp [drawnEntity, hs]
  · simp only [if_neg hb]
    cases hm : e.model with
    | none =>
      simp only [callExt, List.filterMap_append, Option.toList]
      simp [drawnEntity]
    | some m =>
      cases ht : m.type <;>
        simp [ht, callExt, List.filterMap_append, Option.toList, drawnEntity, hs]

theorem drawOpaqueLoop_log {σ : Type} (run : DrawCall → EntState σ → EntState σ)
    (RF_TRANSLUCENT RF_BEAM : Nat) :
    ∀ (es : List entity_t) (i : Nat) (s : EntState σ) (log : List (DrawCall × EntState σ))
      (t : Bool),
      (drawOpaqueLoop run RF_TRANSLUCENT RF_BEAM i es (s, log, t)).2.1.filterMap drawnEntity =
        log.filterMap drawnEntity ++ expectedDraws RF_TRANSLUCENT RF_BEAM false i es ∧
      (drawOpaqueLoop run RF_TRANSLUCENT RF_BEAM i es (s, log, t)).2.2 =
        (t || es.any (isTranslucent RF_TRANSLUCENT)) := by
  intro es
  induction es with
  | nil => intro i s log t; simp [drawOpaqueLoop, expectedDraws]
  | cons e rest ih =>
    intro i s log t
    simp only [drawOpaqueLoop, expectedDraws, isTranslucent, List.any_cons]
    by_cases htr : e.flags &&& RF_TRANSLUCENT ≠ 0
    · simp only [if_pos htr]
      obtain ⟨h1, h2⟩ := ih (i + 1) { s with refsoft_currententity := some i } log true
      refine ⟨?_, ?_⟩
      · rw [h1]; simp [htr]
      · rw [h2]; simp [htr]
    · simp only [if_neg htr]
      obtain ⟨h1, h2⟩ := ih (i + 1)
        (drawEntity run RF_BEAM i e ({ s with refsoft_currententity := some i }, log)).1
        (drawEntity run RF_BEAM i e ({ s with refsoft_currententity := some i }, log)).2 t
      refine ⟨?_, ?_⟩
      · rw [h1, drawEntity_log run RF_BEAM i e _ log rfl]
        simp [htr]
      · rw [h2]; simp [htr]

theorem drawTranslucentLoop_log {σ : Type} (run : DrawCall → EntState σ → EntState σ)
    (RF_TRANSLUCENT RF_BEAM : Nat) :
    ∀ (es : List entity_t) (i : Nat) (s : EntState σ) (log : List (DrawCall × EntState σ)),
      (drawTranslucentLoop run RF_TRANSLUCENT RF_BEAM i es (s, log)).2.filterMap drawnEntity =
        log.filterMap drawnEntity ++ expectedDraws RF_TRANSLUCENT RF_BEAM true i es := by
  intro es
  induction es with
  | nil => intro i s log; simp [drawTranslucentLoop, expectedDraws]
  | cons e rest ih =>
    intro i s log
    by_cases htr : e.flags &&& RF_TRANSLUCENT ≠ 0
    · have hloop : drawTranslucentLoop run RF_TRANSLUCENT RF_BEAM i (e :: rest) (s, log) =
          drawTranslucentLoop run RF_TRANSLUCENT RF_BEAM (i + 1) rest
            (drawEntity run RF_BEAM i e ({ s with refsoft_currententity := some i }, log)) := by
        simp only [drawTranslucentLoop]
        rw [if_neg (not_not.2 htr)]
      have := ih (i + 1)
        (drawEntity run RF_BEAM i e ({ s with refsoft_currententity := some i }, log)).1
        (drawEntity run RF_BEAM i e ({ s with refsoft_currententity := some i }, log)).2
      rw [hloop, this, drawEntity_log run RF_BEAM i e _ log rfl]
      simp [expectedDraws, isTranslucent, htr]
    · have hloop : drawTranslucentLoop run RF_TRANSLUCENT RF_BEAM i (e :: rest) (s, log) =
          drawTranslucentLoop run RF_TRANSLUCENT RF_BEAM (i + 1) rest
            ({ s with refsoft_currententity := some i }, log) := by
        simp only [drawTranslucentLoop]
        rw [if_pos htr]
      rw [hloop, ih (i + 1) { s with refsoft_currententity := some i } log]
      simp [expectedDraws, isTranslucent, htr]

theorem expectedDraws_none (RF_TRANSLUCENT RF_BEAM : Nat) :
    ∀ (es : List entity_t) (i : Nat), es.any (isTranslucent RF_TRANSLUCENT) = false →
      expectedDraws RF_TRANSLUCENT RF_BEAM true i es = [] := by
  intro es
  induction es with
  | nil => intro i _; rfl
  | cons e rest ih =>
    intro i h
    simp only [List.any_cons, Bool.or_eq_false_iff] at h
    simp [expectedDraws, h.1, ih (i + 1) h.2]

theorem drawCallOf_index (RF_BEAM : Nat) (i : Nat) (e : entity_t) (c : DrawCall × Nat)
    (h : c ∈ (drawCallOf RF_BEAM i e).toList) : c.2 = i := by
  unfold drawCallOf at h
  by_cases hb : e.flags &&& RF_BEAM ≠ 0
  · simp only [if_pos hb, Option.toList, List.mem_singleton] at h
    rw [h]
  · simp only [if_neg hb] at h
    cases hm : e.model with
    | none => simp [hm] at h
    | some m =>
      cases ht : m.type <;> simp [hm, ht] at h <;> rw [h]

/-- Every expected draw belongs to an entity of the list with the requested
translucency, at its own index. -/
theorem expectedDraws_mem (RF_TRANSLUCENT RF_BEAM : Nat) (t : Bool) :
    ∀ (es : List entity_t) (i : Nat) (c : DrawCall × Nat),
      c ∈ expectedDraws RF_TRANSLUCENT RF_BEAM t i es →
      i ≤ c.2 ∧ ∃ e, es[c.2 - i]? = some e ∧ isTranslucent RF_TRANSLUCENT e = t := by
  intro es
  induction es with
  | nil => intro i c h; simp [expectedDraws] at h
  | cons e rest ih =>
    intro i c h
    simp only [expectedDraws, List.mem_append] at h
    rcases h with h | h
    · by_cases ht : isTranslucent RF_TRANSLUCENT e = t
      · rw [if_pos ht] at h
        have := drawCallOf_index RF_BEAM i e c h
        rw [this]
        exact ⟨le_refl _, e, by simp, ht⟩
      · rw [if_neg ht] at h
        cases h
    · obtain ⟨hle, e1, he1, ht1⟩ := ih (i + 1) c h
      refine ⟨by omega, e1, ?_, ht1⟩
      have : c.2 - i = (c.2 - (i + 1)) + 1 := by omega
      rw [this, List.getElem?_cons_succ]
      exact he1

theorem expectedDraws_nodup (RF_TRANSLUCENT RF_BEAM : Nat) (t : Bool) :
    ∀ (es : List entity_t) (i : Nat),
      ((expectedDraws RF_TRANSLUCENT RF_BEAM t i es).map Prod.snd).Nodup := by
  intro es
  induction es with
  | nil => intro i; simp [expectedDraws]
  | cons e rest ih =>
    intro i
    simp only [expectedDraws, List.map_append]
    rw [List.nodup_append]
    refine ⟨?_, ih (i + 1), ?_⟩
    · by_cases ht : isTranslucent RF_TRANSLUCENT e = t
      · rw [if_pos ht]
        cases hd : drawCallOf RF_BEAM i e <;> simp [Option.toList]
      · rw [if_neg ht]; simp
    · intro x hx1 hx2
      rw [List.mem_map] at hx1 hx2
      obtain ⟨c1, hc1, rfl⟩ := hx1
      obtain ⟨c2, hc2, heq⟩ := hx2
      have h2 := (expectedDraws_mem RF_TRANSLUCENT RF_BEAM t rest (i + 1) c2 hc2).1
      by_cases ht : isTranslucent RF_TRANSLUCENT e = t
      · rw [if_pos ht] at hc1
        have := drawCallOf_index RF_BEAM i e c1 hc1
        omega
      · rw [if_neg ht] at hc1
        cases hc1

/-- C17. The function `SWR_DrawEntitiesOnList` draws all opaque entities
before any translucent one: for every entity list (and whatever the callees
do to the state), the sequence of draw calls `R_DrawBeam`, `R_DrawSprite`,
`R_AliasDrawModel` it issues is the drawable entities without `RF_TRANSLUCENT`
in list order followed by the drawable entities with `RF_TRANSLUCENT` in list
order, no entity being drawn twice; when `r_drawentities` is zero no call is
issued and the state is untouched. -/
theorem SWR_DrawEntitiesOnList_order {σ : Type} (run : DrawCall → EntState σ → EntState σ)
    (RF_TRANSLUCENT RF_BEAM : Nat) (r_drawentities : ℚ) (entities : List entity_t)
    (s : EntState σ) :
    (r_drawentities ≠ 0 →
      (SWR_DrawEntitiesOnList run RF_TRANSLUCENT RF_BEAM r_drawentities entities
          s).2.filterMap drawnEntity =
        expectedDraws RF_TRANSLUCENT RF_BEAM false 0 entities ++
          expectedDraws RF_TRANSLUCENT RF_BEAM true 0 entities ∧
      (((SWR_DrawEntitiesOnList run RF_TRANSLUCENT RF_BEAM r_drawentities entities
          s).2.filterMap drawnEntity).map Prod.snd).Nodup) ∧
    (r_drawentities = 0 →
      SWR_DrawEntitiesOnList run RF_TRANSLUCENT RF_BEAM r_drawentities entities s = (s, [])) := by
  constructor
  · intro hne
    have hlog : (SWR_DrawEntitiesOnList run RF_TRANSLUCENT RF_BEAM r_drawentities entities
          s).2.filterMap drawnEntity =
        expectedDraws RF_TRANSLUCENT RF_BEAM false 0 entities ++
          expectedDraws RF_TRANSLUCENT RF_BEAM true 0 entities := by
      unfold SWR_DrawEntitiesOnList
      rw [if_neg hne]
      obtain ⟨h1, h2⟩ := drawOpaqueLoop_log run RF_TRANSLUCENT RF_BEAM entities 0 s [] false
      simp only [List.filterMap_nil, List.nil_append, Bool.false_or] at h1 h2
      cases hany : entities.any (isTranslucent RF_TRANSLUCENT) with
      | false =>
        simp only [h2, hany, if_true]
        rw [h1, expectedDraws_none RF_TRANSLUCENT RF_BEAM entities 0 hany, List.append_nil]
      | true =>
        simp only [h2, hany, Bool.true_eq_false, if_false]
        rw [drawTranslucentLoop_log, h1]
    refine ⟨hlog, ?_⟩
    rw [hlog, List.map_append, List.nodup_append]
    refine ⟨expectedDraws_nodup _ _ _ _ _, expectedDraws_nodup _ _ _ _ _, ?_⟩
    intro x hx1 hx2
    rw [List.mem_map] at hx1 hx2
    obtain ⟨c1, hc1, rfl⟩ := hx1
    obtain ⟨c2, hc2, heq⟩ := hx2
    obtain ⟨_, e1, he1, ht1⟩ := expectedDraws_mem RF_TRANSLUCENT RF_BEAM false entities 0 c1 hc1
    obtain ⟨_, e2, he2, ht2⟩ := expectedDraws_mem RF_TRANSLUCENT RF_BEAM true entities 0 c2 hc2
    rw [heq, he1] at he2
    cases he2
    rw [ht1] at ht2
    cases ht2
  · intro h0
    unfold SWR_DrawEntitiesOnList
    rw [if_pos h0]

/-- The draws expected for `exampleEntities`: the opaque sprite and alias
model first, then the translucent beam and alias model; the entity without
model and the brush model get no draw call. -/
theorem exampleEntities_draws :
    expectedDraws 32 128 false 0 exampleEntities ++ expectedDraws 32 128 true 0 exampleEntities =
      [(DrawCall.R_DrawSprite, 0), (DrawCall.R_AliasDrawModel, 2), (DrawCall.R_DrawBeam 1, 1),
        (DrawCall.R_AliasDrawModel, 4)] := by
  decide

/-- Witness of C17 on `exampleEntities`, with entity drawing on and off. -/
theorem SWR_DrawEntitiesOnList_order_witness :
    ((1 : ℚ) ≠ 0 ∧ (0 : ℚ) = 0) ∧
    ((SWR_DrawEntitiesOnList idleDraw 32 128 1 exampleEntities
          exampleEntState).2.filterMap drawnEntity =
        expectedDraws 32 128 false 0 exampleEntities ++
          expectedDraws 32 128 true 0 exampleEntities ∧
      (((SWR_DrawEntitiesOnList idleDraw 32 128 1 exampleEntities
          exampleEntState).2.filterMap drawnEntity).map Prod.snd).Nodup) ∧
    SWR_DrawEntitiesOnList idleDraw 32 128 0 exampleEntities exampleEntState =
      (exampleEntState, []) :=
  ⟨⟨by norm_num, rfl⟩,
    (SWR_DrawEntitiesOnList_order idleDraw 32 128 1 exampleEntities exampleEntState).1
      (by norm_num),
    (SWR_DrawEntitiesOnList_order idleDraw 32 128 0 exampleEntities exampleEntState).2 rfl⟩

/-! ### The log of a sequence of statements -/

theorem callExt_log {C S : Type} (run : C → S → S) (c : C) (p : S × List (C × S)) :
    (callExt run c p).2 = p.2 ++ [(c, p.1)] := rfl

theorem assign_log {C S : Type} (f : S → S) (p : S × List (C × S)) :
    (assign f p).2 = p.2 := rfl

theorem callRet_log {C S V : Type} (run : C → S → S) (c : C) (ret : S → V) (set : V → S → S)
    (p : S × List (C × S)) :
    (callRet run c ret set p).2 = p.2 ++ [(c, p.1)] := rfl

/-- A guarded block whose body only appends `extra` to the log appends it when
the condition holds and nothing otherwise. -/
theorem whenC_log {C S : Type} (cond : S → Bool)
    (body : S × List (C × S) → S × List (C × S)) (p : S × List (C × S))
    (extra : List (C × S)) (h : (body p).2 = p.2 ++ extra) :
    (whenC cond body p).2 = p.2 ++ (if cond p.1 then extra else []) := by
  unfold whenC
  cases hc : cond p.1
  · simp
  · simp [h]

theorem whenC_callExt_log {C S : Type} (cond : S → Bool) (run : C → S → S) (c : C)
    (p : S × List (C × S)) :
    (whenC cond (callExt run c) p).2 = p.2 ++ (if cond p.1 then [(c, p.1)] else []) :=
  whenC_log cond _ p _ rfl

theorem whenC_callRet_log {C S V : Type} (cond : S → Bool) (run : C → S → S) (c : C)
    (ret : S → V) (set : V → S → S) (p : S × List (C × S)) :
    (whenC cond (callRet run c ret set) p).2 = p.2 ++ (if cond p.1 then [(c, p.1)] else []) :=
  whenC_log cond _ p _ rfl

theorem whenC_callRet_assign_log {C S V : Type} (cond : S → Bool) (run : C → S → S) (c : C)
    (ret : S → V) (set : V → S → S) (f : S → S) (p : S × List (C × S)) :
    (whenC cond (fun q => assign f (callRet run c ret set q)) p).2 =
      p.2 ++ (if cond p.1 then [(c, p.1)] else []) :=
  whenC_log cond _ p _ rfl

theorem whenC_callRet_callRet_log {C S V : Type} (cond : S → Bool) (run : C → S → S) (c : C)
    (ret : S → V) (set set1 : V → S → S) (p : S × List (C × S)) :
    (whenC cond (fun q => callRet run c ret set1 (callRet run c ret set q)) p).2 =
      p.2 ++ (if cond p.1 then [(c, p.1), (c, (callRet run c ret set p).1)] else []) :=
  whenC_log cond _ p _ (by simp [callRet])

theorem filterMap_ite_nil {α β : Type} (g : α → Option β) (b : Bool) (l : List α) :
    List.filterMap g (if b = true then l else []) =
      if b = true then List.filterMap g l else [] := by
  cases b <;> simp

theorem filter_ite_nil {α : Type} (f : α → Bool) (b : Bool) (l : List α) :
    List.filter f (if b = true then l else []) =
      if b = true then List.filter f l else [] := by
  cases b <;> simp

theorem map_ite_nil {α β : Type} (f : α → β) (b : Bool) (l : List α) :
    List.map f (if b = true then l else []) =
      if b = true then List.map f l else [] := by
  cases b <;> simp

/-- A list `pre ++ [x] ++ o1 ++ … ++ o5` splits at `x` into a part without
and a part with only elements satisfying `f`, when `pre` has none and each
`o` has only such. -/
theorem split_at_call {α : Type} (f : α → Bool) (pre : List α) (x : α)
    (o1 o2 o3 o4 o5 : List α) (hpre : pre.filter f = [])
    (h1 : o1.filter f = o1) (h2 : o2.filter f = o2) (h3 : o3.filter f = o3)
    (h4 : o4.filter f = o4) (h5 : o5.filter f = o5) :
    ∃ pre1 post, pre ++ [x] ++ o1 ++ o2 ++ o3 ++ o4 ++ o5 = pre1 ++ [x] ++ post ∧
      (∀ c ∈ pre1, f c = false) ∧ ∀ c ∈ post, f c = true := by
  refine ⟨pre, o1 ++ o2 ++ o3 ++ o4 ++ o5, by simp only [List.append_assoc], ?_, ?_⟩
  · intro c hc
    have := List.filter_eq_nil_iff.1 hpre c hc
    simpa using this
  · intro c hc
    simp only [List.mem_append] at hc
    rcases hc with (((hc | hc) | hc) | hc) | hc
    · rw [← h1] at hc; exact (List.mem_filter.1 hc).2
    · rw [← h2] at hc; exact (List.mem_filter.1 hc).2
    · rw [← h3] at hc; exact (List.mem_filter.1 hc).2
    · rw [← h4] at hc; exact (List.mem_filter.1 hc).2
    · rw [← h5] at hc; exact (List.mem_filter.1 hc).2

/-- C18: in a frame that does not hit the fatal error, the calls of
`SWR_RenderFrame` to the stages are, in order, `SWR_MarkLeaves`,
`SWR_PushDlights`, `R_EdgeDrawing`, `SWR_DrawEntitiesOnList`,
`SWR_DrawParticles`, `SWR_DrawAlphaSurfaces`, then `D_WarpScreen` exactly when
`r_dowarp` is set in the state left by `SWR_SetLightLevel` (the state the code
tests), then `R_CalcPalette`: each once, the warp at most once. Every
statistics call comes after the call of `R_CalcPalette` and nothing else
does. -/
theorem SWR_RenderFrame_stage_order {σ : Type}
    (run : FrameCall → FrameState σ → FrameState σ) (Sys_Milliseconds : FrameState σ → ℚ)
    (RDF_NOWORLDMODEL : Nat) (fd : refdef_t) (s : FrameState σ)
    (h : ¬ (s.r_refsoft_worldmodel.isNone = true ∧ fd.rdflags &&& RDF_NOWORLDMODEL = 0)) :
    (∃ sL : FrameState σ,
      (SWR_RenderFrame run Sys_Milliseconds RDF_NOWORLDMODEL fd s).2.filter
          (fun x => decide (x.1 = FrameCall.SWR_SetLightLevel)) =
        [(FrameCall.SWR_SetLightLevel, sL)] ∧
      (callNames (SWR_RenderFrame run Sys_Milliseconds RDF_NOWORLDMODEL fd s)).filter isStage =
        [FrameCall.SWR_MarkLeaves, FrameCall.SWR_PushDlights, FrameCall.R_EdgeDrawing,
          FrameCall.SWR_DrawEntitiesOnList, FrameCall.SWR_DrawParticles,
          FrameCall.SWR_DrawAlphaSurfaces] ++
        (if (run FrameCall.SWR_SetLightLevel sL).r_dowarp = true
          then [FrameCall.D_WarpScreen] else []) ++ [FrameCall.R_CalcPalette]) ∧
    ∃ pre post,
      callNames (SWR_RenderFrame run Sys_Milliseconds RDF_NOWORLDMODEL fd s) =
        pre ++ [FrameCall.R_CalcPalette] ++ post ∧
      (∀ c ∈ pre, isStatistics c = false) ∧ ∀ c ∈ post, isStatistics c = true := by
  constructor
  · unfold callNames SWR_RenderFrame
    simp only [if_neg h, callExt_log, assign_log, callRet_log, whenC_callExt_log,
      whenC_callRet_log, whenC_callRet_assign_log, whenC_callRet_callRet_log,
      List.filter_append, List.map_append, filter_ite_nil, map_ite_nil,
      List.filter_cons, List.filter_nil, List.map_cons, List.map_nil, isStage,
      List.nil_append, List.append_nil, decide_True, decide_False, if_true, if_false,
      reduceCtorEq, Bool.false_eq_true, ite_self]
    refine ⟨_, rfl, ?_⟩
    simp only [callExt, List.cons_append, List.nil_append, List.append_assoc]
  · unfold callNames SWR_RenderFrame
    simp only [if_neg h, callExt_log, whenC_callExt_log, List.map_append, map_ite_nil,
      List.map_cons, List.map_nil]
    apply split_at_call
    · simp only [callExt_log, assign_log, callRet_log, whenC_callExt_log,
        whenC_callRet_log, whenC_callRet_assign_log, whenC_callRet_callRet_log,
        List.filter_append, List.map_append, filter_ite_nil, map_ite_nil,
        List.filter_cons, List.filter_nil, List.map_cons, List.map_nil, isStatistics,
        List.nil_append, List.append_nil, if_true, if_false,
        reduceCtorEq, Bool.false_eq_true, ite_self]
    all_goals simp only [filter_ite_nil, List.filter_cons, List.filter_nil, isStatistics,
      if_true]

/-- The stage order on a frame with a loaded world, speed reports on and the
camera under water. -/
theorem SWR_RenderFrame_stage_order_witness :
    ¬ (exampleFrameState.r_refsoft_worldmodel.isNone = true ∧ exampleRefdef.rdflags &&& 2 = 0) ∧
    ((∃ sL : FrameState Unit,
      (SWR_RenderFrame idleFrame exampleClock 2 exampleRefdef exampleFrameState).2.filter
          (fun x => decide (x.1 = FrameCall.SWR_SetLightLevel)) =
        [(FrameCall.SWR_SetLightLevel, sL)] ∧
      (callNames (SWR_RenderFrame idleFrame exampleClock 2 exampleRefdef
          exampleFrameState)).filter isStage =
        [FrameCall.SWR_MarkLeaves, FrameCall.SWR_PushDlights, FrameCall.R_EdgeDrawing,
          FrameCall.SWR_DrawEntitiesOnList, FrameCall.SWR_DrawParticles,
          FrameCall.SWR_DrawAlphaSurfaces] ++
        (if (idleFrame FrameCall.SWR_SetLightLevel sL).r_dowarp = true
          then [FrameCall.D_WarpScreen] else []) ++ [FrameCall.R_CalcPalette]) ∧
    ∃ pre post,
      callNames (SWR_RenderFrame idleFrame exampleClock 2 exampleRefdef exampleFrameState) =
        pre ++ [FrameCall.R_CalcPalette] ++ post ∧
      (∀ c ∈ pre, isStatistics c = false) ∧ ∀ c ∈ post, isStatistics c = true) :=
  ⟨by simp [exampleFrameState],
    SWR_RenderFrame_stage_order idleFrame exampleClock 2 exampleRefdef exampleFrameState
      (by simp [exampleFrameState])⟩

/-- C19: `SWR_RenderFrame` calls `ri.Sys_Error` exactly when no world model
is loaded and the frame's `rdflags` lack `RDF_NOWORLDMODEL` (the call is then
the only one of the frame); with the flag set it never does; and
`R_EdgeDrawing`, entered with the flag set in the current frame description,
returns with the state unchanged (edge and surface pool pointers included)
and without calling anything. -/
theorem SWR_RenderFrame_fatal_iff {σ : Type}
    (run : FrameCall → FrameState σ → FrameState σ) (Sys_Milliseconds : FrameState σ → ℚ)
    (RDF_NOWORLDMODEL : Nat) (fd : refdef_t) (s : FrameState σ) :
    (FrameCall.Sys_Error ∈ callNames (SWR_RenderFrame run Sys_Milliseconds RDF_NOWORLDMODEL fd s)
      ↔ s.r_refsoft_worldmodel = none ∧ fd.rdflags &&& RDF_NOWORLDMODEL = 0) ∧
    (s.r_refsoft_worldmodel = none ∧ fd.rdflags &&& RDF_NOWORLDMODEL = 0 →
      callNames (SWR_RenderFrame run Sys_Milliseconds RDF_NOWORLDMODEL fd s) =
        [FrameCall.Sys_Error]) ∧
    (fd.rdflags &&& RDF_NOWORLDMODEL ≠ 0 →
      FrameCall.Sys_Error ∉
        callNames (SWR_RenderFrame run Sys_Milliseconds RDF_NOWORLDMODEL fd s)) ∧
    (s.r_refsoft_newrefdef.rdflags &&& RDF_NOWORLDMODEL ≠ 0 →
      R_EdgeDrawing run Sys_Milliseconds RDF_NOWORLDMODEL s = (s, [])) := by
  have hfatal : s.r_refsoft_worldmodel = none ∧ fd.rdflags &&& RDF_NOWORLDMODEL = 0 →
      callNames (SWR_RenderFrame run Sys_Milliseconds RDF_NOWORLDMODEL fd s) =
        [FrameCall.Sys_Error] := by
    intro hf
    have hf1 : s.r_refsoft_worldmodel.isNone = true ∧ fd.rdflags &&& RDF_NOWORLDMODEL = 0 :=
      ⟨by rw [hf.1]; rfl, hf.2⟩
    unfold callNames SWR_RenderFrame
    simp only [if_pos hf1, callExt_log, List.map_append, List.map_cons, List.map_nil,
      List.nil_append]
  have hnot : ¬ (s.r_refsoft_worldmodel = none ∧ fd.rdflags &&& RDF_NOWORLDMODEL = 0) →
      FrameCall.Sys_Error ∉
        callNames (SWR_RenderFrame run Sys_Milliseconds RDF_NOWORLDMODEL fd s) := by
    intro hf
    have hf1 :
        ¬ (s.r_refsoft_worldmodel.isNone = true ∧ fd.rdflags &&& RDF_NOWORLDMODEL = 0) :=
      fun hc => hf ⟨Option.isNone_iff_eq_none.1 hc.1, hc.2⟩
    have hall : (callNames (SWR_RenderFrame run Sys_Milliseconds RDF_NOWORLDMODEL fd s)).filter
        (fun c => decide (c = FrameCall.Sys_Error)) = [] := by
      unfold callNames SWR_RenderFrame
      simp only [if_neg hf1, callExt_log, assign_log, callRet_log, whenC_callExt_log,
        whenC_callRet_log, whenC_callRet_assign_log, whenC_callRet_callRet_log,
        List.filter_append, List.map_append, filter_ite_nil, map_ite_nil,
        List.filter_cons, List.filter_nil, List.map_cons, List.map_nil,
        List.nil_append, List.append_nil, decide_True, decide_False, if_true, if_false,
        reduceCtorEq, Bool.false_eq_true, ite_self]
    intro hmem
    have := List.filter_eq_nil_iff.1 hall _ hmem
    simp at this
  refine ⟨⟨fun hmem => ?_, fun hf => ?_⟩, hfatal, fun hflag => hnot fun hf => hflag hf.2, ?_⟩
  · by_contra hf
    exact hnot hf hmem
  · rw [hfatal hf]
    exact List.mem_singleton_self _
  · intro hflag
    unfold R_EdgeDrawing
    simp only [if_pos hflag]

/-- A frame drawn with `RDF_NOWORLDMODEL` (bit 2) and no world loaded raises
no error, and `R_EdgeDrawing` returns at once. -/
theorem SWR_RenderFrame_fatal_iff_witness :
    (exampleMenuRefdef.rdflags &&& 2 ≠ 0 ∧
      FrameCall.Sys_Error ∉
        callNames (SWR_RenderFrame idleFrame exampleClock 2 exampleMenuRefdef
          exampleMenuState)) ∧
    (exampleMenuState.r_refsoft_newrefdef.rdflags &&& 2 ≠ 0 ∧
      R_EdgeDrawing idleFrame exampleClock 2 exampleMenuState = (exampleMenuState, [])) ∧
    (exampleMenuState.r_refsoft_worldmodel = none ∧ exampleRefdef.rdflags &&& 2 = 0) ∧
    callNames (SWR_RenderFrame idleFrame exampleClock 2 exampleRefdef exampleMenuState) =
      [FrameCall.Sys_Error] :=
  ⟨⟨by decide,
      (SWR_RenderFrame_fatal_iff idleFrame exampleClock 2 exampleMenuRefdef
        exampleMenuState).2.2.1 (by decide)⟩,
    ⟨by decide,
      (SWR_RenderFrame_fatal_iff idleFrame exampleClock 2 exampleMenuRefdef
        exampleMenuState).2.2.2 (by decide)⟩,
    ⟨rfl, by decide⟩,
    (SWR_RenderFrame_fatal_iff idleFrame exampleClock 2 exampleRefdef
      exampleMenuState).2.1 ⟨rfl, by decide⟩⟩

/-! ### The mode loop of SWR_BeginFrame -/

theorem lastGood_append (init : Int) (l1 l2 : List BeginCall) :
    lastGood init (l1 ++ l2) = lastGood (lastGood init l1) l2 := by
  unfold lastGood
  rw [List.filterMap_append, List.getLast?_append]
  cases (List.filterMap knownGood l2).getLast? <;> simp

theorem modeIteration_prev_mode {σ : Type} (run : BeginCall → σ → σ)
    (SWimp_SetMode : Int → Int → Int → Int → σ → rserr_t × Int × Int × σ)
    (Cvar_SetValue : CvarName → ℚ → Cvars → Cvars) (d_refsoft_8to24table : Nat → Nat)
    (hcv : ∀ v c, (Cvar_SetValue CvarName.vid_fullscreen v c).sw_mode.value = c.sw_mode.value)
    (init : Int) (p : BeginLog σ) (hp : p.1.prev_mode = lastGood init p.2) :
    (modeIteration run SWimp_SetMode Cvar_SetValue d_refsoft_8to24table p).1.1.prev_mode =
      lastGood init
        (modeIteration run SWimp_SetMode Cvar_SetValue d_refsoft_8to24table p).1.2 := by
  simp only [modeIteration]
  generalize SWimp_SetMode p.1.vid_width p.1.vid_height (truncToInt p.1.cvars.sw_mode.value)
    (truncToInt p.1.cvars.vid_fullscreen.value) p.1.rest = r
  obtain ⟨err, w, h, rest⟩ := r
  cases err <;>
    simp [R_InitGraphics, callRest, callCvarSetValue, lastGood_append, hp, hcv] <;>
    simp [lastGood, knownGood]

theorem modeLoop_prev_mode {σ : Type} (run : BeginCall → σ → σ)
    (SWimp_SetMode : Int → Int → Int → Int → σ → rserr_t × Int × Int × σ)
    (Cvar_SetValue : CvarName → ℚ → Cvars → Cvars) (d_refsoft_8to24table : Nat → Nat)
    (hcv : ∀ v c, (Cvar_SetValue CvarName.vid_fullscreen v c).sw_mode.value = c.sw_mode.value)
    (init : Int) (fuel : Nat) :
    ∀ p : BeginLog σ, p.1.prev_mode = lastGood init p.2 →
      (modeLoop run SWimp_SetMode Cvar_SetValue d_refsoft_8to24table fuel p).1.1.prev_mode =
        lastGood init
          (modeLoop run SWimp_SetMode Cvar_SetValue d_refsoft_8to24table fuel p).1.2 := by
  induction fuel with
  | zero =>
    intro p hp
    unfold modeLoop
    split <;> exact hp
  | succ n ih =>
    intro p hp
    unfold modeLoop
    split
    · simp only []
      split
      · exact modeIteration_prev_mode run SWimp_SetMode Cvar_SetValue d_refsoft_8to24table
          hcv init p hp
      · exact ih _ (modeIteration_prev_mode run SWimp_SetMode Cvar_SetValue
          d_refsoft_8to24table hcv init p hp)
    · exact hp

theorem modeIteration_fatal_iff {σ : Type} (run : BeginCall → σ → σ)
    (SWimp_SetMode : Int → Int → Int → Int → σ → rserr_t × Int × Int × σ)
    (Cvar_SetValue : CvarName → ℚ → Cvars → Cvars) (d_refsoft_8to24table : Nat → Nat)
    (p : BeginLog σ) (hp : BeginCall.Sys_Error ∉ p.2) :
    ((modeIteration run SWimp_SetMode Cvar_SetValue d_refsoft_8to24table p).2 = true ↔
      BeginCall.Sys_Error ∈
        (modeIteration run SWimp_SetMode Cvar_SetValue d_refsoft_8to24table p).1.2) := by
  simp only [modeIteration]
  generalize SWimp_SetMode p.1.vid_width p.1.vid_height (truncToInt p.1.cvars.sw_mode.value)
    (truncToInt p.1.cvars.vid_fullscreen.value) p.1.rest = r
  obtain ⟨err, w, h, rest⟩ := r
  cases err <;> simp [R_InitGraphics, callRest, callCvarSetValue, hp]

theorem modeLoop_fatal_iff {σ : Type} (run : BeginCall → σ → σ)
    (SWimp_SetMode : Int → Int → Int → Int → σ → rserr_t × Int × Int × σ)
    (Cvar_SetValue : CvarName → ℚ → Cvars → Cvars) (d_refsoft_8to24table : Nat → Nat)
    (fuel : Nat) :
    ∀ p : BeginLog σ, BeginCall.Sys_Error ∉ p.2 →
      ((modeLoop run SWimp_SetMode Cvar_SetValue d_refsoft_8to24table fuel p).2 =
          LoopEnd.fatal ↔
        BeginCall.Sys_Error ∈
          (modeLoop run SWimp_SetMode Cvar_SetValue d_refsoft_8to24table fuel p).1.2) := by
  induction fuel with
  | zero =>
    intro p hp
    unfold modeLoop
    split <;> simp [hp]
  | succ n ih =>
    intro p hp
    have hit := modeIteration_fatal_iff run SWimp_SetMode Cvar_SetValue d_refsoft_8to24table
      p hp
    unfold modeLoop
    split
    · simp only []
      split
      · rename_i hf
        simp only [true_iff]
        exact hit.1 hf
      · rename_i hf
        exact ih _ (fun hc => hf (hit.2 hc))
    · simp [hp]

/-- An iteration in which the driver reports `rserr_invalid_mode`. -/
theorem modeIteration_invalid_mode {σ : Type} (run : BeginCall → σ → σ)
    (SWimp_SetMode : Int → Int → Int → Int → σ → rserr_t × Int × Int × σ)
    (Cvar_SetValue : CvarName → ℚ → Cvars → Cvars) (d_refsoft_8to24table : Nat → Nat)
    (p : BeginLog σ)
    (herr : (SWimp_SetMode p.1.vid_width p.1.vid_height (truncToInt p.1.cvars.sw_mode.value)
      (truncToInt p.1.cvars.vid_fullscreen.value) p.1.rest).1 = rserr_t.rserr_invalid_mode) :
    (modeIteration run SWimp_SetMode Cvar_SetValue d_refsoft_8to24table p).2 = false ∧
    (modeIteration run SWimp_SetMode Cvar_SetValue d_refsoft_8to24table p).1.2 =
      p.2 ++ [BeginCall.SWimp_SetMode (truncToInt p.1.cvars.sw_mode.value)
          (truncToInt p.1.cvars.vid_fullscreen.value) rserr_t.rserr_invalid_mode,
        BeginCall.Cvar_SetValue CvarName.sw_mode p.1.prev_mode,
        BeginCall.Con_Printf_could_not_set_mode, BeginCall.R_InitTurb] ∧
    (modeIteration run SWimp_SetMode Cvar_SetValue d_refsoft_8to24table p).1.1.cvars =
      Cvar_SetValue CvarName.sw_mode p.1.prev_mode p.1.cvars ∧
    (modeIteration run SWimp_SetMode Cvar_SetValue d_refsoft_8to24table p).1.1.prev_mode =
      p.1.prev_mode ∧
    (modeIteration run SWimp_SetMode Cvar_SetValue d_refsoft_8to24table p).1.1.palette =
      p.1.palette := by
  simp only [modeIteration]
  simp [herr, R_InitGraphics, callRest, callCvarSetValue]

/-- An iteration in which the driver reports none of `rserr_ok`,
`rserr_invalid_mode` and `rserr_invalid_fullscreen`. -/
theorem modeIteration_other_error {σ : Type} (run : BeginCall → σ → σ)
    (SWimp_SetMode : Int → Int → Int → Int → σ → rserr_t × Int × Int × σ)
    (Cvar_SetValue : CvarName → ℚ → Cvars → Cvars) (d_refsoft_8to24table : Nat → Nat)
    (p : BeginLog σ)
    (h1 : (SWimp_SetMode p.1.vid_width p.1.vid_height (truncToInt p.1.cvars.sw_mode.value)
      (truncToInt p.1.cvars.vid_fullscreen.value) p.1.rest).1 ≠ rserr_t.rserr_ok)
    (h2 : (SWimp_SetMode p.1.vid_width p.1.vid_height (truncToInt p.1.cvars.sw_mode.value)
      (truncToInt p.1.cvars.vid_fullscreen.value) p.1.rest).1 ≠ rserr_t.rserr_invalid_mode)
    (h3 : (SWimp_SetMode p.1.vid_width p.1.vid_height (truncToInt p.1.cvars.sw_mode.value)
      (truncToInt p.1.cvars.vid_fullscreen.value) p.1.rest).1 ≠
        rserr_t.rserr_invalid_fullscreen) :
    (modeIteration run SWimp_SetMode Cvar_SetValue d_refsoft_8to24table p).2 = true ∧
    (modeIteration run SWimp_SetMode Cvar_SetValue d_refsoft_8to24table p).1.2 =
      p.2 ++ [BeginCall.SWimp_SetMode (truncToInt p.1.cvars.sw_mode.value)
          (truncToInt p.1.cvars.vid_fullscreen.value)
          (SWimp_SetMode p.1.vid_width p.1.vid_height (truncToInt p.1.cvars.sw_mode.value)
            (truncToInt p.1.cvars.vid_fullscreen.value) p.1.rest).1,
        BeginCall.Sys_Error] := by
  simp only [modeIteration]
  simp [h1, h2, h3, callRest]

/-- The loop with no iteration allowed. -/
theorem modeLoop_zero {σ : Type} (run : BeginCall → σ → σ)
    (SWimp_SetMode : Int → Int → Int → Int → σ → rserr_t × Int × Int × σ)
    (Cvar_SetValue : CvarName → ℚ → Cvars → Cvars) (d_refsoft_8to24table : Nat → Nat)
    (p : BeginLog σ) :
    modeLoop run SWimp_SetMode Cvar_SetValue d_refsoft_8to24table 0 p =
      if (p.1.cvars.sw_mode.modified || p.1.cvars.vid_fullscreen.modified) = true
      then (p, LoopEnd.unfinished) else (p, LoopEnd.done) := by
  unfold modeLoop
  rfl

/-- The loop with one iteration more allowed. -/
theorem modeLoop_succ {σ : Type} (run : BeginCall → σ → σ)
    (SWimp_SetMode : Int → Int → Int → Int → σ → rserr_t × Int × Int × σ)
    (Cvar_SetValue : CvarName → ℚ → Cvars → Cvars) (d_refsoft_8to24table : Nat → Nat)
    (n : Nat) (p : BeginLog σ) :
    modeLoop run SWimp_SetMode Cvar_SetValue d_refsoft_8to24table (n + 1) p =
      if (p.1.cvars.sw_mode.modified || p.1.cvars.vid_fullscreen.modified) = true then
        if (modeIteration run SWimp_SetMode Cvar_SetValue d_refsoft_8to24table p).2 = true
        then ((modeIteration run SWimp_SetMode Cvar_SetValue d_refsoft_8to24table p).1,
          LoopEnd.fatal)
        else modeLoop run SWimp_SetMode Cvar_SetValue d_refsoft_8to24table n
          (modeIteration run SWimp_SetMode Cvar_SetValue d_refsoft_8to24table p).1
      else (p, LoopEnd.done) := by
  conv => lhs; unfold modeLoop

/-- A run that stops with the loop still going stops in a state in which the
loop condition holds. -/
theorem modeLoop_unfinished_cond {σ : Type} (run : BeginCall → σ → σ)
    (SWimp_SetMode : Int → Int → Int → Int → σ → rserr_t × Int × Int × σ)
    (Cvar_SetValue : CvarName → ℚ → Cvars → Cvars) (d_refsoft_8to24table : Nat → Nat)
    (k : Nat) :
    ∀ p : BeginLog σ,
      (modeLoop run SWimp_SetMode Cvar_SetValue d_refsoft_8to24table k p).2 =
        LoopEnd.unfinished →
      ((modeLoop run SWimp_SetMode Cvar_SetValue d_refsoft_8to24table k p).1.1.cvars.sw_mode.modified
        || (modeLoop run SWimp_SetMode Cvar_SetValue d_refsoft_8to24table
            k p).1.1.cvars.vid_fullscreen.modified) = true := by
  induction k with
  | zero =>
    intro p
    rw [modeLoop_zero]
    by_cases hc : (p.1.cvars.sw_mode.modified || p.1.cvars.vid_fullscreen.modified) = true
    · rw [if_pos hc]
      intro _
      exact hc
    · rw [if_neg hc]
      intro h
      simp at h
  | succ n ih =>
    intro p
    rw [modeLoop_succ]
    by_cases hc : (p.1.cvars.sw_mode.modified || p.1.cvars.vid_fullscreen.modified) = true
    · rw [if_pos hc]
      by_cases hf : (modeIteration run SWimp_SetMode Cvar_SetValue d_refsoft_8to24table p).2 =
          true
      · rw [if_pos hf]
        intro h
        simp at h
      · rw [if_neg hf]
        exact ih _
    · rw [if_neg hc]
      intro h
      simp at h

/-- A run of `k + j` iterations is a run of `k` iterations followed, when the
loop is still going, by a run of `j` iterations. -/
theorem modeLoop_add {σ : Type} (run : BeginCall → σ → σ)
    (SWimp_SetMode : Int → Int → Int → Int → σ → rserr_t × Int × Int × σ)
    (Cvar_SetValue : CvarName → ℚ → Cvars → Cvars) (d_refsoft_8to24table : Nat → Nat)
    (j k : Nat) :
    ∀ p : BeginLog σ,
      modeLoop run SWimp_SetMode Cvar_SetValue d_refsoft_8to24table (k + j) p =
        if (modeLoop run SWimp_SetMode Cvar_SetValue d_refsoft_8to24table k p).2 =
            LoopEnd.unfinished
        then modeLoop run SWimp_SetMode Cvar_SetValue d_refsoft_8to24table j
          (modeLoop run SWimp_SetMode Cvar_SetValue d_refsoft_8to24table k p).1
        else modeLoop run SWimp_SetMode Cvar_SetValue d_refsoft_8to24table k p := by
  induction k with
  | zero =>
    intro p
    rw [Nat.zero_add, modeLoop_zero]
    by_cases hc : (p.1.cvars.sw_mode.modified || p.1.cvars.vid_fullscreen.modified) = true
    · rw [if_pos hc]
      simp
    · rw [if_neg hc]
      cases j with
      | zero => rw [modeLoop_zero, if_neg hc]; simp
      | succ m => rw [modeLoop_succ, if_neg hc]; simp
  | succ n ih =>
    intro p
    rw [Nat.add_right_comm, modeLoop_succ, modeLoop_succ]
    by_cases hc : (p.1.cvars.sw_mode.modified || p.1.cvars.vid_fullscreen.modified) = true
    · rw [if_pos hc, if_pos hc]
      by_cases hf : (modeIteration run SWimp_SetMode Cvar_SetValue d_refsoft_8to24table p).2 =
          true
      · rw [if_pos hf, if_pos hf]
        simp
      · rw [if_neg hf, if_neg hf]
        exact ih _
    · rw [if_neg hc, if_neg hc]
      simp

/-- The log only grows in an iteration. -/
theorem modeIteration_extends {σ : Type} (run : BeginCall → σ → σ)
    (SWimp_SetMode : Int → Int → Int → Int → σ → rserr_t × Int × Int × σ)
    (Cvar_SetValue : CvarName → ℚ → Cvars → Cvars) (d_refsoft_8to24table : Nat → Nat)
    (p : BeginLog σ) :
    ∃ ext, (modeIteration run SWimp_SetMode Cvar_SetValue d_refsoft_8to24table p).1.2 =
      p.2 ++ ext := by
  simp only [modeIteration]
  generalize SWimp_SetMode p.1.vid_width p.1.vid_height (truncToInt p.1.cvars.sw_mode.value)
    (truncToInt p.1.cvars.vid_fullscreen.value) p.1.rest = r
  obtain ⟨err, w, h, rest⟩ := r
  cases err
  · exact ⟨[BeginCall.SWimp_SetMode (truncToInt p.1.cvars.sw_mode.value)
        (truncToInt p.1.cvars.vid_fullscreen.value) rserr_t.rserr_ok,
      BeginCall.R_InitGraphics w h, BeginCall.R_InitTurb], by simp [R_InitGraphics, callRest]⟩
  · exact ⟨[BeginCall.SWimp_SetMode (truncToInt p.1.cvars.sw_mode.value)
        (truncToInt p.1.cvars.vid_fullscreen.value) rserr_t.rserr_invalid_fullscreen,
      BeginCall.R_InitGraphics w h, BeginCall.Cvar_SetValue CvarName.vid_fullscreen 0,
      BeginCall.Con_Printf_fullscreen_unavailable, BeginCall.R_InitTurb],
      by simp [R_InitGraphics, callRest, callCvarSetValue]⟩
  · exact ⟨[BeginCall.SWimp_SetMode (truncToInt p.1.cvars.sw_mode.value)
        (truncToInt p.1.cvars.vid_fullscreen.value) rserr_t.rserr_invalid_mode,
      BeginCall.Cvar_SetValue CvarName.sw_mode p.1.prev_mode,
      BeginCall.Con_Printf_could_not_set_mode, BeginCall.R_InitTurb],
      by simp [callRest, callCvarSetValue]⟩
  · exact ⟨[BeginCall.SWimp_SetMode (truncToInt p.1.cvars.sw_mode.value)
        (truncToInt p.1.cvars.vid_fullscreen.value) rserr_t.rserr_unknown,
      BeginCall.Sys_Error], by simp [callRest]⟩

/-- The log only grows in the loop. -/
theorem modeLoop_extends {σ : Type} (run : BeginCall → σ → σ)
    (SWimp_SetMode : Int → Int → Int → Int → σ → rserr_t × Int × Int × σ)
    (Cvar_SetValue : CvarName → ℚ → Cvars → Cvars) (d_refsoft_8to24table : Nat → Nat)
    (fuel : Nat) :
    ∀ p : BeginLog σ, ∃ ext,
      (modeLoop run SWimp_SetMode Cvar_SetValue d_refsoft_8to24table fuel p).1.2 =
        p.2 ++ ext := by
  induction fuel with
  | zero =>
    intro p
    refine ⟨[], ?_⟩
    rw [modeLoop_zero]
    split <;> simp
  | succ n ih =>
    intro p
    rw [modeLoop_succ]
    obtain ⟨ext1, h1⟩ := modeIteration_extends run SWimp_SetMode Cvar_SetValue
      d_refsoft_8to24table p
    by_cases hc : (p.1.cvars.sw_mode.modified || p.1.cvars.vid_fullscreen.modified) = true
    · rw [if_pos hc]
      by_cases hf : (modeIteration run SWimp_SetMode Cvar_SetValue d_refsoft_8to24table p).2 =
          true
      · rw [if_pos hf]
        exact ⟨ext1, h1⟩
      · rw [if_neg hf]
        obtain ⟨ext2, h2⟩ := ih (modeIteration run SWimp_SetMode Cvar_SetValue
          d_refsoft_8to24table p).1
        exact ⟨ext1 ++ ext2, by rw [h2, h1, List.append_assoc]⟩
    · rw [if_neg hc]
      exact ⟨[], by simp⟩

/-- One more iteration from a state in which the loop condition holds. -/
theorem modeLoop_one {σ : Type} (run : BeginCall → σ → σ)
    (SWimp_SetMode : Int → Int → Int → Int → σ → rserr_t × Int × Int × σ)
    (Cvar_SetValue : CvarName → ℚ → Cvars → Cvars) (d_refsoft_8to24table : Nat → Nat)
    (p : BeginLog σ)
    (hc : (p.1.cvars.sw_mode.modified || p.1.cvars.vid_fullscreen.modified) = true) :
    (modeLoop run SWimp_SetMode Cvar_SetValue d_refsoft_8to24table 1 p).1 =
      (modeIteration run SWimp_SetMode Cvar_SetValue d_refsoft_8to24table p).1 ∧
    ((modeLoop run SWimp_SetMode Cvar_SetValue d_refsoft_8to24table 1 p).2 = LoopEnd.fatal ↔
      (modeIteration run SWimp_SetMode Cvar_SetValue d_refsoft_8to24table p).2 = true) := by
  rw [modeLoop_succ, if_pos hc]
  by_cases hf : (modeIteration run SWimp_SetMode Cvar_SetValue d_refsoft_8to24table p).2 = true
  · rw [if_pos hf]
    simp [hf]
  · rw [if_neg hf, modeLoop_zero]
    split <;> simp [hf]

/-- The run of `SWR_BeginFrame` with `k + j` iterations allowed continues the
run with `k` iterations allowed when that one stopped with the loop still
going, and equals it otherwise. -/
theorem SWR_BeginFrame_add {σ : Type} (pow : ℚ → ℚ → ℚ) (run : BeginCall → σ → σ)
    (SWimp_SetMode : Int → Int → Int → Int → σ → rserr_t × Int × Int × σ)
    (Cvar_SetValue : CvarName → ℚ → Cvars → Cvars) (d_refsoft_8to24table : Nat → Nat)
    (k j : Nat) (s : BeginState σ) :
    SWR_BeginFrame pow run SWimp_SetMode Cvar_SetValue d_refsoft_8to24table (k + j) s =
      if (SWR_BeginFrame pow run SWimp_SetMode Cvar_SetValue d_refsoft_8to24table k s).2 =
          LoopEnd.unfinished
      then modeLoop run SWimp_SetMode Cvar_SetValue d_refsoft_8to24table j
        (SWR_BeginFrame pow run SWimp_SetMode Cvar_SetValue d_refsoft_8to24table k s).1
      else SWR_BeginFrame pow run SWimp_SetMode Cvar_SetValue d_refsoft_8to24table k s := by
  unfold SWR_BeginFrame
  exact modeLoop_add run SWimp_SetMode Cvar_SetValue d_refsoft_8to24table j k _

/-- The iteration that follows a run of `SWR_BeginFrame` which stopped after
`k` iterations with the loop still going: the run with one more iteration
allowed ends in the state and log of that iteration, and it ends by the fatal
error exactly when the iteration raised it. -/
theorem SWR_BeginFrame_succ {σ : Type} (pow : ℚ → ℚ → ℚ) (run : BeginCall → σ → σ)
    (SWimp_SetMode : Int → Int → Int → Int → σ → rserr_t × Int × Int × σ)
    (Cvar_SetValue : CvarName → ℚ → Cvars → Cvars) (d_refsoft_8to24table : Nat → Nat)
    (k : Nat) (s : BeginState σ) (p : BeginLog σ)
    (hk : SWR_BeginFrame pow run SWimp_SetMode Cvar_SetValue d_refsoft_8to24table k s =
      (p, LoopEnd.unfinished)) :
    (SWR_BeginFrame pow run SWimp_SetMode Cvar_SetValue d_refsoft_8to24table (k + 1) s).1 =
      (modeIteration run SWimp_SetMode Cvar_SetValue d_refsoft_8to24table p).1 ∧
    ((SWR_BeginFrame pow run SWimp_SetMode Cvar_SetValue d_refsoft_8to24table (k + 1) s).2 =
        LoopEnd.fatal ↔
      (modeIteration run SWimp_SetMode Cvar_SetValue d_refsoft_8to24table p).2 = true) := by
  have hc : (p.1.cvars.sw_mode.modified || p.1.cvars.vid_fullscreen.modified) = true := by
    have h := modeLoop_unfinished_cond run SWimp_SetMode Cvar_SetValue d_refsoft_8to24table k
    unfold SWR_BeginFrame at hk
    have h2 := h _ (by rw [hk])
    rw [hk] at h2
    exact h2
  rw [SWR_BeginFrame_add, hk]
  simp only [if_true]
  exact modeLoop_one run SWimp_SetMode Cvar_SetValue d_refsoft_8to24table p hc

/-- A longer run of `SWR_BeginFrame` extends the log of a shorter one, and
equals the shorter one when that did not stop with the loop still going. -/
theorem SWR_BeginFrame_longer {σ : Type} (pow : ℚ → ℚ → ℚ) (run : BeginCall → σ → σ)
    (SWimp_SetMode : Int → Int → Int → Int → σ → rserr_t × Int × Int × σ)
    (Cvar_SetValue : CvarName → ℚ → Cvars → Cvars) (d_refsoft_8to24table : Nat → Nat)
    (k fuel : Nat) (hle : k ≤ fuel) (s : BeginState σ) :
    (∃ rest,
      (SWR_BeginFrame pow run SWimp_SetMode Cvar_SetValue d_refsoft_8to24table fuel s).1.2 =
        (SWR_BeginFrame pow run SWimp_SetMode Cvar_SetValue d_refsoft_8to24table k s).1.2 ++
          rest) ∧
    ((SWR_BeginFrame pow run SWimp_SetMode Cvar_SetValue d_refsoft_8to24table k s).2 ≠
        LoopEnd.unfinished →
      SWR_BeginFrame pow run SWimp_SetMode Cvar_SetValue d_refsoft_8to24table fuel s =
        SWR_BeginFrame pow run SWimp_SetMode Cvar_SetValue d_refsoft_8to24table k s) := by
  obtain ⟨j, rfl⟩ := Nat.exists_eq_add_of_le hle
  rw [SWR_BeginFrame_add]
  by_cases hu : (SWR_BeginFrame pow run SWimp_SetMode Cvar_SetValue d_refsoft_8to24table
      k s).2 = LoopEnd.unfinished
  · rw [if_pos hu]
    exact ⟨modeLoop_extends run SWimp_SetMode Cvar_SetValue d_refsoft_8to24table j _,
      fun h => absurd hu h⟩
  · rw [if_neg hu]
    exact ⟨⟨[], by simp⟩, fun _ => rfl⟩

/-- C20: the mode loop of `SWR_BeginFrame`. The run with `k` iterations
allowed that stops with the loop still going gives the state and the log
after the gamma step and `k` iterations; with no iteration allowed it stops
so exactly when a mode change is pending. If the loop is still going after
`k` iterations and `SWimp_SetMode`, called in the state reached, reports
`rserr_invalid_mode`, then the next iteration calls
`ri.Cvar_SetValue( "sw_mode", sw_state.prev_mode )`, notifies the console and
calls `R_InitTurb`, and nothing else: no `R_InitGraphics`, `prev_mode` and
the palette stay as they are, no fatal error is raised, and these calls
stay in the log of every longer run. If it reports anything other than
`rserr_ok`, `rserr_invalid_mode` and `rserr_invalid_fullscreen`, every longer
run ends by the fatal error, raised right after the call. A run ends by the
fatal error exactly when the error has been raised, and at the end of every
run `prev_mode` is the mode of the last `SWimp_SetMode` call that reported
`rserr_ok` or `rserr_invalid_fullscreen`, or its initial value when there is
no such call, provided that setting `vid_fullscreen` does not change the
value of `sw_mode`. -/
theorem SWR_BeginFrame_mode_recovery {σ : Type} (pow : ℚ → ℚ → ℚ) (run : BeginCall → σ → σ)
    (SWimp_SetMode : Int → Int → Int → Int → σ → rserr_t × Int × Int × σ)
    (Cvar_SetValue : CvarName → ℚ → Cvars → Cvars) (d_refsoft_8to24table : Nat → Nat)
    (hcv : ∀ v c, (Cvar_SetValue CvarName.vid_fullscreen v c).sw_mode.value = c.sw_mode.value) :
    (∀ s : BeginState σ,
      (SWR_BeginFrame pow run SWimp_SetMode Cvar_SetValue d_refsoft_8to24table 0 s).2 =
          LoopEnd.unfinished ↔
        (s.cvars.sw_mode.modified || s.cvars.vid_fullscreen.modified) = true) ∧
    (∀ (k : Nat) (s st : BeginState σ) (log : List BeginCall),
      SWR_BeginFrame pow run SWimp_SetMode Cvar_SetValue d_refsoft_8to24table k s =
        ((st, log), LoopEnd.unfinished) →
      (SWimp_SetMode st.vid_width st.vid_height (truncToInt st.cvars.sw_mode.value)
        (truncToInt st.cvars.vid_fullscreen.value) st.rest).1 = rserr_t.rserr_invalid_mode →
      (SWR_BeginFrame pow run SWimp_SetMode Cvar_SetValue d_refsoft_8to24table
          (k + 1) s).1.2 =
        log ++ [BeginCall.SWimp_SetMode (truncToInt st.cvars.sw_mode.value)
            (truncToInt st.cvars.vid_fullscreen.value) rserr_t.rserr_invalid_mode,
          BeginCall.Cvar_SetValue CvarName.sw_mode st.prev_mode,
          BeginCall.Con_Printf_could_not_set_mode, BeginCall.R_InitTurb] ∧
      (SWR_BeginFrame pow run SWimp_SetMode Cvar_SetValue d_refsoft_8to24table
          (k + 1) s).1.1.cvars =
        Cvar_SetValue CvarName.sw_mode st.prev_mode st.cvars ∧
      (SWR_BeginFrame pow run SWimp_SetMode Cvar_SetValue d_refsoft_8to24table
          (k + 1) s).1.1.prev_mode = st.prev_mode ∧
      (SWR_BeginFrame pow run SWimp_SetMode Cvar_SetValue d_refsoft_8to24table
          (k + 1) s).1.1.palette = st.palette ∧
      (SWR_BeginFrame pow run SWimp_SetMode Cvar_SetValue d_refsoft_8to24table
          (k + 1) s).2 ≠ LoopEnd.fatal ∧
      ∀ fuel : Nat, k + 1 ≤ fuel → ∃ rest,
        (SWR_BeginFrame pow run SWimp_SetMode Cvar_SetValue d_refsoft_8to24table
            fuel s).1.2 =
          log ++ [BeginCall.SWimp_SetMode (truncToInt st.cvars.sw_mode.value)
              (truncToInt st.cvars.vid_fullscreen.value) rserr_t.rserr_invalid_mode,
            BeginCall.Cvar_SetValue CvarName.sw_mode st.prev_mode,
            BeginCall.Con_Printf_could_not_set_mode, BeginCall.R_InitTurb] ++ rest) ∧
    (∀ (k : Nat) (s st : BeginState σ) (log : List BeginCall),
      SWR_BeginFrame pow run SWimp_SetMode Cvar_SetValue d_refsoft_8to24table k s =
        ((st, log), LoopEnd.unfinished) →
      (SWimp_SetMode st.vid_width st.vid_height (truncToInt st.cvars.sw_mode.value)
        (truncToInt st.cvars.vid_fullscreen.value) st.rest).1 ≠ rserr_t.rserr_ok →
      (SWimp_SetMode st.vid_width st.vid_height (truncToInt st.cvars.sw_mode.value)
        (truncToInt st.cvars.vid_fullscreen.value) st.rest).1 ≠ rserr_t.rserr_invalid_mode →
      (SWimp_SetMode st.vid_width st.vid_height (truncToInt st.cvars.sw_mode.value)
        (truncToInt st.cvars.vid_fullscreen.value) st.rest).1 ≠
          rserr_t.rserr_invalid_fullscreen →
      ∀ fuel : Nat, k + 1 ≤ fuel →
        (SWR_BeginFrame pow run SWimp_SetMode Cvar_SetValue d_refsoft_8to24table fuel s).2 =
          LoopEnd.fatal ∧
        (SWR_BeginFrame pow run SWimp_SetMode Cvar_SetValue d_refsoft_8to24table
            fuel s).1.2 =
          log ++ [BeginCall.SWimp_SetMode (truncToInt st.cvars.sw_mode.value)
              (truncToInt st.cvars.vid_fullscreen.value)
              (SWimp_SetMode st.vid_width st.vid_height (truncToInt st.cvars.sw_mode.value)
                (truncToInt st.cvars.vid_fullscreen.value) st.rest).1,
            BeginCall.Sys_Error]) ∧
    (∀ (fuel : Nat) (s : BeginState σ),
      ((SWR_BeginFrame pow run SWimp_SetMode Cvar_SetValue d_refsoft_8to24table fuel s).2 =
          LoopEnd.fatal ↔
        BeginCall.Sys_Error ∈
          (SWR_BeginFrame pow run SWimp_SetMode Cvar_SetValue d_refsoft_8to24table
            fuel s).1.2) ∧
      (SWR_BeginFrame pow run SWimp_SetMode Cvar_SetValue d_refsoft_8to24table
          fuel s).1.1.prev_mode =
        lastGood s.prev_mode
          (SWR_BeginFrame pow run SWimp_SetMode Cvar_SetValue d_refsoft_8to24table
            fuel s).1.2) := by
  refine ⟨fun s => ?_, fun k s st log hk herr => ?_, fun k s st log hk h1 h2 h3 fuel hle => ?_,
    fun fuel s => ⟨?_, ?_⟩⟩
  · unfold SWR_BeginFrame
    rw [modeLoop_zero]
    simp only []
    split <;> split <;> simp_all
  · obtain ⟨hst, hfat⟩ := SWR_BeginFrame_succ pow run SWimp_SetMode Cvar_SetValue
      d_refsoft_8to24table k s (st, log) hk
    obtain ⟨i1, i2, i3, i4, i5⟩ := modeIteration_invalid_mode run SWimp_SetMode Cvar_SetValue
      d_refsoft_8to24table (st, log) herr
    have hlog : (SWR_BeginFrame pow run SWimp_SetMode Cvar_SetValue d_refsoft_8to24table
        (k + 1) s).1.2 =
        log ++ [BeginCall.SWimp_SetMode (truncToInt st.cvars.sw_mode.value)
            (truncToInt st.cvars.vid_fullscreen.value) rserr_t.rserr_invalid_mode,
          BeginCall.Cvar_SetValue CvarName.sw_mode st.prev_mode,
          BeginCall.Con_Printf_could_not_set_mode, BeginCall.R_InitTurb] := by
      rw [hst]; exact i2
    refine ⟨hlog, by rw [hst]; exact i3, by rw [hst]; exact i4, by rw [hst]; exact i5, ?_, ?_⟩
    · intro hf
      rw [hfat.mp hf] at i1
      exact absurd i1 (by decide)
    · intro fuel hle
      obtain ⟨rest, hrest⟩ := (SWR_BeginFrame_longer pow run SWimp_SetMode Cvar_SetValue
        d_refsoft_8to24table (k + 1) fuel hle s).1
      exact ⟨rest, by rw [hrest, hlog]⟩
  · obtain ⟨hst, hfat⟩ := SWR_BeginFrame_succ pow run SWimp_SetMode Cvar_SetValue
      d_refsoft_8to24table k s (st, log) hk
    obtain ⟨i1, i2⟩ := modeIteration_other_error run SWimp_SetMode Cvar_SetValue
      d_refsoft_8to24table (st, log) h1 h2 h3
    have hend : (SWR_BeginFrame pow run SWimp_SetMode Cvar_SetValue d_refsoft_8to24table
        (k + 1) s).2 = LoopEnd.fatal := hfat.mpr i1
    have heq := (SWR_BeginFrame_longer pow run SWimp_SetMode Cvar_SetValue
      d_refsoft_8to24table (k + 1) fuel hle s).2 (by rw [hend]; decide)
    rw [heq]
    exact ⟨hend, by rw [hst]; exact i2⟩
  · unfold SWR_BeginFrame
    apply modeLoop_fatal_iff
    simp only []
    split <;> simp
  · unfold SWR_BeginFrame
    have key : ∀ p : BeginLog σ, p.1.prev_mode = lastGood s.prev_mode p.2 →
        (modeLoop run SWimp_SetMode Cvar_SetValue d_refsoft_8to24table fuel p).1.1.prev_mode =
          lastGood s.prev_mode
            (modeLoop run SWimp_SetMode Cvar_SetValue d_refsoft_8to24table fuel p).1.2 :=
      modeLoop_prev_mode run SWimp_SetMode Cvar_SetValue d_refsoft_8to24table hcv
        s.prev_mode fuel
    apply key
    simp only []
    split <;> simp [lastGood, knownGood]

theorem exampleBeginState_mode :
    truncToInt exampleBeginState.cvars.sw_mode.value = 9 ∧
      truncToInt exampleBeginState.cvars.vid_fullscreen.value = 0 :=
  ⟨truncToInt_natCast 9, by simpa using truncToInt_natCast 0⟩

theorem exampleFailingState_mode :
    truncToInt exampleFailingState.cvars.sw_mode.value = 8 :=
  truncToInt_natCast 8

/-- With no iteration allowed, the run on `exampleBeginState` stops at once
with the loop still going. -/
theorem exampleBeginState_pending :
    SWR_BeginFrame examplePow idleBegin exampleSetMode exampleCvarSetValue examplePalette
      0 exampleBeginState = ((exampleBeginState, []), LoopEnd.unfinished) := by
  simp [SWR_BeginFrame, modeLoop, exampleBeginState]

/-- With no iteration allowed, the run on `exampleFailingState` stops at once
with the loop still going. -/
theorem exampleFailingState_pending :
    SWR_BeginFrame examplePow idleBegin exampleSetMode exampleCvarSetValue examplePalette
      0 exampleFailingState = ((exampleFailingState, []), LoopEnd.unfinished) := by
  simp [SWR_BeginFrame, modeLoop, exampleFailingState, exampleBeginState]

/-- A request for mode 9, which the driver cannot set, while mode 3 is set:
the first iteration of `SWR_BeginFrame` reverts the setting to 3 and notifies
the console, without `R_InitGraphics`; a request for mode 8, on which the
driver fails, ends every run of one iteration or more by the fatal error; and
after at most three iterations `prev_mode` is the last mode known to be
good. -/
theorem SWR_BeginFrame_mode_recovery_witness :
    (∀ v c, (exampleCvarSetValue CvarName.vid_fullscreen v c).sw_mode.value =
      c.sw_mode.value) ∧
    ((SWR_BeginFrame examplePow idleBegin exampleSetMode exampleCvarSetValue examplePalette
        0 exampleBeginState).2 = LoopEnd.unfinished ↔
      (exampleBeginState.cvars.sw_mode.modified ||
        exampleBeginState.cvars.vid_fullscreen.modified) = true) ∧
    ((SWR_BeginFrame examplePow idleBegin exampleSetMode exampleCvarSetValue examplePalette
        0 exampleBeginState = ((exampleBeginState, []), LoopEnd.unfinished) ∧
      (exampleSetMode exampleBeginState.vid_width exampleBeginState.vid_height
        (truncToInt exampleBeginState.cvars.sw_mode.value)
        (truncToInt exampleBeginState.cvars.vid_fullscreen.value)
        exampleBeginState.rest).1 = rserr_t.rserr_invalid_mode) ∧
      (SWR_BeginFrame examplePow idleBegin exampleSetMode exampleCvarSetValue examplePalette
          (0 + 1) exampleBeginState).1.2 =
        [] ++ [BeginCall.SWimp_SetMode (truncToInt exampleBeginState.cvars.sw_mode.value)
            (truncToInt exampleBeginState.cvars.vid_fullscreen.value)
            rserr_t.rserr_invalid_mode,
          BeginCall.Cvar_SetValue CvarName.sw_mode exampleBeginState.prev_mode,
          BeginCall.Con_Printf_could_not_set_mode, BeginCall.R_InitTurb] ∧
      (SWR_BeginFrame examplePow idleBegin exampleSetMode exampleCvarSetValue examplePalette
          (0 + 1) exampleBeginState).1.1.cvars =
        exampleCvarSetValue CvarName.sw_mode exampleBeginState.prev_mode
          exampleBeginState.cvars) ∧
    ((SWR_BeginFrame examplePow idleBegin exampleSetMode exampleCvarSetValue examplePalette
        0 exampleFailingState = ((exampleFailingState, []), LoopEnd.unfinished) ∧
      (exampleSetMode exampleFailingState.vid_width exampleFailingState.vid_height
        (truncToInt exampleFailingState.cvars.sw_mode.value)
        (truncToInt exampleFailingState.cvars.vid_fullscreen.value)
        exampleFailingState.rest).1 = rserr_t.rserr_unknown) ∧
      (SWR_BeginFrame examplePow idleBegin exampleSetMode exampleCvarSetValue examplePalette
          2 exampleFailingState).2 = LoopEnd.fatal ∧
      (SWR_BeginFrame examplePow idleBegin exampleSetMode exampleCvarSetValue examplePalette
          2 exampleFailingState).1.2 =
        [] ++ [BeginCall.SWimp_SetMode (truncToInt exampleFailingState.cvars.sw_mode.value)
            (truncToInt exampleFailingState.cvars.vid_fullscreen.value)
            (exampleSetMode exampleFailingState.vid_width exampleFailingState.vid_height
              (truncToInt exampleFailingState.cvars.sw_mode.value)
              (truncToInt exampleFailingState.cvars.vid_fullscreen.value)
              exampleFailingState.rest).1,
          BeginCall.Sys_Error]) ∧
    (SWR_BeginFrame examplePow idleBegin exampleSetMode exampleCvarSetValue examplePalette
        3 exampleBeginState).1.1.prev_mode =
      lastGood exampleBeginState.prev_mode
        (SWR_BeginFrame examplePow idleBegin exampleSetMode exampleCvarSetValue
          examplePalette 3 exampleBeginState).1.2 := by
  have hcv : ∀ v c, (exampleCvarSetValue CvarName.vid_fullscreen v c).sw_mode.value =
      c.sw_mode.value := fun _ _ => rfl
  have ha : (exampleSetMode exampleBeginState.vid_width exampleBeginState.vid_height
      (truncToInt exampleBeginState.cvars.sw_mode.value)
      (truncToInt exampleBeginState.cvars.vid_fullscreen.value)
      exampleBeginState.rest).1 = rserr_t.rserr_invalid_mode := by
    rw [exampleBeginState_mode.1, exampleBeginState_mode.2]
    rfl
  have hb : (exampleSetMode exampleFailingState.vid_width exampleFailingState.vid_height
      (truncToInt exampleFailingState.cvars.sw_mode.value)
      (truncToInt exampleFailingState.cvars.vid_fullscreen.value)
      exampleFailingState.rest).1 = rserr_t.rserr_unknown := by
    rw [exampleFailingState_mode]
    rfl
  have T := SWR_BeginFrame_mode_recovery examplePow idleBegin exampleSetMode
    exampleCvarSetValue examplePalette hcv
  have Ta := T.2.1 0 exampleBeginState exampleBeginState [] exampleBeginState_pending ha
  have Tb := T.2.2.1 0 exampleFailingState exampleFailingState [] exampleFailingState_pending
    (by rw [hb]; decide) (by rw [hb]; decide) (by rw [hb]; decide) 2 (by decide)
  exact ⟨hcv, T.1 exampleBeginState, ⟨⟨exampleBeginState_pending, ha⟩, Ta.1, Ta.2.1⟩,
    ⟨⟨exampleFailingState_pending, hb⟩, Tb.1, Tb.2⟩, (T.2.2.2 3 exampleBeginState).2⟩

/-! ### The loop of R_DrawBEntitiesOnList -/

/-- An entity that is passed over leaves the log as it is. -/
theorem drawBEntity_passedOver {σ : Type} (run : BEntCall → BEntState σ → BEntState σ)
    (AngleVectors : (Nat → ℚ) → (Nat → ℚ) × (Nat → ℚ) × (Nat → ℚ))
    (BOX_ON_PLANE_SIDE : (Nat → ℚ) → (Nat → ℚ) → mplane_t → Nat) (RF_BEAM : Nat)
    (oldorigin : Nat → ℚ) (i : Nat) (e : entity_t) (p : BEntLog σ)
    (h : passedOver AngleVectors BOX_ON_PLANE_SIDE RF_BEAM p.1 e) :
    (drawBEntity run AngleVectors BOX_ON_PLANE_SIDE RF_BEAM oldorigin i e p).2 = p.2 := by
  unfold passedOver at h
  cases hm : e.model with
  | none => simp only [drawBEntity, hm]
  | some m =>
    rw [hm] at h
    simp only [entityClipflags, entityTopnode] at h
    simp only [drawBEntity, hm]
    by_cases h1 : m.nummodelsurfaces = 0
    · rw [if_pos h1]
    rw [if_neg h1]
    by_cases h2 : e.flags &&& RF_BEAM ≠ 0
    · rw [if_pos h2]
    rw [if_neg h2]
    by_cases h3 : m.type ≠ modtype_t.mod_brush
    · rw [if_pos h3]
    rw [if_neg h3]
    by_cases h4 : R_BmodelCheckBBox p.1.pfrustum_indexes p.1.view_clipplanes
        (entityMinmaxs AngleVectors m e) = BMODEL_FULLY_CLIPPED
    · rw [if_pos h4]
    rw [if_neg h4]
    have h5 : R_FindTopnode BOX_ON_PLANE_SIDE p.1.r_visframecount
        (fun k => entityMinmaxs AngleVectors m e k)
        (fun k => entityMinmaxs AngleVectors m e (k + 3)) p.1.worldnodes = none := by
      rcases h with h | h | h | h | h
      · exact absurd h h1
      · exact absurd h h2
      · exact absurd h h3
      · exact absurd h h4
      · exact h
    rw [h5]

/-- An entity that is not passed over gets four calls: `R_RotateBmodel`,
`SWR_PushDlights`, one emission call and `R_TransformFrustum`. -/
theorem drawBEntity_drawn {σ : Type} (run : BEntCall → BEntState σ → BEntState σ)
    (AngleVectors : (Nat → ℚ) → (Nat → ℚ) × (Nat → ℚ) × (Nat → ℚ))
    (BOX_ON_PLANE_SIDE : (Nat → ℚ) → (Nat → ℚ) → mplane_t → Nat) (RF_BEAM : Nat)
    (oldorigin : Nat → ℚ) (i : Nat) (e : entity_t) (s : BEntState σ)
    (m : entmodel_t) (n : bspnode_t) (hm : e.model = some m)
    (h1 : m.nummodelsurfaces ≠ 0) (h2 : e.flags &&& RF_BEAM = 0)
    (h3 : m.type = modtype_t.mod_brush)
    (h4 : entityClipflags AngleVectors s m e ≠ BMODEL_FULLY_CLIPPED)
    (h5 : entityTopnode AngleVectors BOX_ON_PLANE_SIDE s m e = some n) :
    ∃ s1 s2 s3 s4 : BEntState σ,
      (s3.r_clipflags = entityClipflags AngleVectors s m e ∨ n.contents ≠ CONTENTS_NODE) ∧
      ∀ log, (drawBEntity run AngleVectors BOX_ON_PLANE_SIDE RF_BEAM oldorigin i e (s, log)).2 =
        log ++ [(i, BEntCall.R_RotateBmodel, s1), (i, BEntCall.SWR_PushDlights, s2),
          (i, if n.contents = CONTENTS_NODE
              then BEntCall.R_DrawSolidClippedSubmodelPolygons n
              else BEntCall.R_DrawSubmodelPolygons (entityClipflags AngleVectors s m e) n, s3),
          (i, BEntCall.R_TransformFrustum, s4)] := by
  simp only [entityClipflags, entityTopnode] at h4 h5
  have h2n : ¬ (e.flags &&& RF_BEAM ≠ 0) := not_not.2 h2
  have h3n : ¬ (m.type ≠ modtype_t.mod_brush) := not_not.2 h3
  by_cases hc : n.contents = CONTENTS_NODE
  · simp only [drawBEntity, hm, if_neg h1, if_neg h2n, if_neg h3n, if_neg h4, h5, if_pos hc,
      callAt, List.append_assoc, List.cons_append, List.nil_append, entityClipflags]
    exact ⟨_, _, _, _, Or.inl rfl, fun _ => rfl⟩
  · simp only [drawBEntity, hm, if_neg h1, if_neg h2n, if_neg h3n, if_neg h4, h5, if_neg hc,
      callAt, List.append_assoc, List.cons_append, List.nil_append, entityClipflags]
    exact ⟨_, _, _, _, Or.inr hc, fun _ => rfl⟩

/-- The calls of one iteration carry the index of its entity. -/
theorem drawBEntity_tags {σ : Type} (run : BEntCall → BEntState σ → BEntState σ)
    (AngleVectors : (Nat → ℚ) → (Nat → ℚ) × (Nat → ℚ) × (Nat → ℚ))
    (BOX_ON_PLANE_SIDE : (Nat → ℚ) → (Nat → ℚ) → mplane_t → Nat) (RF_BEAM : Nat)
    (oldorigin : Nat → ℚ) (i : Nat) (e : entity_t) (p : BEntLog σ) :
    ∃ ext, (drawBEntity run AngleVectors BOX_ON_PLANE_SIDE RF_BEAM oldorigin i e p).2 =
        p.2 ++ ext ∧ ∀ x ∈ ext, x.1 = i := by
  by_cases hp : passedOver AngleVectors BOX_ON_PLANE_SIDE RF_BEAM p.1 e
  · exact ⟨[], by
      rw [drawBEntity_passedOver run AngleVectors BOX_ON_PLANE_SIDE RF_BEAM oldorigin i e p hp,
        List.append_nil], by simp⟩
  · unfold passedOver at hp
    cases hm : e.model with
    | none => rw [hm] at hp; exact absurd trivial hp
    | some m =>
      rw [hm] at hp
      simp only [not_or, not_not] at hp
      obtain ⟨h1, h2, h3, h4, h5⟩ := hp
      obtain ⟨n, hn⟩ := Option.ne_none_iff_exists'.1 h5
      obtain ⟨s1, s2, s3, s4, -, hlog⟩ := drawBEntity_drawn run AngleVectors BOX_ON_PLANE_SIDE
        RF_BEAM oldorigin i e p.1 m n hm h1 h2 h3 h4 hn
      refine ⟨_, hlog p.2, ?_⟩
      intro x hx
      simp only [List.mem_cons, List.mem_singleton, List.not_mem_nil, or_false] at hx
      rcases hx with hx | hx | hx | hx <;> rw [hx]

theorem drawBLoop_tags {σ : Type} (run : BEntCall → BEntState σ → BEntState σ)
    (AngleVectors : (Nat → ℚ) → (Nat → ℚ) × (Nat → ℚ) × (Nat → ℚ))
    (BOX_ON_PLANE_SIDE : (Nat → ℚ) → (Nat → ℚ) → mplane_t → Nat) (RF_BEAM : Nat)
    (oldorigin : Nat → ℚ) (l : List entity_t) :
    ∀ (j : Nat) (p : BEntLog σ),
      ∃ ext, (drawBLoop run AngleVectors BOX_ON_PLANE_SIDE RF_BEAM oldorigin j l p).2 =
        p.2 ++ ext ∧ ∀ x ∈ ext, j ≤ x.1 ∧ x.1 < j + l.length := by
  induction l with
  | nil =>
    intro j p
    exact ⟨[], by simp [drawBLoop], by simp⟩
  | cons e rest ih =>
    intro j p
    obtain ⟨ext1, h1, t1⟩ :=
      drawBEntity_tags run AngleVectors BOX_ON_PLANE_SIDE RF_BEAM oldorigin j e p
    obtain ⟨ext2, h2, t2⟩ := ih (j + 1)
      (drawBEntity run AngleVectors BOX_ON_PLANE_SIDE RF_BEAM oldorigin j e p)
    refine ⟨ext1 ++ ext2, ?_, ?_⟩
    · simp only [drawBLoop]
      rw [h2, h1, List.append_assoc]
    · intro x hx
      rcases List.mem_append.1 hx with hx | hx
      · have := t1 x hx
        simp only [List.length_cons]
        omega
      · have := t2 x hx
        simp only [List.length_cons]
        omega

theorem drawBLoop_append {σ : Type} (run : BEntCall → BEntState σ → BEntState σ)
    (AngleVectors : (Nat → ℚ) → (Nat → ℚ) × (Nat → ℚ) × (Nat → ℚ))
    (BOX_ON_PLANE_SIDE : (Nat → ℚ) → (Nat → ℚ) → mplane_t → Nat) (RF_BEAM : Nat)
    (oldorigin : Nat → ℚ) (l1 l2 : List entity_t) :
    ∀ (j : Nat) (p : BEntLog σ),
      drawBLoop run AngleVectors BOX_ON_PLANE_SIDE RF_BEAM oldorigin j (l1 ++ l2) p =
        drawBLoop run AngleVectors BOX_ON_PLANE_SIDE RF_BEAM oldorigin (j + l1.length) l2
          (drawBLoop run AngleVectors BOX_ON_PLANE_SIDE RF_BEAM oldorigin j l1 p) := by
  induction l1 with
  | nil =>
    intro j p
    simp [drawBLoop]
  | cons e rest ih =>
    intro j p
    show drawBLoop run AngleVectors BOX_ON_PLANE_SIDE RF_BEAM oldorigin j
        (e :: (rest ++ l2)) p = _
    simp only [drawBLoop, List.length_cons]
    rw [ih]
    congr 1
    omega

/-- The entries of the log of `R_DrawBEntitiesOnList` made in the iteration
of entity `i` are the entries that the loop body appends for it in the state
reached after the entities before it. -/
theorem R_DrawBEntitiesOnList_entity_log {σ : Type}
    (run : BEntCall → BEntState σ → BEntState σ)
    (AngleVectors : (Nat → ℚ) → (Nat → ℚ) × (Nat → ℚ) × (Nat → ℚ))
    (BOX_ON_PLANE_SIDE : (Nat → ℚ) → (Nat → ℚ) → mplane_t → Nat) (RF_BEAM : Nat)
    (r_drawentities : ℚ) (entities : List entity_t) (s : BEntState σ)
    (hdraw : r_drawentities ≠ 0) (i : Nat) (e : entity_t) (hi : entities[i]? = some e)
    (ext : List (Nat × BEntCall × BEntState σ))
    (hext : ∀ log, (drawBEntity run AngleVectors BOX_ON_PLANE_SIDE RF_BEAM s.modelorg i e
        (stateAtEntity run AngleVectors BOX_ON_PLANE_SIDE RF_BEAM entities s i, log)).2 =
      log ++ ext) :
    (R_DrawBEntitiesOnList run AngleVectors BOX_ON_PLANE_SIDE RF_BEAM r_drawentities
      entities s).2.filter (fun x => decide (x.1 = i)) = ext := by
  have hlt : i < entities.length := by
    rcases Nat.lt_or_ge i entities.length with h | h
    · exact h
    · rw [List.getElem?_eq_none h] at hi
      cases hi
  have hsplit : entities = entities.take i ++ e :: entities.drop (i + 1) := by
    have hget : entities[i] = e := by
      rw [List.getElem?_eq_getElem hlt] at hi
      exact Option.some.inj hi
    rw [← hget, ← List.drop_eq_getElem_cons hlt, List.take_append_drop]
  have hlen : (entities.take i).length = i := by
    rw [List.length_take]
    omega
  obtain ⟨extA, hA, tA⟩ := drawBLoop_tags run AngleVectors BOX_ON_PLANE_SIDE RF_BEAM
    s.modelorg (entities.take i) 0 (beginBEntities s, [])
  obtain ⟨extB, hB, tB⟩ := drawBEntity_tags run AngleVectors BOX_ON_PLANE_SIDE RF_BEAM
    s.modelorg i e (drawBLoop run AngleVectors BOX_ON_PLANE_SIDE RF_BEAM s.modelorg 0
      (entities.take i) (beginBEntities s, []))
  obtain ⟨extC, hC, tC⟩ := drawBLoop_tags run AngleVectors BOX_ON_PLANE_SIDE RF_BEAM
    s.modelorg (entities.drop (i + 1)) (i + 1)
    (drawBEntity run AngleVectors BOX_ON_PLANE_SIDE RF_BEAM s.modelorg i e
      (drawBLoop run AngleVectors BOX_ON_PLANE_SIDE RF_BEAM s.modelorg 0
        (entities.take i) (beginBEntities s, [])))
  have hBext : extB = ext := by
    have h := hext (drawBLoop run AngleVectors BOX_ON_PLANE_SIDE RF_BEAM s.modelorg 0
      (entities.take i) (beginBEntities s, [])).2
    have hq : (stateAtEntity run AngleVectors BOX_ON_PLANE_SIDE RF_BEAM entities s i,
        (drawBLoop run AngleVectors BOX_ON_PLANE_SIDE RF_BEAM s.modelorg 0
          (entities.take i) (beginBEntities s, [])).2) =
        drawBLoop run AngleVectors BOX_ON_PLANE_SIDE RF_BEAM s.modelorg 0
          (entities.take i) (beginBEntities s, []) := rfl
    rw [hq, hB] at h
    exact List.append_cancel_left h
  have hfinal : (R_DrawBEntitiesOnList run AngleVectors BOX_ON_PLANE_SIDE RF_BEAM
      r_drawentities entities s).2 = extA ++ extB ++ extC := by
    unfold R_DrawBEntitiesOnList
    rw [if_neg hdraw]
    simp only []
    conv_lhs => rw [hsplit]
    rw [drawBLoop_append]
    simp only [drawBLoop, hlen, Nat.zero_add]
    rw [hC, hB, hA]
    simp
  have fA : extA.filter (fun x => decide (x.1 = i)) = [] := by
    rw [List.filter_eq_nil_iff]
    intro x hx
    have := tA x hx
    simp only [decide_eq_true_eq]
    omega
  have fC : extC.filter (fun x => decide (x.1 = i)) = [] := by
    rw [List.filter_eq_nil_iff]
    intro x hx
    have := tC x hx
    simp only [decide_eq_true_eq]
    omega
  have fB : extB.filter (fun x => decide (x.1 = i)) = extB := by
    rw [List.filter_eq_self]
    intro x hx
    simp only [decide_eq_true_eq]
    exact tB x hx
  rw [hfinal, List.filter_append, List.filter_append, fA, fB, fC, hBext]
  simp


theorem R_BmodelCheckBBox_boxBehindPlane2_run :
    R_BmodelCheckBBox (signFrustumIndexes exampleClipplanes) exampleClipplanes
      boxBehindPlane2 = BMODEL_FULLY_CLIPPED := by
  rw [R_BmodelCheckBBox_unroll]
  norm_num [signedDist, DotProduct, rejectPoint, acceptPoint, signFrustumIndexes,
    exampleClipplanes, boxBehindPlane2]

/-- The box of a sample brush entity is the box its model was made from, on
the six entries that are read. -/
theorem entityMinmaxs_brushModelOf (box : Nat → ℚ) (n : Int) :
    entityMinmaxs exampleAngleVectors (brushModelOf box n)
      (exampleEntity (some (brushModelOf box n)) 0) =
      fun k => if k < 3 then box k + 0 else box (k - 3 + 3) + 0 := by
  funext k
  simp [entityMinmaxs, RotatedBBox, exampleEntity, brushModelOf, VectorAdd]

theorem R_BmodelCheckBBox_congr (pf : Nat → Nat → Nat) (vc : Nat → clipplane_t)
    (a b : Nat → ℚ) (hpf : ∀ i j, i < 4 → j < 6 → pf i j < 6) (h : ∀ k, k < 6 → a k = b k) :
    R_BmodelCheckBBox pf vc a = R_BmodelCheckBBox pf vc b := by
  have hr : ∀ i, i < 4 → ∀ k, k < 3 → rejectPoint pf a i k = rejectPoint pf b i k :=
    fun i hi k hk => h _ (hpf i k hi (by omega))
  have ha : ∀ i, i < 4 → ∀ k, k < 3 → acceptPoint pf a i k = acceptPoint pf b i k :=
    fun i hi k hk => h _ (hpf i (3 + k) hi (by omega))
  have hsr : ∀ i, i < 4 →
      signedDist (vc i) (rejectPoint pf a i) = signedDist (vc i) (rejectPoint pf b i) :=
    fun i hi => by
      simp only [signedDist, DotProduct, hr i hi 0 (by omega), hr i hi 1 (by omega),
        hr i hi 2 (by omega)]
  have hsa : ∀ i, i < 4 →
      signedDist (vc i) (acceptPoint pf a i) = signedDist (vc i) (acceptPoint pf b i) :=
    fun i hi => by
      simp only [signedDist, DotProduct, ha i hi 0 (by omega), ha i hi 1 (by omega),
        ha i hi 2 (by omega)]
  rw [R_BmodelCheckBBox_unroll, R_BmodelCheckBBox_unroll, hsr 0 (by omega), hsr 1 (by omega),
    hsr 2 (by omega), hsr 3 (by omega), hsa 0 (by omega), hsa 1 (by omega), hsa 2 (by omega),
    hsa 3 (by omega)]

theorem signFrustumIndexes_lt (vc : Nat → clipplane_t) (i j : Nat) (hj : j < 6) :
    signFrustumIndexes vc i j < 6 := by
  unfold signFrustumIndexes
  split_ifs <;> omega

theorem entityClipflags_brushModelOf (s : BEntState Unit)
    (hpf : s.pfrustum_indexes = signFrustumIndexes exampleClipplanes)
    (hvc : s.view_clipplanes = exampleClipplanes) (box : Nat → ℚ) (n : Int) :
    entityClipflags exampleAngleVectors s (brushModelOf box n)
      (exampleEntity (some (brushModelOf box n)) 0) =
      R_BmodelCheckBBox (signFrustumIndexes exampleClipplanes) exampleClipplanes box := by
  unfold entityClipflags
  rw [hpf, hvc, entityMinmaxs_brushModelOf]
  apply R_BmodelCheckBBox_congr
  · intro i j _ hj
    exact signFrustumIndexes_lt _ i j hj
  · intro k hk
    by_cases h3 : k < 3
    · simp [h3]
    · simp only [if_neg h3, add_zero]
      congr 1
      omega

theorem entityTopnode_exampleLeaf (s : BEntState Unit) (hw : s.worldnodes = exampleLeaf)
    (hv : s.r_visframecount = 1) (m : entmodel_t) (e : entity_t) :
    entityTopnode exampleAngleVectors exampleBoxOnPlaneSide s m e = some exampleLeaf := by
  unfold entityTopnode
  rw [hw, hv]
  simp [exampleLeaf, R_FindTopnode, CONTENTS_NODE, CONTENTS_SOLID]

theorem entityTopnode_exampleSplitNode (s : BEntState Unit)
    (hw : s.worldnodes = exampleSplitNode) (hv : s.r_visframecount = 1) (m : entmodel_t)
    (e : entity_t) :
    entityTopnode exampleAngleVectors exampleBoxOnPlaneSide s m e = some exampleSplitNode := by
  unfold entityTopnode
  rw [hw, hv]
  simp [exampleSplitNode, R_FindTopnode, exampleBoxOnPlaneSide]

/-- C15: an entity of the list that the loop of `R_DrawBEntitiesOnList`
passes over (its box makes `R_BmodelCheckBBox` return `BMODEL_FULLY_CLIPPED`
in the state in which the loop reaches it, or it has no model, no model
surface, the `RF_BEAM` flag, a model that is not a brush model, or a NULL top
node) gets no call at all: the log has no entry made in its iteration, so
neither `R_DrawSolidClippedSubmodelPolygons` nor `R_DrawSubmodelPolygons`
nor `R_RotateBmodel` nor `SWR_PushDlights` is called for it. -/
theorem R_DrawBEntitiesOnList_passed_over {σ : Type}
    (run : BEntCall → BEntState σ → BEntState σ)
    (AngleVectors : (Nat → ℚ) → (Nat → ℚ) × (Nat → ℚ) × (Nat → ℚ))
    (BOX_ON_PLANE_SIDE : (Nat → ℚ) → (Nat → ℚ) → mplane_t → Nat) (RF_BEAM : Nat)
    (r_drawentities : ℚ) (entities : List entity_t) (s : BEntState σ)
    (i : Nat) (e : entity_t) (hi : entities[i]? = some e)
    (hskip : passedOver AngleVectors BOX_ON_PLANE_SIDE RF_BEAM
      (stateAtEntity run AngleVectors BOX_ON_PLANE_SIDE RF_BEAM entities s i) e) :
    (R_DrawBEntitiesOnList run AngleVectors BOX_ON_PLANE_SIDE RF_BEAM r_drawentities
      entities s).2.filter (fun x => decide (x.1 = i)) = [] := by
  by_cases hdraw : r_drawentities = 0
  · unfold R_DrawBEntitiesOnList
    rw [if_pos hdraw]
    rfl
  · apply R_DrawBEntitiesOnList_entity_log run AngleVectors BOX_ON_PLANE_SIDE RF_BEAM
      r_drawentities entities s hdraw i e hi
    intro log
    rw [drawBEntity_passedOver run AngleVectors BOX_ON_PLANE_SIDE RF_BEAM s.modelorg i e
      (stateAtEntity run AngleVectors BOX_ON_PLANE_SIDE RF_BEAM entities s i, log) hskip,
      List.append_nil]

/-- The brush entity behind plane 2 of the sample frustum, first in a list
of two, gets no call. -/
theorem R_DrawBEntitiesOnList_passed_over_witness :
    [brushBehindPlane2, brushAcrossPlane0][0]? = some brushBehindPlane2 ∧
    passedOver exampleAngleVectors exampleBoxOnPlaneSide 128
      (stateAtEntity idleBEnt exampleAngleVectors exampleBoxOnPlaneSide 128
        [brushBehindPlane2, brushAcrossPlane0] (exampleBEntState exampleLeaf) 0)
      brushBehindPlane2 ∧
    (R_DrawBEntitiesOnList idleBEnt exampleAngleVectors exampleBoxOnPlaneSide 128 1
      [brushBehindPlane2, brushAcrossPlane0] (exampleBEntState exampleLeaf)).2.filter
        (fun x => decide (x.1 = 0)) = [] :=
  have hskip : passedOver exampleAngleVectors exampleBoxOnPlaneSide 128
      (stateAtEntity idleBEnt exampleAngleVectors exampleBoxOnPlaneSide 128
        [brushBehindPlane2, brushAcrossPlane0] (exampleBEntState exampleLeaf) 0)
      brushBehindPlane2 := by
    show passedOver exampleAngleVectors exampleBoxOnPlaneSide 128
      (stateAtEntity idleBEnt exampleAngleVectors exampleBoxOnPlaneSide 128
        [brushBehindPlane2, brushAcrossPlane0] (exampleBEntState exampleLeaf) 0)
      (exampleEntity (some (brushModelOf boxBehindPlane2 6)) 0)
    unfold passedOver
    simp only [exampleEntity]
    refine Or.inr (Or.inr (Or.inr (Or.inl ?_)))
    exact (entityClipflags_brushModelOf _ rfl rfl boxBehindPlane2 6).trans
      R_BmodelCheckBBox_boxBehindPlane2_run
  ⟨rfl, hskip,
    R_DrawBEntitiesOnList_passed_over idleBEnt exampleAngleVectors exampleBoxOnPlaneSide 128 1
      [brushBehindPlane2, brushAcrossPlane0] (exampleBEntState exampleLeaf) 0
      brushBehindPlane2 rfl hskip⟩


/-- C16, as stated, fails: a brush entity without model surfaces whose box
passes the bounding-box test (clip flags 1) and whose top node is a visible
leaf gets no emission call; the log of the whole function is empty. -/
theorem R_DrawBEntitiesOnList_emission_counterexample :
    clipBrushAcrossPlane0.model = some (brushModelOf boxAcrossPlane0 0) ∧
    (brushModelOf boxAcrossPlane0 0).type = modtype_t.mod_brush ∧
    entityClipflags exampleAngleVectors
      (stateAtEntity idleBEnt exampleAngleVectors exampleBoxOnPlaneSide 128
        [clipBrushAcrossPlane0] (exampleBEntState exampleLeaf) 0)
      (brushModelOf boxAcrossPlane0 0) clipBrushAcrossPlane0 ≠ BMODEL_FULLY_CLIPPED ∧
    entityTopnode exampleAngleVectors exampleBoxOnPlaneSide
      (stateAtEntity idleBEnt exampleAngleVectors exampleBoxOnPlaneSide 128
        [clipBrushAcrossPlane0] (exampleBEntState exampleLeaf) 0)
      (brushModelOf boxAcrossPlane0 0) clipBrushAcrossPlane0 = some exampleLeaf ∧
    (R_DrawBEntitiesOnList idleBEnt exampleAngleVectors exampleBoxOnPlaneSide 128 1
      [clipBrushAcrossPlane0] (exampleBEntState exampleLeaf)).2 = [] := by
  refine ⟨rfl, rfl, ?_, entityTopnode_exampleLeaf _ rfl rfl _ _, ?_⟩
  · rw [show clipBrushAcrossPlane0 = exampleEntity (some (brushModelOf boxAcrossPlane0 0)) 0
      from rfl, entityClipflags_brushModelOf _ rfl rfl boxAcrossPlane0 0]
    exact boxAcrossPlane0_not_clipped
  · simp [R_DrawBEntitiesOnList, drawBLoop, drawBEntity, clipBrushAcrossPlane0, exampleEntity,
      brushModelOf]

/-- C16, amended: when `r_drawentities` is not zero, an entity of the list
with a brush model that has at least one surface, without the `RF_BEAM` flag,
whose box is not fully clipped and whose top node `n` is not NULL (both in
the state in which the loop reaches it) gets exactly four calls:
`R_RotateBmodel`, `SWR_PushDlights`, one emission call and
`R_TransformFrustum`. The emission call is
`R_DrawSolidClippedSubmodelPolygons` with `n`, made with `r_clipflags` equal
to the box's clip flags, when `n.contents` is `CONTENTS_NODE`, and
`R_DrawSubmodelPolygons` with the clip flags and `n` otherwise. -/
theorem R_DrawBEntitiesOnList_emission {σ : Type}
    (run : BEntCall → BEntState σ → BEntState σ)
    (AngleVectors : (Nat → ℚ) → (Nat → ℚ) × (Nat → ℚ) × (Nat → ℚ))
    (BOX_ON_PLANE_SIDE : (Nat → ℚ) → (Nat → ℚ) → mplane_t → Nat) (RF_BEAM : Nat)
    (r_drawentities : ℚ) (entities : List entity_t) (s : BEntState σ)
    (hdraw : r_drawentities ≠ 0) (i : Nat) (e : entity_t) (m : entmodel_t) (n : bspnode_t)
    (hi : entities[i]? = some e) (hm : e.model = some m) (h1 : m.nummodelsurfaces ≠ 0)
    (h2 : e.flags &&& RF_BEAM = 0) (h3 : m.type = modtype_t.mod_brush)
    (h4 : entityClipflags AngleVectors
      (stateAtEntity run AngleVectors BOX_ON_PLANE_SIDE RF_BEAM entities s i) m e ≠
        BMODEL_FULLY_CLIPPED)
    (h5 : entityTopnode AngleVectors BOX_ON_PLANE_SIDE
      (stateAtEntity run AngleVectors BOX_ON_PLANE_SIDE RF_BEAM entities s i) m e = some n) :
    ∃ s1 s2 s3 s4 : BEntState σ,
      (n.contents = CONTENTS_NODE →
        s3.r_clipflags = entityClipflags AngleVectors
          (stateAtEntity run AngleVectors BOX_ON_PLANE_SIDE RF_BEAM entities s i) m e) ∧
      (R_DrawBEntitiesOnList run AngleVectors BOX_ON_PLANE_SIDE RF_BEAM r_drawentities
        entities s).2.filter (fun x => decide (x.1 = i)) =
        [(i, BEntCall.R_RotateBmodel, s1), (i, BEntCall.SWR_PushDlights, s2),
          (i, if n.contents = CONTENTS_NODE
              then BEntCall.R_DrawSolidClippedSubmodelPolygons n
              else BEntCall.R_DrawSubmodelPolygons
                (entityClipflags AngleVectors
                  (stateAtEntity run AngleVectors BOX_ON_PLANE_SIDE RF_BEAM entities s i) m e)
                n, s3),
          (i, BEntCall.R_TransformFrustum, s4)] ∧
      (R_DrawBEntitiesOnList run AngleVectors BOX_ON_PLANE_SIDE RF_BEAM r_drawentities
        entities s).2.filter (fun x => decide (x.1 = i) && isEmission x.2.1) =
        [(i, if n.contents = CONTENTS_NODE
            then BEntCall.R_DrawSolidClippedSubmodelPolygons n
            else BEntCall.R_DrawSubmodelPolygons
              (entityClipflags AngleVectors
                (stateAtEntity run AngleVectors BOX_ON_PLANE_SIDE RF_BEAM entities s i) m e)
              n, s3)] := by
  obtain ⟨s1, s2, s3, s4, hclip, hlog⟩ := drawBEntity_drawn run AngleVectors
    BOX_ON_PLANE_SIDE RF_BEAM s.modelorg i e
    (stateAtEntity run AngleVectors BOX_ON_PLANE_SIDE RF_BEAM entities s i) m n hm h1 h2 h3
    h4 h5
  have hfilter := R_DrawBEntitiesOnList_entity_log run AngleVectors BOX_ON_PLANE_SIDE RF_BEAM
    r_drawentities entities s hdraw i e hi _ hlog
  refine ⟨s1, s2, s3, s4, fun hc => ?_, hfilter, ?_⟩
  · rcases hclip with hclip | hclip
    · exact hclip
    · exact absurd hc hclip
  · have hand : ∀ l : List (Nat × BEntCall × BEntState σ),
        l.filter (fun x => decide (x.1 = i) && isEmission x.2.1) =
          (l.filter (fun x => decide (x.1 = i))).filter (fun x => isEmission x.2.1) := by
      intro l
      rw [List.filter_filter]
      congr 1
      funext x
      exact Bool.and_comm _ _
    rw [hand, hfilter]
    by_cases hc : n.contents = CONTENTS_NODE
    · simp [hc, isEmission]
    · simp [hc, isEmission]

/-- A brush entity across plane 0 of the sample frustum: with a leaf as top
node it is emitted by `R_DrawSubmodelPolygons` with clip flags 1. -/
theorem R_DrawBEntitiesOnList_emission_witness :
    ((1 : ℚ) ≠ 0 ∧ [brushAcrossPlane0][0]? = some brushAcrossPlane0 ∧
      brushAcrossPlane0.model = some (brushModelOf boxAcrossPlane0 6) ∧
      (brushModelOf boxAcrossPlane0 6).nummodelsurfaces ≠ 0 ∧
      brushAcrossPlane0.flags &&& 128 = 0 ∧
      (brushModelOf boxAcrossPlane0 6).type = modtype_t.mod_brush ∧
      entityClipflags exampleAngleVectors
        (stateAtEntity idleBEnt exampleAngleVectors exampleBoxOnPlaneSide 128
          [brushAcrossPlane0] (exampleBEntState exampleLeaf) 0)
        (brushModelOf boxAcrossPlane0 6) brushAcrossPlane0 ≠ BMODEL_FULLY_CLIPPED ∧
      entityTopnode exampleAngleVectors exampleBoxOnPlaneSide
        (stateAtEntity idleBEnt exampleAngleVectors exampleBoxOnPlaneSide 128
          [brushAcrossPlane0] (exampleBEntState exampleLeaf) 0)
        (brushModelOf boxAcrossPlane0 6) brushAcrossPlane0 = some exampleLeaf) ∧
    ∃ s3 : BEntState Unit,
      (R_DrawBEntitiesOnList idleBEnt exampleAngleVectors exampleBoxOnPlaneSide 128 1
        [brushAcrossPlane0] (exampleBEntState exampleLeaf)).2.filter
          (fun x => decide (x.1 = 0) && isEmission x.2.1) =
        [(0, BEntCall.R_DrawSubmodelPolygons 1 exampleLeaf, s3)] := by
  have hclip : entityClipflags exampleAngleVectors
      (stateAtEntity idleBEnt exampleAngleVectors exampleBoxOnPlaneSide 128
        [brushAcrossPlane0] (exampleBEntState exampleLeaf) 0)
      (brushModelOf boxAcrossPlane0 6) brushAcrossPlane0 = 1 := by
    rw [show brushAcrossPlane0 = exampleEntity (some (brushModelOf boxAcrossPlane0 6)) 0
      from rfl, entityClipflags_brushModelOf _ rfl rfl boxAcrossPlane0 6]
    exact R_BmodelCheckBBox_boxAcrossPlane0_run
  have h4 : entityClipflags exampleAngleVectors
      (stateAtEntity idleBEnt exampleAngleVectors exampleBoxOnPlaneSide 128
        [brushAcrossPlane0] (exampleBEntState exampleLeaf) 0)
      (brushModelOf boxAcrossPlane0 6) brushAcrossPlane0 ≠ BMODEL_FULLY_CLIPPED := by
    rw [hclip]
    decide
  have h5 : entityTopnode exampleAngleVectors exampleBoxOnPlaneSide
      (stateAtEntity idleBEnt exampleAngleVectors exampleBoxOnPlaneSide 128
        [brushAcrossPlane0] (exampleBEntState exampleLeaf) 0)
      (brushModelOf boxAcrossPlane0 6) brushAcrossPlane0 = some exampleLeaf :=
    entityTopnode_exampleLeaf _ rfl rfl _ _
  have h1 : (brushModelOf boxAcrossPlane0 6).nummodelsurfaces ≠ 0 := by
    show (6 : Int) ≠ 0
    decide
  have h2 : brushAcrossPlane0.flags &&& 128 = 0 := by
    show (0 : Nat) &&& 128 = 0
    decide
  obtain ⟨s1, s2, s3, s4, -, -, hem⟩ :=
    R_DrawBEntitiesOnList_emission idleBEnt exampleAngleVectors exampleBoxOnPlaneSide 128 1
      [brushAcrossPlane0] (exampleBEntState exampleLeaf) one_ne_zero 0 brushAcrossPlane0
      (brushModelOf boxAcrossPlane0 6) exampleLeaf rfl rfl h1 h2 rfl h4 h5
  refine ⟨⟨one_ne_zero, rfl, rfl, h1, h2, rfl, h4, h5⟩, s3, ?_⟩
  rw [hem, hclip]
  simp [exampleLeaf, bspnode_t.contents, CONTENTS_NODE]


/-! ### The PVS lock -/

/-- C23: with `sw_lockpvs` non-zero `SWR_MarkLeaves` returns the state it
was given: `r_visframecount`, the old view cluster and the `visframe` of
every leaf and node are unchanged, whatever the view cluster and `r_novis`
are. -/
theorem SWR_MarkLeaves_lock_freezes (pvs : Int → model_t → Int → Nat) (s : State)
    (hlock : s.sw_lockpvs ≠ 0) :
    ∃ s1, SWR_MarkLeaves pvs s = some s1 ∧
      s1.r_visframecount = s.r_visframecount ∧
      s1.r_refsoft_oldviewcluster = s.r_refsoft_oldviewcluster ∧
      s1.r_refsoft_worldmodel.leafs.map (fun l => l.visframe) =
        s.r_refsoft_worldmodel.leafs.map (fun l => l.visframe) ∧
      s1.r_refsoft_worldmodel.nodes.map (fun n => n.visframe) =
        s.r_refsoft_worldmodel.nodes.map (fun n => n.visframe) ∧
      s1 = s :=
  ⟨s, SWR_MarkLeaves_lock_path pvs s hlock, rfl, rfl, rfl, rfl, rfl⟩

/-- The lock on `lockedNovisState`, where `r_novis` is on as well and the
view cluster differs from the old one. -/
theorem SWR_MarkLeaves_lock_freezes_witness :
    lockedNovisState.sw_lockpvs ≠ 0 ∧
    ∃ s1, SWR_MarkLeaves examplePVS lockedNovisState = some s1 ∧
      s1.r_visframecount = lockedNovisState.r_visframecount ∧
      s1.r_refsoft_oldviewcluster = lockedNovisState.r_refsoft_oldviewcluster ∧
      s1.r_refsoft_worldmodel.leafs.map (fun l => l.visframe) =
        lockedNovisState.r_refsoft_worldmodel.leafs.map (fun l => l.visframe) ∧
      s1.r_refsoft_worldmodel.nodes.map (fun n => n.visframe) =
        lockedNovisState.r_refsoft_worldmodel.nodes.map (fun n => n.visframe) ∧
      s1 = lockedNovisState :=
  ⟨by decide, SWR_MarkLeaves_lock_freezes examplePVS lockedNovisState (by decide)⟩


/-! ### Gamma rebuild and mode negotiation in SWR_BeginFrame -/

/-- An iteration of the mode loop appends the `SWimp_SetMode` call and
further calls, none of which is `Draw_BuildGammaTable`. -/
theorem modeIteration_log {σ : Type} (run : BeginCall → σ → σ)
    (SWimp_SetMode : Int → Int → Int → Int → σ → rserr_t × Int × Int × σ)
    (Cvar_SetValue : CvarName → ℚ → Cvars → Cvars) (d_refsoft_8to24table : Nat → Nat)
    (p : BeginLog σ) :
    ∃ err ext,
      (modeIteration run SWimp_SetMode Cvar_SetValue d_refsoft_8to24table p).1.2 =
        p.2 ++ BeginCall.SWimp_SetMode (truncToInt p.1.cvars.sw_mode.value)
          (truncToInt p.1.cvars.vid_fullscreen.value) err :: ext ∧
      BeginCall.Draw_BuildGammaTable ∉ ext := by
  simp only [modeIteration]
  generalize SWimp_SetMode p.1.vid_width p.1.vid_height (truncToInt p.1.cvars.sw_mode.value)
    (truncToInt p.1.cvars.vid_fullscreen.value) p.1.rest = r
  obtain ⟨err, w, h, rest⟩ := r
  cases err
  · exact ⟨rserr_t.rserr_ok, [BeginCall.R_InitGraphics w h, BeginCall.R_InitTurb],
      by simp [R_InitGraphics, callRest], by simp⟩
  · exact ⟨rserr_t.rserr_invalid_fullscreen,
      [BeginCall.R_InitGraphics w h, BeginCall.Cvar_SetValue CvarName.vid_fullscreen 0,
        BeginCall.Con_Printf_fullscreen_unavailable, BeginCall.R_InitTurb],
      by simp [R_InitGraphics, callRest, callCvarSetValue], by simp⟩
  · exact ⟨rserr_t.rserr_invalid_mode,
      [BeginCall.Cvar_SetValue CvarName.sw_mode p.1.prev_mode,
        BeginCall.Con_Printf_could_not_set_mode, BeginCall.R_InitTurb],
      by simp [callRest, callCvarSetValue], by simp⟩
  · exact ⟨rserr_t.rserr_unknown, [BeginCall.Sys_Error], by simp [callRest], by simp⟩

theorem modeLoop_log {σ : Type} (run : BeginCall → σ → σ)
    (SWimp_SetMode : Int → Int → Int → Int → σ → rserr_t × Int × Int × σ)
    (Cvar_SetValue : CvarName → ℚ → Cvars → Cvars) (d_refsoft_8to24table : Nat → Nat)
    (fuel : Nat) :
    ∀ p : BeginLog σ, ∃ ext,
      (modeLoop run SWimp_SetMode Cvar_SetValue d_refsoft_8to24table fuel p).1.2 =
        p.2 ++ ext ∧ BeginCall.Draw_BuildGammaTable ∉ ext := by
  induction fuel with
  | zero =>
    intro p
    refine ⟨[], ?_, by simp⟩
    unfold modeLoop
    split <;> simp
  | succ n ih =>
    intro p
    unfold modeLoop
    obtain ⟨err, ext1, h1, n1⟩ := modeIteration_log run SWimp_SetMode Cvar_SetValue
      d_refsoft_8to24table p
    split
    · simp only []
      split
      · exact ⟨_, h1, by simp [n1]⟩
      · obtain ⟨ext2, h2, n2⟩ := ih
          (modeIteration run SWimp_SetMode Cvar_SetValue d_refsoft_8to24table p).1
        refine ⟨BeginCall.SWimp_SetMode (truncToInt p.1.cvars.sw_mode.value)
          (truncToInt p.1.cvars.vid_fullscreen.value) err :: ext1 ++ ext2, ?_, ?_⟩
        · rw [h2, h1]
          simp
        · simp [n1, n2]
    · exact ⟨[], by simp, by simp⟩

/-- A run of the mode loop that starts with a mode change pending begins with
the `SWimp_SetMode` call and never calls `Draw_BuildGammaTable`. -/
theorem modeLoop_first {σ : Type} (run : BeginCall → σ → σ)
    (SWimp_SetMode : Int → Int → Int → Int → σ → rserr_t × Int × Int × σ)
    (Cvar_SetValue : CvarName → ℚ → Cvars → Cvars) (d_refsoft_8to24table : Nat → Nat)
    (n : Nat) (st : BeginState σ) (log : List BeginCall)
    (hcond : (st.cvars.sw_mode.modified || st.cvars.vid_fullscreen.modified) = true) :
    ∃ err rest,
      (modeLoop run SWimp_SetMode Cvar_SetValue d_refsoft_8to24table (n + 1) (st, log)).1.2 =
        log ++ BeginCall.SWimp_SetMode (truncToInt st.cvars.sw_mode.value)
          (truncToInt st.cvars.vid_fullscreen.value) err :: rest ∧
      BeginCall.Draw_BuildGammaTable ∉ rest := by
  unfold modeLoop
  simp only [hcond, if_true]
  obtain ⟨err, ext1, h1, n1⟩ := modeIteration_log run SWimp_SetMode Cvar_SetValue
    d_refsoft_8to24table (st, log)
  split
  · exact ⟨err, ext1, h1, n1⟩
  · obtain ⟨ext2, h2, n2⟩ := modeLoop_log run SWimp_SetMode Cvar_SetValue
      d_refsoft_8to24table n (modeIteration run SWimp_SetMode Cvar_SetValue
        d_refsoft_8to24table (st, log)).1
    refine ⟨err, ext1 ++ ext2, ?_, by simp [n1, n2]⟩
    rw [h2, h1]
    simp

/-- C27, as stated, fails: with mode 3 and a new gamma value both requested,
`Draw_BuildGammaTable` is the first call of `SWR_BeginFrame` and
`SWimp_SetMode` the third. -/
theorem SWR_BeginFrame_gamma_counterexample :
    exampleGammaModeState.cvars.vid_gamma.modified = true ∧
    exampleGammaModeState.cvars.sw_mode.modified = true ∧
    (SWR_BeginFrame examplePow idleBegin exampleSetMode exampleCvarSetValue examplePalette 1
      exampleGammaModeState).1.2 =
      [BeginCall.Draw_BuildGammaTable, BeginCall.R_GammaCorrectAndSetPalette,
        BeginCall.SWimp_SetMode 3 0 rserr_t.rserr_ok, BeginCall.R_InitGraphics 640 480,
        BeginCall.R_InitTurb] := by
  refine ⟨rfl, rfl, ?_⟩
  have h3 : truncToInt (3 : ℚ) = 3 := truncToInt_natCast 3
  have h0 : truncToInt (0 : ℚ) = 0 := by simpa using truncToInt_natCast 0
  simp [SWR_BeginFrame, modeLoop, modeIteration, exampleGammaModeState, exampleSetMode,
    R_InitGraphics, callRest, h3, h0]

/-- C27, amended: when `vid_gamma` and one of `sw_mode`, `vid_fullscreen`
are flagged as modified, `SWR_BeginFrame` calls `Draw_BuildGammaTable` and
`R_GammaCorrectAndSetPalette` first and `SWimp_SetMode` (with the mode and
fullscreen settings converted to integers) right after them, and
`Draw_BuildGammaTable` is not called again. -/
theorem SWR_BeginFrame_gamma_first {σ : Type} (pow : ℚ → ℚ → ℚ) (run : BeginCall → σ → σ)
    (SWimp_SetMode : Int → Int → Int → Int → σ → rserr_t × Int × Int × σ)
    (Cvar_SetValue : CvarName → ℚ → Cvars → Cvars) (d_refsoft_8to24table : Nat → Nat)
    (fuel : Nat) (s : BeginState σ) (hfuel : 0 < fuel)
    (hgamma : s.cvars.vid_gamma.modified = true)
    (hmode : s.cvars.sw_mode.modified = true ∨ s.cvars.vid_fullscreen.modified = true) :
    ∃ err rest,
      (SWR_BeginFrame pow run SWimp_SetMode Cvar_SetValue d_refsoft_8to24table fuel s).1.2 =
        BeginCall.Draw_BuildGammaTable :: BeginCall.R_GammaCorrectAndSetPalette ::
          BeginCall.SWimp_SetMode (truncToInt s.cvars.sw_mode.value)
            (truncToInt s.cvars.vid_fullscreen.value) err :: rest ∧
      BeginCall.Draw_BuildGammaTable ∉ rest := by
  obtain ⟨n, rfl⟩ : ∃ n, fuel = n + 1 := ⟨fuel - 1, by omega⟩
  have hcond : (s.cvars.sw_mode.modified || s.cvars.vid_fullscreen.modified) = true := by
    rcases hmode with h | h <;> simp [h]
  unfold SWR_BeginFrame
  simp only [hgamma, if_true, List.nil_append]
  exact modeLoop_first run SWimp_SetMode Cvar_SetValue d_refsoft_8to24table n _ _ hcond

/-- The gamma rebuild precedes the mode change on `exampleGammaModeState`. -/
theorem SWR_BeginFrame_gamma_first_witness :
    (0 < 1 ∧ exampleGammaModeState.cvars.vid_gamma.modified = true ∧
      (exampleGammaModeState.cvars.sw_mode.modified = true ∨
        exampleGammaModeState.cvars.vid_fullscreen.modified = true)) ∧
    ∃ err rest,
      (SWR_BeginFrame examplePow idleBegin exampleSetMode exampleCvarSetValue examplePalette 1
        exampleGammaModeState).1.2 =
        BeginCall.Draw_BuildGammaTable :: BeginCall.R_GammaCorrectAndSetPalette ::
          BeginCall.SWimp_SetMode (truncToInt exampleGammaModeState.cvars.sw_mode.value)
            (truncToInt exampleGammaModeState.cvars.vid_fullscreen.value) err :: rest ∧
      BeginCall.Draw_BuildGammaTable ∉ rest :=
  ⟨⟨by decide, rfl, Or.inl rfl⟩,
    SWR_BeginFrame_gamma_first examplePow idleBegin exampleSetMode exampleCvarSetValue
      examplePalette 1 exampleGammaModeState (by decide) rfl (Or.inl rfl)⟩


/-! ### R_FindTopnode -/

/-- What a non-NULL result of `R_FindTopnode` is. -/
theorem R_FindTopnode_some (BOX_ON_PLANE_SIDE : (Nat → ℚ) → (Nat → ℚ) → mplane_t → Nat)
    (r_visframecount : Int) (mins maxs : Nat → ℚ) (root : bspnode_t) :
    ∀ n, R_FindTopnode BOX_ON_PLANE_SIDE r_visframecount mins maxs root = some n →
      n.visframe = r_visframecount ∧
      (IsNonSolidLeaf n ∨ IsSplitter BOX_ON_PLANE_SIDE mins maxs n) ∧
      OnDescent BOX_ON_PLANE_SIDE r_visframecount mins maxs root n := by
  induction root with
  | leaf visframe contents =>
    intro n hn
    simp only [R_FindTopnode] at hn
    split_ifs at hn with h1 h2 h3
    cases hn
    exact ⟨not_not.1 h1, Or.inl h3, OnDescent.here _⟩
  | node visframe plane child0 child1 ih0 ih1 =>
    intro n hn
    simp only [R_FindTopnode] at hn
    split_ifs at hn with h1 h2 h3
    · cases hn
      exact ⟨not_not.1 h1, Or.inr h2, OnDescent.here _⟩
    · obtain ⟨hv, hk, hd⟩ := ih0 n hn
      exact ⟨hv, hk, OnDescent.front visframe plane child0 child1 n (not_not.1 h1) h2 h3 hd⟩
    · obtain ⟨hv, hk, hd⟩ := ih1 n hn
      exact ⟨hv, hk,
        OnDescent.back visframe plane child0 child1 n (not_not.1 h1) h2 (not_not.1 h3) hd⟩

/-- A descent that reaches an unstamped node or a solid leaf gives NULL. -/
theorem R_FindTopnode_none_of_descent
    (BOX_ON_PLANE_SIDE : (Nat → ℚ) → (Nat → ℚ) → mplane_t → Nat)
    (r_visframecount : Int) (mins maxs : Nat → ℚ) (root m : bspnode_t)
    (hd : OnDescent BOX_ON_PLANE_SIDE r_visframecount mins maxs root m)
    (hm : m.visframe ≠ r_visframecount ∨ IsSolidLeaf m) :
    R_FindTopnode BOX_ON_PLANE_SIDE r_visframecount mins maxs root = none := by
  induction hd with
  | here n =>
    cases n with
    | leaf visframe contents =>
      simp only [R_FindTopnode]
      rcases hm with hm | hm
      · rw [if_pos (show visframe ≠ r_visframecount from hm)]
      · simp only [IsSolidLeaf] at hm
        split_ifs <;> first | rfl | contradiction
    | node visframe plane child0 child1 =>
      rcases hm with hm | hm
      · simp only [R_FindTopnode]
        rw [if_pos (show visframe ≠ r_visframecount from hm)]
      · exact absurd hm (by simp [IsSolidLeaf])
  | front visframe plane child0 child1 n hv h3 hbit _ ih =>
    simp only [R_FindTopnode]
    rw [if_neg (not_not.2 hv), if_neg h3, if_pos hbit]
    exact ih hm
  | back visframe plane child0 child1 n hv h3 hbit _ ih =>
    simp only [R_FindTopnode]
    rw [if_neg (not_not.2 hv), if_neg h3, if_neg (not_not.2 hbit)]
    exact ih hm

/-- A NULL result comes from an unstamped node or a solid leaf on the
descent. -/
theorem R_FindTopnode_none (BOX_ON_PLANE_SIDE : (Nat → ℚ) → (Nat → ℚ) → mplane_t → Nat)
    (r_visframecount : Int) (mins maxs : Nat → ℚ) (root : bspnode_t)
    (hwf : LeavesAreLeaves root)
    (hnone : R_FindTopnode BOX_ON_PLANE_SIDE r_visframecount mins maxs root = none) :
    ∃ m, OnDescent BOX_ON_PLANE_SIDE r_visframecount mins maxs root m ∧
      (m.visframe ≠ r_visframecount ∨ IsSolidLeaf m) := by
  induction root with
  | leaf visframe contents =>
    refine ⟨_, OnDescent.here _, ?_⟩
    simp only [R_FindTopnode] at hnone
    simp only [LeavesAreLeaves] at hwf
    by_cases h1 : visframe ≠ r_visframecount
    · exact Or.inl h1
    · rw [if_neg h1, if_pos hwf] at hnone
      by_cases h3 : contents ≠ CONTENTS_SOLID
      · rw [if_pos h3] at hnone
        cases hnone
      · exact Or.inr (not_not.1 h3)
  | node visframe plane child0 child1 ih0 ih1 =>
    simp only [R_FindTopnode] at hnone
    simp only [LeavesAreLeaves] at hwf
    by_cases h1 : visframe ≠ r_visframecount
    · exact ⟨_, OnDescent.here _, Or.inl h1⟩
    · rw [if_neg h1] at hnone
      by_cases h2 : BOX_ON_PLANE_SIDE mins maxs plane = 3
      · rw [if_pos h2] at hnone
        cases hnone
      · rw [if_neg h2] at hnone
        by_cases h3 : BOX_ON_PLANE_SIDE mins maxs plane &&& 1 ≠ 0
        · rw [if_pos h3] at hnone
          obtain ⟨m, hd, hm⟩ := ih0 hwf.1 hnone
          exact ⟨m, OnDescent.front visframe plane child0 child1 m (not_not.1 h1) h2 h3 hd, hm⟩
        · rw [if_neg h3] at hnone
          obtain ⟨m, hd, hm⟩ := ih1 hwf.2 hnone
          exact ⟨m, OnDescent.back visframe plane child0 child1 m (not_not.1 h1) h2
            (not_not.1 h3) hd, hm⟩

/-- C24: `R_FindTopnode` is defined by recursion on the finite tree, so it
returns on every tree. A non-NULL result `n` is stamped with
`r_visframecount`, is a non-solid leaf or an interior node whose plane the box
straddles (`BOX_ON_PLANE_SIDE` gives 3), and lies on the descent from the
root: every proper ancestor is a stamped interior node with the box not on
both sides of its plane, and `n` is in the child on the side of the box. On
a tree whose leaves are leaves, the result is NULL exactly when the descent
reaches a node that is not stamped or a solid leaf. -/
theorem R_FindTopnode_first_splitter
    (BOX_ON_PLANE_SIDE : (Nat → ℚ) → (Nat → ℚ) → mplane_t → Nat)
    (r_visframecount : Int) (mins maxs : Nat → ℚ) (root : bspnode_t)
    (hwf : LeavesAreLeaves root) :
    (∀ n, R_FindTopnode BOX_ON_PLANE_SIDE r_visframecount mins maxs root = some n →
      n.visframe = r_visframecount ∧
      (IsNonSolidLeaf n ∨ IsSplitter BOX_ON_PLANE_SIDE mins maxs n) ∧
      OnDescent BOX_ON_PLANE_SIDE r_visframecount mins maxs root n) ∧
    (R_FindTopnode BOX_ON_PLANE_SIDE r_visframecount mins maxs root = none ↔
      ∃ m, OnDescent BOX_ON_PLANE_SIDE r_visframecount mins maxs root m ∧
        (m.visframe ≠ r_visframecount ∨ IsSolidLeaf m)) :=
  ⟨R_FindTopnode_some BOX_ON_PLANE_SIDE r_visframecount mins maxs root,
    R_FindTopnode_none BOX_ON_PLANE_SIDE r_visframecount mins maxs root hwf,
    fun ⟨m, hd, hm⟩ =>
      R_FindTopnode_none_of_descent BOX_ON_PLANE_SIDE r_visframecount mins maxs root m hd hm⟩

theorem exampleTree_leaves : LeavesAreLeaves exampleTree := by
  simp [exampleTree, exampleFrontNode, LeavesAreLeaves, CONTENTS_NODE]

theorem R_FindTopnode_exampleTree_run :
    R_FindTopnode axisBoxOnPlaneSide 1 (fun k => boxAcrossTen k)
      (fun k => boxAcrossTen (k + 3)) exampleTree = some exampleFrontNode := by
  norm_num [exampleTree, exampleFrontNode, R_FindTopnode, axisBoxOnPlaneSide, axisPlane,
    boxAcrossTen]

/-- On `exampleTree` the box from x = 5 to x = 15 lies in front of the root
plane `x = 0` and across the plane `x = 10`: the top node is
`exampleFrontNode`, reached through the front child of the root. -/
theorem R_FindTopnode_first_splitter_witness :
    LeavesAreLeaves exampleTree ∧
    R_FindTopnode axisBoxOnPlaneSide 1 (fun k => boxAcrossTen k)
      (fun k => boxAcrossTen (k + 3)) exampleTree = some exampleFrontNode ∧
    exampleFrontNode.visframe = 1 ∧
    (IsNonSolidLeaf exampleFrontNode ∨
      IsSplitter axisBoxOnPlaneSide (fun k => boxAcrossTen k) (fun k => boxAcrossTen (k + 3))
        exampleFrontNode) ∧
    OnDescent axisBoxOnPlaneSide 1 (fun k => boxAcrossTen k) (fun k => boxAcrossTen (k + 3))
      exampleTree exampleFrontNode :=
  ⟨exampleTree_leaves, R_FindTopnode_exampleTree_run,
    (R_FindTopnode_first_splitter axisBoxOnPlaneSide 1 (fun k => boxAcrossTen k)
      (fun k => boxAcrossTen (k + 3)) exampleTree exampleTree_leaves).1 exampleFrontNode
      R_FindTopnode_exampleTree_run⟩


/-! ### RotatedBBox -/

/-- A loop keeps what its body keeps. -/
theorem forLoop_invariant {σ : Type} (P : Nat → σ → Prop) (body : Nat → σ → σ) (s : σ)
    (n : Nat) (h0 : P 0 s) (hstep : ∀ i t, i < n → P i t → P (i + 1) (body i t)) :
    P n (forLoop n body s) := by
  induction n with
  | zero => exact h0
  | succ m ih =>
    rw [forLoop_succ]
    exact hstep m _ (Nat.lt_succ_self m)
      (ih fun i t hi hp => hstep i t (Nat.lt_succ_of_lt hi) hp)

/-- The function `RotatedBBox` with the inner loop body named. -/
theorem RotatedBBox_eq (AngleVectors : (Nat → ℚ) → (Nat → ℚ) × (Nat → ℚ) × (Nat → ℚ))
    (mins maxs angles tmins tmaxs : Nat → ℚ) :
    RotatedBBox AngleVectors mins maxs angles tmins tmaxs =
      if angles 0 = 0 ∧ angles 1 = 0 ∧ angles 2 = 0 then (mins, maxs)
      else
        forLoop 8
          (fun i t =>
            forLoop 3
              (widenBox (rotatedPoint (AngleVectors angles).1 (AngleVectors angles).2.1
                (AngleVectors angles).2.2 (rotatedCorner mins maxs i)))
              t)
          (forLoop 3
            (fun i (t : (Nat → ℚ) × (Nat → ℚ)) =>
              (setComp t.1 i 99999, setComp t.2 i (-99999)))
            (tmins, tmaxs)) := rfl

/-- One step of the inner loop leaves component `j` of `v` inside the box
and only widens the box. -/
theorem widenBox_spec (v : Nat → ℚ) (j : Nat) (t : (Nat → ℚ) × (Nat → ℚ)) :
    ((widenBox v j t).1 j ≤ v j ∧ v j ≤ (widenBox v j t).2 j) ∧
      ∀ k, (widenBox v j t).1 k ≤ t.1 k ∧ t.2 k ≤ (widenBox v j t).2 k := by
  unfold widenBox
  by_cases h1 : v j < t.1 j
  · have h2 : ¬ v j > t.2 j ∨ v j > t.2 j := (em _).symm
    rcases h2 with h2 | h2
    · simp only [if_pos h1, if_neg h2]
      refine ⟨⟨by simp [setComp], not_lt.1 h2⟩, fun k => ⟨?_, le_refl _⟩⟩
      by_cases hk : k = j
      · subst hk
        simp only [setComp, if_true]
        exact le_of_lt h1
      · simp [setComp, hk]
    · simp only [if_pos h1, if_pos h2]
      refine ⟨⟨by simp [setComp], by simp [setComp]⟩, fun k => ⟨?_, ?_⟩⟩
      · by_cases hk : k = j
        · subst hk
          simp only [setComp, if_true]
          exact le_of_lt h1
        · simp [setComp, hk]
      · by_cases hk : k = j
        · subst hk
          simp only [setComp, if_true]
          exact le_of_lt h2
        · simp [setComp, hk]
  · by_cases h2 : v j > t.2 j
    · simp only [if_neg h1, if_pos h2]
      refine ⟨⟨not_lt.1 h1, by simp [setComp]⟩, fun k => ⟨le_refl _, ?_⟩⟩
      by_cases hk : k = j
      · subst hk
        simp only [setComp, if_true]
        exact le_of_lt h2
      · simp [setComp, hk]
    · simp only [if_neg h1, if_neg h2]
      exact ⟨⟨not_lt.1 h1, not_lt.1 h2⟩, fun k => ⟨le_refl _, le_refl _⟩⟩

/-- The inner loop for the point `v`: afterwards `v` is inside the box on
the three axes, and the box has only been widened. -/
theorem widenLoop_spec (v : Nat → ℚ) (t : (Nat → ℚ) × (Nat → ℚ)) :
    (∀ j, j < 3 → (forLoop 3 (widenBox v) t).1 j ≤ v j ∧ v j ≤ (forLoop 3 (widenBox v) t).2 j) ∧
    ∀ k, (forLoop 3 (widenBox v) t).1 k ≤ t.1 k ∧ t.2 k ≤ (forLoop 3 (widenBox v) t).2 k := by
  have key := forLoop_invariant
    (fun n (b : (Nat → ℚ) × (Nat → ℚ)) =>
      (∀ j, j < n → b.1 j ≤ v j ∧ v j ≤ b.2 j) ∧ ∀ k, b.1 k ≤ t.1 k ∧ t.2 k ≤ b.2 k)
    (widenBox v) t 3
    ⟨fun j hj => absurd hj (Nat.not_lt_zero j), fun k => ⟨le_refl _, le_refl _⟩⟩
    (fun i b _ hb => by
      have hs := widenBox_spec v i b
      refine ⟨fun j hj => ?_, fun k => ⟨le_trans (hs.2 k).1 (hb.2 k).1,
        le_trans (hb.2 k).2 (hs.2 k).2⟩⟩
      rcases Nat.lt_succ_iff_lt_or_eq.1 hj with hlt | heq
      · exact ⟨le_trans (hs.2 j).1 (hb.1 j hlt).1, le_trans (hb.1 j hlt).2 (hs.2 j).2⟩
      · rw [heq]
        exact hs.1)
  exact key

/-- The outer loop over the points `pt 0, …, pt (n-1)`: afterwards each of
them is inside the box on the three axes. -/
theorem widenAll_spec (pt : Nat → Nat → ℚ) (t : (Nat → ℚ) × (Nat → ℚ)) (n : Nat) :
    ∀ i, i < n → ∀ j, j < 3 →
      (forLoop n (fun i b => forLoop 3 (widenBox (pt i)) b) t).1 j ≤ pt i j ∧
      pt i j ≤ (forLoop n (fun i b => forLoop 3 (widenBox (pt i)) b) t).2 j :=
  forLoop_invariant
    (fun n (b : (Nat → ℚ) × (Nat → ℚ)) =>
      ∀ i, i < n → ∀ j, j < 3 → b.1 j ≤ pt i j ∧ pt i j ≤ b.2 j)
    (fun i b => forLoop 3 (widenBox (pt i)) b) t n
    (fun i hi => absurd hi (Nat.not_lt_zero i))
    (fun m b _ hb i hi j hj => by
      have hs := widenLoop_spec (pt m) b
      rcases Nat.lt_succ_iff_lt_or_eq.1 hi with hlt | heq
      · exact ⟨le_trans (hs.2 j).1 (hb i hlt j hj).1, le_trans (hb i hlt j hj).2 (hs.2 j).2⟩
      · rw [heq]
        exact hs.1 j hj)

/-- Every corner of the box is one of the eight points of the loop. -/
theorem rotatedCorner_cornerOf (mins maxs : Nat → ℚ) (hi : Nat → Bool) :
    ∃ i, i < 8 ∧ ∀ k, k < 3 → rotatedCorner mins maxs i k = cornerOf mins maxs hi k := by
  refine ⟨(if hi 0 then 0 else 1) + (if hi 1 then 0 else 2) + (if hi 2 then 0 else 4), ?_, ?_⟩
  · cases hi 0 <;> cases hi 1 <;> cases hi 2 <;> decide
  · intro k hk
    interval_cases k <;> cases h0 : hi 0 <;> cases h1 : hi 1 <;> cases h2 : hi 2 <;>
      simp [rotatedCorner, cornerOf, h0, h1, h2] <;>
      (intro h; exact absurd (by decide) h)

theorem rotatedPoint_congr (forward right up c d : Nat → ℚ) (h : ∀ k, k < 3 → c k = d k) :
    rotatedPoint forward right up c = rotatedPoint forward right up d := by
  funext j
  simp only [rotatedPoint, VectorMA, VectorScale, h 0 (by omega), h 1 (by omega),
    h 2 (by omega)]

/-- C25: with all three angles zero `RotatedBBox` returns the input box as
it is; otherwise, with `(forward, right, up)` the vectors of the angles,
each corner `(x, y, z)` of the input box, mapped to
`x*forward - y*right + z*up`, lies between `tmins` and `tmaxs` on each of the
three axes, for every input box and whatever the arrays held on entry. -/
theorem RotatedBBox_contains (AngleVectors : (Nat → ℚ) → (Nat → ℚ) × (Nat → ℚ) × (Nat → ℚ))
    (mins maxs angles tmins tmaxs : Nat → ℚ) :
    (angles 0 = 0 ∧ angles 1 = 0 ∧ angles 2 = 0 →
      RotatedBBox AngleVectors mins maxs angles tmins tmaxs = (mins, maxs)) ∧
    (¬ (angles 0 = 0 ∧ angles 1 = 0 ∧ angles 2 = 0) →
      ∀ (hi : Nat → Bool) (j : Nat), j < 3 →
        (RotatedBBox AngleVectors mins maxs angles tmins tmaxs).1 j ≤
          rotatedPoint (AngleVectors angles).1 (AngleVectors angles).2.1
            (AngleVectors angles).2.2 (cornerOf mins maxs hi) j ∧
        rotatedPoint (AngleVectors angles).1 (AngleVectors angles).2.1
            (AngleVectors angles).2.2 (cornerOf mins maxs hi) j ≤
          (RotatedBBox AngleVectors mins maxs angles tmins tmaxs).2 j) := by
  constructor
  · intro hz
    rw [RotatedBBox_eq, if_pos hz]
  · intro hnz hi j hj
    obtain ⟨i, hi8, hc⟩ := rotatedCorner_cornerOf mins maxs hi
    rw [RotatedBBox_eq, if_neg hnz,
      ← rotatedPoint_congr (AngleVectors angles).1 (AngleVectors angles).2.1
        (AngleVectors angles).2.2 _ _ hc]
    exact widenAll_spec
      (fun i => rotatedPoint (AngleVectors angles).1 (AngleVectors angles).2.1
        (AngleVectors angles).2.2 (rotatedCorner mins maxs i)) _ 8 i hi8 j hj

/-- The box (-1, -2, -3) to (1, 2, 3): kept as it is for zero angles, and
holding the rotated upper corner on the x axis after a quarter turn. -/
theorem RotatedBBox_contains_witness :
    ((vec3_origin 0 = 0 ∧ vec3_origin 1 = 0 ∧ vec3_origin 2 = 0) ∧
      RotatedBBox quarterTurnVectors exampleMins exampleMaxs vec3_origin vec3_origin
        vec3_origin = (exampleMins, exampleMaxs)) ∧
    ¬ (quarterTurnAngles 0 = 0 ∧ quarterTurnAngles 1 = 0 ∧ quarterTurnAngles 2 = 0) ∧
    (0 < 3 ∧
      (RotatedBBox quarterTurnVectors exampleMins exampleMaxs quarterTurnAngles vec3_origin
          vec3_origin).1 0 ≤
        rotatedPoint (quarterTurnVectors quarterTurnAngles).1
          (quarterTurnVectors quarterTurnAngles).2.1 (quarterTurnVectors quarterTurnAngles).2.2
          (cornerOf exampleMins exampleMaxs (fun _ => true)) 0 ∧
      rotatedPoint (quarterTurnVectors quarterTurnAngles).1
          (quarterTurnVectors quarterTurnAngles).2.1 (quarterTurnVectors quarterTurnAngles).2.2
          (cornerOf exampleMins exampleMaxs (fun _ => true)) 0 ≤
        (RotatedBBox quarterTurnVectors exampleMins exampleMaxs quarterTurnAngles vec3_origin
          vec3_origin).2 0) :=
  have hnz : ¬ (quarterTurnAngles 0 = 0 ∧ quarterTurnAngles 1 = 0 ∧ quarterTurnAngles 2 = 0) :=
    by norm_num [quarterTurnAngles]
  ⟨⟨⟨rfl, rfl, rfl⟩,
      (RotatedBBox_contains quarterTurnVectors exampleMins exampleMaxs vec3_origin vec3_origin
        vec3_origin).1 ⟨rfl, rfl, rfl⟩⟩,
    hnz, by decide,
    (RotatedBBox_contains quarterTurnVectors exampleMins exampleMaxs quarterTurnAngles
      vec3_origin vec3_origin).2 hnz (fun _ => true) 0 (by decide)⟩


/-! ### R_DrawBeam -/

/-- The six calls that `R_DrawBeam` makes when the direction has a length. -/
theorem R_DrawBeam_quads (VectorNormalize : (Nat → ℚ) → ℚ × (Nat → ℚ))
    (PerpendicularVector : (Nat → ℚ) → Nat → ℚ)
    (RotatePointAroundVector : (Nat → ℚ) → (Nat → ℚ) → ℚ → Nat → ℚ) (e : entity_t)
    (hlen : (VectorNormalize (VectorSubtract e.oldorigin e.origin)).1 ≠ 0) :
    R_DrawBeam VectorNormalize PerpendicularVector RotatePointAroundVector e =
      (List.range 6).map
        (ringQuad e (beamStart VectorNormalize PerpendicularVector RotatePointAroundVector e)) := by
  have hlen1 : ¬ (VectorNormalize (fun k => e.oldorigin k - e.origin k)).1 = 0 := hlen
  have hsub : VectorSubtract e.oldorigin e.origin = fun k => e.oldorigin k - e.origin k := rfl
  simp only [R_DrawBeam, if_neg hlen1, NUM_BEAM_SEGS, forLoop_succ, forLoop_zero]
  norm_num [setPoint, ringQuad, beamStart, hsub, List.range_succ]

theorem ringQuad_getElem (e : entity_t) (start : Nat → Nat → ℚ) (i : Nat) (hi : i < 6) :
    ((List.range 6).map (ringQuad e start))[i]? = some (ringQuad e start i) := by
  rw [List.getElem?_map, List.getElem?_range hi]
  rfl

/-- C26: provided `VectorNormalize` gives length zero for the zero vector
only, `R_DrawBeam` emits no quad when `origin` and `oldorigin` coincide, and
otherwise exactly `NUM_BEAM_SEGS = 6` quads, quad `i` having the corners
`start[i]`, `end[i]`, `end[(i+1) mod 6]`, `start[(i+1) mod 6]` with
`end[k] = start[k] + (oldorigin - origin)`, the colour `skinnum & 0xFF` and
the entity's alpha; so the last two corners of each quad are the first two,
in reverse order, of the next one, and those of the last quad are those of
the first. -/
theorem R_DrawBeam_ring (VectorNormalize : (Nat → ℚ) → ℚ × (Nat → ℚ))
    (PerpendicularVector : (Nat → ℚ) → Nat → ℚ)
    (RotatePointAroundVector : (Nat → ℚ) → (Nat → ℚ) → ℚ → Nat → ℚ) (e : entity_t)
    (hnorm : ∀ v, (VectorNormalize v).1 = 0 ↔ v 0 = 0 ∧ v 1 = 0 ∧ v 2 = 0) :
    ((∀ k, k < 3 → e.origin k = e.oldorigin k) →
      R_DrawBeam VectorNormalize PerpendicularVector RotatePointAroundVector e = []) ∧
    (¬ (∀ k, k < 3 → e.origin k = e.oldorigin k) →
      R_DrawBeam VectorNormalize PerpendicularVector RotatePointAroundVector e =
        (List.range 6).map
          (ringQuad e
            (beamStart VectorNormalize PerpendicularVector RotatePointAroundVector e)) ∧
      (R_DrawBeam VectorNormalize PerpendicularVector RotatePointAroundVector e).length =
        NUM_BEAM_SEGS ∧
      ∀ i, i < 6 → ∃ q q1,
        (R_DrawBeam VectorNormalize PerpendicularVector RotatePointAroundVector e)[i]? =
          some q ∧
        (R_DrawBeam VectorNormalize PerpendicularVector RotatePointAroundVector e)[(i + 1) % 6]? =
          some q1 ∧
        q.b = VectorAdd q.a (VectorSubtract e.oldorigin e.origin) ∧
        q.c = q1.b ∧ q.d = q1.a ∧
        q.color = Int.land e.skinnum 0xFF ∧ q.alpha = e.alpha) := by
  have hzero : (VectorNormalize (VectorSubtract e.oldorigin e.origin)).1 = 0 ↔
      ∀ k, k < 3 → e.origin k = e.oldorigin k := by
    rw [hnorm]
    simp only [VectorSubtract, sub_eq_zero]
    constructor
    · intro h k hk
      interval_cases k
      · exact h.1.symm
      · exact h.2.1.symm
      · exact h.2.2.symm
    · intro h
      exact ⟨(h 0 (by omega)).symm, (h 1 (by omega)).symm, (h 2 (by omega)).symm⟩
  constructor
  · intro hsame
    have h0 : (VectorNormalize (fun k => e.oldorigin k - e.origin k)).1 = 0 := hzero.2 hsame
    simp only [R_DrawBeam, if_pos h0]
  · intro hdiff
    have hq := R_DrawBeam_quads VectorNormalize PerpendicularVector RotatePointAroundVector e
      (fun h => hdiff (hzero.1 h))
    refine ⟨hq, by rw [hq]; rfl, fun i hi => ?_⟩
    have hi1 : (i + 1) % 6 < 6 := Nat.mod_lt _ (by omega)
    refine ⟨_, _, by rw [hq]; exact ringQuad_getElem e _ i hi,
      by rw [hq]; exact ringQuad_getElem e _ _ hi1, rfl, rfl, rfl, rfl, rfl⟩

theorem exampleNormalize_zero (v : Nat → ℚ) :
    (exampleNormalize v).1 = 0 ↔ v 0 = 0 ∧ v 1 = 0 ∧ v 2 = 0 := by
  unfold exampleNormalize
  by_cases h : v 0 = 0 ∧ v 1 = 0 ∧ v 2 = 0
  · simp [h]
  · simp only [if_neg h]
    constructor
    · intro h1
      exact absurd h1 one_ne_zero
    · intro h1
      exact absurd h1 h

/-- A beam whose two points coincide gives no quad; the beam from the origin
to (10, 0, 0) gives the ring of six. -/
theorem R_DrawBeam_ring_witness :
    (∀ v, (exampleNormalize v).1 = 0 ↔ v 0 = 0 ∧ v 1 = 0 ∧ v 2 = 0) ∧
    ((∀ k, k < 3 → examplePointBeam.origin k = examplePointBeam.oldorigin k) ∧
      R_DrawBeam exampleNormalize examplePerpendicular exampleRotate examplePointBeam = []) ∧
    ¬ (∀ k, k < 3 → exampleBeam.origin k = exampleBeam.oldorigin k) ∧
    R_DrawBeam exampleNormalize examplePerpendicular exampleRotate exampleBeam =
      (List.range 6).map
        (ringQuad exampleBeam
          (beamStart exampleNormalize examplePerpendicular exampleRotate exampleBeam)) ∧
    (R_DrawBeam exampleNormalize examplePerpendicular exampleRotate exampleBeam).length =
      NUM_BEAM_SEGS :=
  have hsame : ∀ k, k < 3 → examplePointBeam.origin k = examplePointBeam.oldorigin k :=
    fun _ _ => rfl
  have hdiff : ¬ (∀ k, k < 3 → exampleBeam.origin k = exampleBeam.oldorigin k) := by
    intro h
    have h0 := h 0 (by decide)
    norm_num [exampleBeam] at h0
  ⟨exampleNormalize_zero, ⟨hsame,
      (R_DrawBeam_ring exampleNormalize examplePerpendicular exampleRotate examplePointBeam
        exampleNormalize_zero).1 hsame⟩,
    hdiff,
    ((R_DrawBeam_ring exampleNormalize examplePerpendicular exampleRotate exampleBeam
      exampleNormalize_zero).2 hdiff).1,
    ((R_DrawBeam_ring exampleNormalize examplePerpendicular exampleRotate exampleBeam
      exampleNormalize_zero).2 hdiff).2.1⟩


namespace Savegame

/-! ### The function and mmove tables -/

theorem getFunctionLoop_table (adr : Option Nat) (l : List functionList_t) :
    ∀ i, getFunctionLoop adr l i = tableByAddress adr (functionTable l) i := by
  induction l with
  | nil => intro i; rfl
  | cons e rest ih =>
    intro i
    simp only [getFunctionLoop, functionTable, List.map_cons, tableByAddress]
    cases e.funcStr with
    | none => rfl
    | some s =>
      simp only []
      split
      · rfl
      · exact ih (i + 1)

theorem FindFunctionByName_table (name : String) (l : List functionList_t) :
    FindFunctionByName l name = tableByName name (functionTable l) := by
  induction l with
  | nil => rfl
  | cons e rest ih =>
    simp only [FindFunctionByName, functionTable, List.map_cons, tableByName]
    cases e.funcStr with
    | none => rfl
    | some s =>
      simp only []
      split
      · rfl
      · exact ih

theorem getMmoveLoop_table (adr : Option Nat) (l : List mmoveList_t) :
    ∀ i, getMmoveLoop adr l i = tableByAddress adr (mmoveTable l) i := by
  induction l with
  | nil => intro i; rfl
  | cons e rest ih =>
    intro i
    simp only [getMmoveLoop, mmoveTable, List.map_cons, tableByAddress]
    cases e.mmoveStr with
    | none => rfl
    | some s =>
      simp only []
      split
      · rfl
      · exact ih (i + 1)

theorem FindMmoveByName_table (name : String) (l : List mmoveList_t) :
    FindMmoveByName l name = tableByName name (mmoveTable l) := by
  induction l with
  | nil => rfl
  | cons e rest ih =>
    simp only [FindMmoveByName, mmoveTable, List.map_cons, tableByName]
    cases e.mmoveStr with
    | none => rfl
    | some s =>
      simp only []
      split
      · rfl
      · exact ih

theorem entries_cons_some (s : String) (p : Option Nat) (rest : Table) :
    entries ((some s, p) :: rest) = (some s, p) :: entries rest := by
  simp [entries, List.takeWhile_cons]

theorem entries_cons_none (p : Option Nat) (rest : Table) :
    entries ((none, p) :: rest) = [] := by
  simp [entries, List.takeWhile_cons]

theorem Terminated.tail {s : String} {p : Option Nat} {rest : Table}
    (h : Terminated ((some s, p) :: rest)) : Terminated rest := by
  obtain ⟨e, he, hn⟩ := h
  rcases List.mem_cons.1 he with rfl | he
  · cases hn
  · exact ⟨e, he, hn⟩

/-- On a terminated table the search by address gives NULL exactly when no
entry holds the address. -/
theorem tableByAddress_null (adr : Option Nat) (t : Table) :
    ∀ i, Terminated t → (tableByAddress adr t i = some none ↔ ¬ Occurs t adr) := by
  induction t with
  | nil =>
    intro i h
    obtain ⟨e, he, _⟩ := h
    cases he
  | cons e rest ih =>
    intro i h
    obtain ⟨n, p⟩ := e
    cases n with
    | none =>
      simp only [tableByAddress, Occurs, entries_cons_none, true_iff]
      rintro ⟨e, he, _⟩
      cases he
    | some s =>
      simp only [tableByAddress, Occurs, entries_cons_some]
      by_cases hp : p = adr
      · rw [if_pos hp]
        constructor
        · intro hc
          cases hc
        · intro hc
          exact absurd ⟨(some s, p), List.mem_cons_self _ _, hp⟩ hc
      · rw [if_neg hp, ih (i + 1) h.tail]
        constructor
        · rintro hno ⟨e, he, hea⟩
          rcases List.mem_cons.1 he with rfl | he
          · exact hp hea
          · exact hno ⟨e, he, hea⟩
        · rintro hno ⟨e, he, hea⟩
          exact hno ⟨e, List.mem_cons_of_mem _ he, hea⟩

/-- The search by address finds an entry that holds the address, when there
is one. -/
theorem tableByAddress_found (adr : Option Nat) (t : Table) :
    ∀ i, Occurs t adr →
      ∃ k e s, tableByAddress adr t i = some (some (i + k)) ∧ t[k]? = some e ∧
        e ∈ entries t ∧ e.1 = some s ∧ e.2 = adr := by
  induction t with
  | nil =>
    rintro i ⟨e, he, _⟩
    cases he
  | cons e rest ih =>
    intro i h
    obtain ⟨n, p⟩ := e
    cases n with
    | none =>
      obtain ⟨e, he, _⟩ := h
      rw [entries_cons_none] at he
      cases he
    | some s =>
      simp only [tableByAddress]
      by_cases hp : p = adr
      · rw [if_pos hp]
        exact ⟨0, (some s, p), s, rfl, by simp,
          by rw [entries_cons_some]; exact List.mem_cons_self _ _, rfl, hp⟩
      · rw [if_neg hp]
        have hrest : Occurs rest adr := by
          obtain ⟨e, he, hea⟩ := h
          rw [entries_cons_some] at he
          rcases List.mem_cons.1 he with rfl | he
          · exact absurd hea hp
          · exact ⟨e, he, hea⟩
        obtain ⟨k, e, s1, hk, hget, hmem, hs, ha⟩ := ih (i + 1) hrest
        refine ⟨k + 1, e, s1, ?_, ?_, ?_, hs, ha⟩
        · rw [hk]
          congr 2
          omega
        · simpa using hget
        · rw [entries_cons_some]
          exact List.mem_cons_of_mem _ hmem

/-- With pairwise distinct names, the search by the name of an entry gives
the address of that entry. -/
theorem tableByName_entry (t : Table) :
    NamesDistinct t → ∀ e ∈ entries t, ∀ s, e.1 = some s → tableByName s t = some e.2 := by
  induction t with
  | nil =>
    intro _ e he
    cases he
  | cons e0 rest ih =>
    intro hd e he s hs
    obtain ⟨n, p⟩ := e0
    cases n with
    | none =>
      rw [entries_cons_none] at he
      cases he
    | some s0 =>
      rw [entries_cons_some] at he
      have hd0 : s0 ∉ ((entries rest).map fun e => e.1).filterMap id ∧ NamesDistinct rest := by
        unfold NamesDistinct at hd
        rw [entries_cons_some, List.map_cons, List.nodup_cons] at hd
        refine ⟨fun hc => hd.1 ?_, hd.2⟩
        obtain ⟨a, ha, hid⟩ := List.mem_filterMap.1 hc
        simp only [id] at hid
        rw [hid] at ha
        exact ha
      simp only [tableByName]
      by_cases hss : s = s0
      · rw [if_pos hss]
        rcases List.mem_cons.1 he with rfl | he
        · rfl
        · exfalso
          apply hd0.1
          refine List.mem_filterMap.2 ⟨some s0, List.mem_map.2 ⟨e, he, ?_⟩, rfl⟩
          rw [hs, hss]
      · rw [if_neg hss]
        rcases List.mem_cons.1 he with rfl | he
        · simp only [Option.some.injEq] at hs
          exact absurd hs.symm hss
        · exact ih hd0.2 e he s hs

/-- On a terminated table without NULL addresses the search by name gives
NULL exactly when no entry has the name. -/
theorem tableByName_null (name : String) (t : Table) :
    Terminated t → NoNullAddress t → (tableByName name t = some none ↔ ¬ HasName t name) := by
  induction t with
  | nil =>
    rintro ⟨e, he, _⟩
    cases he
  | cons e rest ih =>
    intro h hnn
    obtain ⟨n, p⟩ := e
    cases n with
    | none =>
      simp only [tableByName, HasName, entries_cons_none, true_iff]
      rintro ⟨e, he, _⟩
      cases he
    | some s =>
      have hp : p ≠ none := hnn (some s, p) (by rw [entries_cons_some]; exact List.mem_cons_self _ _)
      have hnn1 : NoNullAddress rest := fun e he =>
        hnn e (by rw [entries_cons_some]; exact List.mem_cons_of_mem _ he)
      simp only [tableByName, HasName, entries_cons_some]
      by_cases hss : name = s
      · rw [if_pos hss]
        constructor
        · intro hc
          exact absurd (Option.some.inj hc) hp
        · intro hc
          exact absurd ⟨(some s, p), List.mem_cons_self _ _, by rw [hss]⟩ hc
      · rw [if_neg hss, ih h.tail hnn1]
        constructor
        · rintro hno ⟨e, he, hen⟩
          rcases List.mem_cons.1 he with rfl | he
          · simp only [Option.some.injEq] at hen
            exact hss hen.symm
          · exact hno ⟨e, he, hen⟩
        · rintro hno ⟨e, he, hen⟩
          exact hno ⟨e, List.mem_cons_of_mem _ he, hen⟩

/-- C21, as stated, fails: in a terminated table whose only entry has the
name `think_nothing` and a NULL address, `FindFunctionByName` returns NULL
for that name although an entry has it. -/
theorem FindFunctionByName_null_counterexample :
    Terminated (functionTable nullEntryList) ∧
    NamesDistinct (functionTable nullEntryList) ∧
    HasName (functionTable nullEntryList) "think_nothing" ∧
    FindFunctionByName nullEntryList "think_nothing" = some none := by
  refine ⟨⟨(none, none), by simp [functionTable, nullEntryList], rfl⟩, ?_, ?_, ?_⟩
  · simp [NamesDistinct, entries, functionTable, nullEntryList, List.takeWhile_cons]
  · exact ⟨(some "think_nothing", none),
      by simp [entries, functionTable, nullEntryList, List.takeWhile_cons], rfl⟩
  · simp [FindFunctionByName, nullEntryList]

/-- C21, amended: for every NULL-terminated `functionList` whose entry names
are pairwise distinct and every address `p` that occurs in an entry,
`GetFunctionByAddress(p)` returns an entry whose name `FindFunctionByName`
maps back to `p`; `GetFunctionByAddress` returns NULL exactly when the
address occurs in no entry; and, when no entry holds a NULL address,
`FindFunctionByName` returns NULL exactly when no entry has the name. The
same holds for `GetMmoveByAddress` and `FindMmoveByName` over `mmoveList`. -/
theorem function_name_round_trip (functionList : List functionList_t)
    (mmoveList : List mmoveList_t)
    (hterm : Terminated (functionTable functionList))
    (hdist : NamesDistinct (functionTable functionList))
    (hmterm : Terminated (mmoveTable mmoveList))
    (hmdist : NamesDistinct (mmoveTable mmoveList)) :
    ((∀ p, Occurs (functionTable functionList) p →
        ∃ i e name, GetFunctionByAddress functionList p = some (some i) ∧
          functionList[i]? = some e ∧ e.funcStr = some name ∧
          FindFunctionByName functionList name = some p) ∧
      (∀ p, GetFunctionByAddress functionList p = some none ↔
        ¬ Occurs (functionTable functionList) p) ∧
      (NoNullAddress (functionTable functionList) →
        ∀ name, FindFunctionByName functionList name = some none ↔
          ¬ HasName (functionTable functionList) name)) ∧
    ((∀ p, Occurs (mmoveTable mmoveList) p →
        ∃ i e name, GetMmoveByAddress mmoveList p = some (some i) ∧
          mmoveList[i]? = some e ∧ e.mmoveStr = some name ∧
          FindMmoveByName mmoveList name = some p) ∧
      (∀ p, GetMmoveByAddress mmoveList p = some none ↔
        ¬ Occurs (mmoveTable mmoveList) p) ∧
      (NoNullAddress (mmoveTable mmoveList) →
        ∀ name, FindMmoveByName mmoveList name = some none ↔
          ¬ HasName (mmoveTable mmoveList) name)) := by
  refine ⟨⟨fun p hp => ?_, fun p => ?_, fun hnn name => ?_⟩,
    ⟨fun p hp => ?_, fun p => ?_, fun hnn name => ?_⟩⟩
  · obtain ⟨k, e, s, hk, hget, hmem, hs, ha⟩ :=
      tableByAddress_found p (functionTable functionList) 0 hp
    have hget1 : (functionList[k]?).map (fun e => (e.funcStr, e.funcPtr)) = some e := by
      rw [← hget]
      simp [functionTable, List.getElem?_map]
    obtain ⟨e1, he1, hpair⟩ := Option.map_eq_some'.1 hget1
    refine ⟨k, e1, s, ?_, he1, ?_, ?_⟩
    · unfold GetFunctionByAddress
      rw [getFunctionLoop_table, hk, Nat.zero_add]
    · rw [← hpair] at hs
      exact hs
    · rw [FindFunctionByName_table, tableByName_entry _ hdist e hmem s hs, ha]
  · unfold GetFunctionByAddress
    rw [getFunctionLoop_table]
    exact tableByAddress_null p _ 0 hterm
  · rw [FindFunctionByName_table]
    exact tableByName_null name _ hterm hnn
  · obtain ⟨k, e, s, hk, hget, hmem, hs, ha⟩ :=
      tableByAddress_found p (mmoveTable mmoveList) 0 hp
    have hget1 : (mmoveList[k]?).map (fun e => (e.mmoveStr, e.mmovePtr)) = some e := by
      rw [← hget]
      simp [mmoveTable, List.getElem?_map]
    obtain ⟨e1, he1, hpair⟩ := Option.map_eq_some'.1 hget1
    refine ⟨k, e1, s, ?_, he1, ?_, ?_⟩
    · unfold GetMmoveByAddress
      rw [getMmoveLoop_table, hk, Nat.zero_add]
    · rw [← hpair] at hs
      exact hs
    · rw [FindMmoveByName_table, tableByName_entry _ hmdist e hmem s hs, ha]
  · unfold GetMmoveByAddress
    rw [getMmoveLoop_table]
    exact tableByAddress_null p _ 0 hmterm
  · rw [FindMmoveByName_table]
    exact tableByName_null name _ hmterm hnn

theorem exampleFunctionList_terminated : Terminated (functionTable exampleFunctionList) :=
  ⟨(none, none), by simp [functionTable, exampleFunctionList], rfl⟩

theorem exampleFunctionList_entries :
    entries (functionTable exampleFunctionList) =
      [(some "SP_monster_soldier", some 100), (some "soldier_pain", some 200),
        (some "soldier_die", some 100)] := by
  simp [entries, functionTable, exampleFunctionList, List.takeWhile_cons]

theorem exampleFunctionList_distinct : NamesDistinct (functionTable exampleFunctionList) := by
  unfold NamesDistinct
  rw [exampleFunctionList_entries]
  decide

theorem exampleMmoveList_terminated : Terminated (mmoveTable exampleMmoveList) :=
  ⟨(none, none), by simp [mmoveTable, exampleMmoveList], rfl⟩

theorem exampleMmoveList_entries :
    entries (mmoveTable exampleMmoveList) =
      [(some "soldier_move_stand1", some 300), (some "soldier_move_run", some 400)] := by
  simp [entries, mmoveTable, exampleMmoveList, List.takeWhile_cons]

theorem exampleMmoveList_distinct : NamesDistinct (mmoveTable exampleMmoveList) := by
  unfold NamesDistinct
  rw [exampleMmoveList_entries]
  decide

/-- The sample tables: address 100, held by two entries of the function
table, is saved under the name of the first and loaded back; address 400 of
the mmove table likewise; an address in no entry gives NULL. -/
theorem function_name_round_trip_witness :
    (Terminated (functionTable exampleFunctionList) ∧
      NamesDistinct (functionTable exampleFunctionList) ∧
      Terminated (mmoveTable exampleMmoveList) ∧
      NamesDistinct (mmoveTable exampleMmoveList)) ∧
    (Occurs (functionTable exampleFunctionList) (some 100) ∧
      ∃ i e name, GetFunctionByAddress exampleFunctionList (some 100) = some (some i) ∧
        exampleFunctionList[i]? = some e ∧ e.funcStr = some name ∧
        FindFunctionByName exampleFunctionList name = some (some 100)) ∧
    (Occurs (mmoveTable exampleMmoveList) (some 400) ∧
      ∃ i e name, GetMmoveByAddress exampleMmoveList (some 400) = some (some i) ∧
        exampleMmoveList[i]? = some e ∧ e.mmoveStr = some name ∧
        FindMmoveByName exampleMmoveList name = some (some 400)) ∧
    (NoNullAddress (functionTable exampleFunctionList) ∧
      (FindFunctionByName exampleFunctionList "soldier_pain" = some none ↔
        ¬ HasName (functionTable exampleFunctionList) "soldier_pain")) ∧
    (GetMmoveByAddress exampleMmoveList (some 999) = some none ↔
      ¬ Occurs (mmoveTable exampleMmoveList) (some 999)) :=
  have hocc : Occurs (functionTable exampleFunctionList) (some 100) :=
    ⟨(some "SP_monster_soldier", some 100),
      by rw [exampleFunctionList_entries]; exact List.mem_cons_self _ _, rfl⟩
  have hmocc : Occurs (mmoveTable exampleMmoveList) (some 400) :=
    ⟨(some "soldier_move_run", some 400),
      by rw [exampleMmoveList_entries]; simp, rfl⟩
  have hnn : NoNullAddress (functionTable exampleFunctionList) := by
    intro e he
    rw [exampleFunctionList_entries] at he
    simp only [List.mem_cons, List.mem_singleton, List.not_mem_nil, or_false] at he
    rcases he with rfl | rfl | rfl <;> simp
  have T := function_name_round_trip exampleFunctionList exampleMmoveList
    exampleFunctionList_terminated exampleFunctionList_distinct exampleMmoveList_terminated
    exampleMmoveList_distinct
  ⟨⟨exampleFunctionList_terminated, exampleFunctionList_distinct, exampleMmoveList_terminated,
      exampleMmoveList_distinct⟩,
    ⟨hocc, T.1.1 (some 100) hocc⟩, ⟨hmocc, T.2.1 (some 400) hmocc⟩,
    ⟨hnn, T.1.2.2 hnn "soldier_pain"⟩, T.2.2.1 (some 999)⟩

/-! ### ReadGame -/

/-- C22 does not hold of the code: the comment above `SAVEGAMEVER` says that
older savegames are refused, yet a header with the older version `YQ2-2` and
the same game, system and architecture is accepted: `ReadGame` raises no
error, reads the game block and one client with `save_ver = 2`, and closes
the file only at its end. A header of version `YQ2-1` is accepted in the same
way, with `save_ver = 1`. -/
theorem ReadGame_accepts_older :
    olderHeader.str_ver ≠ SAVEGAMEVER ∧
    ReadGame "xatrix" "Linux" "amd64" (some (olderHeader, 1)) =
      [GameCall.FreeTags, GameCall.rfopen, GameCall.rfread_str_ver, GameCall.rfread_str_game,
        GameCall.rfread_str_os, GameCall.rfread_str_arch, GameCall.TagMalloc_edicts,
        GameCall.rfread_game, GameCall.TagMalloc_clients, GameCall.ReadClient 0 2,
        GameCall.rfclose] ∧
    oldestHeader.str_ver ≠ SAVEGAMEVER ∧
    ReadGame "xatrix" "Linux" "amd64" (some (oldestHeader, 1)) =
      [GameCall.FreeTags, GameCall.rfopen, GameCall.rfread_str_ver, GameCall.rfread_str_game,
        GameCall.rfread_str_os, GameCall.rfread_str_arch, GameCall.TagMalloc_edicts,
        GameCall.rfread_game, GameCall.TagMalloc_clients, GameCall.ReadClient 0 1,
        GameCall.rfclose] := by
  refine ⟨by decide, ?_, by decide, ?_⟩
  · simp [ReadGame, sanityChecks, olderHeader, SAVEGAMEVER, YQ2OSTYPE, YQ2ARCH, forLoop_succ,
      forLoop_zero]
  · simp [ReadGame, sanityChecks, oldestHeader, SAVEGAMEVER, forLoop_succ, forLoop_zero]

/-- The last branch of the sanity checks: for a header whose version string
is none of `YQ2-3`, `YQ2-2` and `YQ2-1`, `ReadGame` closes the file and calls
`gi.error` right after reading the header; the game block is not read. -/
theorem ReadGame_unknown_version (GAMEVERSION OSTYPE_1 ARCH_1 : String) (h : SaveHeader)
    (maxclients : Int) (h3 : h.str_ver ≠ SAVEGAMEVER) (h2 : h.str_ver ≠ "YQ2-2")
    (h1 : h.str_ver ≠ "YQ2-1") :
    ReadGame GAMEVERSION OSTYPE_1 ARCH_1 (some (h, maxclients)) =
      [GameCall.FreeTags, GameCall.rfopen, GameCall.rfread_str_ver, GameCall.rfread_str_game,
        GameCall.rfread_str_os, GameCall.rfread_str_arch, GameCall.rfclose,
        GameCall.gi_error_incompatible_version] := by
  simp [ReadGame, sanityChecks, h3, h2, h1]

/-! ### WriteField1 and ReadField -/

/-- The field types that `WriteField1` processes without its "unknown field
type" error, and those that `ReadField` does. -/
theorem field_types_accepted (FFL_SPAWNTEMP : Nat) (functionList : List functionList_t)
    (mmoveList : List mmoveList_t) (field : field_t)
    (hflag : field.flags &&& FFL_SPAWNTEMP = 0) :
    (∀ p, WriteField1 FFL_SPAWNTEMP functionList mmoveList field p =
        WriteResult.error_unknown_field_type ↔ ∃ v, field.type = fieldtype_t.other v) ∧
    (∀ value name, ReadField FFL_SPAWNTEMP functionList mmoveList field value name =
        ReadResult.error_unknown_field_type ↔
      field.type = fieldtype_t.F_GSTRING ∨ ∃ v, field.type = fieldtype_t.other v) := by
  have hf : ¬ (field.flags &&& FFL_SPAWNTEMP ≠ 0) := not_not.2 hflag
  constructor
  · intro p
    unfold WriteField1
    rw [if_neg hf]
    cases ht : field.type <;> simp <;> (repeat' split) <;> simp
  · intro value name
    unfold ReadField
    rw [if_neg hf]
    cases ht : field.type <;> simp <;> (repeat' split) <;> simp

/-- C28 does not hold of the code: a field of type `F_GSTRING` without the
`FFL_SPAWNTEMP` flag (here bit 1) is processed by `WriteField1`, which stores
the length 6 of the string `hello` in the slot, while `ReadField` has no
case for `F_GSTRING` and raises its "unknown field type" error, whatever the
slot and the file hold. -/
theorem ReadField_gstring_unknown :
    gstringField.type = fieldtype_t.F_GSTRING ∧ gstringField.flags &&& 1 = 0 ∧
    WriteField1 1 exampleFunctionList exampleMmoveList gstringField helloSlot =
      WriteResult.stored 6 ∧
    WriteField1 1 exampleFunctionList exampleMmoveList gstringField helloSlot ≠
      WriteResult.error_unknown_field_type ∧
    ∀ value name, ReadField 1 exampleFunctionList exampleMmoveList gstringField value name =
      ReadResult.error_unknown_field_type := by
  have hw : WriteField1 1 exampleFunctionList exampleMmoveList gstringField helloSlot =
      WriteResult.stored 6 := by
    simp [WriteField1, gstringField, helloSlot]
    rfl
  refine ⟨rfl, rfl, hw, ?_, fun value name => ?_⟩
  · rw [hw]
    simp
  · simp [ReadField, gstringField]

end Savegame

end RefSoft
